import Mathlib

/-!
# AXFS reader: byte tables, the user-space read path and the kernel mount and read paths

A shallow embedding of `src/axfs/axfs.cpp` (the image lister) and of the parts of
`src/kernel/axfs/*.c` that the mount path and the page read path need.  Memory is a list of
bytes, machine integers are naturals reduced modulo `2 ^ 64` (or `2 ^ 32`) wherever the C
code can wrap, and everything that is undefined behaviour or an `assert` in C is an explicit
`Fault`.
-/

namespace Axfs

/-- One byte of memory (`u8`). -/
abbrev Byte := Fin 256

/-- The ways in which the C code can leave defined behaviour. -/
inductive Fault where
  /-- An `assert(...)` did not hold. -/
  | assertFailed
  /-- Integer division by zero. -/
  | divByZero
  /-- A load or store outside the allocation it addresses. -/
  | outOfBounds
  /-- A shift by at least the width of the shifted type. -/
  | shiftTooWide
  /-- The loop was cut off by the step budget of the model. -/
  | outOfFuel
  /-- A kernel `BUG()`. -/
  | bug
  /-- A `NULL` pointer was dereferenced. -/
  | nullDeref
  deriving DecidableEq, Repr

deriving instance DecidableEq for Except

/-- Number of values of a `uint64_t`. -/
def U64 : Nat := 2 ^ 64

/-- `struct axfs_region` of `axfs.cpp`: the on-media descriptor (already converted from
big endian) together with the `malloc`ed copy of the region, `data`. -/
structure axfs_region where
  fsoffset : Nat
  size : Nat
  compressed_size : Nat
  max_index : Nat
  table_byte_depth : Nat
  incore : Nat
  data : List Byte
  deriving DecidableEq, Repr

/-- The `for (int i = 0; i < table_byte_depth; i++)` loop of
`axfs_region::axfs_bytetable_stitch`; `n` is the number of iterations still to run,
`i` the loop counter and `output` the accumulator. -/
def stitch_loop (table : List Byte) (index split : Nat) : Nat → Nat → Nat → Except Fault Nat
  | 0, _, output => .ok output
  | n + 1, i, output =>
    let j := (index + i * split) % U64
    let bits := 8 * i
    match table[j]? with
    | none => .error .outOfBounds
    | some byte =>
      if bits < 64 then
        stitch_loop table index split n (i + 1) ((output + (byte.val * 2 ^ bits) % U64) % U64)
      else .error .shiftTooWide

/-- `axfs_region::axfs_bytetable_stitch` (axfs.cpp:117-134). -/
def axfs_region.axfs_bytetable_stitch (r : axfs_region) (index : Nat) : Except Fault Nat :=
  if index < r.max_index then
    if r.table_byte_depth = 0 then .error .divByZero
    else
      let split := r.size / r.table_byte_depth
      stitch_loop r.data index split r.table_byte_depth 0 0
  else .error .assertFailed

/-- Byte `k` of the little-endian representation of `v`. -/
def byteOf (v k : Nat) : Byte := ⟨v / 2 ^ (8 * k) % 256, Nat.mod_lt _ (by decide)⟩

/-- The lane encoding described by the format: `depth` lanes one after another, lane `k`
holding byte `k` of every value, so that byte `k` of `values[i]` sits at position
`k * values.length + i`. -/
def encodeLanes (depth : Nat) (values : List Nat) : List Byte :=
  (List.range depth).flatMap fun k => values.map fun v => byteOf v k

/-- The byte-table region holding `values` in `depth` lanes. -/
def tableOf (depth : Nat) (values : List Nat) : axfs_region where
  fsoffset := 0
  size := depth * values.length
  compressed_size := 0
  max_index := values.length
  table_byte_depth := depth
  incore := 0
  data := encodeLanes depth values

/-! ## The image of `axfs.cpp` and its read path

`size_t` and pointers are taken to be 64 bits wide, so the casts `(size_t) x` of `readFile`
change nothing; `int` has 32 bits. -/

/-- A big-endian 32-bit field as it lies in memory (`BigEndianInt<uint32_t>`, `__be32`). -/
structure be32 where
  b0 : Byte
  b1 : Byte
  b2 : Byte
  b3 : Byte
  deriving DecidableEq, Repr

/-- A big-endian 64-bit field as it lies in memory (`BigEndianInt<uint64_t>`, `__be64`). -/
structure be64 where
  b0 : Byte
  b1 : Byte
  b2 : Byte
  b3 : Byte
  b4 : Byte
  b5 : Byte
  b6 : Byte
  b7 : Byte
  deriving DecidableEq, Repr

/-- The value of a big-endian 32-bit field (`operator T()` of `BigEndianInt`, `be32_to_cpu`). -/
def be32_to_cpu (v : be32) : Nat :=
  ((v.b0.val * 256 + v.b1.val) * 256 + v.b2.val) * 256 + v.b3.val

/-- The value of a big-endian 64-bit field (`be64_to_cpu`). -/
def be64_to_cpu (v : be64) : Nat :=
  (((((((v.b0.val * 256 + v.b1.val) * 256 + v.b2.val) * 256 + v.b3.val) * 256
    + v.b4.val) * 256 + v.b5.val) * 256 + v.b6.val) * 256 + v.b7.val)

/-- `struct axfs_super_onmedia` of `axfs.cpp` (lines 58-92). -/
structure axfs_super_onmedia where
  magic : be32
  signature : List Byte
  digest : List Byte
  cblock_size : be32
  files : be64
  size : be64
  blocks : be64
  mmap_size : be64
  strings : be64
  xip : be64
  byte_aligned : be64
  compressed : be64
  node_type : be64
  node_index : be64
  cnode_offset : be64
  cnode_index : be64
  banode_offset : be64
  cblock_offset : be64
  inode_file_size : be64
  inode_name_offset : be64
  inode_num_entries : be64
  inode_mode_index : be64
  inode_array_index : be64
  modes : be64
  uids : be64
  gids : be64
  version_major : Byte
  version_minor : Byte
  version_sub : Byte
  compression_type : Byte
  timestamp : be64
  page_shift : Byte
  deriving DecidableEq, Repr

/-- `struct axfs` of `axfs.cpp` (lines 155-183): the superblock, the eighteen loaded regions
and the one-slot decompression cache (`cblock_buffer`, `cachedBlock`). -/
structure axfs where
  superblock : axfs_super_onmedia
  strings : axfs_region
  xip : axfs_region
  compressed : axfs_region
  byte_aligned : axfs_region
  node_type : axfs_region
  node_index : axfs_region
  cnode_offset : axfs_region
  cnode_index : axfs_region
  banode_offset : axfs_region
  cblock_offset : axfs_region
  inode_file_size : axfs_region
  inode_name_offset : axfs_region
  inode_num_entries : axfs_region
  inode_mode_index : axfs_region
  inode_array_index : axfs_region
  modes : axfs_region
  uids : axfs_region
  gids : axfs_region
  cblock_buffer : List Byte
  cachedBlock : Nat

/-- `#define PAGE_SHIFT 12` (axfs.cpp:53). -/
def PAGE_SHIFT : Nat := 12

/-- `1 << PAGE_SHIFT`. -/
def PAGE_SIZE : Nat := 2 ^ PAGE_SHIFT

/-- `axfs::getFileSize`. -/
def axfs.getFileSize (fs : axfs) (id : Nat) : Except Fault Nat :=
  fs.inode_file_size.axfs_bytetable_stitch id

/-- `axfs::getMode`. -/
def axfs.getMode (fs : axfs) (id : Nat) : Except Fault Nat := do
  let modeIndex ← fs.inode_mode_index.axfs_bytetable_stitch id
  fs.modes.axfs_bytetable_stitch modeIndex

/-- `axfs::getNumEntries`. -/
def axfs.getNumEntries (fs : axfs) (id : Nat) : Except Fault Nat :=
  fs.inode_num_entries.axfs_bytetable_stitch id

/-- `axfs::getArrayIndex`. -/
def axfs.getArrayIndex (fs : axfs) (id : Nat) : Except Fault Nat :=
  fs.inode_array_index.axfs_bytetable_stitch id

/-- `axfs::getNodeType`. -/
def axfs.getNodeType (fs : axfs) (id : Nat) : Except Fault Nat :=
  fs.node_type.axfs_bytetable_stitch id

/-- `axfs::getNodeIndex`. -/
def axfs.getNodeIndex (fs : axfs) (id : Nat) : Except Fault Nat :=
  fs.node_index.axfs_bytetable_stitch id

/-- `axfs::getByteAlignedOffset`. -/
def axfs.getByteAlignedOffset (fs : axfs) (id : Nat) : Except Fault Nat :=
  fs.banode_offset.axfs_bytetable_stitch id

/-- `memcpy(dst + dstOff, src + srcOff, n)` on two allocations: both ranges have to lie inside
their allocation; the result is the new content of `dst`. -/
def memcpy (dst : List Byte) (dstOff : Nat) (src : List Byte) (srcOff n : Nat) :
    Except Fault (List Byte) :=
  if srcOff + n ≤ src.length ∧ dstOff + n ≤ dst.length then
    .ok (dst.take dstOff ++ ((src.drop srcOff).take n ++ dst.drop (dstOff + n)))
  else .error .outOfBounds

/-- The conversion `(int) x` of an unsigned value (two's complement, 32 bits). -/
def toInt32 (x : Nat) : Int :=
  if x % 2 ^ 32 < 2 ^ 31 then (x % 2 ^ 32 : Nat) else ((x % 2 ^ 32 : Nat) : Int) - 2 ^ 32

/-- The external `stbi_zlib_decode_buffer(obuffer, olen, ibuffer, ilen)` of `stb_image.h`,
which is not part of the repository: given `olen`, the memory at `ibuffer` and `ilen` it
yields the bytes it stores from the start of `obuffer` on, and its `int` result (the number
of bytes decoded, or `-1`). -/
structure ZlibDecoder where
  stbi_zlib_decode_buffer : Int → List Byte → Int → List Byte × Int

/-- The variables of `axfs::readFile` that its loop changes, together with the destination
buffer and the cache of the image. -/
structure ReadState where
  length : Nat
  offset : Nat
  arrayIndex : Nat
  out : List Byte
  cblock_buffer : List Byte
  cachedBlock : Nat
  deriving DecidableEq, Repr

/-- `case 2: // Byte_aligned` of the switch in `axfs::readFile` (lines 279-287). -/
def readFile_byte_aligned (fs : axfs) (nodeIndex : Nat) (st : ReadState) :
    Except Fault ReadState := do
  let srcOffset ← fs.getByteAlignedOffset nodeIndex
  let blockSize := min (2 ^ PAGE_SHIFT % U64) st.length
  let out ← memcpy st.out st.offset fs.byte_aligned.data srcOffset blockSize
  pure { st with out := out,
                 length := (st.length + U64 - blockSize) % U64,
                 offset := (st.offset + blockSize) % U64 }

/-- `case 0: // XIP` of the switch in `axfs::readFile` (lines 288-294). -/
def readFile_xip (fs : axfs) (nodeIndex : Nat) (st : ReadState) : Except Fault ReadState := do
  let out ← memcpy st.out st.offset fs.xip.data (nodeIndex * 2 ^ PAGE_SHIFT % U64)
    (2 ^ PAGE_SHIFT)
  pure { st with out := out,
                 offset := (st.offset + 2 ^ PAGE_SHIFT) % U64,
                 length := (st.length + U64 - 2 ^ PAGE_SHIFT) % U64 }

/-- The `if (cachedBlock != cnodeIndex)` block of the Compressed case (lines 301-305): the
decoder is handed `compressed.data + srcOffset`, which has to point into the compressed
region, and what it stores has to fit into `cblock_buffer`. -/
def readFile_cache_fill (fs : axfs) (z : ZlibDecoder) (cnodeIndex srcOffset len : Nat)
    (st : ReadState) : Except Fault ReadState :=
  if st.cachedBlock ≠ cnodeIndex then
    if srcOffset ≤ fs.compressed.data.length then
      if (z.stbi_zlib_decode_buffer (toInt32 (be32_to_cpu fs.superblock.cblock_size))
          (fs.compressed.data.drop srcOffset) (toInt32 len)).1.length
          ≤ st.cblock_buffer.length then
        .ok { st with
          cblock_buffer :=
            (z.stbi_zlib_decode_buffer (toInt32 (be32_to_cpu fs.superblock.cblock_size))
              (fs.compressed.data.drop srcOffset) (toInt32 len)).1 ++
            st.cblock_buffer.drop
              (z.stbi_zlib_decode_buffer (toInt32 (be32_to_cpu fs.superblock.cblock_size))
                (fs.compressed.data.drop srcOffset) (toInt32 len)).1.length
          cachedBlock := cnodeIndex }
      else .error .outOfBounds
    else .error .outOfBounds
  else .ok st

/-- `case 1: // Compressed` of the switch in `axfs::readFile` (lines 295-311). -/
def readFile_compressed (fs : axfs) (z : ZlibDecoder) (nodeIndex : Nat) (st : ReadState) :
    Except Fault ReadState := do
  let cnodeOffset ← fs.cnode_offset.axfs_bytetable_stitch nodeIndex
  let cnodeIndex ← fs.cnode_index.axfs_bytetable_stitch nodeIndex
  let srcOffset ← fs.cblock_offset.axfs_bytetable_stitch cnodeIndex
  let next ← fs.cblock_offset.axfs_bytetable_stitch ((cnodeIndex + 1) % U64)
  let st ← readFile_cache_fill fs z cnodeIndex srcOffset ((next + U64 - srcOffset) % U64) st
  let out ← memcpy st.out st.offset st.cblock_buffer cnodeOffset
    (min ((be32_to_cpu fs.superblock.cblock_size + U64 - cnodeOffset) % U64) st.length)
  pure { st with
    out := out
    length := (st.length + U64
      - min ((be32_to_cpu fs.superblock.cblock_size + U64 - cnodeOffset) % U64) st.length) % U64
    offset := (st.offset
      + min ((be32_to_cpu fs.superblock.cblock_size + U64 - cnodeOffset) % U64) st.length) % U64 }

/-- The `switch (getNodeType(arrayIndex))` of `axfs::readFile` (lines 277-315). -/
def readFile_switch (fs : axfs) (z : ZlibDecoder) (type nodeIndex : Nat) (st : ReadState) :
    Except Fault ReadState :=
  if type = 2 then readFile_byte_aligned fs nodeIndex st
  else if type = 0 then readFile_xip fs nodeIndex st
  else if type = 1 then readFile_compressed fs z nodeIndex st
  else .error .assertFailed

/-- The body of the `while (length > 0)` loop of `axfs::readFile` (lines 275-317). -/
def readFile_body (fs : axfs) (z : ZlibDecoder) (st : ReadState) : Except Fault ReadState := do
  let nodeIndex ← fs.getNodeIndex st.arrayIndex
  let type ← fs.getNodeType st.arrayIndex
  let st ← readFile_switch fs z type nodeIndex st
  pure { st with arrayIndex := (st.arrayIndex + 1) % U64 }

/-- The `while (length > 0)` loop of `axfs::readFile`, cut off after `fuel` iterations. -/
def readFile_loop (fs : axfs) (z : ZlibDecoder) : Nat → ReadState → Except Fault ReadState
  | 0, st => if 0 < st.length then .error .outOfFuel else .ok st
  | fuel + 1, st =>
    if 0 < st.length then
      match readFile_body fs z st with
      | .ok st => readFile_loop fs z fuel st
      | .error e => .error e
    else .ok st

/-- `axfs::readFile(id, data, start, length)` (axfs.cpp:264-321).  `data` is the allocation
the caller passes in; the result holds its new content and the cache of the image.  Every
iteration that does not fault finds `arrayIndex` below `node_index.max_index` and raises it
by one, so `node_index.max_index + 1` iterations are never used up. -/
def axfs.readFile (fs : axfs) (z : ZlibDecoder) (id : Nat) (data : List Byte)
    (start length : Nat) : Except Fault ReadState := do
  let fileSize ← fs.getFileSize id
  let length := min ((fileSize + U64 - start % U64) % U64) (length % U64)
  let arrayIndex ← fs.getArrayIndex id
  readFile_loop fs z (fs.node_index.max_index + 1)
    { length := length, offset := 0, arrayIndex := arrayIndex, out := data,
      cblock_buffer := fs.cblock_buffer, cachedBlock := fs.cachedBlock }

/-- The slice `l[start .. start + len)`. -/
def slice (l : List Byte) (start len : Nat) : List Byte := (l.drop start).take len

/-- A table marked absent: depth 0, no bytes, queried at an index its descriptor allows. -/
def absentTable : axfs_region := axfs_region.mk 0 0 0 1 0 0 []

/-! ## Concrete images -/

/-- The big-endian 32-bit field holding `n`. -/
def be32_of (n : Nat) : be32 := be32.mk (byteOf n 3) (byteOf n 2) (byteOf n 1) (byteOf n 0)

/-- The big-endian 64-bit field holding `n`. -/
def be64_of (n : Nat) : be64 :=
  be64.mk (byteOf n 7) (byteOf n 6) (byteOf n 5) (byteOf n 4) (byteOf n 3) (byteOf n 2)
    (byteOf n 1) (byteOf n 0)

/-- The bytes of an ASCII string. -/
def asciiBytes (s : String) : List Byte := s.toList.map fun c => byteOf c.toNat 0

/-- A superblock with the AXFS magic and signature, DEFLATE, 4 KiB pages and the given
`cblock_size`; the region offsets play no role once the regions are loaded. -/
def superblock_of (cblock_size : Nat) : axfs_super_onmedia where
  magic := be32_of 0x48A0E4CD
  signature := asciiBytes "Advanced XIP FS" ++ [0]
  digest := List.replicate 40 0
  cblock_size := be32_of cblock_size
  files := be64_of 0
  size := be64_of 0
  blocks := be64_of 0
  mmap_size := be64_of 0
  strings := be64_of 0
  xip := be64_of 0
  byte_aligned := be64_of 0
  compressed := be64_of 0
  node_type := be64_of 0
  node_index := be64_of 0
  cnode_offset := be64_of 0
  cnode_index := be64_of 0
  banode_offset := be64_of 0
  cblock_offset := be64_of 0
  inode_file_size := be64_of 0
  inode_name_offset := be64_of 0
  inode_num_entries := be64_of 0
  inode_mode_index := be64_of 0
  inode_array_index := be64_of 0
  modes := be64_of 0
  uids := be64_of 0
  gids := be64_of 0
  version_major := 0
  version_minor := 0
  version_sub := 0
  compression_type := 0
  timestamp := be64_of 0
  page_shift := 12

/-- A loaded data region (strings, xip, byte_aligned, compressed) holding `bytes`. -/
def dataRegion (bytes : List Byte) : axfs_region :=
  axfs_region.mk 0 bytes.length 0 0 0 0 bytes

/-- An image without inodes, nodes or data: the starting point of the concrete images. -/
def blankImage : axfs where
  superblock := superblock_of 4096
  strings := dataRegion []
  xip := dataRegion []
  compressed := dataRegion []
  byte_aligned := dataRegion []
  node_type := tableOf 1 []
  node_index := tableOf 8 []
  cnode_offset := tableOf 4 []
  cnode_index := tableOf 8 []
  banode_offset := tableOf 8 []
  cblock_offset := tableOf 8 []
  inode_file_size := tableOf 8 []
  inode_name_offset := tableOf 8 []
  inode_num_entries := tableOf 8 []
  inode_mode_index := tableOf 8 []
  inode_array_index := tableOf 8 []
  modes := tableOf 4 []
  uids := tableOf 4 []
  gids := tableOf 4 []
  cblock_buffer := List.replicate 4096 0
  cachedBlock := U64 - 1

/-- A decoder that rejects every input and stores nothing. -/
def nullDecoder : ZlibDecoder where
  stbi_zlib_decode_buffer := fun _ _ _ => ([], -1)

/-- A decoder for "stored" blocks: the plaintext of a block is its input, which it copies
when it fits into the output buffer. -/
def storedDecoder : ZlibDecoder where
  stbi_zlib_decode_buffer := fun olen ibuffer ilen =>
    if 0 ≤ ilen ∧ ilen ≤ olen then (ibuffer.take ilen.toNat, ilen) else ([], -1)

/-- A root directory (inode 0) with one regular file (inode 1) of 4097 bytes in two
ByteAligned pages: page 0 is 4096 bytes `0x11` at offset 0 of the byte-aligned region,
page 1 the single byte `0x22` at offset 4096. -/
def imageTwoPages : axfs :=
  { blankImage with
    strings := dataRegion (asciiBytes "" ++ [0] ++ asciiBytes "f" ++ [0])
    byte_aligned := dataRegion (List.replicate 4096 0x11 ++ [0x22])
    node_type := tableOf 1 [2, 2]
    node_index := tableOf 8 [0, 1]
    banode_offset := tableOf 8 [0, 4096]
    inode_file_size := tableOf 8 [0, 4097]
    inode_name_offset := tableOf 8 [0, 1]
    inode_num_entries := tableOf 8 [1, 0]
    inode_mode_index := tableOf 8 [0, 1]
    inode_array_index := tableOf 8 [1, 0]
    modes := tableOf 4 [0o040755, 0o100644]
    uids := tableOf 4 [0, 0]
    gids := tableOf 4 [0, 0] }

/-- Scenario S6: inode 2 is a symlink (mode `0o120777`) of size 11 whose single page is a
ByteAligned node at offset 42 of the byte-aligned region, holding `hello/world`; inode 1 is
an empty regular file. -/
def imageS6 : axfs :=
  { blankImage with
    strings := dataRegion (asciiBytes "" ++ [0] ++ asciiBytes "e" ++ [0] ++ asciiBytes "l" ++ [0])
    byte_aligned := dataRegion (List.replicate 42 0 ++ asciiBytes "hello/world")
    node_type := tableOf 1 [2]
    node_index := tableOf 8 [0]
    banode_offset := tableOf 8 [42]
    inode_file_size := tableOf 8 [0, 0, 11]
    inode_name_offset := tableOf 8 [0, 1, 3]
    inode_num_entries := tableOf 8 [2, 0, 0]
    inode_mode_index := tableOf 8 [0, 1, 2]
    inode_array_index := tableOf 8 [1, 0, 0]
    modes := tableOf 4 [0o040755, 0o100644, 0o120777]
    uids := tableOf 4 [0, 0, 0]
    gids := tableOf 4 [0, 0, 0] }

/-- A root directory and one regular file (inode 1) of 100 bytes whose single page is an
XIP node (node index 0); the XIP page holds `0xAB` throughout. -/
def imageXipShort : axfs :=
  { blankImage with
    strings := dataRegion (asciiBytes "" ++ [0] ++ asciiBytes "f" ++ [0])
    xip := dataRegion (List.replicate 4096 0xAB)
    node_type := tableOf 1 [0]
    node_index := tableOf 8 [0]
    inode_file_size := tableOf 8 [0, 100]
    inode_name_offset := tableOf 8 [0, 1]
    inode_num_entries := tableOf 8 [1, 0]
    inode_mode_index := tableOf 8 [0, 1]
    inode_array_index := tableOf 8 [1, 0]
    modes := tableOf 4 [0o040755, 0o100644]
    uids := tableOf 4 [0, 0]
    gids := tableOf 4 [0, 0] }

/-- Scenario S4 with stored blocks and `cblock_size = 8192`: inode 1 is a file of 10000
bytes in three Compressed pages, page 0 at (cnode 0, offset 0), page 1 at (cnode 0, offset
4096) and page 2 at (cnode 1, offset 0).  Cblock 0 is 4096 bytes `1` followed by 4096 bytes
`2`, cblock 1 is 1808 bytes `3`. -/
def imageS4 : axfs :=
  { blankImage with
    superblock := superblock_of 8192
    strings := dataRegion (asciiBytes "" ++ [0] ++ asciiBytes "f" ++ [0])
    compressed := dataRegion
      (List.replicate 4096 1 ++ (List.replicate 4096 2 ++ List.replicate 1808 3))
    node_type := tableOf 1 [1, 1, 1]
    node_index := tableOf 8 [0, 1, 2]
    cnode_offset := tableOf 4 [0, 4096, 0]
    cnode_index := tableOf 8 [0, 0, 1]
    cblock_offset := tableOf 8 [0, 8192, 10000]
    inode_file_size := tableOf 8 [0, 10000]
    inode_name_offset := tableOf 8 [0, 1]
    inode_num_entries := tableOf 8 [1, 0]
    inode_mode_index := tableOf 8 [0, 1]
    inode_array_index := tableOf 8 [1, 0]
    modes := tableOf 4 [0o040755, 0o100644]
    uids := tableOf 4 [0, 0]
    gids := tableOf 4 [0, 0]
    cblock_buffer := List.replicate 8192 0 }

/-- Scenarios S3 and S5 in one image.  Inode 1 is the S3 file: 4096 bytes in one XIP page
with node index 7, XIP page 7 holding `0xAB` throughout.  Inode 2 is the S5 file: 5000 bytes,
page 0 an XIP node (node index 2), page 1 a ByteAligned node at offset 123 of the
byte-aligned region. -/
def imageS3S5 : axfs :=
  { blankImage with
    strings := dataRegion (asciiBytes "" ++ [0] ++ asciiBytes "a" ++ [0] ++ asciiBytes "b" ++ [0])
    xip := dataRegion (List.replicate 28672 0 ++ List.replicate 4096 0xAB)
    byte_aligned := dataRegion (List.replicate 123 0 ++ List.replicate 904 0x5A)
    node_type := tableOf 1 [0, 0, 2]
    node_index := tableOf 8 [7, 2, 0]
    banode_offset := tableOf 8 [123]
    inode_file_size := tableOf 8 [0, 4096, 5000]
    inode_name_offset := tableOf 8 [0, 1, 3]
    inode_num_entries := tableOf 8 [2, 0, 0]
    inode_mode_index := tableOf 8 [0, 1, 1]
    inode_array_index := tableOf 8 [1, 0, 1]
    modes := tableOf 4 [0o040755, 0o100644]
    uids := tableOf 4 [0, 0]
    gids := tableOf 4 [0, 0] }

/-- `S_ISLNK(m)`: `(m & 0170000) == 0120000`. -/
def S_ISLNK (m : Nat) : Bool := m &&& 0o170000 == 0o120000

/-- An uninitialised `char buf[n]` on the stack: `n` bytes, starting with whatever `garbage`
the stack happens to hold. -/
@[irreducible]
def stackBuffer (n : Nat) (garbage : List Byte) : List Byte :=
  (garbage ++ List.replicate n 0).take n

/-- The body of the `S_ISLNK(mode)` branch of `axfs::ls` (axfs.cpp:369-376) for the inode
`id = first + i`: `char linkName[1024]`, `readFile(id, linkName, 0, sizeof(linkName))`,
`linkName[size] = 0`.  The result is `linkName` as `printf` receives it, and the state
`readFile` left. -/
def ls_symlink (fs : axfs) (z : ZlibDecoder) (id : Nat) (garbage : List Byte) :
    Except Fault (List Byte × ReadState) := do
  let size ← fs.getFileSize id
  let linkName := stackBuffer 1024 garbage
  let st ← fs.readFile z id linkName 0 1024
  if size < st.out.length then pure (st.out.set size 0, st) else .error .outOfBounds

/-- A root directory with one symlink (inode 1, mode `0o120777`) whose target is 1024 bytes
long: one ByteAligned page at offset 0 holding `a` throughout. -/
def imageLongLink : axfs :=
  { blankImage with
    strings := dataRegion (asciiBytes "" ++ [0] ++ asciiBytes "l" ++ [0])
    byte_aligned := dataRegion (List.replicate 1024 0x61)
    node_type := tableOf 1 [2]
    node_index := tableOf 8 [0]
    banode_offset := tableOf 8 [0]
    inode_file_size := tableOf 8 [0, 1024]
    inode_name_offset := tableOf 8 [0, 1]
    inode_num_entries := tableOf 8 [1, 0]
    inode_mode_index := tableOf 8 [0, 1]
    inode_array_index := tableOf 8 [1, 0]
    modes := tableOf 4 [0o040755, 0o120777]
    uids := tableOf 4 [0, 0]
    gids := tableOf 4 [0, 0] }

/-- A root directory with one symlink (inode 1, mode `0o120777`) of 11 bytes whose single
page is an XIP node (node index 0). -/
def imageXipLink : axfs :=
  { imageXipShort with
    inode_file_size := tableOf 8 [0, 11]
    modes := tableOf 4 [0o040755, 0o120777] }

/-- A root directory with one symlink (inode 1, mode `0o120777`) of 11 bytes whose single
page is a Compressed node at offset 0 of cblock 0; `cblock_size` is 16 and cblock 0 is the
stored block `hello/world`, bytes 0 to 11 of the compressed region. -/
def imageCompressedLink : axfs :=
  { blankImage with
    superblock := superblock_of 16
    strings := dataRegion (asciiBytes "" ++ [0] ++ asciiBytes "l" ++ [0])
    compressed := dataRegion (asciiBytes "hello/world")
    node_type := tableOf 1 [1]
    node_index := tableOf 8 [0]
    cnode_offset := tableOf 4 [0]
    cnode_index := tableOf 8 [0]
    cblock_offset := tableOf 8 [0, 11]
    inode_file_size := tableOf 8 [0, 11]
    inode_name_offset := tableOf 8 [0, 1]
    inode_num_entries := tableOf 8 [1, 0]
    inode_mode_index := tableOf 8 [0, 1]
    inode_array_index := tableOf 8 [1, 0]
    modes := tableOf 4 [0o040755, 0o120777]
    uids := tableOf 4 [0, 0]
    gids := tableOf 4 [0, 0]
    cblock_buffer := List.replicate 16 0 }

/-! ## The kernel mount path (`src/kernel/axfs/axfs_super.c`, `axfs_inode.c`, `axfs_fs.h`)

`unsigned long`, `size_t` and pointers are taken to be 64 bits wide, `vmalloc` of a non-zero
size is taken to succeed, and `sizeof(struct axfs_region_desc_onmedia)` is 40 (four `u64`,
two `u8`, padded to the alignment of `u64`). -/

namespace Kernel

/-- `AXFS_MAGIC` (axfs_fs.h:48). -/
def AXFS_MAGIC : Nat := 0x48A0E4CD

/-- `AXFS_SIGNATURE` (axfs_fs.h:49) as the array the string literal denotes: 15 characters
and the terminating NUL, so `sizeof(AXFS_SIGNATURE)` is 16. -/
def AXFS_SIGNATURE : List Byte := asciiBytes "Advanced XIP FS" ++ [0]

/-- `EINVAL`. -/
def EINVAL : Int := 22

/-- `Z_STREAM_END` of zlib. -/
def Z_STREAM_END : Int := 1

/-- `struct axfs_super_onmedia` of the kernel (axfs_fs.h:131-161); the multi-byte fields are
kept as they lie in memory, big endian. -/
structure axfs_super_onmedia where
  magic : be32
  signature : List Byte
  digest : List Byte
  cblock_size : be32
  files : be64
  size : be64
  blocks : be64
  mmap_size : be64
  strings : be64
  xip : be64
  byte_aligned : be64
  compressed : be64
  node_type : be64
  node_index : be64
  cnode_offset : be64
  cnode_index : be64
  banode_offset : be64
  cblock_offset : be64
  inode_file_size : be64
  inode_name_offset : be64
  inode_num_entries : be64
  inode_mode_index : be64
  inode_array_index : be64
  modes : be64
  uids : be64
  gids : be64
  version_major : Byte
  version_minor : Byte
  version_sub : Byte
  deriving DecidableEq, Repr

/-- `struct axfs_region_desc_incore` (axfs_fs.h:112-120).  `virt_addr` is `none` for `NULL`
and otherwise the bytes that can be read from the address on. -/
structure axfs_region_desc_incore where
  fsoffset : Nat
  size : Nat
  compressed_size : Nat
  max_index : Nat
  virt_addr : Option (List Byte)
  table_byte_depth : Nat
  incore : Nat
  deriving DecidableEq, Repr

/-- `struct axfs_super_incore` (axfs_fs.h:166-205) without the lock and the profiling
fields.  `metadata` is `struct axfs_metadata_ptrs_incore` as the flat array of its 89 lane
pointers (`node_type` at 0, `node_index` at 1..8, `cnode_offset` at 9..12, and so on). -/
structure axfs_super_incore where
  magic : Nat
  version_major : Byte
  version_minor : Byte
  version_sub : Byte
  padding : Byte
  files : Nat
  size : Nat
  blocks : Nat
  mmap_size : Nat
  metadata : List (Option (List Byte))
  strings : axfs_region_desc_incore
  xip : axfs_region_desc_incore
  compressed : axfs_region_desc_incore
  byte_aligned : axfs_region_desc_incore
  node_type : axfs_region_desc_incore
  node_index : axfs_region_desc_incore
  cnode_offset : axfs_region_desc_incore
  cnode_index : axfs_region_desc_incore
  banode_offset : axfs_region_desc_incore
  cblock_offset : axfs_region_desc_incore
  inode_file_size : axfs_region_desc_incore
  inode_name_offset : axfs_region_desc_incore
  inode_num_entries : axfs_region_desc_incore
  inode_mode_index : axfs_region_desc_incore
  inode_array_index : axfs_region_desc_incore
  modes : axfs_region_desc_incore
  uids : axfs_region_desc_incore
  gids : axfs_region_desc_incore
  phys_start_addr : Nat
  virt_start_addr : Nat
  cblock_size : Nat
  current_cnode_index : Nat
  cblock_buffer0 : Option (List Byte)
  cblock_buffer1 : Option (List Byte)
  deriving DecidableEq, Repr

/-- What the image is stored on: the bytes behind `phys_start_addr` / `virt_start_addr`
(the memory-mapped part of the image) and the block device with its block size. -/
structure Media where
  window : List Byte
  blockdev : List Byte
  s_blocksize : Nat
  deriving DecidableEq, Repr

/-- The zlib of the kernel, which is not part of the repository: `zlib_inflate` with
`Z_FINISH` on the stream (`next_in`, `avail_in`, `avail_out`) yields the bytes it stores
from `next_out` on (`total_out` of them) and its return code. -/
structure Zlib where
  zlib_inflate : List Byte → Int → Int → List Byte × Int

/-- `AXFS_IS_REGION_COMPRESSED`. -/
def AXFS_IS_REGION_COMPRESSED (region : axfs_region_desc_incore) : Bool :=
  decide (region.compressed_size > 0)

/-- `AXFS_PHYSADDR_IS_VALID`. -/
def AXFS_PHYSADDR_IS_VALID (sbi : axfs_super_incore) : Bool := decide (sbi.phys_start_addr > 0)

/-- `AXFS_VIRTADDR_IS_VALID`. -/
def AXFS_VIRTADDR_IS_VALID (sbi : axfs_super_incore) : Bool := decide (sbi.virt_start_addr > 0)

/-- `AXFS_IS_MMAPABLE`. -/
def AXFS_IS_MMAPABLE (sbi : axfs_super_incore) (offset : Nat) : Bool :=
  decide (sbi.mmap_size ≥ offset)

/-- `AXFS_IS_OFFSET_MMAPABLE`. -/
def AXFS_IS_OFFSET_MMAPABLE (sbi : axfs_super_incore) (offset : Nat) : Bool :=
  AXFS_IS_MMAPABLE sbi offset && (AXFS_PHYSADDR_IS_VALID sbi || AXFS_VIRTADDR_IS_VALID sbi)

/-- `AXFS_IS_REGION_MMAPABLE`. -/
def AXFS_IS_REGION_MMAPABLE (sbi : axfs_super_incore) (region : axfs_region_desc_incore) :
    Bool :=
  AXFS_IS_MMAPABLE sbi region.fsoffset &&
    (AXFS_PHYSADDR_IS_VALID sbi || AXFS_VIRTADDR_IS_VALID sbi)

/-- `AXFS_IS_REGION_INCORE`. -/
def AXFS_IS_REGION_INCORE (region : axfs_region_desc_incore) : Bool :=
  decide (region.incore > 0)

/-- `AXFS_IS_REGION_XIP`. -/
def AXFS_IS_REGION_XIP (sbi : axfs_super_incore) (region : axfs_region_desc_incore) : Bool :=
  !AXFS_IS_REGION_COMPRESSED region && !AXFS_IS_REGION_INCORE region &&
    AXFS_IS_REGION_MMAPABLE sbi region

/-- `AXFS_FSOFFSET_2_BLOCKOFFSET`. -/
def AXFS_FSOFFSET_2_BLOCKOFFSET (sbi : axfs_super_incore) (fsoffset : Nat) : Nat :=
  if sbi.phys_start_addr = 0 ∧ sbi.virt_start_addr = 0 then fsoffset
  else (fsoffset + U64 - sbi.mmap_size % U64) % U64

/-- `sb_bread(sb, block)->b_data`: the bytes of block `block` of the device, `none` when
`sb_bread` has no such block to return. -/
def sb_bread (m : Media) (block : Nat) : Option (List Byte) :=
  if block * m.s_blocksize < m.blockdev.length then
    some ((m.blockdev.drop (block * m.s_blocksize)).take m.s_blocksize)
  else none

/-- The `while (copied < len)` loop of `axfs_copy_block_data` (axfs_inode.c:156-177), cut
off after `fuel` iterations; `dst` is the allocation at `dst_addr`. -/
def axfs_copy_block_data_loop (m : Media) (boffset len : Nat) :
    Nat → Nat → List Byte → Except Fault (List Byte)
  | 0, copied, dst => if copied < len then .error .outOfFuel else .ok dst
  | fuel + 1, copied, dst =>
    if copied < len then
      if m.s_blocksize = 0 then .error .divByZero
      else
        match sb_bread m ((boffset + copied) % U64 / m.s_blocksize) with
        | none => .error .nullDeref
        | some b_data =>
          if copied = 0 then
            let bytes := m.s_blocksize - boffset % m.s_blocksize
            let bytes := if bytes > len then len else bytes
            match memcpy dst 0 b_data (boffset % m.s_blocksize) bytes with
            | .ok dst => axfs_copy_block_data_loop m boffset len fuel ((copied + bytes) % U64) dst
            | .error e => .error e
          else
            let bytes := if len - copied < m.s_blocksize then len - copied else m.s_blocksize
            match memcpy dst copied b_data 0 bytes with
            | .ok dst => axfs_copy_block_data_loop m boffset len fuel ((copied + bytes) % U64) dst
            | .error e => .error e
    else .ok dst

/-- `axfs_copy_block_data` (axfs_inode.c:145-178).  Every iteration copies at least one
byte, so `len` iterations are never used up. -/
def axfs_copy_block_data (m : Media) (dst : List Byte) (boffset len : Nat) :
    Except Fault (List Byte) :=
  if len = 0 then .ok dst else axfs_copy_block_data_loop m boffset len len 0 dst

/-- `axfs_fetch_mmapable_data` (axfs_super.c:119-136): a fresh buffer holding `len` bytes of
the mapped image from `fsoffset` on, read through `AXFS_REMAP(phys_start_addr + fsoffset)` or
directly at `virt_start_addr + fsoffset`. -/
def axfs_fetch_mmapable_data (m : Media) (sbi : axfs_super_incore) (fsoffset len : Nat) :
    Except Fault (List Byte) :=
  if AXFS_PHYSADDR_IS_VALID sbi then
    memcpy (List.replicate len 0) 0 ((m.window.drop fsoffset).take len) 0 len
  else memcpy (List.replicate len 0) 0 m.window fsoffset len

/-- `axfs_fetch_block_data` (axfs_super.c:156-162). -/
def axfs_fetch_block_data (m : Media) (boffset len : Nat) : Except Fault (List Byte) :=
  axfs_copy_block_data m (List.replicate len 0) boffset len

/-- `axfs_fetch_data` (axfs_super.c:182-210). -/
def axfs_fetch_data (m : Media) (sbi : axfs_super_incore) (fsoffset len : Nat) :
    Except Fault (List Byte) :=
  let end_ := (fsoffset + len) % U64
  if AXFS_IS_OFFSET_MMAPABLE sbi fsoffset then
    if AXFS_IS_OFFSET_MMAPABLE sbi end_ then axfs_fetch_mmapable_data m sbi fsoffset len
    else do
      let mmap_buffer_len := (sbi.mmap_size + U64 - fsoffset) % U64
      let mmap_buffer ← axfs_fetch_mmapable_data m sbi fsoffset mmap_buffer_len
      let blk_buffer_len := (end_ + U64 - sbi.mmap_size) % U64
      let blk_buffer ← axfs_fetch_block_data m 0 blk_buffer_len
      let return_buffer ← memcpy (List.replicate len 0) 0 mmap_buffer 0 mmap_buffer_len
      memcpy return_buffer mmap_buffer_len blk_buffer 0 blk_buffer_len
  else axfs_fetch_block_data m (AXFS_FSOFFSET_2_BLOCKOFFSET sbi fsoffset) len

/-- `axfs_uncompress_block(dst, dstlen, src, srclen)` (axfs_uncompress.c:58-95): the new
content of `dst` and the result, `total_out` when `zlib_inflate` ends with `Z_STREAM_END`
and 0 otherwise. -/
def axfs_uncompress_block (z : Zlib) (dst : List Byte) (dstlen : Int) (src : List Byte)
    (srclen : Int) : Except Fault (List Byte × Int) :=
  let r := z.zlib_inflate src srclen dstlen
  if r.1.length ≤ dst.length then
    if r.2 ≠ Z_STREAM_END then .ok (r.1 ++ dst.drop r.1.length, 0)
    else .ok (r.1 ++ dst.drop r.1.length, toInt32 r.1.length)
  else .error .outOfBounds

/-- The big-endian `u64` at offset `off` of a buffer (`be64_to_cpu` of a field of the
fetched descriptor). -/
def be64_at (bs : List Byte) (off : Nat) : Nat :=
  be64_to_cpu (be64.mk (bs.getD off 0) (bs.getD (off + 1) 0) (bs.getD (off + 2) 0)
    (bs.getD (off + 3) 0) (bs.getD (off + 4) 0) (bs.getD (off + 5) 0) (bs.getD (off + 6) 0)
    (bs.getD (off + 7) 0))

/-- One access to the medium made through `axfs_fetch_data`: offset and length. -/
abbrev Fetch := Nat × Nat

/-- `axfs_do_fill_data_ptrs` (axfs_super.c:236-302): the result code, the in-core region
descriptor as the function leaves it, and the accesses to the medium it made. -/
def axfs_do_fill_data_ptrs (m : Media) (z : Zlib) (sbi : axfs_super_incore)
    (region_desc_offset : Nat) (iregion : axfs_region_desc_incore) (force_va : Bool) :
    Except Fault (Int × axfs_region_desc_incore × List Fetch) := do
  let oregion ← axfs_fetch_data m sbi region_desc_offset 40
  let iregion := { iregion with
    fsoffset := be64_at oregion 0
    size := be64_at oregion 8
    compressed_size := be64_at oregion 16
    max_index := be64_at oregion 24
    table_byte_depth := (oregion.getD 32 0).val
    incore := (oregion.getD 33 0).val }
  let t := [(region_desc_offset, 40)]
  if iregion.size = 0 then pure (0, iregion, t)
  else
    let end_ := (iregion.fsoffset + iregion.size) % U64
    if AXFS_IS_REGION_XIP sbi iregion && !(force_va && decide (sbi.mmap_size < end_)) then
      if AXFS_PHYSADDR_IS_VALID sbi then
        let size := if sbi.mmap_size > (iregion.fsoffset + iregion.size) % U64 then iregion.size
          else (sbi.mmap_size + U64 - iregion.fsoffset) % U64
        pure (0, { iregion with virt_addr := some ((m.window.drop iregion.fsoffset).take size) },
          t)
      else pure (0, { iregion with virt_addr := some (m.window.drop iregion.fsoffset) }, t)
    else if AXFS_IS_REGION_INCORE iregion || AXFS_IS_REGION_COMPRESSED iregion || force_va then
      if AXFS_IS_REGION_COMPRESSED iregion then do
        let mapped ← axfs_fetch_data m sbi iregion.fsoffset iregion.compressed_size
        let r ← axfs_uncompress_block z (List.replicate iregion.size 0) (toInt32 iregion.size)
          mapped (toInt32 iregion.compressed_size)
        if r.2 ≠ 0 then
          pure (r.2, { iregion with virt_addr := some r.1 },
            t ++ [(iregion.fsoffset, iregion.compressed_size)])
        else
          pure (0, { iregion with virt_addr := some r.1 },
            t ++ [(iregion.fsoffset, iregion.compressed_size)])
      else do
        let mapped ← axfs_fetch_data m sbi iregion.fsoffset iregion.size
        let buf ← memcpy (List.replicate iregion.size 0) 0 mapped 0 iregion.size
        pure (0, { iregion with virt_addr := some buf }, t ++ [(iregion.fsoffset, iregion.size)])
    else pure (0, { iregion with virt_addr := none }, t)

/-- The `for` loop of `axfs_do_fill_metadata_ptrs` (axfs_super.c:338-340): lane `i` is
`virt_addr + i * split`, stored at `metadata[i]`; `n` iterations are still to run. -/
def fill_lanes (va : List Byte) (split base : Nat) :
    Nat → Nat → List (Option (List Byte)) → Except Fault (List (Option (List Byte)))
  | 0, _, metadata => .ok metadata
  | n + 1, i, metadata =>
    if base + i < metadata.length then
      fill_lanes va split base n (i + 1) (metadata.set (base + i) (some (va.drop (i * split))))
    else .error .outOfBounds

/-- `axfs_do_fill_metadata_ptrs` (axfs_super.c:322-342) on the lane array that starts at
index `base` of the metadata struct. -/
def axfs_do_fill_metadata_ptrs (metadata : List (Option (List Byte))) (base : Nat)
    (desc : axfs_region_desc_incore) : Except Fault (List (Option (List Byte))) :=
  if desc.size ≠ 0 then
    if desc.table_byte_depth = 0 then .error .bug
    else
      match desc.virt_addr with
      | none => .error .bug
      | some va =>
        fill_lanes va (desc.size / desc.table_byte_depth) base desc.table_byte_depth 0 metadata
  else .ok metadata

/-- `axfs_fill_metadata_ptrs` (axfs_super.c:361-380). -/
def axfs_fill_metadata_ptrs (sbi : axfs_super_incore) : Except Fault axfs_super_incore := do
  let md ← axfs_do_fill_metadata_ptrs sbi.metadata 0 sbi.node_type
  let md ← axfs_do_fill_metadata_ptrs md 1 sbi.node_index
  let md ← axfs_do_fill_metadata_ptrs md 9 sbi.cnode_offset
  let md ← axfs_do_fill_metadata_ptrs md 13 sbi.cnode_index
  let md ← axfs_do_fill_metadata_ptrs md 21 sbi.banode_offset
  let md ← axfs_do_fill_metadata_ptrs md 29 sbi.cblock_offset
  let md ← axfs_do_fill_metadata_ptrs md 37 sbi.inode_file_size
  let md ← axfs_do_fill_metadata_ptrs md 45 sbi.inode_name_offset
  let md ← axfs_do_fill_metadata_ptrs md 53 sbi.inode_num_entries
  let md ← axfs_do_fill_metadata_ptrs md 61 sbi.inode_mode_index
  let md ← axfs_do_fill_metadata_ptrs md 69 sbi.inode_array_index
  let md ← axfs_do_fill_metadata_ptrs md 77 sbi.modes
  let md ← axfs_do_fill_metadata_ptrs md 81 sbi.uids
  let md ← axfs_do_fill_metadata_ptrs md 85 sbi.gids
  pure { sbi with metadata := md }

/-- `strncmp(a, b, n)`; bytes past the end of a list read as NUL. -/
def strncmp : List Byte → List Byte → Nat → Int
  | _, _, 0 => 0
  | a, b, n + 1 =>
    if a.headD 0 ≠ b.headD 0 then ((a.headD 0).val : Int) - ((b.headD 0).val : Int)
    else if a.headD 0 = 0 then 0
    else strncmp a.tail b.tail n

/-- The eighteen regions of the in-core superblock. -/
inductive Region where
  | strings | xip | compressed | byte_aligned | node_type | node_index | cnode_offset
  | cnode_index | banode_offset | cblock_offset | inode_file_size | inode_name_offset
  | inode_num_entries | inode_mode_index | inode_array_index | modes | uids | gids
  deriving DecidableEq, Repr

/-- The field of the on-media superblock that holds the offset of a region descriptor. -/
def Region.desc_offset (sbo : axfs_super_onmedia) : Region → be64
  | .strings => sbo.strings
  | .xip => sbo.xip
  | .compressed => sbo.compressed
  | .byte_aligned => sbo.byte_aligned
  | .node_type => sbo.node_type
  | .node_index => sbo.node_index
  | .cnode_offset => sbo.cnode_offset
  | .cnode_index => sbo.cnode_index
  | .banode_offset => sbo.banode_offset
  | .cblock_offset => sbo.cblock_offset
  | .inode_file_size => sbo.inode_file_size
  | .inode_name_offset => sbo.inode_name_offset
  | .inode_num_entries => sbo.inode_num_entries
  | .inode_mode_index => sbo.inode_mode_index
  | .inode_array_index => sbo.inode_array_index
  | .modes => sbo.modes
  | .uids => sbo.uids
  | .gids => sbo.gids

/-- The in-core descriptor of a region. -/
def Region.get (sbi : axfs_super_incore) : Region → axfs_region_desc_incore
  | .strings => sbi.strings
  | .xip => sbi.xip
  | .compressed => sbi.compressed
  | .byte_aligned => sbi.byte_aligned
  | .node_type => sbi.node_type
  | .node_index => sbi.node_index
  | .cnode_offset => sbi.cnode_offset
  | .cnode_index => sbi.cnode_index
  | .banode_offset => sbi.banode_offset
  | .cblock_offset => sbi.cblock_offset
  | .inode_file_size => sbi.inode_file_size
  | .inode_name_offset => sbi.inode_name_offset
  | .inode_num_entries => sbi.inode_num_entries
  | .inode_mode_index => sbi.inode_mode_index
  | .inode_array_index => sbi.inode_array_index
  | .modes => sbi.modes
  | .uids => sbi.uids
  | .gids => sbi.gids

/-- Storing the in-core descriptor of a region. -/
def Region.set (sbi : axfs_super_incore) (d : axfs_region_desc_incore) :
    Region → axfs_super_incore
  | .strings => { sbi with strings := d }
  | .xip => { sbi with xip := d }
  | .compressed => { sbi with compressed := d }
  | .byte_aligned => { sbi with byte_aligned := d }
  | .node_type => { sbi with node_type := d }
  | .node_index => { sbi with node_index := d }
  | .cnode_offset => { sbi with cnode_offset := d }
  | .cnode_index => { sbi with cnode_index := d }
  | .banode_offset => { sbi with banode_offset := d }
  | .cblock_offset => { sbi with cblock_offset := d }
  | .inode_file_size => { sbi with inode_file_size := d }
  | .inode_name_offset => { sbi with inode_name_offset := d }
  | .inode_num_entries => { sbi with inode_num_entries := d }
  | .inode_mode_index => { sbi with inode_mode_index := d }
  | .inode_array_index => { sbi with inode_array_index := d }
  | .modes => { sbi with modes := d }
  | .uids => { sbi with uids := d }
  | .gids => { sbi with gids := d }

/-- The `fill_helper` calls of `axfs_do_fill_super` in source order (axfs_super.c:445-480),
each with its `force_va` argument. -/
def fill_order : List (Region × Bool) :=
  [(.strings, true), (.xip, true), (.compressed, false), (.byte_aligned, false),
   (.node_type, true), (.node_index, true), (.cnode_offset, true), (.cnode_index, true),
   (.banode_offset, true), (.cblock_offset, true), (.inode_file_size, true),
   (.inode_name_offset, true), (.inode_num_entries, true), (.inode_mode_index, true),
   (.inode_array_index, true), (.modes, true), (.uids, true), (.gids, true)]

/-- The chain `if (fill_helper(...)) goto out;` over the given calls: `true` when every call
returned 0, with the superblock and the accesses to the medium so far. -/
def fill_regions (m : Media) (z : Zlib) (sbo : axfs_super_onmedia) :
    List (Region × Bool) → axfs_super_incore → List Fetch →
      Except Fault (Bool × axfs_super_incore × List Fetch)
  | [], sbi, t => .ok (true, sbi, t)
  | (r, force_va) :: rest, sbi, t =>
    match axfs_do_fill_data_ptrs m z sbi (be64_to_cpu (r.desc_offset sbo)) (r.get sbi)
        force_va with
    | .error e => .error e
    | .ok (err, d, t2) =>
      if err ≠ 0 then .ok (false, r.set sbi d, t ++ t2)
      else fill_regions m z sbo rest (r.set sbi d) (t ++ t2)

/-- The part of `axfs_do_fill_super` behind its two sanity checks (axfs_super.c:435-486):
the scalar fields are taken over, the eighteen regions are loaded and the lane pointers are
set. -/
def axfs_do_fill_super_load (m : Media) (z : Zlib) (sbi : axfs_super_incore)
    (sbo : axfs_super_onmedia) : Except Fault (Int × axfs_super_incore × List Fetch) :=
  match fill_regions m z sbo fill_order
      { sbi with
        magic := be32_to_cpu sbo.magic
        version_major := sbo.version_major
        version_minor := sbo.version_minor
        version_sub := sbo.version_sub
        files := be64_to_cpu sbo.files
        size := be64_to_cpu sbo.size
        blocks := be64_to_cpu sbo.blocks
        mmap_size := be64_to_cpu sbo.mmap_size
        cblock_size := be32_to_cpu sbo.cblock_size } [] with
  | .error e => .error e
  | .ok (false, sbi, t) => .ok (-EINVAL, sbi, t)
  | .ok (true, sbi, t) =>
    match axfs_fill_metadata_ptrs sbi with
    | .error e => .error e
    | .ok sbi => .ok (0, sbi, t)

/-- `axfs_do_fill_super` (axfs_super.c:401-490): the result code, the in-core superblock as
the function leaves it, and the accesses to the medium it made. -/
def axfs_do_fill_super (m : Media) (z : Zlib) (sbi : axfs_super_incore)
    (sbo : axfs_super_onmedia) : Except Fault (Int × axfs_super_incore × List Fetch) :=
  if be32_to_cpu sbo.magic ≠ AXFS_MAGIC then .ok (-EINVAL, sbi, [])
  else if strncmp sbo.signature AXFS_SIGNATURE 16 ≠ 0 then .ok (-EINVAL, sbi, [])
  else axfs_do_fill_super_load m z sbi sbo

/-- An on-media superblock with the given magic bytes and everything else zero. -/
def superblock_with_magic (magic : be32) : axfs_super_onmedia where
  magic := magic
  signature := List.replicate 16 0
  digest := List.replicate 40 0
  cblock_size := be32_of 0
  files := be64_of 0
  size := be64_of 0
  blocks := be64_of 0
  mmap_size := be64_of 0
  strings := be64_of 0
  xip := be64_of 0
  byte_aligned := be64_of 0
  compressed := be64_of 0
  node_type := be64_of 0
  node_index := be64_of 0
  cnode_offset := be64_of 0
  cnode_index := be64_of 0
  banode_offset := be64_of 0
  cblock_offset := be64_of 0
  inode_file_size := be64_of 0
  inode_name_offset := be64_of 0
  inode_num_entries := be64_of 0
  inode_mode_index := be64_of 0
  inode_array_index := be64_of 0
  modes := be64_of 0
  uids := be64_of 0
  gids := be64_of 0
  version_major := 0
  version_minor := 0
  version_sub := 0

/-- The region descriptor `memset` leaves in a fresh in-core superblock. -/
def zero_region : axfs_region_desc_incore where
  fsoffset := 0
  size := 0
  compressed_size := 0
  max_index := 0
  virt_addr := none
  table_byte_depth := 0
  incore := 0

/-- The in-core superblock as `axfs_fill_super` hands it to `axfs_do_fill_super`
(axfs_super.c:564-582): zeroed, with zeroed metadata and the two start addresses set. -/
def fresh_sbi (phys_start_addr virt_start_addr : Nat) : axfs_super_incore where
  magic := 0
  version_major := 0
  version_minor := 0
  version_sub := 0
  padding := 0
  files := 0
  size := 0
  blocks := 0
  mmap_size := 0
  metadata := List.replicate 89 none
  strings := zero_region
  xip := zero_region
  compressed := zero_region
  byte_aligned := zero_region
  node_type := zero_region
  node_index := zero_region
  cnode_offset := zero_region
  cnode_index := zero_region
  banode_offset := zero_region
  cblock_offset := zero_region
  inode_file_size := zero_region
  inode_name_offset := zero_region
  inode_num_entries := zero_region
  inode_mode_index := zero_region
  inode_array_index := zero_region
  modes := zero_region
  uids := zero_region
  gids := zero_region
  phys_start_addr := phys_start_addr
  virt_start_addr := virt_start_addr
  cblock_size := 0
  current_cnode_index := 0
  cblock_buffer0 := none
  cblock_buffer1 := none

end Kernel

/-- An inflater that rejects every input (`Z_DATA_ERROR`) and stores nothing. -/
def Kernel.nullZlib : Kernel.Zlib where
  zlib_inflate := fun _ _ _ => ([], -3)

/-! ## The kernel accessors and the mount checks (`axfs_fs.h`, `axfs_super.c`, `axfs_inode.c`)

A lane pointer is `none` for `NULL` and otherwise the bytes that can be read from it on; a
read past them is a fault. -/

namespace Kernel

/-- `ENOMEM`. -/
def ENOMEM : Int := 12

/-- One summand of `AXFS_U64_STITCH` / `AXFS_U32_STITCH` (axfs_fs.h:208-222): lane `lane` of
the metadata pointers read at `index` and shifted left by `shift` bits, 0 for a `NULL`
lane. -/
def stitch_lane (md : List (Option (List Byte))) (lane index shift : Nat) : Except Fault Nat :=
  match md[lane]? with
  | none => .error .outOfBounds
  | some none => .ok 0
  | some (some p) =>
    match p[index]? with
    | none => .error .outOfBounds
    | some b => .ok (b.val * 2 ^ shift)

/-- The sum of the first `k` summands of a stitch macro over the lane array that starts at
index `base` of the metadata struct. -/
def stitch_sum (md : List (Option (List Byte))) (base index : Nat) : Nat → Except Fault Nat
  | 0 => .ok 0
  | k + 1 =>
    match stitch_sum md base index k with
    | .error e => .error e
    | .ok s =>
      match stitch_lane md (base + k) index (8 * k) with
      | .error e => .error e
      | .ok v => .ok (s + v)

/-- `AXFS_U64_STITCH(data_ptr, index)` (axfs_fs.h:208-216), `data_ptr` being the lane array
at index `base`. -/
def AXFS_U64_STITCH (md : List (Option (List Byte))) (base index : Nat) : Except Fault Nat :=
  match stitch_sum md base index 8 with
  | .error e => .error e
  | .ok s => .ok (s % U64)

/-- `AXFS_U32_STITCH(data_ptr, index)` (axfs_fs.h:218-222). -/
def AXFS_U32_STITCH (md : List (Option (List Byte))) (base index : Nat) : Except Fault Nat :=
  match stitch_sum md base index 4 with
  | .error e => .error e
  | .ok s => .ok (s % 2 ^ 32)

/-- `AXFS_GET_NODE_INDEX`. -/
def AXFS_GET_NODE_INDEX (md : List (Option (List Byte))) (node__index : Nat) :
    Except Fault Nat :=
  AXFS_U64_STITCH md 1 node__index

/-- `AXFS_GET_NODE_TYPE` (axfs_fs.h:227-228): the lane is read without a test for `NULL`. -/
def AXFS_GET_NODE_TYPE (md : List (Option (List Byte))) (node_index : Nat) :
    Except Fault Nat :=
  match md[0]? with
  | none => .error .outOfBounds
  | some none => .error .nullDeref
  | some (some p) =>
    match p[node_index]? with
    | none => .error .outOfBounds
    | some b => .ok b.val

/-- `AXFS_GET_CNODE_INDEX`. -/
def AXFS_GET_CNODE_INDEX (md : List (Option (List Byte))) (cnode__index : Nat) :
    Except Fault Nat :=
  AXFS_U64_STITCH md 13 cnode__index

/-- `AXFS_GET_BANODE_OFFSET`. -/
def AXFS_GET_BANODE_OFFSET (md : List (Option (List Byte))) (banode__index : Nat) :
    Except Fault Nat :=
  AXFS_U64_STITCH md 21 banode__index

/-- `AXFS_GET_CNODE_OFFSET`. -/
def AXFS_GET_CNODE_OFFSET (md : List (Option (List Byte))) (cnode_index : Nat) :
    Except Fault Nat :=
  AXFS_U32_STITCH md 9 cnode_index

/-- `AXFS_GET_CBLOCK_OFFSET`. -/
def AXFS_GET_CBLOCK_OFFSET (md : List (Option (List Byte))) (cblock_index : Nat) :
    Except Fault Nat :=
  AXFS_U64_STITCH md 29 cblock_index

/-- `AXFS_GET_INODE_FILE_SIZE`. -/
def AXFS_GET_INODE_FILE_SIZE (md : List (Option (List Byte))) (inode_index : Nat) :
    Except Fault Nat :=
  AXFS_U64_STITCH md 37 inode_index

/-- `AXFS_GET_INODE_NAME_OFFSET`. -/
def AXFS_GET_INODE_NAME_OFFSET (md : List (Option (List Byte))) (inode_index : Nat) :
    Except Fault Nat :=
  AXFS_U64_STITCH md 45 inode_index

/-- `AXFS_GET_INODE_NUM_ENTRIES`. -/
def AXFS_GET_INODE_NUM_ENTRIES (md : List (Option (List Byte))) (inode_index : Nat) :
    Except Fault Nat :=
  AXFS_U64_STITCH md 53 inode_index

/-- `AXFS_GET_INODE_MODE_INDEX`. -/
def AXFS_GET_INODE_MODE_INDEX (md : List (Option (List Byte))) (inode_index : Nat) :
    Except Fault Nat :=
  AXFS_U64_STITCH md 61 inode_index

/-- `AXFS_GET_INODE_ARRAY_INDEX`. -/
def AXFS_GET_INODE_ARRAY_INDEX (md : List (Option (List Byte))) (inode_index : Nat) :
    Except Fault Nat :=
  AXFS_U64_STITCH md 69 inode_index

/-- `AXFS_GET_MODE` (axfs_fs.h:257-259). -/
def AXFS_GET_MODE (md : List (Option (List Byte))) (inode_index : Nat) : Except Fault Nat :=
  match AXFS_GET_INODE_MODE_INDEX md inode_index with
  | .error e => .error e
  | .ok i => AXFS_U32_STITCH md 77 i

/-- `AXFS_GET_UID` (axfs_fs.h:261-263). -/
def AXFS_GET_UID (md : List (Option (List Byte))) (inode_index : Nat) : Except Fault Nat :=
  match AXFS_GET_INODE_MODE_INDEX md inode_index with
  | .error e => .error e
  | .ok i => AXFS_U32_STITCH md 81 i

/-- `AXFS_GET_GID` (axfs_fs.h:265-267). -/
def AXFS_GET_GID (md : List (Option (List Byte))) (inode_index : Nat) : Except Fault Nat :=
  match AXFS_GET_INODE_MODE_INDEX md inode_index with
  | .error e => .error e
  | .ok i => AXFS_U32_STITCH md 85 i

/-- `S_ISDIR(m)`. -/
def S_ISDIR (m : Nat) : Bool := m &&& 0o170000 == 0o040000

/-- `S_ISREG(m)`. -/
def S_ISREG (m : Nat) : Bool := m &&& 0o170000 == 0o100000

/-- `axfs_check_super` (axfs_super.c:506-530). -/
def axfs_check_super (sbi : axfs_super_incore) : Except Fault Int :=
  match AXFS_GET_MODE sbi.metadata 0 with
  | .error e => .error e
  | .ok mode => if !S_ISDIR mode then .ok (-EINVAL) else .ok 0

/-- The fields of the VFS `struct inode` that `axfs_create_vfs_inode` sets and the read
paths use.  `i_mode` is an `umode_t` of 16 bits; `i_size` is kept as the `u64` it is
assigned from. -/
structure inode where
  i_ino : Nat
  i_mode : Nat
  i_uid : Nat
  i_gid : Nat
  i_size : Nat
  i_blocks : Nat
  deriving DecidableEq, Repr

/-- `axfs_create_vfs_inode(sb, inode_number)` (axfs_inode.c:314-363) when `iget5_locked`
hands out a new inode (`iget5_locked = true`) or none; the inode cache is not modelled, an
inode found there was filled in by the same assignments.  `inode_number` is an `int`, and a
negative one indexes in front of the lanes. -/
def axfs_create_vfs_inode (iget5_locked : Bool) (sbi : axfs_super_incore)
    (inode_number : Int) : Except Fault (Option inode) :=
  if !iget5_locked then .ok none
  else if inode_number < 0 then .error .outOfBounds
  else
    match AXFS_GET_MODE sbi.metadata inode_number.toNat with
    | .error e => .error e
    | .ok mode =>
      match AXFS_GET_UID sbi.metadata inode_number.toNat with
      | .error e => .error e
      | .ok uid =>
        match AXFS_GET_INODE_FILE_SIZE sbi.metadata inode_number.toNat with
        | .error e => .error e
        | .ok size =>
          match AXFS_GET_INODE_NUM_ENTRIES sbi.metadata inode_number.toNat with
          | .error e => .error e
          | .ok blocks =>
            match AXFS_GET_GID sbi.metadata inode_number.toNat with
            | .error e => .error e
            | .ok gid =>
              if S_ISREG (mode % 2 ^ 16) || S_ISDIR (mode % 2 ^ 16)
                  || S_ISLNK (mode % 2 ^ 16) then
                .ok (some (inode.mk inode_number.toNat (mode % 2 ^ 16) uid gid size blocks))
              else .ok (some (inode.mk inode_number.toNat (mode % 2 ^ 16) uid gid 0 0))

/-- What the kernel around the file system answers during `axfs_fill_super`: whether
`iget5_locked` and `d_alloc_root` hand out their objects, and what the memory of the two
cache buffers holds when `vmalloc` returns it. -/
structure Vfs where
  iget5_locked : Bool
  d_alloc_root : Bool
  garbage0 : List Byte
  garbage1 : List Byte
  deriving DecidableEq, Repr

/-- `vmalloc(n)`: `NULL` for `n = 0`, otherwise `n` bytes of unspecified content. -/
def vmalloc (n : Nat) (garbage : List Byte) : Option (List Byte) :=
  if n = 0 then none else some (stackBuffer n garbage)

/-- `axfs_fill_super` (axfs_super.c:550-638) on the superblock and the two start addresses
of `struct axfs_fill_super_info`: the result code and the in-core superblock left in
`sb->s_fs_info`, which is `NULL` on every error path. -/
def axfs_fill_super (m : Media) (z : Zlib) (vfs : Vfs) (onmedia_super_block : axfs_super_onmedia)
    (physical_start_address virtual_start_address : Nat) :
    Except Fault (Int × Option axfs_super_incore) :=
  match axfs_do_fill_super m z (fresh_sbi physical_start_address virtual_start_address)
      onmedia_super_block with
  | .error e => .error e
  | .ok (err, sbi, _) =>
    if err ≠ 0 then .ok (err, none)
    else
      match axfs_check_super sbi with
      | .error e => .error e
      | .ok err =>
        if err ≠ 0 then .ok (err, none)
        else
          match axfs_create_vfs_inode vfs.iget5_locked sbi 0 with
          | .error e => .error e
          | .ok none => .ok (-EINVAL, none)
          | .ok (some _) =>
            if !vfs.d_alloc_root then .ok (-EINVAL, none)
            else
              match vmalloc sbi.cblock_size vfs.garbage0, vmalloc sbi.cblock_size vfs.garbage1 with
              | some b0, some b1 =>
                .ok (0, some { sbi with
                  cblock_buffer0 := some b0
                  cblock_buffer1 := some b1
                  current_cnode_index := U64 - 1 })
              | _, _ => .ok (-ENOMEM, none)

end Kernel

/-- A region descriptor as it lies on the medium (`struct axfs_region_desc_onmedia`, 40
bytes): four big-endian `u64`, the two `u8` and six bytes of padding. -/
def Kernel.descriptor_bytes (fsoffset size compressed_size max_index : Nat)
    (table_byte_depth incore : Byte) : List Byte :=
  let w := fun (v : Nat) => (List.range 8).map fun k => byteOf v (7 - k)
  w fsoffset ++ w size ++ w compressed_size ++ w max_index ++
    [table_byte_depth, incore, 0, 0, 0, 0, 0, 0]

/-- A block device holding an image whose only non-empty region is `modes`: an all-zero
descriptor at offset 0, the descriptor of `modes` at offset 40 and its table at offset 80,
one entry of depth 4 with the given mode. -/
def Kernel.rootOnlyDevice (mode : Nat) : Kernel.Media where
  window := []
  blockdev := Kernel.descriptor_bytes 0 0 0 0 0 0 ++ Kernel.descriptor_bytes 80 4 0 1 4 0 ++
    [byteOf mode 0, byteOf mode 1, byteOf mode 2, byteOf mode 3]
  s_blocksize := 512

/-- The superblock of the image on `rootOnlyDevice`: every region but `modes` uses the
all-zero descriptor; the cache buffers are 16 bytes. -/
def Kernel.rootOnlySuper : Kernel.axfs_super_onmedia :=
  { Kernel.superblock_with_magic (be32_of 0x48A0E4CD) with
    signature := Kernel.AXFS_SIGNATURE
    cblock_size := be32_of 16
    modes := be64_of 40 }

/-- A kernel in which every allocation succeeds and fresh memory is zero. -/
def Kernel.plainVfs : Kernel.Vfs := Kernel.Vfs.mk true true [] []

/-- The in-core superblock `axfs_do_fill_super` fills from the image on `rootOnlyDevice`
with mode 040755: the `modes` region at offset 80 and its four lanes. -/
def Kernel.rootOnlySbi : Kernel.axfs_super_incore :=
  { Kernel.fresh_sbi 0 0 with
    magic := 0x48A0E4CD
    cblock_size := 16
    modes := Kernel.axfs_region_desc_incore.mk 80 4 0 1 (some [237, 65, 0, 0]) 4 0
    metadata := List.replicate 77 none ++
      [some [237, 65, 0, 0], some [65, 0, 0], some [0, 0], some [0]] ++ List.replicate 8 none }

/-! ## The kernel read path: `axfs_copy_data` and `axfs_readpage` (`axfs_inode.c`) -/

namespace Kernel

/-- `PAGE_CACHE_SHIFT`, 12 as `axfs.cpp` defines it (the header of the kernel that defines
it for `axfs_inode.c` is not part of the repository). -/
def PAGE_CACHE_SHIFT : Nat := 12

/-- `PAGE_CACHE_SIZE`. -/
def PAGE_CACHE_SIZE : Nat := 2 ^ PAGE_CACHE_SHIFT

/-- The enumerators `Compressed` and `Byte_Aligned` of `enum axfs_node_types`
(axfs_fs.h:73-77); `XIP` is 0. -/
def Compressed : Nat := 1

/-- The enumerator `Byte_Aligned`. -/
def Byte_Aligned : Nat := 2

/-- `memset(dst + off, c, n)` on an allocation. -/
def memset (dst : List Byte) (off : Nat) (c : Byte) (n : Nat) : Except Fault (List Byte) :=
  if off + n ≤ dst.length then .ok (dst.take off ++ (List.replicate n c ++ dst.drop (off + n)))
  else .error .outOfBounds

/-- The value of `mmapped` before the `memcpy` of `axfs_copy_data` (axfs_inode.c:213-221). -/
def axfs_copy_data_mmapped (sbi : axfs_super_incore) (region : axfs_region_desc_incore)
    (offset len : Nat) : Nat :=
  match region.virt_addr with
  | none => 0
  | some _ =>
    if sbi.mmap_size > (region.fsoffset + offset + len) % U64 then len
    else if sbi.mmap_size > (region.fsoffset + offset) % U64 then
      (sbi.mmap_size + U64 - (region.fsoffset + offset) % U64) % U64
    else 0

/-- `axfs_copy_data(sb, dst, region, offset, len)` (axfs_inode.c:202-231): the new content
of the allocation at `dst`. -/
def axfs_copy_data (m : Media) (sbi : axfs_super_incore) (dst : List Byte)
    (region : axfs_region_desc_incore) (offset len : Nat) : Except Fault (List Byte) :=
  if len = 0 then .ok dst
  else
    match (if axfs_copy_data_mmapped sbi region offset len ≠ 0 then
        memcpy dst 0 (region.virt_addr.getD []) offset
          (axfs_copy_data_mmapped sbi region offset len)
      else .ok dst) with
    | .error e => .error e
    | .ok dst =>
      match axfs_copy_block_data m (dst.drop (axfs_copy_data_mmapped sbi region offset len))
          ((AXFS_FSOFFSET_2_BLOCKOFFSET sbi region.fsoffset + offset
            + axfs_copy_data_mmapped sbi region offset len) % U64)
          ((len + U64 - axfs_copy_data_mmapped sbi region offset len) % U64) with
      | .error e => .error e
      | .ok d => .ok (dst.take (axfs_copy_data_mmapped sbi region offset len) ++ d)

/-- The block `if (cnode_index != sbi->current_cnode_index)` of `axfs_readpage`
(axfs_inode.c:815-820).  `len` is a `u32`; the result of `axfs_uncompress_block` is not
assigned.  The two cache buffers are the allocations of `axfs_fill_super`. -/
def axfs_readpage_fill (m : Media) (z : Zlib) (sbi : axfs_super_incore) (cnode_index : Nat) :
    Except Fault axfs_super_incore :=
  if cnode_index ≠ sbi.current_cnode_index then
    match AXFS_GET_CBLOCK_OFFSET sbi.metadata cnode_index with
    | .error e => .error e
    | .ok offset =>
      match AXFS_GET_CBLOCK_OFFSET sbi.metadata ((cnode_index + 1) % U64) with
      | .error e => .error e
      | .ok next =>
        match sbi.cblock_buffer0, sbi.cblock_buffer1 with
        | some b0, some b1 =>
          match axfs_copy_data m sbi b1 sbi.compressed offset
              ((next + U64 - offset) % U64 % 2 ^ 32) with
          | .error e => .error e
          | .ok b1 =>
            match axfs_uncompress_block z b0 (toInt32 sbi.cblock_size) b1
                (toInt32 ((next + U64 - offset) % U64 % 2 ^ 32)) with
            | .error e => .error e
            | .ok r =>
              .ok { sbi with
                cblock_buffer0 := some r.1
                cblock_buffer1 := some b1
                current_cnode_index := cnode_index }
        | _, _ => .error .nullDeref
  else .ok sbi

/-- The branch `node_type == Compressed` of `axfs_readpage` (axfs_inode.c:811-829): the
superblock with its cache, the page and `len`. -/
def axfs_readpage_compressed (m : Media) (z : Zlib) (sbi : axfs_super_incore)
    (node_index : Nat) (pgdata : List Byte) :
    Except Fault (axfs_super_incore × List Byte × Nat) :=
  match AXFS_GET_CNODE_OFFSET sbi.metadata node_index with
  | .error e => .error e
  | .ok cnode_offset =>
    match AXFS_GET_CNODE_INDEX sbi.metadata node_index with
    | .error e => .error e
    | .ok cnode_index =>
      match axfs_readpage_fill m z sbi cnode_index with
      | .error e => .error e
      | .ok sbi =>
        match sbi.cblock_buffer0 with
        | none => .error .nullDeref
        | some b0 =>
          let max_len := (sbi.cblock_size + 2 ^ 32 - cnode_offset) % 2 ^ 32
          let len := if max_len > PAGE_CACHE_SIZE then PAGE_CACHE_SIZE else max_len
          match memcpy pgdata 0 b0 cnode_offset len with
          | .error e => .error e
          | .ok pgdata => .ok (sbi, pgdata, len)

/-- The branch `node_type == Byte_Aligned` of `axfs_readpage` (axfs_inode.c:830-835). -/
def axfs_readpage_byte_aligned (m : Media) (sbi : axfs_super_incore) (node_index : Nat)
    (pgdata : List Byte) : Except Fault (axfs_super_incore × List Byte × Nat) :=
  match AXFS_GET_BANODE_OFFSET sbi.metadata node_index with
  | .error e => .error e
  | .ok offset =>
    let max_len := (sbi.byte_aligned.size + U64 - offset) % U64 % 2 ^ 32
    let len := if max_len > PAGE_CACHE_SIZE then PAGE_CACHE_SIZE else max_len
    match axfs_copy_data m sbi pgdata sbi.byte_aligned offset len with
    | .error e => .error e
    | .ok pgdata => .ok (sbi, pgdata, len)

/-- The final `else` of `axfs_readpage`, commented `node is XIP` (axfs_inode.c:836-840). -/
def axfs_readpage_xip (m : Media) (sbi : axfs_super_incore) (node_index : Nat)
    (pgdata : List Byte) : Except Fault (axfs_super_incore × List Byte × Nat) :=
  match axfs_copy_data m sbi pgdata sbi.xip (node_index * 2 ^ PAGE_SHIFT % U64)
      PAGE_CACHE_SIZE with
  | .error e => .error e
  | .ok pgdata => .ok (sbi, pgdata, PAGE_CACHE_SIZE)

/-- The body of `if (page->index < maxblock)` of `axfs_readpage` (axfs_inode.c:805-841). -/
def axfs_readpage_node (m : Media) (z : Zlib) (sbi : axfs_super_incore)
    (axfs_inode_number index : Nat) (pgdata : List Byte) :
    Except Fault (axfs_super_incore × List Byte × Nat) :=
  match AXFS_GET_INODE_ARRAY_INDEX sbi.metadata axfs_inode_number with
  | .error e => .error e
  | .ok array_index =>
    match AXFS_GET_NODE_INDEX sbi.metadata ((array_index + index) % U64) with
    | .error e => .error e
    | .ok node_index =>
      match AXFS_GET_NODE_TYPE sbi.metadata ((array_index + index) % U64) with
      | .error e => .error e
      | .ok node_type =>
        if node_type = Compressed then axfs_readpage_compressed m z sbi node_index pgdata
        else if node_type = Byte_Aligned then axfs_readpage_byte_aligned m sbi node_index pgdata
        else axfs_readpage_xip m sbi node_index pgdata

/-- `axfs_readpage(file, page)` (axfs_inode.c:778-849) for the page `index` of the inode
`host`, `pgdata` being the `PAGE_CACHE_SIZE` bytes `kmap(page)` returns: the result code,
the superblock with its cache, and the page. -/
def axfs_readpage (m : Media) (z : Zlib) (sbi : axfs_super_incore) (host : inode)
    (index : Nat) (pgdata : List Byte) : Except Fault (Int × axfs_super_incore × List Byte) :=
  match (if index < (host.i_size + PAGE_CACHE_SIZE - 1) % U64 / 2 ^ PAGE_CACHE_SHIFT then
      axfs_readpage_node m z sbi host.i_ino index pgdata
    else .ok (sbi, pgdata, 0)) with
  | .error e => .error e
  | .ok (sbi, pgdata, len) =>
    match memset pgdata len 0 ((PAGE_CACHE_SIZE + U64 - len) % U64) with
    | .error e => .error e
    | .ok pgdata => .ok (0, sbi, pgdata)

end Kernel

/-! ## Directories in the kernel: `axfs_readdir` and `axfs_lookup` (`axfs_inode.c`) -/

namespace Kernel

/-- `strlen(s)` on the bytes readable from `s` on: the number of bytes in front of the first
NUL; running off the readable bytes is a fault. -/
def strlen : List Byte → Except Fault Nat
  | [] => .error .outOfBounds
  | b :: bs =>
    if b = 0 then .ok 0
    else
      match strlen bs with
      | .error e => .error e
      | .ok n => .ok (n + 1)

/-- `AXFS_GET_INODE_NAME_ADDRESS(sbi, inode_index)` (axfs_fs.h:315-316) as the bytes readable
from that address on; with `strings.virt_addr == NULL` nothing is. -/
def AXFS_GET_INODE_NAME_ADDRESS (sbi : axfs_super_incore) (inode_index : Nat) :
    Except Fault (List Byte) :=
  match AXFS_GET_INODE_NAME_OFFSET sbi.metadata inode_index with
  | .error e => .error e
  | .ok off =>
    match sbi.strings.virt_addr with
    | none => .error .nullDeref
    | some va => .ok (va.drop off)

/-- The arguments of one call of `filldir`: the name (the `namelen` bytes at `name`),
`namelen`, the offset `(loff_t) dir_index`, the inode number and `(int) AXFS_GET_MODE`. -/
structure dir_entry where
  name : List Byte
  namelen : Int
  offset : Nat
  ino : Nat
  d_type : Int
  deriving DecidableEq, Repr

/-- One pass through the body of the `while` loop of `axfs_readdir` (axfs_inode.c:616-636)
at `dir_index`: whether the loop goes on (`false` after the `break`), the new `dir_index`,
which is also what `filp->f_pos` holds, and the calls of `filldir` made, `filldir` being
given the calls made before. -/
def axfs_readdir_body (sbi : axfs_super_incore) (filldir : List dir_entry → dir_entry → Int)
    (dir_inode_number dir_index : Nat) (calls : List dir_entry) :
    Except Fault (Bool × Nat × List dir_entry) :=
  match AXFS_GET_INODE_ARRAY_INDEX sbi.metadata dir_inode_number with
  | .error e => .error e
  | .ok first =>
    match AXFS_GET_INODE_NAME_ADDRESS sbi ((first + dir_index) % U64) with
    | .error e => .error e
    | .ok name =>
      match strlen name with
      | .error e => .error e
      | .ok len =>
        match AXFS_GET_MODE sbi.metadata ((first + dir_index) % U64) with
        | .error e => .error e
        | .ok mode =>
          if filldir calls (dir_entry.mk (name.take len) (toInt32 len) dir_index
              ((first + dir_index) % U64) (toInt32 mode)) ≠ 0 then
            .ok (false, dir_index, calls ++ [dir_entry.mk (name.take len) (toInt32 len)
              dir_index ((first + dir_index) % U64) (toInt32 mode)])
          else
            .ok (true, (dir_index + 1) % U64, calls ++ [dir_entry.mk (name.take len)
              (toInt32 len) dir_index ((first + dir_index) % U64) (toInt32 mode)])

/-- The `while` loop of `axfs_readdir` (axfs_inode.c:614-637), cut off after `fuel`
iterations: `f_pos` at the end and the calls of `filldir` made. -/
def axfs_readdir_loop (sbi : axfs_super_incore) (filldir : List dir_entry → dir_entry → Int)
    (dir_inode_number : Nat) : Nat → Nat → List dir_entry → Except Fault (Nat × List dir_entry)
  | 0, dir_index, calls =>
    match AXFS_GET_INODE_NUM_ENTRIES sbi.metadata dir_inode_number with
    | .error e => .error e
    | .ok n => if dir_index < n then .error .outOfFuel else .ok (dir_index, calls)
  | fuel + 1, dir_index, calls =>
    match AXFS_GET_INODE_NUM_ENTRIES sbi.metadata dir_inode_number with
    | .error e => .error e
    | .ok n =>
      if dir_index < n then
        match axfs_readdir_body sbi filldir dir_inode_number dir_index calls with
        | .error e => .error e
        | .ok (true, dir_index, calls) =>
          axfs_readdir_loop sbi filldir dir_inode_number fuel dir_index calls
        | .ok (false, dir_index, calls) => .ok (dir_index, calls)
      else .ok (dir_index, calls)

/-- `axfs_readdir(filp, dirent, filldir)` (axfs_inode.c:591-642) on the inode of `filp` and
`filp->f_pos` (kept as the `u64` it converts to): the result code, `filp->f_pos` afterwards
and the calls of `filldir`.  Every iteration that goes on raises `dir_index` by one, so the
entries from `f_pos` on bound the iterations. -/
def axfs_readdir (sbi : axfs_super_incore) (filldir : List dir_entry → dir_entry → Int)
    (d_inode : inode) (f_pos : Nat) : Except Fault (Int × Nat × List dir_entry) :=
  match AXFS_GET_INODE_NUM_ENTRIES sbi.metadata d_inode.i_ino with
  | .error e => .error e
  | .ok n =>
    -- if (dir_index >= AXFS_GET_INODE_NUM_ENTRIES(...)) goto out;
    if f_pos ≥ n then .ok (0, f_pos, [])
    -- if (!(S_ISDIR(inode->i_mode))) { err = -EINVAL; goto out; }  ...  out: return 0;
    else if !S_ISDIR d_inode.i_mode then .ok (0, f_pos, [])
    else
      match axfs_readdir_loop sbi filldir d_inode.i_ino (n - f_pos) f_pos [] with
      | .error e => .error e
      | .ok r => .ok (0, r.1, r.2)

/-- `memcmp(a, b, n)` on the bytes readable from the two pointers: 0, or the difference of
the first two bytes that differ. -/
def memcmp : List Byte → List Byte → Nat → Except Fault Int
  | _, _, 0 => .ok 0
  | [], _, _ + 1 => .error .outOfBounds
  | _ :: _, [], _ + 1 => .error .outOfBounds
  | a :: as, b :: bs, n + 1 =>
    if a ≠ b then .ok ((a.val : Int) - (b.val : Int)) else memcmp as bs n

/-- The value of a `char` holding the byte `b`; whether `char` is signed depends on the
target the kernel is built for. -/
def char_value (char_signed : Bool) (b : Byte) : Int :=
  if char_signed ∧ 128 ≤ b.val then (b.val : Int) - 256 else (b.val : Int)

/-- How one pass through the body of the `while` loop of `axfs_lookup` ends: with
`continue`, with `break`, or with the `d_add` of the inode found and `goto out`. -/
inductive lookup_step where
  | continue_
  | break_
  | found (d_inode : Option inode)
  deriving DecidableEq, Repr

/-- One pass through the body of the `while` loop of `axfs_lookup` (axfs_inode.c:524-563) at
`dir_index`.  `d_name` holds the `d_name.len` bytes of the name, which a NUL follows in
memory. -/
def axfs_lookup_body (char_signed iget5_locked : Bool) (sbi : axfs_super_incore)
    (dir_inode_number : Nat) (d_name : List Byte) (dir_index : Nat) :
    Except Fault lookup_step :=
  match AXFS_GET_INODE_ARRAY_INDEX sbi.metadata dir_inode_number with
  | .error e => .error e
  | .ok first =>
    match AXFS_GET_INODE_NAME_ADDRESS sbi ((first + dir_index) % U64) with
    | .error e => .error e
    | .ok name =>
      match strlen name with
      | .error e => .error e
      | .ok len =>
        if ((d_name.headD 0).val : Int) < char_value char_signed (name.headD 0) then
          .ok .break_
        else if (d_name.length : Int) % 2 ^ 32 ≠ toInt32 len % 2 ^ 32 then .ok .continue_
        else
          match memcmp (d_name ++ [0]) name (toInt32 len % 2 ^ 64).toNat with
          | .error e => .error e
          | .ok err =>
            if err > 0 then .ok .continue_
            else if err = 0 then
              match axfs_create_vfs_inode iget5_locked sbi
                  (toInt32 ((first + dir_index) % U64)) with
              | .error e => .error e
              | .ok d_inode => .ok (.found d_inode)
            else .ok .break_

/-- The `while` loop of `axfs_lookup` (axfs_inode.c:522-565) with the `d_add` it ends in, cut
off after `fuel` iterations: the inode the dentry is bound to, `none` for `NULL`;
`dir_index++` precedes every `continue`. -/
def axfs_lookup_loop (char_signed iget5_locked : Bool) (sbi : axfs_super_incore)
    (dir_inode_number : Nat) (d_name : List Byte) : Nat → Nat → Except Fault (Option inode)
  | 0, dir_index =>
    match AXFS_GET_INODE_NUM_ENTRIES sbi.metadata dir_inode_number with
    | .error e => .error e
    | .ok n => if dir_index < n then .error .outOfFuel else .ok none
  | fuel + 1, dir_index =>
    match AXFS_GET_INODE_NUM_ENTRIES sbi.metadata dir_inode_number with
    | .error e => .error e
    | .ok n =>
      if dir_index < n then
        match axfs_lookup_body char_signed iget5_locked sbi dir_inode_number d_name
            dir_index with
        | .error e => .error e
        | .ok .continue_ =>
          axfs_lookup_loop char_signed iget5_locked sbi dir_inode_number d_name fuel
            ((dir_index + 1) % U64)
        | .ok .break_ => .ok none
        | .ok (.found d_inode) => .ok d_inode
      else .ok none

/-- `axfs_lookup(dir, dentry, nd)` (axfs_inode.c:511-568): the inode `d_add` binds the
dentry to.  Every iteration that goes on raises `dir_index` by one, so the number of entries
bounds the iterations. -/
def axfs_lookup (char_signed iget5_locked : Bool) (sbi : axfs_super_incore) (dir : inode)
    (d_name : List Byte) : Except Fault (Option inode) :=
  match AXFS_GET_INODE_NUM_ENTRIES sbi.metadata dir.i_ino with
  | .error e => .error e
  | .ok n => axfs_lookup_loop char_signed iget5_locked sbi dir.i_ino d_name n 0

end Kernel

/-- The name of an inode as `axfs_readdir` and `axfs_lookup` take it: the bytes at
`AXFS_GET_INODE_NAME_ADDRESS` in front of the NUL that `strlen` finds. -/
def Kernel.inode_name (sbi : Kernel.axfs_super_incore) (inode_index : Nat) :
    Except Fault (List Byte) :=
  match Kernel.AXFS_GET_INODE_NAME_ADDRESS sbi inode_index with
  | .error e => .error e
  | .ok name =>
    match Kernel.strlen name with
    | .error e => .error e
    | .ok len => .ok (name.take len)

/-- The metadata struct whose lanes are the listed ones (index and bytes) and `NULL`
elsewhere. -/
def Kernel.metadata_of (lanes : List (Nat × List Byte)) : List (Option (List Byte)) :=
  (List.range 89).map fun i => lanes.lookup i

/-- A mounted superblock with three inodes, all tables one byte deep but `modes`: inode 0
is the root directory (mode 040755) with the entries 1 and 2; inode 1 is the regular file
`a` (mode 0100644, 5 bytes, one ByteAligned node holding `hello`); inode 2 is the empty
regular file `b`. -/
def Kernel.dirSbi : Kernel.axfs_super_incore :=
  { Kernel.fresh_sbi 0 0 with
    cblock_size := 16
    cblock_buffer0 := some (List.replicate 16 0)
    cblock_buffer1 := some (List.replicate 16 0)
    current_cnode_index := U64 - 1
    strings := { Kernel.zero_region with size := 5, virt_addr := some [0, 97, 0, 98, 0] }
    byte_aligned :=
      { Kernel.zero_region with size := 5, virt_addr := some (asciiBytes "hello") }
    metadata := Kernel.metadata_of
      [(0, [2]), (1, [0]), (21, [0]), (37, [0, 5, 0]), (45, [0, 1, 3]), (53, [2, 1, 0]),
       (61, [0, 1, 1]), (69, [1, 0, 0]), (77, [0xED, 0xA4]), (78, [0x41, 0x81])] }

/-! ## Opening an image: `axfs::load` (`axfs.cpp`) and the superblock copy of the kernel

`axfs.cpp` is written for the Microsoft compiler (`fopen_s`, `_byteswap_ulong`): `long` has
32 bits, `size_t` is taken to have 64, and the structs have their natural alignment, so
`sizeof(axfs_super_onmedia)` is 264 (`timestamp` at 248, `page_shift` at 256) and
`sizeof(axfs_region_desc_onmedia)` is 40. -/

/-- The `__be32` at offset `off` of a buffer; bytes behind its end read as 0. -/
def be32_in (bs : List Byte) (off : Nat) : be32 :=
  be32.mk (bs.getD off 0) (bs.getD (off + 1) 0) (bs.getD (off + 2) 0) (bs.getD (off + 3) 0)

/-- The `__be64` at offset `off` of a buffer. -/
def be64_in (bs : List Byte) (off : Nat) : be64 :=
  be64.mk (bs.getD off 0) (bs.getD (off + 1) 0) (bs.getD (off + 2) 0) (bs.getD (off + 3) 0)
    (bs.getD (off + 4) 0) (bs.getD (off + 5) 0) (bs.getD (off + 6) 0) (bs.getD (off + 7) 0)

/-- The `n` bytes at offset `off` of a buffer. -/
def bytes_in (bs : List Byte) (off n : Nat) : List Byte :=
  (List.range n).map fun k => bs.getD (off + k) 0

/-- The object `superblock` of `struct axfs` once `fread` has stored the bytes `bs` in it. -/
def super_of_bytes (bs : List Byte) : axfs_super_onmedia where
  magic := be32_in bs 0
  signature := bytes_in bs 4 16
  digest := bytes_in bs 20 40
  cblock_size := be32_in bs 60
  files := be64_in bs 64
  size := be64_in bs 72
  blocks := be64_in bs 80
  mmap_size := be64_in bs 88
  strings := be64_in bs 96
  xip := be64_in bs 104
  byte_aligned := be64_in bs 112
  compressed := be64_in bs 120
  node_type := be64_in bs 128
  node_index := be64_in bs 136
  cnode_offset := be64_in bs 144
  cnode_index := be64_in bs 152
  banode_offset := be64_in bs 160
  cblock_offset := be64_in bs 168
  inode_file_size := be64_in bs 176
  inode_name_offset := be64_in bs 184
  inode_num_entries := be64_in bs 192
  inode_mode_index := be64_in bs 200
  inode_array_index := be64_in bs 208
  modes := be64_in bs 216
  uids := be64_in bs 224
  gids := be64_in bs 232
  version_major := bs.getD 240 0
  version_minor := bs.getD 241 0
  version_sub := bs.getD 242 0
  compression_type := bs.getD 243 0
  timestamp := be64_in bs 248
  page_shift := bs.getD 256 0

/-- `fseek(file, (long) offset, SEEK_SET)` on the position of the stream: a negative `long`
is refused and leaves the position where it was. -/
def fseek (pos offset : Nat) : Nat :=
  if toInt32 offset < 0 then pos else (toInt32 offset).toNat

/-- `fread(buf, n, 1, file)` at position `pos` of the file: the `n` bytes read.  A file too
short for them leaves part of the object indeterminate; the model stops there. -/
def fread (file : List Byte) (pos n : Nat) : Except Fault (List Byte) :=
  if n = 0 then .ok []
  else if pos + n ≤ file.length then .ok ((file.drop pos).take n)
  else .error .outOfBounds

/-- `loadRegionImpl(name, region, file, offset)` (axfs.cpp:140-151) with the stream at
position `pos`: the region loaded and the new position. -/
def loadRegionImpl (file : List Byte) (pos offset : Nat) : Except Fault (axfs_region × Nat) :=
  match fread file (fseek pos offset) 40 with
  | .error e => .error e
  | .ok d =>
    if be64_to_cpu (be64_in d 16) ≠ 0 then .error .assertFailed
    else
      match fread file (fseek (fseek pos offset + 40) (be64_to_cpu (be64_in d 0)))
          (be64_to_cpu (be64_in d 8)) with
      | .error e => .error e
      | .ok data =>
        .ok (axfs_region.mk (be64_to_cpu (be64_in d 0)) (be64_to_cpu (be64_in d 8))
            (be64_to_cpu (be64_in d 16)) (be64_to_cpu (be64_in d 24)) (d.getD 32 0).val
            (d.getD 33 0).val data,
          fseek (fseek pos offset + 40) (be64_to_cpu (be64_in d 0))
            + be64_to_cpu (be64_in d 8))

/-- The `loadRegion` calls of `axfs::load` for the descriptor offsets listed. -/
def loadRegions (file : List Byte) : List Nat → Nat → Except Fault (List axfs_region)
  | [], _ => .ok []
  | offset :: rest, pos =>
    match loadRegionImpl file pos offset with
    | .error e => .error e
    | .ok (region, pos) =>
      match loadRegions file rest pos with
      | .error e => .error e
      | .ok regions => .ok (region :: regions)

/-- `axfs::load(filename)` (axfs.cpp:185-219) on the content of the file, `none` when
`fopen_s` does not open it; `garbage` is what the memory of `cblock_buffer` holds when
`malloc` returns it.  The result is the object with its members set. -/
def axfs.load (file : Option (List Byte)) (garbage : List Byte) : Except Fault axfs :=
  match file with
  | none => .error .assertFailed
  | some file =>
    match fread file 0 264 with
    | .error e => .error e
    | .ok bs =>
      if be32_to_cpu (super_of_bytes bs).magic ≠ 0x48A0E4CD then .error .assertFailed
      else if (super_of_bytes bs).compression_type ≠ 0 then .error .assertFailed
      else
        match loadRegions file
            [be64_to_cpu (super_of_bytes bs).xip, be64_to_cpu (super_of_bytes bs).strings,
             be64_to_cpu (super_of_bytes bs).compressed,
             be64_to_cpu (super_of_bytes bs).byte_aligned,
             be64_to_cpu (super_of_bytes bs).node_type,
             be64_to_cpu (super_of_bytes bs).node_index,
             be64_to_cpu (super_of_bytes bs).cnode_offset,
             be64_to_cpu (super_of_bytes bs).cnode_index,
             be64_to_cpu (super_of_bytes bs).banode_offset,
             be64_to_cpu (super_of_bytes bs).cblock_offset,
             be64_to_cpu (super_of_bytes bs).inode_file_size,
             be64_to_cpu (super_of_bytes bs).inode_name_offset,
             be64_to_cpu (super_of_bytes bs).inode_num_entries,
             be64_to_cpu (super_of_bytes bs).inode_mode_index,
             be64_to_cpu (super_of_bytes bs).inode_array_index,
             be64_to_cpu (super_of_bytes bs).modes, be64_to_cpu (super_of_bytes bs).uids,
             be64_to_cpu (super_of_bytes bs).gids] 264 with
        | .error e => .error e
        | .ok [xip, strings, compressed, byte_aligned, node_type, node_index, cnode_offset,
            cnode_index, banode_offset, cblock_offset, inode_file_size, inode_name_offset,
            inode_num_entries, inode_mode_index, inode_array_index, modes, uids, gids] =>
          .ok (axfs.mk (super_of_bytes bs) strings xip compressed byte_aligned node_type
            node_index cnode_offset cnode_index banode_offset cblock_offset inode_file_size
            inode_name_offset inode_num_entries inode_mode_index inode_array_index modes uids
            gids (stackBuffer (be32_to_cpu (super_of_bytes bs).cblock_size) garbage)
            (U64 - 1))
        | .ok _ => .error .bug

/-- The copy `fsi->onmedia_super_block` that the `axfs_get_sb_*` functions of the kernel take
from the start of the image (`memcpy` of `sizeof(struct axfs_super_onmedia)` bytes,
axfs_super.c:683, 733, 806, 1011): the struct of the kernel ends with `version_sub` at
offset 242. -/
def Kernel.onmedia_super_block (image : List Byte) : Kernel.axfs_super_onmedia where
  magic := be32_in image 0
  signature := bytes_in image 4 16
  digest := bytes_in image 20 40
  cblock_size := be32_in image 60
  files := be64_in image 64
  size := be64_in image 72
  blocks := be64_in image 80
  mmap_size := be64_in image 88
  strings := be64_in image 96
  xip := be64_in image 104
  byte_aligned := be64_in image 112
  compressed := be64_in image 120
  node_type := be64_in image 128
  node_index := be64_in image 136
  cnode_offset := be64_in image 144
  cnode_index := be64_in image 152
  banode_offset := be64_in image 160
  cblock_offset := be64_in image 168
  inode_file_size := be64_in image 176
  inode_name_offset := be64_in image 184
  inode_num_entries := be64_in image 192
  inode_mode_index := be64_in image 200
  inode_array_index := be64_in image 208
  modes := be64_in image 216
  uids := be64_in image 224
  gids := be64_in image 232
  version_major := image.getD 240 0
  version_minor := image.getD 241 0
  version_sub := image.getD 242 0

/-- The image on `rootOnlyDevice` as one file that starts with its superblock (264 bytes, the
given byte at offset 243, `page_shift` 12): the all-zero descriptor at offset 264 serves
every region but `modes`, whose descriptor is at 304 and whose table, one mode 040755 of
depth 4, is at 344. -/
def Kernel.rootOnlyImage (compression_type : Byte) : List Byte :=
  let w := fun (v : Nat) => (List.range 8).map fun k => byteOf v (7 - k)
  [0x48, 0xA0, 0xE4, 0xCD] ++ Kernel.AXFS_SIGNATURE ++ List.replicate 40 0 ++ [0, 0, 0, 16] ++
    List.replicate 32 0 ++ (List.replicate 15 (w 264)).flatten ++ w 304 ++ w 264 ++ w 264 ++
    [0, 0, 0, compression_type] ++ List.replicate 4 0 ++ List.replicate 8 0 ++ [12] ++
    List.replicate 7 0 ++ Kernel.descriptor_bytes 0 0 0 0 0 0 ++
    Kernel.descriptor_bytes 344 4 0 1 4 0 ++ [0xED, 0x41, 0, 0]

/-- A mounted superblock whose whole image is memory mapped (`mmap_size` 65536): inode 0 is a
file of 4096 bytes with one node of the given type byte and node index 0; the XIP region
holds one page of `0xAB`, the compressed region the 8 bytes of cblock 0 (`cblock_offset`
0, 8), and the two cache buffers of `cblock_size` 16 bytes hold `0x55` and 0. -/
def Kernel.pageSbi (node_type : Byte) : Kernel.axfs_super_incore :=
  { Kernel.fresh_sbi 0 1 with
    mmap_size := 65536
    cblock_size := 16
    cblock_buffer0 := some (List.replicate 16 0x55)
    cblock_buffer1 := some (List.replicate 16 0)
    current_cnode_index := U64 - 1
    xip := { Kernel.zero_region with
      fsoffset := 4096, size := 4096, virt_addr := some (List.replicate 4096 0xAB) }
    compressed := { Kernel.zero_region with
      fsoffset := 8192, size := 8, virt_addr := some [1, 2, 3, 4, 5, 6, 7, 8] }
    metadata := Kernel.metadata_of
      [(0, [node_type]), (1, [0]), (9, [0]), (13, [0]), (29, [0, 8]), (37, [0]), (38, [16]),
       (69, [0])] }

/-- An inflater that stores the first four bytes of its input and then gives up
(`Z_BUF_ERROR`). -/
def Kernel.partialZlib : Kernel.Zlib where
  zlib_inflate := fun src _ _ => (src.take 4, -5)

/-! ## The one-slot cache across calls -/

/-- A sequence of `axfs_readpage` calls (inode, page index, page memory), each on the cache
the one before left; the superblock after the last. -/
def Kernel.readpage_calls (m : Kernel.Media) (z : Kernel.Zlib) :
    Kernel.axfs_super_incore → List (Kernel.inode × Nat × List Byte) →
      Except Fault Kernel.axfs_super_incore
  | sbi, [] => .ok sbi
  | sbi, (host, index, pgdata) :: rest =>
    match Kernel.axfs_readpage m z sbi host index pgdata with
    | .error e => .error e
    | .ok r => Kernel.readpage_calls m z r.2.1 rest

/-- What the cache of the kernel holds when its key is not the initial `(u64)-1`: the second
buffer is the result of `axfs_copy_data` for the compressed bytes of the cblock
`current_cnode_index`, and the first buffer begins with the bytes `zlib_inflate` stored when
run on them. -/
def Kernel.cache_coherent (m : Kernel.Media) (z : Kernel.Zlib)
    (sbi : Kernel.axfs_super_incore) : Prop :=
  sbi.current_cnode_index = U64 - 1 ∨
    ∃ off next b0 b1 b1_old,
      Kernel.AXFS_GET_CBLOCK_OFFSET sbi.metadata sbi.current_cnode_index = .ok off ∧
      Kernel.AXFS_GET_CBLOCK_OFFSET sbi.metadata ((sbi.current_cnode_index + 1) % U64)
        = .ok next ∧
      sbi.cblock_buffer0 = some b0 ∧ sbi.cblock_buffer1 = some b1 ∧
      Kernel.axfs_copy_data m sbi b1_old sbi.compressed off
        ((next + U64 - off) % U64 % 2 ^ 32) = .ok b1 ∧
      (z.zlib_inflate b1 (toInt32 ((next + U64 - off) % U64 % 2 ^ 32))
        (toInt32 sbi.cblock_size)).1 <+: b0

/-- Cache coherence in the words of the specification: when the key is not the initial
`(u64)-1`, the cache buffer equals the result of inflating the compressed bytes of the cblock
`current_cnode_index`, inflating being partial: it has a result only when `zlib_inflate`
ends with `Z_STREAM_END`. -/
def Kernel.cache_holds_plaintext (m : Kernel.Media) (z : Kernel.Zlib)
    (sbi : Kernel.axfs_super_incore) : Prop :=
  sbi.current_cnode_index = U64 - 1 ∨
    ∃ off next b0 b1 b1_old,
      Kernel.AXFS_GET_CBLOCK_OFFSET sbi.metadata sbi.current_cnode_index = .ok off ∧
      Kernel.AXFS_GET_CBLOCK_OFFSET sbi.metadata ((sbi.current_cnode_index + 1) % U64)
        = .ok next ∧
      sbi.cblock_buffer0 = some b0 ∧ sbi.cblock_buffer1 = some b1 ∧
      Kernel.axfs_copy_data m sbi b1_old sbi.compressed off
        ((next + U64 - off) % U64 % 2 ^ 32) = .ok b1 ∧
      (z.zlib_inflate b1 (toInt32 ((next + U64 - off) % U64 % 2 ^ 32))
        (toInt32 sbi.cblock_size)).2 = Kernel.Z_STREAM_END ∧
      b0 = (z.zlib_inflate b1 (toInt32 ((next + U64 - off) % U64 % 2 ^ 32))
        (toInt32 sbi.cblock_size)).1

/-- The bytes `stbi_zlib_decode_buffer` stores in `cblock_buffer` when `axfs::readFile` fills
its cache from offset `srcOffset` of the compressed region with `len` input bytes. -/
abbrev axfs.inflated (fs : axfs) (z : ZlibDecoder) (srcOffset len : Nat) : List Byte :=
  (z.stbi_zlib_decode_buffer (toInt32 (be32_to_cpu fs.superblock.cblock_size))
    (fs.compressed.data.drop srcOffset) (toInt32 len)).1

/-- What the cache of `axfs.cpp` holds when its key is not the initial `(uint64_t)-1`: the
buffer begins with the bytes the decoder stored when run on the cblock `key`. -/
def axfs.cache_coherent (fs : axfs) (z : ZlibDecoder) (buf : List Byte) (key : Nat) : Prop :=
  key = U64 - 1 ∨
    ∃ so nx, fs.cblock_offset.axfs_bytetable_stitch key = .ok so ∧
      fs.cblock_offset.axfs_bytetable_stitch ((key + 1) % U64) = .ok nx ∧
      so ≤ fs.compressed.data.length ∧
      fs.inflated z so ((nx + U64 - so) % U64) <+: buf

/-- The object after a call of `readFile`: the members `cblock_buffer` and `cachedBlock`
are as the call left them. -/
def axfs.with_cache (fs : axfs) (st : ReadState) : axfs :=
  { fs with cblock_buffer := st.cblock_buffer, cachedBlock := st.cachedBlock }

/-- A sequence of `readFile` calls (inode, destination, start, length), each on the cache the
one before left; the object after the last. -/
def axfs.readFile_calls (z : ZlibDecoder) :
    axfs → List (Nat × List Byte × Nat × Nat) → Except Fault axfs
  | fs, [] => .ok fs
  | fs, (id, data, start, length) :: rest =>
    match fs.readFile z id data start length with
    | .error e => .error e
    | .ok st => axfs.readFile_calls z (fs.with_cache st) rest

/-- `pageSbi 1` after one read of page 0 of inode 0, the first cache buffer then holding
`b0`: the second buffer holds the 8 compressed bytes of cblock 0 and the key is 0. -/
def Kernel.pageSbiRead (b0 : List Byte) : Kernel.axfs_super_incore :=
  { Kernel.pageSbi 1 with
    cblock_buffer0 := some b0
    cblock_buffer1 := some ([1, 2, 3, 4, 5, 6, 7, 8] ++ List.replicate 8 0)
    current_cnode_index := 0 }

/-- A file (inode 1) of 8 bytes in two Compressed pages of a `cblock_size` of 4: page 0 is
cblock 0 (stored bytes 1..4), page 1 is cblock 1 (stored bytes 5..8). -/
def imageTwoCblocks : axfs :=
  { blankImage with
    superblock := superblock_of 4
    compressed := dataRegion [1, 2, 3, 4, 5, 6, 7, 8]
    node_type := tableOf 1 [1, 1]
    node_index := tableOf 8 [0, 1]
    cnode_offset := tableOf 4 [0, 0]
    cnode_index := tableOf 8 [0, 1]
    cblock_offset := tableOf 8 [0, 4, 8]
    inode_file_size := tableOf 8 [0, 8]
    inode_array_index := tableOf 8 [1, 0]
    cblock_buffer := List.replicate 4 0 }

/-! ## A reader without cache, to compare `axfs::readFile` with

These definitions are not in the source: they follow the read path as the specification
describes it, with every Compressed page taken from a fresh inflation of its cblock. -/

/-- The Compressed case without cache: the cblock is inflated afresh, what the decoder
stored has to fit a buffer of `cblock_size` bytes, and the bytes copied,
`min (cblock_size - cnodeOffset) length` of them as in `readFile`, have to lie inside what
was stored. -/
def readFile_plain_compressed (fs : axfs) (z : ZlibDecoder) (nodeIndex : Nat)
    (st : ReadState) : Except Fault ReadState :=
  match fs.cnode_offset.axfs_bytetable_stitch nodeIndex with
  | .error e => .error e
  | .ok cnodeOffset =>
    match fs.cnode_index.axfs_bytetable_stitch nodeIndex with
    | .error e => .error e
    | .ok cnodeIndex =>
      match fs.cblock_offset.axfs_bytetable_stitch cnodeIndex with
      | .error e => .error e
      | .ok srcOffset =>
        match fs.cblock_offset.axfs_bytetable_stitch ((cnodeIndex + 1) % U64) with
        | .error e => .error e
        | .ok next =>
          if srcOffset ≤ fs.compressed.data.length ∧
              (fs.inflated z srcOffset ((next + U64 - srcOffset) % U64)).length
                ≤ be32_to_cpu fs.superblock.cblock_size ∧
              cnodeOffset
                + min ((be32_to_cpu fs.superblock.cblock_size + U64 - cnodeOffset) % U64)
                    st.length
                ≤ (fs.inflated z srcOffset ((next + U64 - srcOffset) % U64)).length then
            match memcpy st.out st.offset
                (fs.inflated z srcOffset ((next + U64 - srcOffset) % U64)) cnodeOffset
                (min ((be32_to_cpu fs.superblock.cblock_size + U64 - cnodeOffset) % U64)
                  st.length) with
            | .error e => .error e
            | .ok out =>
              .ok { st with
                out := out
                length := (st.length + U64
                  - min ((be32_to_cpu fs.superblock.cblock_size + U64 - cnodeOffset) % U64)
                      st.length) % U64
                offset := (st.offset
                  + min ((be32_to_cpu fs.superblock.cblock_size + U64 - cnodeOffset) % U64)
                      st.length) % U64 }
          else .error .outOfBounds

/-- One iteration of the reader without cache: Compressed nodes as above, every other node
as in `readFile`. -/
def readFile_plain_body (fs : axfs) (z : ZlibDecoder) (st : ReadState) :
    Except Fault ReadState :=
  match fs.getNodeIndex st.arrayIndex with
  | .error e => .error e
  | .ok nodeIndex =>
    match fs.getNodeType st.arrayIndex with
    | .error e => .error e
    | .ok type =>
      match (if type = 1 then readFile_plain_compressed fs z nodeIndex st
        else readFile_switch fs z type nodeIndex st) with
      | .error e => .error e
      | .ok st => .ok { st with arrayIndex := (st.arrayIndex + 1) % U64 }

/-- The loop of the reader without cache, cut off after `fuel` iterations. -/
def readFile_plain_loop (fs : axfs) (z : ZlibDecoder) : Nat → ReadState → Except Fault ReadState
  | 0, st => if 0 < st.length then .error .outOfFuel else .ok st
  | fuel + 1, st =>
    if 0 < st.length then
      match readFile_plain_body fs z st with
      | .ok st => readFile_plain_loop fs z fuel st
      | .error e => .error e
    else .ok st

/-- The reader without cache on the arguments of `readFile`; the two cache members of its
state stay empty. -/
def axfs.readFile_plain (fs : axfs) (z : ZlibDecoder) (id : Nat) (data : List Byte)
    (start length : Nat) : Except Fault ReadState :=
  match fs.getFileSize id with
  | .error e => .error e
  | .ok fileSize =>
    match fs.getArrayIndex id with
    | .error e => .error e
    | .ok arrayIndex =>
      readFile_plain_loop fs z (fs.node_index.max_index + 1)
        { length := min ((fileSize + U64 - start % U64) % U64) (length % U64), offset := 0,
          arrayIndex := arrayIndex, out := data, cblock_buffer := [], cachedBlock := 0 }

/-- A file (inode 1) that claims 8 bytes in two Compressed pages of a `cblock_size` of 4,
the first in cblock 1, which holds only the 2 stored bytes 5, 6, the second in cblock 0
(stored bytes 1..4). -/
def imageShortCblock : axfs :=
  { blankImage with
    superblock := superblock_of 4
    compressed := dataRegion [1, 2, 3, 4, 5, 6]
    node_type := tableOf 1 [1, 1]
    node_index := tableOf 8 [0, 1]
    cnode_offset := tableOf 4 [0, 0]
    cnode_index := tableOf 8 [1, 0]
    cblock_offset := tableOf 8 [0, 4, 6]
    inode_file_size := tableOf 8 [0, 8]
    inode_array_index := tableOf 8 [1, 0]
    cblock_buffer := List.replicate 4 0 }

/-- A mounted superblock with the physical start address 1 and a mapped window of 8192
bytes, no region loaded. -/
def Kernel.windowSbi : Kernel.axfs_super_incore :=
  { Kernel.fresh_sbi 1 0 with mmap_size := 8192 }

/-- A block device like `rootOnlyDevice` whose `modes` region is stored compressed: the
descriptor at offset 40 gives 2 compressed bytes at offset 80 for a table of 4 bytes. -/
def Kernel.compressedModesDevice : Kernel.Media where
  window := []
  blockdev := Kernel.descriptor_bytes 0 0 0 0 0 0 ++ Kernel.descriptor_bytes 80 4 2 1 4 0 ++
    [9, 9]
  s_blocksize := 512

/-- An inflater for which the two bytes of `compressedModesDevice` are a complete stream of
the mode table of a root directory with mode 040755: it fills the four bytes asked for and
ends with `Z_STREAM_END`. -/
def Kernel.modesZlib : Kernel.Zlib where
  zlib_inflate := fun _ _ _ => ([237, 65, 0, 0], Kernel.Z_STREAM_END)

/-- One pass of the loop of `axfs_copy_block_data`: the block handed to `sb_bread`, the
offset into `bh->b_data` the `memcpy` reads from, the offset into `dst_addr` it writes to,
and its byte count. -/
structure Kernel.block_chunk where
  block : Nat
  src : Nat
  dst : Nat
  bytes : Nat
  deriving DecidableEq, Repr

/-- The passes of the loop of `axfs_copy_block_data` (axfs_inode.c:156-177) in order, with
`copied` bytes already in place: the same control flow as `axfs_copy_block_data_loop`,
keeping the arguments of `sb_bread` and `memcpy` in place of the bytes. -/
def Kernel.axfs_copy_block_data_chunks (m : Kernel.Media) (boffset len : Nat) :
    Nat → Nat → List Kernel.block_chunk
  | 0, _ => []
  | fuel + 1, copied =>
    if copied < len then
      if copied = 0 then
        let bytes := m.s_blocksize - boffset % m.s_blocksize
        let bytes := if bytes > len then len else bytes
        ⟨(boffset + copied) % U64 / m.s_blocksize, boffset % m.s_blocksize, 0, bytes⟩ ::
          Kernel.axfs_copy_block_data_chunks m boffset len fuel ((copied + bytes) % U64)
      else
        let bytes := if len - copied < m.s_blocksize then len - copied else m.s_blocksize
        ⟨(boffset + copied) % U64 / m.s_blocksize, 0, copied, bytes⟩ ::
          Kernel.axfs_copy_block_data_chunks m boffset len fuel ((copied + bytes) % U64)
    else []

/-- A block device of ten bytes, 10 to 19, in blocks of four bytes. -/
def Kernel.tenByteDevice : Kernel.Media where
  window := []
  blockdev := [10, 11, 12, 13, 14, 15, 16, 17, 18, 19]
  s_blocksize := 4

/-- A region of 8 bytes at offset 8188, so that it straddles the end of the window of
`windowSbi`; its first four bytes are addressable at `virt_addr`. -/
def Kernel.straddlingRegion : Kernel.axfs_region_desc_incore :=
  { Kernel.zero_region with fsoffset := 8188, size := 8, virt_addr := some [1, 2, 3, 4] }

/-- A medium for `windowSbi`: a window of 8192 bytes, 0x57 each, in front of
`tenByteDevice`. -/
def Kernel.windowMedia : Kernel.Media :=
  { Kernel.tenByteDevice with window := List.replicate 8192 0x57 }

/-- The descriptor of a table of two entries in two lanes, its four bytes at `virt_addr`. -/
def Kernel.twoLaneTable : Kernel.axfs_region_desc_incore :=
  { Kernel.zero_region with
    size := 4, max_index := 2, table_byte_depth := 2, virt_addr := some [1, 2, 3, 4] }

/-- The superblock `pageSbi 2` with a window of `2 ^ 33` bytes and a byte-aligned region of
`size` bytes at offset 12288, whose first 4096 bytes, 0xCD each, are addressable at
`virt_addr`: the one node of inode 0 is a ByteAligned node at offset 0 of the region (the
lanes of `banode_offset` are null). -/
def Kernel.alignedSbi (size : Nat) : Kernel.axfs_super_incore :=
  { Kernel.pageSbi 2 with
    mmap_size := 2 ^ 33
    byte_aligned := { Kernel.zero_region with
      fsoffset := 12288, size := size, virt_addr := some (List.replicate 4096 0xCD) } }

/-- The enumerator `XIP` of `enum axfs_node_types` (axfs_fs.h:73-77). -/
def Kernel.XIP : Nat := 0

/-- `AXFS_GET_XIP_REGION_PHYSADDR(sbi)` (axfs_fs.h:312-313), an `unsigned long`. -/
def Kernel.AXFS_GET_XIP_REGION_PHYSADDR (sbi : Kernel.axfs_super_incore) : Nat :=
  (sbi.phys_start_addr + sbi.xip.fsoffset) % U64

/-- One pass of the `for` loop of `axfs_mmap` (axfs_inode.c:431-452), at `array_index`: for
a node of type `XIP` the address `xip_node_address` whose page frame is handed to
`vm_insert_pfn`, `none` for a node of another type, which the loop skips. -/
def Kernel.axfs_mmap_xip_node_address (sbi : Kernel.axfs_super_incore) (array_index : Nat) :
    Except Fault (Option Nat) :=
  match Kernel.AXFS_GET_NODE_TYPE sbi.metadata array_index with
  | .error e => .error e
  | .ok node_type =>
    if node_type = Kernel.XIP then
      match Kernel.AXFS_GET_NODE_INDEX sbi.metadata array_index with
      | .error e => .error e
      | .ok node_index =>
        .ok (some ((Kernel.AXFS_GET_XIP_REGION_PHYSADDR sbi
          + node_index * 2 ^ PAGE_SHIFT % U64) % U64))
    else .ok none

/-- A superblock with the physical start address 0x10000000 in which inode 0 (4096 bytes)
starts at array index 1 and the node there is an XIP node with node index 0, while the
node at array index 0 is a Compressed node with node index 1; the XIP region has the two
pages 0xA0... and 0xA1... . -/
def Kernel.dispatchSbi : Kernel.axfs_super_incore :=
  { Kernel.pageSbi 0 with
    phys_start_addr := 0x10000000
    xip := { Kernel.zero_region with
      fsoffset := 4096, size := 8192,
      virt_addr := some (List.replicate 4096 0xA0 ++ List.replicate 4096 0xA1) }
    metadata := Kernel.metadata_of
      [(0, [1, 0]), (1, [1, 0]), (9, [0, 0]), (13, [0, 0]), (29, [0, 8]), (37, [0]),
       (38, [16]), (69, [1])] }

theorem getElem?_eq_some_getD (table : List Byte) (j : Nat) (h : j < table.length) :
    table[j]? = some (table.getD j 0) := by
  simp [List.getD, List.getElem?_eq_getElem h]

theorem pow8_le_U64 (i : Nat) (h : i ≤ 8) : 2 ^ (8 * i) ≤ U64 := by
  unfold U64
  exact Nat.pow_le_pow_right (by decide) (by omega)

/-- With every lane position in bounds and at most eight lanes, the loop adds up the lane
bytes without wrapping. -/
theorem stitch_loop_ok (table : List Byte) (index split : Nat) (hlen : table.length < U64) :
    ∀ n i output, i + n ≤ 8 → output < 2 ^ (8 * i) →
      (∀ k, k < i + n → index + k * split < table.length) →
      stitch_loop table index split n i output =
        .ok (output + ∑ k in Finset.range n,
          (table.getD (index + (i + k) * split) 0).val * 2 ^ (8 * (i + k))) ∧
      output + ∑ k in Finset.range n,
          (table.getD (index + (i + k) * split) 0).val * 2 ^ (8 * (i + k)) < 2 ^ (8 * (i + n)) := by
  intro n
  induction n with
  | zero => intro i output _ hout _; simpa [stitch_loop] using hout
  | succ n ih =>
    intro i output hin hout hb
    have hj : index + i * split < table.length := hb i (by omega)
    have hjU : (index + i * split) % U64 = index + i * split := Nat.mod_eq_of_lt (by omega)
    have hbyte : (table.getD (index + i * split) 0).val < 256 := (table.getD _ 0).isLt
    have hpow : 2 ^ (8 * (i + 1)) = 256 * 2 ^ (8 * i) := by
      rw [Nat.mul_add, Nat.pow_add]; norm_num [Nat.mul_comm]
    have hle : 2 ^ (8 * (i + 1)) ≤ U64 := pow8_le_U64 (i + 1) (by omega)
    have hterm : (table.getD (index + i * split) 0).val * 2 ^ (8 * i) + 2 ^ (8 * i)
        ≤ 2 ^ (8 * (i + 1)) := by
      rw [hpow]; nlinarith [Nat.two_pow_pos (8 * i)]
    have hnew : output + (table.getD (index + i * split) 0).val * 2 ^ (8 * i)
        < 2 ^ (8 * (i + 1)) := by omega
    have h1 : ((table.getD (index + i * split) 0).val * 2 ^ (8 * i)) % U64
        = (table.getD (index + i * split) 0).val * 2 ^ (8 * i) := Nat.mod_eq_of_lt (by omega)
    have h2 : (output + (table.getD (index + i * split) 0).val * 2 ^ (8 * i)) % U64
        = output + (table.getD (index + i * split) 0).val * 2 ^ (8 * i) :=
      Nat.mod_eq_of_lt (by omega)
    have hbits : 8 * i < 64 := by omega
    have := ih (i + 1) (output + (table.getD (index + i * split) 0).val * 2 ^ (8 * i))
      (by omega) hnew (fun k hk => hb k (by omega))
    have hsum : ∑ k in Finset.range (n + 1),
          (table.getD (index + (i + k) * split) 0).val * 2 ^ (8 * (i + k))
        = (table.getD (index + i * split) 0).val * 2 ^ (8 * i) + ∑ k in Finset.range n,
          (table.getD (index + (i + 1 + k) * split) 0).val * 2 ^ (8 * (i + 1 + k)) := by
      rw [Finset.sum_range_succ', Nat.add_comm]
      simp [Nat.add_assoc, Nat.add_comm 1]
    rw [hsum, ← Nat.add_assoc]
    refine ⟨?_, by simpa [Nat.add_assoc, Nat.add_comm 1 n] using this.2⟩
    simp only [stitch_loop, hjU, getElem?_eq_some_getD table _ hj, hbits, if_true, h1, h2]
    exact this.1

theorem pow8_eq (k : Nat) : 2 ^ (8 * k) = 256 ^ k := by
  rw [Nat.pow_mul]

/-- A little-endian digit sum of `d` bytes stays below `256 ^ d`. -/
theorem digitSum_lt (f : Nat → Nat) (hf : ∀ k, f k < 256) :
    ∀ d, ∑ k in Finset.range d, f k * 256 ^ k < 256 ^ d := by
  intro d
  induction d with
  | zero => simp
  | succ d ih =>
    rw [Finset.sum_range_succ, Nat.pow_succ]
    have := hf d
    nlinarith [pow_pos (show 0 < 256 by decide) d]

/-- Digit `j` of a little-endian digit sum is the `j`-th byte. -/
theorem digitSum_digit (f : Nat → Nat) (hf : ∀ k, f k < 256) :
    ∀ d j, j < d → (∑ k in Finset.range d, f k * 256 ^ k) / 256 ^ j % 256 = f j := by
  intro d
  induction d with
  | zero => intro j hj; omega
  | succ d ih =>
    intro j hj
    rw [Finset.sum_range_succ]
    have hpos : 0 < 256 ^ j := pow_pos (by decide) j
    rcases Nat.lt_or_ge j d with hlt | hge
    · obtain ⟨c, hc⟩ : ∃ c, d = j + (c + 1) := ⟨d - j - 1, by omega⟩
      have hsplit : f d * 256 ^ d = 256 ^ j * (256 * (f d * 256 ^ c)) := by
        rw [hc, Nat.pow_add, Nat.pow_succ]; ring
      rw [hsplit, Nat.add_mul_div_left _ _ hpos, Nat.add_mul_mod_self_left]
      exact ih j hlt
    · have hjd : j = d := by omega
      subst hjd
      rw [Nat.add_mul_div_right _ _ hpos, Nat.div_eq_of_lt (digitSum_lt f hf j), Nat.zero_add]
      exact Nat.mod_eq_of_lt (hf j)

/-- Summing the bytes of `v` back up gives `v` modulo `256 ^ d`. -/
theorem digitSum_bytes (v : Nat) :
    ∀ d, ∑ k in Finset.range d, (v / 256 ^ k % 256) * 256 ^ k = v % 256 ^ d := by
  intro d
  induction d with
  | zero => simp [Nat.mod_one]
  | succ d ih => rw [Finset.sum_range_succ, ih, Nat.mod_pow_succ, Nat.mul_comm]

theorem encodeLanes_succ (depth : Nat) (values : List Nat) :
    encodeLanes (depth + 1) values
      = encodeLanes depth values ++ values.map fun v => byteOf v depth := by
  simp [encodeLanes, List.range_succ, List.flatMap_append]

theorem encodeLanes_length (depth : Nat) (values : List Nat) :
    (encodeLanes depth values).length = depth * values.length := by
  induction depth with
  | zero => simp [encodeLanes]
  | succ d ih => rw [encodeLanes_succ, List.length_append, ih, List.length_map]; ring

/-- Position `k * values.length + i` of the lane encoding holds byte `k` of `values[i]`. -/
theorem encodeLanes_getD (values : List Nat) (i : Nat) (hi : i < values.length) :
    ∀ depth k, k < depth →
      (encodeLanes depth values).getD (k * values.length + i) 0 = byteOf (values.getD i 0) k := by
  intro depth
  induction depth with
  | zero => intro k hk; omega
  | succ d ih =>
    intro k hk
    rw [encodeLanes_succ]
    rcases Nat.lt_or_ge k d with hlt | hge
    · have hpos : k * values.length + i < (encodeLanes d values).length := by
        rw [encodeLanes_length]
        calc k * values.length + i < k * values.length + values.length := by omega
          _ = (k + 1) * values.length := by ring
          _ ≤ d * values.length := Nat.mul_le_mul_right _ hlt
      rw [List.getD_append _ _ _ _ hpos]
      exact ih k hlt
    · have hkd : k = d := by omega
      subst hkd
      rw [List.getD_append_right _ _ _ _ (by rw [encodeLanes_length]; omega),
        encodeLanes_length, Nat.add_sub_cancel_left]
      simp [List.getD, List.getElem?_map, List.getElem?_eq_getElem hi]

/-! ## The byte-table codec -/

/-- The stitch of a well-formed byte table is the little-endian sum of its lane bytes. -/
theorem stitch_lane_sum_of_table (r : axfs_region) (i : Nat)
    (hd1 : 1 ≤ r.table_byte_depth) (hd8 : r.table_byte_depth ≤ 8)
    (hsize : r.size = r.table_byte_depth * r.max_index)
    (hdata : r.data.length = r.size) (hU : r.size < U64) (hi : i < r.max_index) :
    r.axfs_bytetable_stitch i
        = .ok (∑ k in Finset.range r.table_byte_depth,
            (r.data.getD (k * r.max_index + i) 0).val * 2 ^ (8 * k)) ∧
      (∑ k in Finset.range r.table_byte_depth,
            (r.data.getD (k * r.max_index + i) 0).val * 2 ^ (8 * k)) < 2 ^ (8 * r.table_byte_depth) ∧
      ∀ k, k < r.table_byte_depth →
        byteOf (∑ k in Finset.range r.table_byte_depth,
            (r.data.getD (k * r.max_index + i) 0).val * 2 ^ (8 * k)) k
          = r.data.getD (k * r.max_index + i) 0 := by
  have hsplit : r.size / r.table_byte_depth = r.max_index := by
    rw [hsize]; exact Nat.mul_div_cancel_left _ (by omega)
  have hb : ∀ k, k < 0 + r.table_byte_depth → i + k * r.max_index < r.data.length := by
    intro k hk
    rw [hdata, hsize]
    calc i + k * r.max_index < k * r.max_index + r.max_index := by omega
      _ = (k + 1) * r.max_index := by ring
      _ ≤ r.table_byte_depth * r.max_index := Nat.mul_le_mul_right _ (by omega)
  have hloop := stitch_loop_ok r.data i r.max_index (by omega) r.table_byte_depth 0 0
    (by omega) (by simp) hb
  have hrw : ∑ k in Finset.range r.table_byte_depth,
        (r.data.getD (i + (0 + k) * r.max_index) 0).val * 2 ^ (8 * (0 + k))
      = ∑ k in Finset.range r.table_byte_depth,
        (r.data.getD (k * r.max_index + i) 0).val * 2 ^ (8 * k) := by
    refine Finset.sum_congr rfl fun k _ => ?_
    rw [Nat.zero_add, Nat.add_comm]
  rw [Nat.zero_add, Nat.zero_add, hrw] at hloop
  refine ⟨?_, hloop.2, ?_⟩
  · unfold axfs_region.axfs_bytetable_stitch
    rw [if_pos hi, if_neg (by omega), hsplit]
    exact hloop.1
  · intro k hk
    apply Fin.ext
    have hdig := digitSum_digit (fun k => (r.data.getD (k * r.max_index + i) 0).val)
      (fun k => (r.data.getD _ 0).isLt) r.table_byte_depth k hk
    simp only [byteOf, pow8_eq]
    exact hdig

/-- C1. For a byte table with `1 ≤ table_byte_depth ≤ 8`, `size = table_byte_depth * max_index`
(held in `data`) and an index `i < max_index`, `axfs_bytetable_stitch i` returns
`Σ_{k < depth} table[k * max_index + i] * 2 ^ (8 k)`; the result is below `2 ^ (8 * depth)`
and its little-endian byte `k` is the byte of lane `k`, which starts at `k * max_index`. -/
theorem stitch_eq_lane_sum (r : axfs_region) (i : Nat)
    (hd1 : 1 ≤ r.table_byte_depth) (hd8 : r.table_byte_depth ≤ 8)
    (hsize : r.size = r.table_byte_depth * r.max_index)
    (hdata : r.data.length = r.size) (hU : r.size < U64) (hi : i < r.max_index) :
    r.axfs_bytetable_stitch i
        = .ok (∑ k in Finset.range r.table_byte_depth,
            (r.data.getD (k * r.max_index + i) 0).val * 2 ^ (8 * k)) ∧
      (∑ k in Finset.range r.table_byte_depth,
            (r.data.getD (k * r.max_index + i) 0).val * 2 ^ (8 * k)) < 2 ^ (8 * r.table_byte_depth) ∧
      ∀ k, k < r.table_byte_depth →
        byteOf (∑ k in Finset.range r.table_byte_depth,
            (r.data.getD (k * r.max_index + i) 0).val * 2 ^ (8 * k)) k
          = r.data.getD (k * r.max_index + i) 0 :=
  stitch_lane_sum_of_table r i hd1 hd8 hsize hdata hU hi

/-- C1, at a two-lane table of three entries: entry 1 of lanes `[1,2,3]`, `[4,5,6]` is
`2 + 5 * 256`. -/
theorem stitch_eq_lane_sum_witness :
    (axfs_region.mk 0 6 0 3 2 0 [1, 2, 3, 4, 5, 6]).axfs_bytetable_stitch 1
        = .ok (∑ k in Finset.range 2,
            (([1, 2, 3, 4, 5, 6] : List Byte).getD (k * 3 + 1) 0).val * 2 ^ (8 * k)) ∧
      (axfs_region.mk 0 6 0 3 2 0 [1, 2, 3, 4, 5, 6]).axfs_bytetable_stitch 1 = .ok 1282 :=
  ⟨(stitch_eq_lane_sum (axfs_region.mk 0 6 0 3 2 0 [1, 2, 3, 4, 5, 6]) 1
      (by decide) (by decide) (by decide) (by decide) (by decide) (by decide)).1, by decide⟩

/-- C2. Stitch round-trip: for `1 ≤ depth ≤ 8` and values below `2 ^ (8 * depth)`, the table
that holds byte `k` of `values[i]` at position `k * max_index + i` stitches back to
`values[i]` at every index `i < max_index`. -/
theorem stitch_roundtrip (depth : Nat) (values : List Nat) (i : Nat)
    (hd1 : 1 ≤ depth) (hd8 : depth ≤ 8) (hU : depth * values.length < U64)
    (hv : ∀ v ∈ values, v < 2 ^ (8 * depth)) (hi : i < values.length) :
    (tableOf depth values).axfs_bytetable_stitch i = .ok (values.getD i 0) := by
  have h := (stitch_lane_sum_of_table (tableOf depth values) i hd1 hd8 rfl
    (encodeLanes_length depth values) hU hi).1
  rw [h]
  congr 1
  have hmem : values.getD i 0 ∈ values := by
    rw [List.getD_eq_getElem _ _ hi]
    exact List.getElem_mem hi
  have hlt := hv _ hmem
  rw [pow8_eq] at hlt
  rw [← Nat.mod_eq_of_lt hlt, ← digitSum_bytes (values.getD i 0) depth]
  refine Finset.sum_congr rfl fun k hk => ?_
  have hk' : k < depth := Finset.mem_range.mp hk
  show ((encodeLanes depth values).getD (k * values.length + i) 0).val * 2 ^ (8 * k) = _
  rw [encodeLanes_getD values i hi depth k hk', pow8_eq]
  simp [byteOf, pow8_eq]

/-- C2, at three two-byte values. -/
theorem stitch_roundtrip_witness :
    (tableOf 2 [5000, 11, 65535]).axfs_bytetable_stitch 0 = .ok 5000 :=
  stitch_roundtrip 2 [5000, 11, 65535] 0 (by decide) (by decide) (by decide) (by decide)
    (by decide)

/-- C3. On a region with `table_byte_depth = 0` the stitch of `axfs.cpp` does not return 0:
`size / table_byte_depth` divides by zero (and when `max_index` is 0 as well the leading
`assert` already fails). -/
theorem stitch_depth_zero_faults :
    absentTable.axfs_bytetable_stitch 0 = .error .divByZero ∧
      (axfs_region.mk 0 0 0 0 0 0 []).axfs_bytetable_stitch 0 = .error .assertFailed ∧
      ∀ (r : axfs_region) (index : Nat), r.table_byte_depth = 0 →
        r.axfs_bytetable_stitch index ≠ .ok 0 := by
  refine ⟨by decide, by decide, ?_⟩
  intro r index h
  unfold axfs_region.axfs_bytetable_stitch
  split <;> simp [h]

/-! ## Lemmas on `memcpy` and on single iterations of the read loop -/

theorem memcpy_ok (dst : List Byte) (dstOff : Nat) (src : List Byte) (srcOff n : Nat)
    (hs : srcOff + n ≤ src.length) (hd : dstOff + n ≤ dst.length) :
    memcpy dst dstOff src srcOff n
      = .ok (dst.take dstOff ++ ((src.drop srcOff).take n ++ dst.drop (dstOff + n))) := by
  simp [memcpy, hs, hd]

theorem memcpy_length (dst : List Byte) (dstOff : Nat) (src : List Byte) (srcOff n : Nat)
    (hs : srcOff + n ≤ src.length) (hd : dstOff + n ≤ dst.length) :
    (dst.take dstOff ++ ((src.drop srcOff).take n ++ dst.drop (dstOff + n))).length
      = dst.length := by
  simp only [List.length_append, List.length_take, List.length_drop]
  omega

/-- Inside the copied range the destination holds the source bytes. -/
theorem memcpy_getElem?_inside (dst : List Byte) (dstOff : Nat) (src : List Byte)
    (srcOff n j : Nat) (hs : srcOff + n ≤ src.length) (hd : dstOff + n ≤ dst.length)
    (hj : j < n) :
    (dst.take dstOff ++ ((src.drop srcOff).take n ++ dst.drop (dstOff + n)))[dstOff + j]?
      = src[srcOff + j]? := by
  have h1 : (dst.take dstOff).length = dstOff := by
    rw [List.length_take]; omega
  have h2 : j < ((src.drop srcOff).take n).length := by
    rw [List.length_take, List.length_drop]; omega
  rw [List.getElem?_append_right (by omega), h1, Nat.add_sub_cancel_left,
    List.getElem?_append_left h2, List.getElem?_take_of_lt hj, List.getElem?_drop]

/-- Outside the copied range the destination is unchanged. -/
theorem memcpy_getElem?_outside (dst : List Byte) (dstOff : Nat) (src : List Byte)
    (srcOff n i : Nat) (hs : srcOff + n ≤ src.length) (hd : dstOff + n ≤ dst.length)
    (hi : i < dstOff ∨ dstOff + n ≤ i) :
    (dst.take dstOff ++ ((src.drop srcOff).take n ++ dst.drop (dstOff + n)))[i]? = dst[i]? := by
  have h1 : (dst.take dstOff).length = dstOff := by
    rw [List.length_take]; omega
  have h2 : ((src.drop srcOff).take n).length = n := by
    rw [List.length_take, List.length_drop]; omega
  rcases hi with hi | hi
  · rw [List.getElem?_append_left (by omega), List.getElem?_take_of_lt hi]
  · rw [List.getElem?_append_right (by omega), List.getElem?_append_right (by omega), h1, h2,
      List.getElem?_drop]
    congr 1
    omega

theorem getElem?_slice (l : List Byte) (start len j : Nat) :
    (slice l start len)[j]? = if j < len then l[start + j]? else none := by
  unfold slice
  split
  · next h => rw [List.getElem?_take_of_lt h, List.getElem?_drop]
  · next h => exact List.getElem?_eq_none (by rw [List.length_take]; omega)

/-- Two slices agree as soon as they agree position by position. -/
theorem slice_eq_of_getElem? (l l2 : List Byte) (s s2 len : Nat)
    (h : ∀ j, j < len → l[s + j]? = l2[s2 + j]?) : slice l s len = slice l2 s2 len := by
  apply List.ext_getElem?
  intro j
  rw [getElem?_slice, getElem?_slice]
  split
  · next hj => exact h j hj
  · rfl

theorem stitch_ok_lt (r : axfs_region) (i v : Nat) (h : r.axfs_bytetable_stitch i = .ok v) :
    i < r.max_index := by
  unfold axfs_region.axfs_bytetable_stitch at h
  by_contra hc
  rw [if_neg hc] at h
  cases h

theorem readFile_unfold (fs : axfs) (z : ZlibDecoder) (id : Nat) (data : List Byte)
    (start length fileSize a : Nat) (hsz : fs.getFileSize id = .ok fileSize)
    (har : fs.getArrayIndex id = .ok a) :
    fs.readFile z id data start length
      = readFile_loop fs z (fs.node_index.max_index + 1)
          (ReadState.mk (min ((fileSize + U64 - start % U64) % U64) (length % U64)) 0 a data
            fs.cblock_buffer fs.cachedBlock) := by
  simp only [axfs.readFile, hsz, har, bind, Except.bind]

theorem readFile_loop_step (fs : axfs) (z : ZlibDecoder) (fuel : Nat) (st st2 : ReadState)
    (hpos : 0 < st.length) (h : readFile_body fs z st = .ok st2) :
    readFile_loop fs z (fuel + 1) st = readFile_loop fs z fuel st2 := by
  simp only [readFile_loop, hpos, if_true, h]

theorem readFile_loop_fault (fs : axfs) (z : ZlibDecoder) (fuel : Nat) (st : ReadState)
    (e : Fault) (hpos : 0 < st.length) (h : readFile_body fs z st = .error e) :
    readFile_loop fs z (fuel + 1) st = .error e := by
  simp only [readFile_loop, hpos, if_true, h]

theorem readFile_loop_done (fs : axfs) (z : ZlibDecoder) (fuel : Nat) (st : ReadState)
    (h : st.length = 0) : readFile_loop fs z fuel st = .ok st := by
  cases fuel <;> simp [readFile_loop, h]

/-- One iteration of the read loop on an XIP node: a whole page is copied and 4096 is
subtracted from the remaining length modulo `2 ^ 64`. -/
theorem readFile_body_xip (fs : axfs) (z : ZlibDecoder) (len off a : Nat)
    (out buf : List Byte) (cb n : Nat)
    (hn : fs.getNodeIndex a = .ok n) (ht : fs.getNodeType a = .ok 0)
    (hsrc : n * 4096 + 4096 ≤ fs.xip.data.length) (hxU : fs.xip.data.length < U64)
    (hdst : off + 4096 ≤ out.length) (hoU : out.length < U64) (haU : a + 1 < U64) :
    readFile_body fs z (ReadState.mk len off a out buf cb) = .ok
      (ReadState.mk ((len + U64 - 4096) % U64) (off + 4096) (a + 1)
        (out.take off ++ ((fs.xip.data.drop (n * 4096)).take 4096 ++ out.drop (off + 4096)))
        buf cb) := by
  have h1 : n * 4096 % U64 = n * 4096 := Nat.mod_eq_of_lt (by omega)
  have h2 : (off + 4096) % U64 = off + 4096 := Nat.mod_eq_of_lt (by omega)
  have h3 : (a + 1) % U64 = a + 1 := Nat.mod_eq_of_lt haU
  simp only [readFile_body, readFile_switch, hn, ht, readFile_xip, PAGE_SHIFT, bind,
    Except.bind, pure, Except.pure]
  norm_num [h1, h2, h3, memcpy_ok _ _ _ _ _ hsrc hdst]

/-- One iteration of the read loop on a ByteAligned node: `min 4096 length` bytes are
copied. -/
theorem readFile_body_byte_aligned (fs : axfs) (z : ZlibDecoder) (len off a : Nat)
    (out buf : List Byte) (cb n b : Nat)
    (hn : fs.getNodeIndex a = .ok n) (ht : fs.getNodeType a = .ok 2)
    (hb : fs.getByteAlignedOffset n = .ok b)
    (hsrc : b + min 4096 len ≤ fs.byte_aligned.data.length)
    (hdst : off + min 4096 len ≤ out.length) (hoU : out.length < U64)
    (hlU : len < U64) (haU : a + 1 < U64) :
    readFile_body fs z (ReadState.mk len off a out buf cb) = .ok
      (ReadState.mk (len - min 4096 len) (off + min 4096 len) (a + 1)
        (out.take off ++ ((fs.byte_aligned.data.drop b).take (min 4096 len) ++
          out.drop (off + min 4096 len)))
        buf cb) := by
  have h0 : (2 : Nat) ^ 12 % U64 = 4096 := by decide
  have h1 : (len + U64 - min 4096 len) % U64 = len - min 4096 len := by
    have : len + U64 - min 4096 len = (len - min 4096 len) + U64 := by omega
    rw [this, Nat.add_mod_right]
    exact Nat.mod_eq_of_lt (by omega)
  have h2 : (off + min 4096 len) % U64 = off + min 4096 len := Nat.mod_eq_of_lt (by omega)
  have h3 : (a + 1) % U64 = a + 1 := Nat.mod_eq_of_lt haU
  simp only [readFile_body, readFile_switch, hn, ht, readFile_byte_aligned, hb, PAGE_SHIFT,
    bind, Except.bind, pure, Except.pure, h0]
  norm_num [h1, h2, h3, memcpy_ok _ _ _ _ _ hsrc hdst]

/-! ## The read path of `axfs.cpp` -/

theorem take_one_replicate_append (n : Nat) (a : Byte) (l : List Byte) (h : 0 < n) :
    List.take 1 (List.replicate n a ++ l) = [a] := by
  cases n with
  | zero => omega
  | succ n => simp [List.replicate_succ]

/-- C4. `axfs::readFile` does not begin at node `inode_array_index[id] + (start >> 12)`: it
begins at `inode_array_index[id]` whatever `start` is.  On the two-page file of
`imageTwoPages`, whose byte 4096 is `0x22` (page 1), reading one byte at the page-aligned
start 4096 delivers `0x11`, the first byte of page 0. -/
theorem readFile_ignores_start :
    (imageTwoPages.readFile nullDecoder 1 [0] 4096 1).map (fun st => st.out) = .ok [0x11] ∧
      imageTwoPages.getFileSize 1 = .ok 4097 ∧
      imageTwoPages.getArrayIndex 1 = .ok 0 ∧
      imageTwoPages.getNodeType (0 + 4096 / 2 ^ PAGE_SHIFT) = .ok 2 ∧
      (imageTwoPages.getNodeIndex (0 + 4096 / 2 ^ PAGE_SHIFT)).bind
        imageTwoPages.getByteAlignedOffset = .ok 4096 ∧
      slice imageTwoPages.byte_aligned.data 4096 1 = [0x22] := by
  have hdata : imageTwoPages.byte_aligned.data = List.replicate 4096 0x11 ++ [0x22] := rfl
  refine ⟨?_, by decide, by decide, by decide, by decide, ?_⟩
  · have hsrc : 0 + min 4096 1 ≤ imageTwoPages.byte_aligned.data.length := by
      rw [hdata, List.length_append, List.length_replicate]
      decide
    have hstep := readFile_body_byte_aligned imageTwoPages nullDecoder 1 0 0 [0]
      imageTwoPages.cblock_buffer imageTwoPages.cachedBlock 0 0 (by decide) (by decide)
      (by decide) hsrc (by decide) (by decide) (by decide) (by decide)
    rw [readFile_unfold imageTwoPages nullDecoder 1 [0] 4096 1 4097 0 (by decide) (by decide)]
    show (readFile_loop imageTwoPages nullDecoder (2 + 1)
      (ReadState.mk 1 0 0 [0] imageTwoPages.cblock_buffer imageTwoPages.cachedBlock)).map _ = _
    rw [readFile_loop_step _ _ _ _ _ (by decide) hstep, readFile_loop_done _ _ _ _ (by decide)]
    show Except.ok (List.take 0 [0] ++ (List.take 1 (List.drop 0
      imageTwoPages.byte_aligned.data) ++ List.drop 1 [0])) = _
    rw [hdata, List.drop_zero, take_one_replicate_append _ _ _ (by decide)]
    rfl
  · rw [hdata]
    unfold slice
    rw [List.drop_append_of_le_length (by rw [List.length_replicate]),
      List.drop_replicate]
    rfl

/-- C5. `axfs::readFile` does not clamp the length to zero when `start` lies beyond the end
of the file: `fileSize - start` wraps around.  On the 11-byte file of `imageS6`, a read of 5
bytes at `start = 12` runs the loop and copies the first 5 bytes `hello` of the file. -/
theorem readFile_start_past_end_copies :
    imageS6.getFileSize 2 = .ok 11 ∧
      (imageS6.readFile nullDecoder 2 (List.replicate 5 0) 12 5).map (fun st => st.out)
        = .ok (asciiBytes "hello") := by
  decide

theorem readFile_body_getNodeIndex_error (fs : axfs) (z : ZlibDecoder) (st : ReadState)
    (e : Fault) (h : fs.getNodeIndex st.arrayIndex = .error e) :
    readFile_body fs z st = .error e := by
  simp only [readFile_body, h, bind, Except.bind]

/-- An XIP node whose page does not fit into what is left of the destination overruns it. -/
theorem readFile_body_xip_overrun (fs : axfs) (z : ZlibDecoder) (len off a : Nat)
    (out buf : List Byte) (cb n : Nat)
    (hn : fs.getNodeIndex a = .ok n) (ht : fs.getNodeType a = .ok 0)
    (hdst : out.length < off + 4096) :
    readFile_body fs z (ReadState.mk len off a out buf cb) = .error .outOfBounds := by
  have hno : ¬ (n * 4096 % U64 + 4096 ≤ fs.xip.data.length ∧ off + 4096 ≤ out.length) := by
    omega
  simp only [readFile_body, readFile_switch, hn, ht, readFile_xip, PAGE_SHIFT, bind,
    Except.bind, memcpy]
  norm_num [hno]

/-- C6. A final XIP page is copied whole even when fewer bytes remain.  On the 100-byte file
of `imageXipShort` (one XIP page), `readFile(1, dst, 0, 100)` overruns a 100-byte `dst`; with
a 4096-byte `dst` its first iteration stores 4096 bytes, far beyond `dst[100]`, leaves the
remaining length at `2 ^ 64 - 3996`, and the loop goes on to the next node. -/
theorem readFile_xip_tail_overruns :
    imageXipShort.getFileSize 1 = .ok 100 ∧
      imageXipShort.readFile nullDecoder 1 (List.replicate 100 0) 0 100
        = .error .outOfBounds ∧
      readFile_body imageXipShort nullDecoder
          (ReadState.mk 100 0 0 (List.replicate 4096 0) imageXipShort.cblock_buffer
            imageXipShort.cachedBlock)
        = .ok (ReadState.mk (U64 - 3996) 4096 1 (List.replicate 4096 0xAB)
            imageXipShort.cblock_buffer imageXipShort.cachedBlock) ∧
      imageXipShort.readFile nullDecoder 1 (List.replicate 4096 0) 0 100
        = .error .assertFailed := by
  have hdata : imageXipShort.xip.data = List.replicate 4096 0xAB := rfl
  have hstep := readFile_body_xip imageXipShort nullDecoder 100 0 0 (List.replicate 4096 0)
    imageXipShort.cblock_buffer imageXipShort.cachedBlock 0 (by decide) (by decide)
    (by rw [hdata, List.length_replicate]) (by rw [hdata, List.length_replicate]; decide)
    (by rw [List.length_replicate]) (by rw [List.length_replicate]; decide) (by decide)
  have hout : List.take 0 (List.replicate 4096 (0 : Byte)) ++
      (List.take 4096 (List.drop (0 * 4096) imageXipShort.xip.data) ++
        List.drop (0 + 4096) (List.replicate 4096 (0 : Byte))) = List.replicate 4096 0xAB := by
    rw [hdata, List.take_zero, List.nil_append, Nat.zero_mul, List.drop_zero,
      List.take_of_length_le (by rw [List.length_replicate]),
      List.drop_of_length_le (by rw [List.length_replicate]), List.append_nil]
  rw [hout] at hstep
  have hstep2 : readFile_body imageXipShort nullDecoder
      (ReadState.mk 100 0 0 (List.replicate 4096 0) imageXipShort.cblock_buffer
        imageXipShort.cachedBlock)
      = .ok (ReadState.mk (U64 - 3996) 4096 1 (List.replicate 4096 0xAB)
          imageXipShort.cblock_buffer imageXipShort.cachedBlock) := hstep
  refine ⟨by decide, ?_, hstep2, ?_⟩
  · rw [readFile_unfold imageXipShort nullDecoder 1 _ 0 100 100 0 (by decide) (by decide)]
    show readFile_loop imageXipShort nullDecoder (1 + 1)
      (ReadState.mk 100 0 0 (List.replicate 100 0) imageXipShort.cblock_buffer
        imageXipShort.cachedBlock) = _
    exact readFile_loop_fault _ _ _ _ _ (by decide)
      (readFile_body_xip_overrun _ _ _ _ _ _ _ _ 0 (by decide) (by decide)
        (by rw [List.length_replicate]; decide))
  · rw [readFile_unfold imageXipShort nullDecoder 1 _ 0 100 100 0 (by decide) (by decide)]
    show readFile_loop imageXipShort nullDecoder (1 + 1)
      (ReadState.mk 100 0 0 (List.replicate 4096 0) imageXipShort.cblock_buffer
        imageXipShort.cachedBlock) = _
    rw [readFile_loop_step _ _ _ _ _ (by decide) hstep2]
    exact readFile_loop_fault _ _ _ _ _ (by decide)
      (readFile_body_getNodeIndex_error _ _ _ _ (by decide))

/-- One iteration of the read loop on a Compressed node whose cblock is not the cached one:
the decoder output replaces the start of the buffer, the cache key becomes the cnode index,
and `min (cblock_size - cnodeOffset) length` bytes are copied from the buffer. -/
theorem readFile_body_compressed_miss (fs : axfs) (z : ZlibDecoder) (len off a : Nat)
    (out buf : List Byte) (cb n co ci so nx : Nat) (written : List Byte) (ret : Int)
    (hn : fs.getNodeIndex a = .ok n) (ht : fs.getNodeType a = .ok 1)
    (hco : fs.cnode_offset.axfs_bytetable_stitch n = .ok co)
    (hci : fs.cnode_index.axfs_bytetable_stitch n = .ok ci)
    (hso : fs.cblock_offset.axfs_bytetable_stitch ci = .ok so)
    (hnx : fs.cblock_offset.axfs_bytetable_stitch ((ci + 1) % U64) = .ok nx)
    (hmiss : cb ≠ ci) (hsoL : so ≤ fs.compressed.data.length)
    (hdec : z.stbi_zlib_decode_buffer (toInt32 (be32_to_cpu fs.superblock.cblock_size))
      (fs.compressed.data.drop so) (toInt32 ((nx + U64 - so) % U64)) = (written, ret))
    (hw : written.length ≤ buf.length)
    (hcoS : co ≤ be32_to_cpu fs.superblock.cblock_size)
    (hsU : be32_to_cpu fs.superblock.cblock_size < U64)
    (hsrc : co + min (be32_to_cpu fs.superblock.cblock_size - co) len
      ≤ (written ++ buf.drop written.length).length)
    (hdst : off + min (be32_to_cpu fs.superblock.cblock_size - co) len ≤ out.length)
    (hoU : out.length < U64) (hlU : len < U64) (haU : a + 1 < U64) :
    readFile_body fs z (ReadState.mk len off a out buf cb) = .ok
      (ReadState.mk (len - min (be32_to_cpu fs.superblock.cblock_size - co) len)
        (off + min (be32_to_cpu fs.superblock.cblock_size - co) len) (a + 1)
        (out.take off ++ (((written ++ buf.drop written.length).drop co).take
            (min (be32_to_cpu fs.superblock.cblock_size - co) len) ++
          out.drop (off + min (be32_to_cpu fs.superblock.cblock_size - co) len)))
        (written ++ buf.drop written.length) ci) := by
  have h0 : (be32_to_cpu fs.superblock.cblock_size + U64 - co) % U64
      = be32_to_cpu fs.superblock.cblock_size - co := by
    have : be32_to_cpu fs.superblock.cblock_size + U64 - co
        = (be32_to_cpu fs.superblock.cblock_size - co) + U64 := by omega
    rw [this, Nat.add_mod_right]
    exact Nat.mod_eq_of_lt (by omega)
  have h1 : (len + U64 - min (be32_to_cpu fs.superblock.cblock_size - co) len) % U64
      = len - min (be32_to_cpu fs.superblock.cblock_size - co) len := by
    have : len + U64 - min (be32_to_cpu fs.superblock.cblock_size - co) len
        = (len - min (be32_to_cpu fs.superblock.cblock_size - co) len) + U64 := by omega
    rw [this, Nat.add_mod_right]
    exact Nat.mod_eq_of_lt (by omega)
  have h2 : (off + min (be32_to_cpu fs.superblock.cblock_size - co) len) % U64
      = off + min (be32_to_cpu fs.superblock.cblock_size - co) len :=
    Nat.mod_eq_of_lt (by omega)
  have h3 : (a + 1) % U64 = a + 1 := Nat.mod_eq_of_lt haU
  simp only [readFile_body, readFile_switch, hn, ht, readFile_compressed, readFile_cache_fill,
    hco, hci, hso, hnx, bind, Except.bind, pure, Except.pure, hdec, h0]
  norm_num [hmiss, hsoL, hw, h1, h2, h3, memcpy_ok _ _ _ _ _ hsrc hdst]

/-- One iteration of the read loop on a Compressed node whose cblock is the cached one: the
buffer is used as it is. -/
theorem readFile_body_compressed_hit (fs : axfs) (z : ZlibDecoder) (len off a : Nat)
    (out buf : List Byte) (n co ci so nx : Nat)
    (hn : fs.getNodeIndex a = .ok n) (ht : fs.getNodeType a = .ok 1)
    (hco : fs.cnode_offset.axfs_bytetable_stitch n = .ok co)
    (hci : fs.cnode_index.axfs_bytetable_stitch n = .ok ci)
    (hso : fs.cblock_offset.axfs_bytetable_stitch ci = .ok so)
    (hnx : fs.cblock_offset.axfs_bytetable_stitch ((ci + 1) % U64) = .ok nx)
    (hcoS : co ≤ be32_to_cpu fs.superblock.cblock_size)
    (hsU : be32_to_cpu fs.superblock.cblock_size < U64)
    (hsrc : co + min (be32_to_cpu fs.superblock.cblock_size - co) len ≤ buf.length)
    (hdst : off + min (be32_to_cpu fs.superblock.cblock_size - co) len ≤ out.length)
    (hoU : out.length < U64) (hlU : len < U64) (haU : a + 1 < U64) :
    readFile_body fs z (ReadState.mk len off a out buf ci) = .ok
      (ReadState.mk (len - min (be32_to_cpu fs.superblock.cblock_size - co) len)
        (off + min (be32_to_cpu fs.superblock.cblock_size - co) len) (a + 1)
        (out.take off ++ ((buf.drop co).take
            (min (be32_to_cpu fs.superblock.cblock_size - co) len) ++
          out.drop (off + min (be32_to_cpu fs.superblock.cblock_size - co) len)))
        buf ci) := by
  have h0 : (be32_to_cpu fs.superblock.cblock_size + U64 - co) % U64
      = be32_to_cpu fs.superblock.cblock_size - co := by
    have : be32_to_cpu fs.superblock.cblock_size + U64 - co
        = (be32_to_cpu fs.superblock.cblock_size - co) + U64 := by omega
    rw [this, Nat.add_mod_right]
    exact Nat.mod_eq_of_lt (by omega)
  have h1 : (len + U64 - min (be32_to_cpu fs.superblock.cblock_size - co) len) % U64
      = len - min (be32_to_cpu fs.superblock.cblock_size - co) len := by
    have : len + U64 - min (be32_to_cpu fs.superblock.cblock_size - co) len
        = (len - min (be32_to_cpu fs.superblock.cblock_size - co) len) + U64 := by omega
    rw [this, Nat.add_mod_right]
    exact Nat.mod_eq_of_lt (by omega)
  have h2 : (off + min (be32_to_cpu fs.superblock.cblock_size - co) len) % U64
      = off + min (be32_to_cpu fs.superblock.cblock_size - co) len :=
    Nat.mod_eq_of_lt (by omega)
  have h3 : (a + 1) % U64 = a + 1 := Nat.mod_eq_of_lt haU
  simp only [readFile_body, readFile_switch, hn, ht, readFile_compressed, readFile_cache_fill,
    hco, hci, hso, hnx, bind, Except.bind, pure, Except.pure, h0]
  norm_num [h1, h2, h3, memcpy_ok _ _ _ _ _ hsrc hdst]

theorem imageS4_compressed_data :
    imageS4.compressed.data
      = List.replicate 4096 1 ++ (List.replicate 4096 2 ++ List.replicate 1808 3) := rfl

theorem imageS4_compressed_length : imageS4.compressed.data.length = 10000 := by
  rw [imageS4_compressed_data]
  simp only [List.length_append, List.length_replicate]

/-- C7. On scenario S4 (`imageS4`, stored blocks, `cblock_size = 8192`) the first Compressed
page is copied with `min (cblock_size - 0) 10000 = 8192` bytes, not with one page, so page 1
is delivered twice and page 2 never: `readFile(1, dst, 0, 10000)` returns with
`cachedBlock = 0` although the last page lies in cnode 1, and `dst[8192]` is `2` (byte 4096
of cblock 0) although the file's byte 8192 is the first byte `3` of cblock 1. -/
theorem readFile_S4_repeats_page :
    ∃ st, imageS4.readFile storedDecoder 1 (List.replicate 10000 0) 0 10000 = .ok st ∧
      st.cachedBlock = 0 ∧ st.out[8192]? = some 2 ∧
      imageS4.getNodeIndex 2 = .ok 2 ∧ imageS4.cnode_index.axfs_bytetable_stitch 2 = .ok 1 ∧
      imageS4.cblock_offset.axfs_bytetable_stitch 1 = .ok 8192 ∧
      imageS4.compressed.data[8192]? = some 3 := by
  have hW : ((imageS4.compressed.data.drop 0).take 8192).length = 8192 := by
    rw [List.drop_zero, List.length_take, imageS4_compressed_length]
    decide
  have hbuf1 : ((imageS4.compressed.data.drop 0).take 8192 ++
      (List.replicate 8192 (0 : Byte)).drop
        ((imageS4.compressed.data.drop 0).take 8192).length).length = 8192 := by
    rw [List.length_append, List.length_drop, hW, List.length_replicate]
  have hbyte : ((imageS4.compressed.data.drop 0).take 8192 ++
      (List.replicate 8192 (0 : Byte)).drop
        ((imageS4.compressed.data.drop 0).take 8192).length)[4096]? = some 2 := by
    rw [List.getElem?_append_left (by rw [hW]; decide),
      List.getElem?_take_of_lt (by decide), List.drop_zero, imageS4_compressed_data,
      List.getElem?_append_right (by rw [List.length_replicate]), List.length_replicate,
      List.getElem?_append_left (by rw [List.length_replicate]; decide),
      List.getElem?_replicate]
    decide
  have hstep1 : ∃ out1 buf1 : List Byte,
      readFile_body imageS4 storedDecoder
        (ReadState.mk 10000 0 0 (List.replicate 10000 0) (List.replicate 8192 0) (U64 - 1))
        = .ok (ReadState.mk 1808 8192 1 out1 buf1 0) ∧
      out1.length = 10000 ∧ buf1.length = 8192 ∧ buf1[4096]? = some 2 :=
    ⟨_, _, readFile_body_compressed_miss imageS4 storedDecoder 10000 0 0
      (List.replicate 10000 0) (List.replicate 8192 0) (U64 - 1) 0 0 0 0 8192
      ((imageS4.compressed.data.drop 0).take 8192) 8192
      (by decide) (by decide) (by decide) (by decide) (by decide) (by decide) (by decide)
      (Nat.zero_le _) rfl (by rw [hW, List.length_replicate]) (by decide) (by decide)
      (by rw [hbuf1]; decide) (by rw [List.length_replicate]; decide)
      (by rw [List.length_replicate]; decide) (by decide) (by decide),
     memcpy_length _ _ _ _ _ (by rw [hbuf1]; decide) (by rw [List.length_replicate]; decide)
       |>.trans (List.length_replicate _ _),
     hbuf1, hbyte⟩
  obtain ⟨out1, buf1, hstep1, hout1, hbuf1len, hbuf1byte⟩ := hstep1
  have hstep2 : readFile_body imageS4 storedDecoder (ReadState.mk 1808 8192 1 out1 buf1 0)
      = .ok (ReadState.mk 0 10000 2
          (out1.take 8192 ++ ((buf1.drop 4096).take 1808 ++ out1.drop (8192 + 1808))) buf1 0) :=
    readFile_body_compressed_hit imageS4 storedDecoder 1808 8192 1 out1 buf1 1 4096 0 0 8192
      (by decide) (by decide) (by decide) (by decide) (by decide) (by decide) (by decide)
      (by decide) (by rw [hbuf1len]; decide) (by rw [hout1]; decide) (by rw [hout1]; decide)
      (by decide) (by decide)
  refine ⟨ReadState.mk 0 10000 2
    (out1.take 8192 ++ ((buf1.drop 4096).take 1808 ++ out1.drop (8192 + 1808))) buf1 0,
    ?_, rfl, ?_, by decide, by decide, by decide, ?_⟩
  · rw [readFile_unfold imageS4 storedDecoder 1 _ 0 10000 10000 0 (by decide) (by decide)]
    show readFile_loop imageS4 storedDecoder (2 + 1 + 1)
      (ReadState.mk 10000 0 0 (List.replicate 10000 0) (List.replicate 8192 0) (U64 - 1)) = _
    rw [readFile_loop_step _ _ _ _ _ (show 0 < 10000 by decide) hstep1,
      readFile_loop_step _ _ _ _ _ (show 0 < 1808 by decide) hstep2,
      readFile_loop_done _ _ _ _ rfl]
  · show (out1.take 8192 ++ ((buf1.drop 4096).take 1808 ++ out1.drop (8192 + 1808)))[8192 + 0]?
      = some 2
    rw [memcpy_getElem?_inside out1 8192 buf1 4096 1808 0 (by omega) (by omega) (by decide)]
    exact hbuf1byte
  · rw [imageS4_compressed_data,
      List.getElem?_append_right (by rw [List.length_replicate]; decide), List.length_replicate,
      List.getElem?_append_right (by rw [List.length_replicate]),
      List.length_replicate,
      List.getElem?_replicate]
    decide

/-- A run of `m` XIP nodes, each a whole page of the file: the loop copies page after page
and arrives, with `m` iterations, at the state that has `r` bytes left. -/
theorem readFile_loop_xip_pages (fs : axfs) (z : ZlibDecoder) (r : Nat) (buf : List Byte)
    (cb : Nat) (hxU : fs.xip.data.length < U64) (hmax : fs.node_index.max_index < U64) :
    ∀ (m : Nat) (x : Nat → Nat) (fuel off a : Nat) (out : List Byte),
      (∀ p, p < m → fs.getNodeType (a + p) = .ok 0 ∧ fs.getNodeIndex (a + p) = .ok (x p) ∧
        x p * 4096 + 4096 ≤ fs.xip.data.length) →
      off + m * 4096 + r ≤ out.length → out.length < U64 →
      ∃ out2 : List Byte,
        readFile_loop fs z (m + fuel) (ReadState.mk (m * 4096 + r) off a out buf cb)
          = readFile_loop fs z fuel (ReadState.mk r (off + m * 4096) (a + m) out2 buf cb) ∧
        out2.length = out.length ∧
        (∀ p j, p < m → j < 4096 → out2[off + p * 4096 + j]? = fs.xip.data[x p * 4096 + j]?) ∧
        (∀ i, i < off ∨ off + m * 4096 ≤ i → out2[i]? = out[i]?) := by
  intro m
  induction m with
  | zero =>
    intro x fuel off a out _ _ _
    refine ⟨out, ?_, rfl, fun p j hp => absurd hp (Nat.not_lt_zero p), fun i _ => rfl⟩
    simp only [Nat.zero_mul, Nat.zero_add, Nat.add_zero]
  | succ m ih =>
    intro x fuel off a out hx hdst hoU
    obtain ⟨ht0, hn0, hs0⟩ := hx 0 (Nat.succ_pos m)
    rw [Nat.add_zero] at ht0 hn0
    have ha : a < fs.node_index.max_index := stitch_ok_lt _ _ _ hn0
    have hlen : ((m + 1) * 4096 + r + U64 - 4096) % U64 = m * 4096 + r := by
      have : (m + 1) * 4096 + r + U64 - 4096 = m * 4096 + r + U64 := by omega
      rw [this, Nat.add_mod_right]
      exact Nat.mod_eq_of_lt (by omega)
    have hstep := readFile_body_xip fs z ((m + 1) * 4096 + r) off a out buf cb (x 0) hn0 ht0
      hs0 hxU (by omega) hoU (by omega)
    rw [hlen] at hstep
    have hlen1 : (out.take off ++ ((fs.xip.data.drop (x 0 * 4096)).take 4096 ++
        out.drop (off + 4096))).length = out.length :=
      memcpy_length _ _ _ _ _ hs0 (by omega)
    obtain ⟨out2, hloop, hl2, hin2, hout2⟩ := ih (fun p => x (p + 1)) fuel (off + 4096) (a + 1)
      (out.take off ++ ((fs.xip.data.drop (x 0 * 4096)).take 4096 ++ out.drop (off + 4096)))
      (fun p hp => by
        have := hx (p + 1) (by omega)
        rw [show a + (p + 1) = a + 1 + p by omega] at this
        exact this)
      (by rw [hlen1]; omega) (by rw [hlen1]; exact hoU)
    refine ⟨out2, ?_, hl2.trans hlen1, ?_, ?_⟩
    · rw [show m + 1 + fuel = (m + fuel) + 1 by omega,
        readFile_loop_step fs z (m + fuel) _ _ (show 0 < (m + 1) * 4096 + r by omega) hstep,
        hloop]
      rw [show off + 4096 + m * 4096 = off + (m + 1) * 4096 by omega,
        show a + 1 + m = a + (m + 1) by omega]
    · intro p j hp hj
      cases p with
      | zero =>
        rw [hout2 (off + 0 * 4096 + j) (Or.inl (by omega)),
          show off + 0 * 4096 + j = off + j by omega]
        exact memcpy_getElem?_inside out off fs.xip.data (x 0 * 4096) 4096 j hs0 (by omega) hj
      | succ p =>
        rw [show off + (p + 1) * 4096 + j = off + 4096 + p * 4096 + j by omega]
        exact hin2 p j (by omega) hj
    · intro i hi
      rw [hout2 i (by omega)]
      exact memcpy_getElem?_outside out off fs.xip.data (x 0 * 4096) 4096 i hs0 (by omega)
        (by omega)

/-- C8. For a file of `m` XIP pages optionally followed by one final ByteAligned page of
`r ≤ page_size` bytes (`r = 0`: no tail), `readFile(id, dst, 0, file_size)` returns with
nothing left to read, sets `dst[p * page_size .. (p + 1) * page_size)` for each XIP page `p`
to the `page_size` bytes of the xip region at `node_index[a + p] << page_shift`, sets the
`r` bytes of the tail to `byte_aligned[banode_offset[n] .. banode_offset[n] + r)`, and
leaves the rest of `dst` and the cache as they were. -/
theorem readFile_xip_then_byte_aligned (fs : axfs) (z : ZlibDecoder) (id : Nat)
    (dst : List Byte) (m r a : Nat) (x : Nat → Nat) (n b : Nat)
    (hmax : fs.node_index.max_index < U64) (hxU : fs.xip.data.length < U64)
    (hdU : dst.length < U64)
    (hsize : fs.getFileSize id = .ok (m * PAGE_SIZE + r))
    (harr : fs.getArrayIndex id = .ok a)
    (hxip : ∀ p, p < m → fs.getNodeType (a + p) = .ok 0 ∧ fs.getNodeIndex (a + p) = .ok (x p) ∧
      x p * PAGE_SIZE + PAGE_SIZE ≤ fs.xip.data.length)
    (htail : r = 0 ∨ (r ≤ PAGE_SIZE ∧ fs.getNodeType (a + m) = .ok 2 ∧
      fs.getNodeIndex (a + m) = .ok n ∧ fs.getByteAlignedOffset n = .ok b ∧
      b + r ≤ fs.byte_aligned.data.length))
    (hdst : m * PAGE_SIZE + r ≤ dst.length) :
    ∃ st, fs.readFile z id dst 0 (m * PAGE_SIZE + r) = .ok st ∧
      st.length = 0 ∧ st.offset = m * PAGE_SIZE + r ∧
      (∀ p, p < m →
        slice st.out (p * PAGE_SIZE) PAGE_SIZE = slice fs.xip.data (x p * PAGE_SIZE) PAGE_SIZE) ∧
      slice st.out (m * PAGE_SIZE) r = slice fs.byte_aligned.data b r ∧
      st.out.drop (m * PAGE_SIZE + r) = dst.drop (m * PAGE_SIZE + r) ∧
      st.out.length = dst.length ∧
      st.cblock_buffer = fs.cblock_buffer ∧ st.cachedBlock = fs.cachedBlock := by
  have hP : PAGE_SIZE = 4096 := rfl
  rw [hP] at hsize hxip htail hdst ⊢
  have hm : m ≤ fs.node_index.max_index := by
    cases m with
    | zero => exact Nat.zero_le _
    | succ k =>
      have := stitch_ok_lt _ _ _ (hxip k (Nat.lt_succ_self k)).2.1
      omega
  have hlen0 : min ((m * 4096 + r + U64 - 0 % U64) % U64) ((m * 4096 + r) % U64)
      = m * 4096 + r := by
    rw [Nat.zero_mod, Nat.sub_zero, Nat.add_mod_right, Nat.mod_eq_of_lt (by omega),
      Nat.min_self]
  obtain ⟨out2, hloop, hl2, hin2, hout2⟩ := readFile_loop_xip_pages fs z r fs.cblock_buffer
    fs.cachedBlock hxU hmax m x (fs.node_index.max_index + 1 - m) 0 a dst hxip (by omega) hdU
  rw [Nat.zero_add] at hloop
  have hrun : fs.readFile z id dst 0 (m * 4096 + r)
      = readFile_loop fs z (fs.node_index.max_index + 1 - m)
          (ReadState.mk r (m * 4096) (a + m) out2 fs.cblock_buffer fs.cachedBlock) := by
    have hfuel : fs.node_index.max_index + 1 = m + (fs.node_index.max_index + 1 - m) := by
      omega
    rw [readFile_unfold fs z id dst 0 (m * 4096 + r) (m * 4096 + r) a hsize harr, hlen0]
    exact (congrArg (fun f => readFile_loop fs z f _) hfuel).trans hloop
  rcases htail with hr | ⟨hr, ht, hn, hb, hsrc⟩
  · subst hr
    refine ⟨ReadState.mk 0 (m * 4096) (a + m) out2 fs.cblock_buffer fs.cachedBlock,
      hrun.trans (readFile_loop_done _ _ _ _ rfl), rfl, (Nat.add_zero _).symm, ?_, ?_, ?_, hl2,
        rfl, rfl⟩
    · intro p hp
      refine slice_eq_of_getElem? _ _ _ _ _ fun j hj => ?_
      have := hin2 p j hp hj
      rwa [Nat.zero_add] at this
    · rfl
    · apply List.ext_getElem?
      intro i
      rw [List.getElem?_drop, List.getElem?_drop]
      exact hout2 _ (Or.inr (by omega))
  · rcases Nat.eq_zero_or_pos r with hr0 | hrpos
    · subst hr0
      refine ⟨ReadState.mk 0 (m * 4096) (a + m) out2 fs.cblock_buffer fs.cachedBlock,
        hrun.trans (readFile_loop_done _ _ _ _ rfl), rfl, (Nat.add_zero _).symm, ?_, ?_, ?_, hl2,
        rfl, rfl⟩
      · intro p hp
        refine slice_eq_of_getElem? _ _ _ _ _ fun j hj => ?_
        have := hin2 p j hp hj
        rwa [Nat.zero_add] at this
      · rfl
      · apply List.ext_getElem?
        intro i
        rw [List.getElem?_drop, List.getElem?_drop]
        exact hout2 _ (Or.inr (by omega))
    · have ham : a + m < fs.node_index.max_index := stitch_ok_lt _ _ _ hn
      have hmin : min 4096 r = r := Nat.min_eq_right hr
      have hstep := readFile_body_byte_aligned fs z r (m * 4096) (a + m) out2 fs.cblock_buffer
        fs.cachedBlock n b hn ht hb (by omega) (by omega) (by omega) (by omega) (by omega)
      rw [hmin, Nat.sub_self] at hstep
      have hl3 : (out2.take (m * 4096) ++ ((fs.byte_aligned.data.drop b).take r ++
          out2.drop (m * 4096 + r))).length = out2.length :=
        memcpy_length _ _ _ _ _ hsrc (by omega)
      refine ⟨ReadState.mk 0 (m * 4096 + r) (a + m + 1)
        (out2.take (m * 4096) ++ ((fs.byte_aligned.data.drop b).take r ++
          out2.drop (m * 4096 + r))) fs.cblock_buffer fs.cachedBlock,
        ?_, rfl, rfl, ?_, ?_, ?_, hl3.trans hl2, rfl, rfl⟩
      · rw [hrun, show fs.node_index.max_index + 1 - m = (fs.node_index.max_index - m) + 1
            by omega,
          readFile_loop_step fs z _ _ _ hrpos hstep]
        exact readFile_loop_done _ _ _ _ rfl
      · intro p hp
        refine slice_eq_of_getElem? _ _ _ _ _ fun j hj => ?_
        show (out2.take (m * 4096) ++ ((fs.byte_aligned.data.drop b).take r ++
          out2.drop (m * 4096 + r)))[p * 4096 + j]? = _
        rw [memcpy_getElem?_outside out2 (m * 4096) fs.byte_aligned.data b r _ hsrc (by omega)
          (Or.inl (by omega))]
        have := hin2 p j hp hj
        rwa [Nat.zero_add] at this
      · refine slice_eq_of_getElem? _ _ _ _ _ fun j hj => ?_
        exact memcpy_getElem?_inside out2 (m * 4096) fs.byte_aligned.data b r j hsrc (by omega)
          hj
      · apply List.ext_getElem?
        intro i
        rw [List.getElem?_drop, List.getElem?_drop]
        show (out2.take (m * 4096) ++ ((fs.byte_aligned.data.drop b).take r ++
          out2.drop (m * 4096 + r)))[m * 4096 + r + i]? = _
        rw [memcpy_getElem?_outside out2 (m * 4096) fs.byte_aligned.data b r _ hsrc (by omega)
          (Or.inr (by omega))]
        exact hout2 _ (Or.inr (by omega))

theorem imageS3S5_xip_length : imageS3S5.xip.data.length = 32768 := by
  show (List.replicate 28672 (0 : Byte) ++ List.replicate 4096 0xAB).length = 32768
  rw [List.length_append, List.length_replicate, List.length_replicate]

theorem imageS3S5_byte_aligned_length : imageS3S5.byte_aligned.data.length = 1027 := by
  show (List.replicate 123 (0 : Byte) ++ List.replicate 904 0x5A).length = 1027
  rw [List.length_append, List.length_replicate, List.length_replicate]

/-- C8, on scenario S5 (inode 2 of `imageS3S5`: one XIP page, then 904 bytes from
`byte_aligned[123 .. 1027)`) and on scenario S3 (inode 1: one XIP page with node index 7). -/
theorem readFile_xip_then_byte_aligned_witness :
    (∃ st, imageS3S5.readFile nullDecoder 2 (List.replicate 5000 0) 0 (1 * PAGE_SIZE + 904)
        = .ok st ∧
      st.length = 0 ∧ st.offset = 1 * PAGE_SIZE + 904 ∧
      (∀ p, p < 1 → slice st.out (p * PAGE_SIZE) PAGE_SIZE
        = slice imageS3S5.xip.data (2 * PAGE_SIZE) PAGE_SIZE) ∧
      slice st.out (1 * PAGE_SIZE) 904 = slice imageS3S5.byte_aligned.data 123 904 ∧
      st.out.drop (1 * PAGE_SIZE + 904) = (List.replicate 5000 0).drop (1 * PAGE_SIZE + 904) ∧
      st.out.length = (List.replicate 5000 (0 : Byte)).length ∧
      st.cblock_buffer = imageS3S5.cblock_buffer ∧ st.cachedBlock = imageS3S5.cachedBlock) ∧
    (∃ st, imageS3S5.readFile nullDecoder 1 (List.replicate 4096 0) 0 (1 * PAGE_SIZE + 0)
        = .ok st ∧
      st.length = 0 ∧ st.offset = 1 * PAGE_SIZE + 0 ∧
      (∀ p, p < 1 → slice st.out (p * PAGE_SIZE) PAGE_SIZE
        = slice imageS3S5.xip.data (7 * PAGE_SIZE) PAGE_SIZE) ∧
      slice st.out (1 * PAGE_SIZE) 0 = slice imageS3S5.byte_aligned.data 0 0 ∧
      st.out.drop (1 * PAGE_SIZE + 0) = (List.replicate 4096 0).drop (1 * PAGE_SIZE + 0) ∧
      st.out.length = (List.replicate 4096 (0 : Byte)).length ∧
      st.cblock_buffer = imageS3S5.cblock_buffer ∧ st.cachedBlock = imageS3S5.cachedBlock) :=
  ⟨readFile_xip_then_byte_aligned imageS3S5 nullDecoder 2 (List.replicate 5000 0) 1 904 1
      (fun _ => 2) 0 123 (by decide) (by rw [imageS3S5_xip_length]; decide)
      (by rw [List.length_replicate]; decide) (by decide) (by decide)
      (fun p hp => by
        have hp0 : p = 0 := by omega
        subst hp0
        exact ⟨by decide, by decide, by rw [imageS3S5_xip_length]; decide⟩)
      (Or.inr ⟨by decide, by decide, by decide, by decide,
        by rw [imageS3S5_byte_aligned_length]⟩)
      (by rw [List.length_replicate]; decide),
   readFile_xip_then_byte_aligned imageS3S5 nullDecoder 1 (List.replicate 4096 0) 1 0 0
      (fun _ => 7) 0 0 (by decide) (by rw [imageS3S5_xip_length]; decide)
      (by rw [List.length_replicate]; decide) (by decide) (by decide)
      (fun p hp => by
        have hp0 : p = 0 := by omega
        subst hp0
        exact ⟨by decide, by decide, by rw [imageS3S5_xip_length]; decide⟩)
      (Or.inl rfl) (by rw [List.length_replicate]; decide)⟩

/-! ## The symlink branch of `axfs::ls` -/

theorem stackBuffer_length (n : Nat) (garbage : List Byte) :
    (stackBuffer n garbage).length = n := by
  unfold stackBuffer
  rw [List.length_take, List.length_append, List.length_replicate]
  omega

theorem ls_symlink_of_read_ok (fs : axfs) (z : ZlibDecoder) (id : Nat) (garbage : List Byte)
    (size : Nat) (st : ReadState) (hsz : fs.getFileSize id = .ok size)
    (hread : fs.readFile z id (stackBuffer 1024 garbage) 0 1024 = .ok st) :
    ls_symlink fs z id garbage
      = if size < st.out.length then .ok (st.out.set size 0, st) else .error .outOfBounds := by
  simp only [ls_symlink, hsz, bind, Except.bind, hread, pure, Except.pure]

theorem ls_symlink_of_read_error (fs : axfs) (z : ZlibDecoder) (id : Nat)
    (garbage : List Byte) (size : Nat) (e : Fault) (hsz : fs.getFileSize id = .ok size)
    (hread : fs.readFile z id (stackBuffer 1024 garbage) 0 1024 = .error e) :
    ls_symlink fs z id garbage = .error e := by
  simp only [ls_symlink, hsz, bind, Except.bind, hread, pure, Except.pure]

/-- The symlink branch on two images. A symlink whose target is 1024 bytes long (one
ByteAligned page) is read in full, and the terminating store `linkName[1024] = 0` then lies
outside `char linkName[1024]`; a symlink of 11 bytes whose page is an XIP node makes
`readFile` copy a whole page over the buffer. -/
theorem ls_symlink_long_target_faults :
    (imageLongLink.getMode 1).map S_ISLNK = .ok true ∧
      imageLongLink.getFileSize 1 = .ok 1024 ∧ 1024 ≤ PAGE_SIZE ∧
      ls_symlink imageLongLink nullDecoder 1 [] = .error .outOfBounds ∧
      (imageXipLink.getMode 1).map S_ISLNK = .ok true ∧
      imageXipLink.getFileSize 1 = .ok 11 ∧
      ls_symlink imageXipLink nullDecoder 1 [] = .error .outOfBounds := by
  have hba : imageLongLink.byte_aligned.data.length = 1024 := by
    show (List.replicate 1024 (0x61 : Byte)).length = 1024
    rw [List.length_replicate]
  have hmin : min ((1024 + U64 - 0 % U64) % U64) (1024 % U64) = 1024 := by decide
  have hmin2 : min ((11 + U64 - 0 % U64) % U64) (1024 % U64) = 11 := by decide
  have hfuel : imageLongLink.node_index.max_index + 1 = 1 + 1 := by decide
  have hfuel2 : imageXipLink.node_index.max_index + 1 = 1 + 1 := by decide
  have hl := stackBuffer_length 1024 []
  generalize hD : stackBuffer 1024 [] = D at hl
  have hstep := readFile_body_byte_aligned imageLongLink nullDecoder 1024 0 0 D
    imageLongLink.cblock_buffer imageLongLink.cachedBlock 0 0 (by decide) (by decide)
    (by decide) (by rw [hba]; decide) (by rw [hl]; decide) (by rw [hl]; decide) (by decide)
    (by decide)
  have hlen : (List.take 0 D ++
      (List.take (min 4096 1024) (List.drop 0 imageLongLink.byte_aligned.data) ++
        List.drop (0 + min 4096 1024) D)).length = 1024 :=
    (memcpy_length _ _ _ _ _ (by rw [hba]; decide) (by rw [hl]; decide)).trans hl
  have hread : imageLongLink.readFile nullDecoder 1 D 0 1024
      = .ok (ReadState.mk (1024 - min 4096 1024) (0 + min 4096 1024) (0 + 1)
          (List.take 0 D ++
            (List.take (min 4096 1024) (List.drop 0 imageLongLink.byte_aligned.data) ++
              List.drop (0 + min 4096 1024) D))
          imageLongLink.cblock_buffer imageLongLink.cachedBlock) := by
    rw [readFile_unfold imageLongLink nullDecoder 1 D 0 1024 1024 0 (by decide) (by decide),
      hmin, hfuel, readFile_loop_step _ _ _ _ _ (show 0 < 1024 by decide) hstep]
    exact readFile_loop_done _ _ _ _ rfl
  have hread2 : imageXipLink.readFile nullDecoder 1 D 0 1024 = .error .outOfBounds := by
    rw [readFile_unfold imageXipLink nullDecoder 1 D 0 1024 11 0 (by decide) (by decide),
      hmin2, hfuel2]
    exact readFile_loop_fault _ _ _ _ _ (show 0 < 11 by decide)
      (readFile_body_xip_overrun _ _ _ _ _ _ _ _ 0 (by decide) (by decide)
        (by rw [hl]; decide))
  refine ⟨by decide, by decide, by decide, ?_, by decide, by decide, ?_⟩
  · rw [← hD] at hread
    rw [ls_symlink_of_read_ok imageLongLink nullDecoder 1 [] 1024 _ (by decide) hread, hD]
    simp only [hlen, Nat.lt_irrefl, if_false]
  · rw [← hD] at hread2
    exact ls_symlink_of_read_error imageXipLink nullDecoder 1 [] 11 _ (by decide) hread2

theorem be32_to_cpu_lt (v : be32) : be32_to_cpu v < 2 ^ 32 := by
  have h0 := v.b0.isLt
  have h1 := v.b1.isLt
  have h2 := v.b2.isLt
  have h3 := v.b3.isLt
  unfold be32_to_cpu
  omega

/-- Inside a common prefix two buffers hold the same bytes. -/
theorem take_drop_prefix_eq (p buf : List Byte) (co n : Nat) (hp : p <+: buf)
    (h : co + n ≤ p.length) : (buf.drop co).take n = (p.drop co).take n := by
  obtain ⟨t, rfl⟩ := hp
  rw [List.drop_append_of_le_length (by omega), List.take_append_of_le_length
    (by rw [List.length_drop]; omega)]

/-- What the symlink branch leaves in `linkName` once `readFile` has stored `n < 1024` bytes
at its start. -/
theorem ls_symlink_result (out src : List Byte) (s n : Nat) (hn : n < 1024)
    (hlen : out.length = 1024) (hcopy : ∀ j, j < n → out[0 + j]? = src[s + j]?) :
    (out.set n 0).length = 1024 ∧ (out.set n 0)[n]? = some 0 ∧
      slice (out.set n 0) 0 n = slice src s n := by
  refine ⟨by rw [List.length_set, hlen], List.getElem?_set_self (by omega), ?_⟩
  refine slice_eq_of_getElem? _ _ _ _ _ fun j hj => ?_
  rw [Nat.zero_add, List.getElem?_set_ne (by omega), ← hcopy j hj, Nat.zero_add]

/-- C9 (the code departs from it at a target of 1024 bytes). For a symlink inode whose target
length `n = file_size` is below 1024, the size of `char linkName[1024]`, and whose single
page is a ByteAligned node, or a Compressed node lying inside the inflated bytes of its
cblock (with a cache buffer of `cblock_size` bytes that, where it already caches that cblock,
starts with those inflated bytes), the symlink branch of `axfs::ls` stays inside the buffer
and yields exactly the `n` bytes of the page (of `byte_aligned` at the node offset, or of the
inflated cblock at `cnode_offset`), followed by the terminating 0 at index `n`. At `n = 1024`,
which is at most one page, the read fills the buffer with the 1024 bytes of the target and
the store `linkName[size] = 0` lies outside the buffer. -/
theorem ls_symlink_reads_target (fs : axfs) (z : ZlibDecoder) (id : Nat)
    (garbage : List Byte) (n a node b co ci so nx : Nat)
    (hmax : fs.node_index.max_index < U64)
    (hsize : fs.getFileSize id = .ok n) (hn : n < 1024)
    (harr : fs.getArrayIndex id = .ok a) (hidx : fs.getNodeIndex a = .ok node)
    (hpage : (fs.getNodeType a = .ok 2 ∧ fs.getByteAlignedOffset node = .ok b ∧
        b + n ≤ fs.byte_aligned.data.length) ∨
      (fs.getNodeType a = .ok 1 ∧ fs.cnode_offset.axfs_bytetable_stitch node = .ok co ∧
        fs.cnode_index.axfs_bytetable_stitch node = .ok ci ∧
        fs.cblock_offset.axfs_bytetable_stitch ci = .ok so ∧
        fs.cblock_offset.axfs_bytetable_stitch ((ci + 1) % U64) = .ok nx ∧
        co + n ≤ be32_to_cpu fs.superblock.cblock_size ∧
        fs.cblock_buffer.length = be32_to_cpu fs.superblock.cblock_size ∧
        so ≤ fs.compressed.data.length ∧
        (fs.inflated z so ((nx + U64 - so) % U64)).length
          ≤ be32_to_cpu fs.superblock.cblock_size ∧
        co + n ≤ (fs.inflated z so ((nx + U64 - so) % U64)).length ∧
        (fs.cachedBlock = ci → fs.inflated z so ((nx + U64 - so) % U64) <+: fs.cblock_buffer))) :
    (∃ buf st, ls_symlink fs z id garbage = .ok (buf, st) ∧
      buf.length = 1024 ∧ buf[n]? = some 0 ∧
      (fs.getNodeType a = .ok 2 → slice buf 0 n = slice fs.byte_aligned.data b n) ∧
      (fs.getNodeType a = .ok 1 →
        slice buf 0 n = slice (fs.inflated z so ((nx + U64 - so) % U64)) co n)) ∧
      ((imageLongLink.getMode 1).map S_ISLNK = .ok true ∧
        imageLongLink.getFileSize 1 = .ok 1024 ∧ 1024 ≤ PAGE_SIZE ∧
        ls_symlink imageLongLink nullDecoder 1 [] = .error .outOfBounds) := by
  have hlong := ls_symlink_long_target_faults
  refine ⟨?_, hlong.1, hlong.2.1, hlong.2.2.1, hlong.2.2.2.1⟩
  have hD := stackBuffer_length 1024 garbage
  have hU : (1024 : Nat) < U64 := by decide
  have hlen0 : min ((n + U64 - 0 % U64) % U64) (1024 % U64) = n := by
    rw [Nat.zero_mod, Nat.sub_zero, Nat.add_mod_right, Nat.mod_eq_of_lt (by omega),
      Nat.mod_eq_of_lt hU]
    exact Nat.min_eq_left (by omega)
  have ha : a < fs.node_index.max_index := stitch_ok_lt _ _ _ hidx
  have hrun := readFile_unfold fs z id (stackBuffer 1024 garbage) 0 1024 n a hsize harr
  rw [hlen0] at hrun
  rcases Nat.eq_zero_or_pos n with hn0 | hnpos
  · subst hn0
    rw [readFile_loop_done _ _ _ _ rfl] at hrun
    have hres := ls_symlink_result (stackBuffer 1024 garbage) [] 0 0 hn hD
      (fun j hj => absurd hj (Nat.not_lt_zero j))
    refine ⟨_, _, (ls_symlink_of_read_ok fs z id garbage 0 _ hsize hrun).trans
      (if_pos (by show 0 < (stackBuffer 1024 garbage).length; omega)), hres.1, hres.2.1,
      fun _ => rfl, fun _ => rfl⟩
  · rcases hpage with ⟨hty, hb, hsrc⟩ |
      ⟨hty, hco, hci, hso, hnx, hfit, hbuf, hsoL, hw, hin, hcache⟩
    · have hmin : min 4096 n = n := Nat.min_eq_right (by omega)
      have hstep := readFile_body_byte_aligned fs z n 0 a (stackBuffer 1024 garbage)
        fs.cblock_buffer fs.cachedBlock node b hidx hty hb (by omega) (by omega) (by omega)
        (by omega) (by omega)
      rw [hmin, Nat.sub_self] at hstep
      rw [readFile_loop_step fs z _ _ _ hnpos hstep, readFile_loop_done _ _ _ _ rfl] at hrun
      have hl := (memcpy_length (stackBuffer 1024 garbage) 0 fs.byte_aligned.data b n hsrc
        (by omega)).trans hD
      have hres := ls_symlink_result _ fs.byte_aligned.data b n hn hl
        (fun j hj => memcpy_getElem?_inside _ 0 _ b n j hsrc (by omega) hj)
      refine ⟨_, _, (ls_symlink_of_read_ok fs z id garbage n _ hsize hrun).trans
        (if_pos (by
          show n < (List.take 0 (stackBuffer 1024 garbage) ++
            (List.take n (List.drop b fs.byte_aligned.data) ++
              List.drop (0 + n) (stackBuffer 1024 garbage))).length
          omega)), hres.1, hres.2.1, fun _ => hres.2.2, fun h => ?_⟩
      rw [hty] at h
      cases h
    · have hS := be32_to_cpu_lt fs.superblock.cblock_size
      have hSU : be32_to_cpu fs.superblock.cblock_size < U64 :=
        Nat.lt_trans hS (by decide)
      have hmin : min (be32_to_cpu fs.superblock.cblock_size - co) n = n :=
        Nat.min_eq_right (by omega)
      by_cases hhit : fs.cachedBlock = ci
      · have hstep := readFile_body_compressed_hit fs z n 0 a (stackBuffer 1024 garbage)
          fs.cblock_buffer node co ci so nx hidx hty hco hci hso hnx (by omega) hSU (by omega)
          (by omega) (by omega) (by omega) (by omega)
        rw [hmin, Nat.sub_self, ← hhit] at hstep
        rw [readFile_loop_step fs z _ _ _ hnpos hstep, readFile_loop_done _ _ _ _ rfl] at hrun
        have hl := (memcpy_length (stackBuffer 1024 garbage) 0 fs.cblock_buffer co n
          (by omega) (by omega)).trans hD
        have hres := ls_symlink_result _ fs.cblock_buffer co n hn hl
          (fun j hj => memcpy_getElem?_inside _ 0 _ co n j (by omega) (by omega) hj)
        refine ⟨_, _, (ls_symlink_of_read_ok fs z id garbage n _ hsize hrun).trans
          (if_pos (by
            show n < (List.take 0 (stackBuffer 1024 garbage) ++
              (List.take n (List.drop co fs.cblock_buffer) ++
                List.drop (0 + n) (stackBuffer 1024 garbage))).length
            omega)), hres.1, hres.2.1, fun h => ?_, fun _ => hres.2.2.trans
              (take_drop_prefix_eq _ _ co n (hcache hhit) hin)⟩
        rw [hty] at h
        cases h
      · obtain ⟨written, ret, hdec⟩ : ∃ w r, z.stbi_zlib_decode_buffer
            (toInt32 (be32_to_cpu fs.superblock.cblock_size)) (fs.compressed.data.drop so)
            (toInt32 ((nx + U64 - so) % U64)) = (w, r) := ⟨_, _, rfl⟩
        have hwr : fs.inflated z so ((nx + U64 - so) % U64) = written :=
          congrArg Prod.fst hdec
        rw [hwr] at hw hin
        rw [hwr]
        have hw2 : written.length ≤ be32_to_cpu fs.superblock.cblock_size := hw
        have hbl : (written ++ fs.cblock_buffer.drop written.length).length
            = be32_to_cpu fs.superblock.cblock_size := by
          rw [List.length_append, List.length_drop]
          omega
        have hstep := readFile_body_compressed_miss fs z n 0 a (stackBuffer 1024 garbage)
          fs.cblock_buffer fs.cachedBlock node co ci so nx written ret hidx hty hco hci hso hnx
          hhit hsoL hdec (by omega) (by omega) hSU (by omega) (by omega) (by omega) (by omega)
          (by omega)
        rw [hmin, Nat.sub_self] at hstep
        rw [readFile_loop_step fs z _ _ _ hnpos hstep, readFile_loop_done _ _ _ _ rfl] at hrun
        have hl := (memcpy_length (stackBuffer 1024 garbage) 0
          (written ++ fs.cblock_buffer.drop written.length) co n (by omega) (by omega)).trans hD
        have hres := ls_symlink_result _ (written ++ fs.cblock_buffer.drop written.length) co n
          hn hl (fun j hj => memcpy_getElem?_inside _ 0 _ co n j (by omega) (by omega) hj)
        refine ⟨_, _, (ls_symlink_of_read_ok fs z id garbage n _ hsize hrun).trans
          (if_pos (by
            show n < (List.take 0 (stackBuffer 1024 garbage) ++ (List.take n (List.drop co
                (written ++ fs.cblock_buffer.drop written.length)) ++
                List.drop (0 + n) (stackBuffer 1024 garbage))).length
            omega)), hres.1, hres.2.1, fun h => ?_, fun _ => hres.2.2.trans
              (take_drop_prefix_eq _ _ co n (List.prefix_append _ _) hin)⟩
        rw [hty] at h
        cases h

/-- C9 on scenario S6 and on a Compressed page: inode 2 of `imageS6` is a symlink of 11
bytes in one ByteAligned page at offset 42, inode 1 of `imageCompressedLink` a symlink of 11
bytes in one Compressed page of a stored cblock; on both the branch yields `hello/world`
followed by 0. -/
theorem ls_symlink_reads_target_witness :
    ((imageS6.getMode 2).map S_ISLNK = .ok true ∧
      imageS6.getNodeType 0 = .ok 2 ∧
      slice imageS6.byte_aligned.data 42 11 = asciiBytes "hello/world" ∧
      ∃ buf st, ls_symlink imageS6 nullDecoder 2 [] = .ok (buf, st) ∧
        buf.length = 1024 ∧ buf[11]? = some 0 ∧
        slice buf 0 11 = slice imageS6.byte_aligned.data 42 11) ∧
      ((imageCompressedLink.getMode 1).map S_ISLNK = .ok true ∧
        imageCompressedLink.getNodeType 0 = .ok 1 ∧
        imageCompressedLink.inflated storedDecoder 0 11 = asciiBytes "hello/world" ∧
        ∃ buf st, ls_symlink imageCompressedLink storedDecoder 1 [] = .ok (buf, st) ∧
          buf.length = 1024 ∧ buf[11]? = some 0 ∧
          slice buf 0 11 = asciiBytes "hello/world") := by
  have h := (ls_symlink_reads_target imageS6 nullDecoder 2 [] 11 0 0 42 0 0 0 0 (by decide)
    (by decide) (by decide) (by decide) (by decide)
    (Or.inl ⟨by decide, by decide, by decide⟩)).1
  obtain ⟨buf, st, hrun, hlen, hz, hba, _⟩ := h
  have hc := (ls_symlink_reads_target imageCompressedLink storedDecoder 1 [] 11 0 0 0 0 0 0 11
    (by decide) (by decide) (by decide) (by decide) (by decide)
    (Or.inr ⟨by decide, by decide, by decide, by decide, by decide, by decide, by decide,
      by decide, by decide, by decide, fun h => absurd h (by decide)⟩)).1
  obtain ⟨buf2, st2, hrun2, hlen2, hz2, _, hco2⟩ := hc
  have hinf : slice (imageCompressedLink.inflated storedDecoder 0 ((11 + U64 - 0) % U64)) 0 11
      = asciiBytes "hello/world" := by decide
  exact ⟨⟨by decide, by decide, by decide, buf, st, hrun, hlen, hz, hba (by decide)⟩,
    by decide, by decide, by decide, buf2, st2, hrun2, hlen2, hz2,
    (hco2 (by decide)).trans hinf⟩

/-! ## The kernel mount path -/

/-- C10. For every on-media superblock whose big-endian magic field differs from
`0x48A0E4CD`, `axfs_do_fill_super` returns `-EINVAL` with the in-core superblock exactly as
it was handed in and without a single access to the medium: no region has been loaded and
no field written. -/
theorem do_fill_super_rejects_magic (m : Kernel.Media) (z : Kernel.Zlib)
    (sbi : Kernel.axfs_super_incore) (sbo : Kernel.axfs_super_onmedia)
    (h : be32_to_cpu sbo.magic ≠ Kernel.AXFS_MAGIC) :
    Kernel.axfs_do_fill_super m z sbi sbo = .ok (-Kernel.EINVAL, sbi, []) := by
  unfold Kernel.axfs_do_fill_super
  rw [if_pos h]

/-- C10, at the magic bytes `DE AD BE EF` (scenario S1). -/
theorem do_fill_super_rejects_magic_witness :
    be32_to_cpu (be32.mk 0xDE 0xAD 0xBE 0xEF) = 0xDEADBEEF ∧
      Kernel.axfs_do_fill_super (Kernel.Media.mk [] [] 512) Kernel.nullZlib
          (Kernel.fresh_sbi 0 0) (Kernel.superblock_with_magic (be32.mk 0xDE 0xAD 0xBE 0xEF))
        = .ok (-22, Kernel.fresh_sbi 0 0, []) :=
  ⟨by decide, do_fill_super_rejects_magic _ _ _ _ (by decide)⟩

/-! ## The step budgets of the model are never used up -/

theorem stitch_loop_fuel_free (table : List Byte) (index split : Nat) :
    ∀ n i output, stitch_loop table index split n i output ≠ .error .outOfFuel := by
  intro n
  induction n with
  | zero => intro i output h; cases h
  | succ n ih =>
    intro i output
    unfold stitch_loop
    dsimp only
    split
    · intro h; cases h
    · split
      · exact ih _ _
      · intro h; cases h

theorem stitch_fuel_free (r : axfs_region) (i : Nat) :
    r.axfs_bytetable_stitch i ≠ .error .outOfFuel := by
  unfold axfs_region.axfs_bytetable_stitch
  split
  · split
    · intro h; cases h
    · exact stitch_loop_fuel_free _ _ _ _ _ _
  · intro h; cases h

theorem memcpy_fuel_free (dst : List Byte) (dstOff : Nat) (src : List Byte) (srcOff n : Nat) :
    memcpy dst dstOff src srcOff n ≠ .error .outOfFuel := by
  unfold memcpy
  split <;> intro h <;> cases h

theorem bind_fuel_free {α β : Type} (x : Except Fault α) (f : α → Except Fault β)
    (hx : x ≠ .error .outOfFuel) (hf : ∀ a, f a ≠ .error .outOfFuel) :
    x.bind f ≠ .error .outOfFuel := by
  cases x with
  | error e =>
    intro h
    have he : e = .outOfFuel := by cases h; rfl
    exact hx (by rw [he])
  | ok a => exact hf a

theorem pure_ne_error {α : Type} (a : α) (e : Fault) :
    (pure a : Except Fault α) ≠ .error e := by
  intro h
  cases h

theorem readFile_byte_aligned_fuel_free (fs : axfs) (n : Nat) (st : ReadState) :
    readFile_byte_aligned fs n st ≠ .error .outOfFuel :=
  bind_fuel_free _ _ (stitch_fuel_free _ _) fun _ =>
    bind_fuel_free _ _ (memcpy_fuel_free _ _ _ _ _) fun _ => pure_ne_error _ _

theorem readFile_xip_fuel_free (fs : axfs) (n : Nat) (st : ReadState) :
    readFile_xip fs n st ≠ .error .outOfFuel := by
  unfold readFile_xip
  have hm := memcpy_fuel_free st.out st.offset fs.xip.data (n * 2 ^ PAGE_SHIFT % U64)
    (2 ^ PAGE_SHIFT)
  revert hm
  cases memcpy st.out st.offset fs.xip.data (n * 2 ^ PAGE_SHIFT % U64) (2 ^ PAGE_SHIFT) with
  | error e =>
    intro hm h
    cases h
    exact hm rfl
  | ok out =>
    intro _ h
    cases h

theorem readFile_cache_fill_fuel_free (fs : axfs) (z : ZlibDecoder) (ci so len : Nat)
    (st : ReadState) : readFile_cache_fill fs z ci so len st ≠ .error .outOfFuel := by
  unfold readFile_cache_fill
  split
  · split
    · split <;> intro h <;> cases h
    · intro h; cases h
  · intro h; cases h

theorem readFile_compressed_fuel_free (fs : axfs) (z : ZlibDecoder) (n : Nat)
    (st : ReadState) : readFile_compressed fs z n st ≠ .error .outOfFuel := by
  refine bind_fuel_free _ _ (stitch_fuel_free _ _) fun co => ?_
  refine bind_fuel_free _ _ (stitch_fuel_free _ _) fun ci => ?_
  refine bind_fuel_free _ _ (stitch_fuel_free _ _) fun so => ?_
  refine bind_fuel_free _ _ (stitch_fuel_free _ _) fun nx => ?_
  refine bind_fuel_free _ _ (readFile_cache_fill_fuel_free _ _ _ _ _ _) fun st2 => ?_
  exact bind_fuel_free _ _ (memcpy_fuel_free _ _ _ _ _) fun _ => pure_ne_error _ _

theorem readFile_switch_fuel_free (fs : axfs) (z : ZlibDecoder) (ty n : Nat)
    (st : ReadState) : readFile_switch fs z ty n st ≠ .error .outOfFuel := by
  unfold readFile_switch
  split
  · exact readFile_byte_aligned_fuel_free _ _ _
  · split
    · exact readFile_xip_fuel_free _ _ _
    · split
      · exact readFile_compressed_fuel_free _ _ _ _
      · intro h; cases h

theorem readFile_body_fuel_free (fs : axfs) (z : ZlibDecoder) (st : ReadState) :
    readFile_body fs z st ≠ .error .outOfFuel := by
  refine bind_fuel_free _ _ (stitch_fuel_free _ _) fun n => ?_
  refine bind_fuel_free _ _ (stitch_fuel_free _ _) fun ty => ?_
  exact bind_fuel_free _ _ (readFile_switch_fuel_free _ _ _ _ _) fun _ => pure_ne_error _ _

theorem bind_ok_inv {α β : Type} (x : Except Fault α) (f : α → Except Fault β) (b : β)
    (h : x.bind f = .ok b) : ∃ a, x = .ok a ∧ f a = .ok b := by
  cases x with
  | error e => cases h
  | ok a => exact ⟨a, rfl, h⟩

theorem readFile_byte_aligned_arrayIndex (fs : axfs) (n : Nat) (st st2 : ReadState)
    (h : readFile_byte_aligned fs n st = .ok st2) : st2.arrayIndex = st.arrayIndex := by
  obtain ⟨_, _, h⟩ := bind_ok_inv _ _ _ h
  obtain ⟨_, _, h⟩ := bind_ok_inv _ _ _ h
  cases h
  rfl

theorem readFile_xip_arrayIndex (fs : axfs) (n : Nat) (st st2 : ReadState)
    (h : readFile_xip fs n st = .ok st2) : st2.arrayIndex = st.arrayIndex := by
  unfold readFile_xip at h
  revert h
  cases memcpy st.out st.offset fs.xip.data (n * 2 ^ PAGE_SHIFT % U64) (2 ^ PAGE_SHIFT) with
  | error e =>
    intro h
    cases h
  | ok out =>
    intro h
    injection h with h
    exact (congrArg ReadState.arrayIndex h).symm

theorem readFile_cache_fill_arrayIndex (fs : axfs) (z : ZlibDecoder) (ci so len : Nat)
    (st st2 : ReadState) (h : readFile_cache_fill fs z ci so len st = .ok st2) :
    st2.arrayIndex = st.arrayIndex := by
  unfold readFile_cache_fill at h
  split at h
  · split at h
    · split at h
      · cases h; rfl
      · cases h
    · cases h
  · cases h; rfl

theorem readFile_compressed_arrayIndex (fs : axfs) (z : ZlibDecoder) (n : Nat)
    (st st2 : ReadState) (h : readFile_compressed fs z n st = .ok st2) :
    st2.arrayIndex = st.arrayIndex := by
  obtain ⟨_, _, h⟩ := bind_ok_inv _ _ _ h
  obtain ⟨_, _, h⟩ := bind_ok_inv _ _ _ h
  obtain ⟨_, _, h⟩ := bind_ok_inv _ _ _ h
  obtain ⟨_, _, h⟩ := bind_ok_inv _ _ _ h
  obtain ⟨st1, h1, h⟩ := bind_ok_inv _ _ _ h
  obtain ⟨_, _, h⟩ := bind_ok_inv _ _ _ h
  have h2 : st2.arrayIndex = st1.arrayIndex := by cases h; rfl
  rw [h2]
  exact readFile_cache_fill_arrayIndex _ _ _ _ _ _ _ h1

theorem readFile_switch_arrayIndex (fs : axfs) (z : ZlibDecoder) (ty n : Nat)
    (st st2 : ReadState) (h : readFile_switch fs z ty n st = .ok st2) :
    st2.arrayIndex = st.arrayIndex := by
  unfold readFile_switch at h
  split at h
  · exact readFile_byte_aligned_arrayIndex _ _ _ _ h
  · split at h
    · exact readFile_xip_arrayIndex _ _ _ _ h
    · split at h
      · exact readFile_compressed_arrayIndex _ _ _ _ _ h
      · cases h

/-- An iteration that does not fault found `arrayIndex` below `node_index.max_index` and
raised it by one. -/
theorem readFile_body_arrayIndex (fs : axfs) (z : ZlibDecoder) (st st2 : ReadState)
    (h : readFile_body fs z st = .ok st2) :
    st.arrayIndex < fs.node_index.max_index ∧ st2.arrayIndex = (st.arrayIndex + 1) % U64 := by
  obtain ⟨n, hn, h⟩ := bind_ok_inv _ _ _ h
  obtain ⟨ty, _, h⟩ := bind_ok_inv _ _ _ h
  obtain ⟨st1, h1, h⟩ := bind_ok_inv _ _ _ h
  cases h
  refine ⟨stitch_ok_lt _ _ _ hn, ?_⟩
  show (st1.arrayIndex + 1) % U64 = _
  rw [readFile_switch_arrayIndex _ _ _ _ _ _ h1]

theorem readFile_loop_fuel_free (fs : axfs) (z : ZlibDecoder)
    (hmax : fs.node_index.max_index < U64) :
    ∀ fuel st, 1 ≤ fuel → fs.node_index.max_index < st.arrayIndex + fuel →
      readFile_loop fs z fuel st ≠ .error .outOfFuel := by
  intro fuel
  induction fuel with
  | zero => intro st h; omega
  | succ f ih =>
    intro st _ hf
    unfold readFile_loop
    split
    · cases hb : readFile_body fs z st with
      | error e =>
        intro h
        exact readFile_body_fuel_free fs z st (by rw [hb]; exact h)
      | ok st2 =>
        obtain ⟨hlt, hnext⟩ := readFile_body_arrayIndex fs z st st2 hb
        rw [Nat.mod_eq_of_lt (by omega)] at hnext
        exact ih st2 (by omega) (by omega)
    · intro h; cases h

/-- The step budget of `axfs::readFile` is never used up: whatever the image (with a
`uint64_t` as `node_index.max_index`), the inode and the range, the model of the loop ends
by itself, with a result or with a fault of the C code. -/
theorem readFile_fuel_free (fs : axfs) (z : ZlibDecoder) (id : Nat) (data : List Byte)
    (start length : Nat) (hmax : fs.node_index.max_index < U64) :
    fs.readFile z id data start length ≠ .error .outOfFuel := by
  refine bind_fuel_free _ _ (stitch_fuel_free _ _) fun fileSize => ?_
  refine bind_fuel_free _ _ (stitch_fuel_free _ _) fun a => ?_
  exact readFile_loop_fuel_free fs z hmax _ _ (by omega) (by show _ < a + _; omega)

theorem copy_block_data_loop_fuel_free (m : Kernel.Media) (boffset len : Nat)
    (hlen : len < U64) :
    ∀ fuel copied dst, copied ≤ len → len ≤ copied + fuel →
      Kernel.axfs_copy_block_data_loop m boffset len fuel copied dst ≠ .error .outOfFuel := by
  intro fuel
  induction fuel with
  | zero =>
    intro copied dst _ h2
    unfold Kernel.axfs_copy_block_data_loop
    rw [if_neg (by omega)]
    intro h
    cases h
  | succ f ih =>
    intro copied dst h1 h2
    unfold Kernel.axfs_copy_block_data_loop
    split
    · next hc =>
      split
      · intro h; cases h
      · next hbs =>
        have hmod : boffset % m.s_blocksize < m.s_blocksize :=
          Nat.mod_lt _ (Nat.pos_of_ne_zero hbs)
        split
        · intro h; cases h
        · split
          · next h0 =>
            subst h0
            dsimp only
            split
            · next dst2 _ =>
              apply ih
              · rw [Nat.zero_add]
                split
                · rw [Nat.mod_eq_of_lt hlen]
                · rw [Nat.mod_eq_of_lt (by omega)]
                  omega
              · rw [Nat.zero_add]
                split
                · rw [Nat.mod_eq_of_lt hlen]; omega
                · rw [Nat.mod_eq_of_lt (by omega)]
                  omega
            · next e he =>
              intro h
              exact memcpy_fuel_free _ _ _ _ _ (he.trans h)
          · next h0 =>
            dsimp only
            split
            · next dst2 _ =>
              apply ih
              · split
                · rw [Nat.mod_eq_of_lt (by omega)]; omega
                · rw [Nat.mod_eq_of_lt (by omega)]; omega
              · split
                · rw [Nat.mod_eq_of_lt (by omega)]; omega
                · rw [Nat.mod_eq_of_lt (by omega)]; omega
            · next e he =>
              intro h
              exact memcpy_fuel_free _ _ _ _ _ (he.trans h)
    · intro h; cases h

/-- The step budget of `axfs_copy_block_data` is never used up: every iteration copies at
least one byte. -/
theorem copy_block_data_fuel_free (m : Kernel.Media) (dst : List Byte) (boffset len : Nat)
    (hlen : len < U64) :
    Kernel.axfs_copy_block_data m dst boffset len ≠ .error .outOfFuel := by
  unfold Kernel.axfs_copy_block_data
  split
  · intro h; cases h
  · exact copy_block_data_loop_fuel_free m boffset len hlen len 0 dst (Nat.zero_le _)
      (by omega)

/-- `strncmp` against a string of the same length that has no NUL before its last byte is 0
exactly for the equal string. -/
theorem strncmp_eq_zero_iff :
    ∀ (n : Nat) (a b : List Byte), a.length = n → b.length = n →
      (∀ i, i + 1 < n → b.getD i 0 ≠ 0) → (Kernel.strncmp a b n = 0 ↔ a = b) := by
  intro n
  induction n with
  | zero =>
    intro a b ha hb _
    rw [List.length_eq_zero.mp ha, List.length_eq_zero.mp hb]
    simp [Kernel.strncmp]
  | succ n ih =>
    intro a b ha hb hnz
    cases a with
    | nil => cases ha
    | cons x as =>
      cases b with
      | nil => cases hb
      | cons y bs =>
        have hal : as.length = n := by simpa using ha
        have hbl : bs.length = n := by simpa using hb
        unfold Kernel.strncmp
        simp only [List.headD_cons, List.tail_cons]
        by_cases hxy : x = y
        · subst hxy
          rw [if_neg (by simp)]
          by_cases hx0 : x = 0
          · rw [if_pos hx0]
            have hn : n = 0 := by
              by_contra hne
              exact hnz 0 (by omega) (by simpa using hx0)
            subst hn
            rw [List.length_eq_zero.mp hal, List.length_eq_zero.mp hbl]
            simp
          · rw [if_neg hx0]
            have := ih as bs hal hbl (fun i hi => by
              have := hnz (i + 1) (by omega)
              simpa using this)
            rw [this]
            simp
        · rw [if_pos hxy]
          have hv : x.val ≠ y.val := fun h => hxy (Fin.ext h)
          constructor
          · intro h
            omega
          · intro h
            injection h with h1 _
            exact absurd h1 hxy

theorem AXFS_SIGNATURE_bytes :
    Kernel.AXFS_SIGNATURE
      = [65, 100, 118, 97, 110, 99, 101, 100, 32, 88, 73, 80, 32, 70, 83, 0] := by
  decide

/-- C11. For an on-media superblock with the correct magic and its 16 signature bytes,
the `strncmp` of `axfs_do_fill_super` is 0 if and only if the signature is
`"Advanced XIP FS"` followed by a NUL byte; with that signature the function goes on to load
the image, with any other it returns `-EINVAL` and has touched nothing. -/
theorem do_fill_super_signature (m : Kernel.Media) (z : Kernel.Zlib)
    (sbi : Kernel.axfs_super_incore) (sbo : Kernel.axfs_super_onmedia)
    (hmagic : be32_to_cpu sbo.magic = Kernel.AXFS_MAGIC) (hlen : sbo.signature.length = 16) :
    (Kernel.strncmp sbo.signature Kernel.AXFS_SIGNATURE 16 = 0
        ↔ sbo.signature = asciiBytes "Advanced XIP FS" ++ [0]) ∧
      (sbo.signature = asciiBytes "Advanced XIP FS" ++ [0] →
        Kernel.axfs_do_fill_super m z sbi sbo = Kernel.axfs_do_fill_super_load m z sbi sbo) ∧
      (sbo.signature ≠ asciiBytes "Advanced XIP FS" ++ [0] →
        Kernel.axfs_do_fill_super m z sbi sbo = .ok (-Kernel.EINVAL, sbi, [])) := by
  have hiff : Kernel.strncmp sbo.signature Kernel.AXFS_SIGNATURE 16 = 0
      ↔ sbo.signature = Kernel.AXFS_SIGNATURE := by
    apply strncmp_eq_zero_iff 16 _ _ hlen (by decide)
    intro i hi
    rw [AXFS_SIGNATURE_bytes]
    have : i < 15 := by omega
    interval_cases i <;> decide
  refine ⟨hiff, fun h => ?_, fun h => ?_⟩
  · unfold Kernel.axfs_do_fill_super
    rw [if_neg (by rw [hmagic]; exact fun h => h rfl), if_neg (fun hne => hne (hiff.mpr h))]
  · unfold Kernel.axfs_do_fill_super
    rw [if_neg (by rw [hmagic]; exact fun h => h rfl), if_pos (fun h0 => h (hiff.mp h0))]

/-- C11, at the superblock with the correct magic and sixteen NUL bytes as signature, which
is rejected. -/
theorem do_fill_super_signature_witness :
    Kernel.axfs_do_fill_super (Kernel.Media.mk [] [] 512) Kernel.nullZlib (Kernel.fresh_sbi 0 0)
        (Kernel.superblock_with_magic (be32_of 0x48A0E4CD))
      = .ok (-22, Kernel.fresh_sbi 0 0, []) :=
  (do_fill_super_signature (Kernel.Media.mk [] [] 512) Kernel.nullZlib (Kernel.fresh_sbi 0 0)
    (Kernel.superblock_with_magic (be32_of 0x48A0E4CD)) (by decide) (by decide)).2.2
    (by decide)

/-! ## The root inode check -/

theorem check_super_of_mode (sbi : Kernel.axfs_super_incore) (mode : Nat)
    (hmode : Kernel.AXFS_GET_MODE sbi.metadata 0 = .ok mode) :
    Kernel.axfs_check_super sbi
      = if Kernel.S_ISDIR mode then .ok 0 else .ok (-Kernel.EINVAL) := by
  unfold Kernel.axfs_check_super
  rw [hmode]
  cases h : Kernel.S_ISDIR mode <;> simp [h]

/-- C13. When `AXFS_GET_MODE(metadata, 0)` evaluates to `mode`, `axfs_check_super` returns 0
if and only if `S_ISDIR(mode)` holds and returns `-EINVAL` otherwise; and when `sbi` is the
superblock `axfs_do_fill_super` has filled, `axfs_fill_super` returns `-EINVAL` for a root
that is no directory, so that it returns 0 only when `mode` has the file type `S_IFDIR`; the
mounted superblock then holds the same metadata. -/
theorem check_super_root_is_directory (sbi : Kernel.axfs_super_incore) (mode : Nat)
    (hmode : Kernel.AXFS_GET_MODE sbi.metadata 0 = .ok mode) :
    (Kernel.axfs_check_super sbi = .ok 0 ↔ Kernel.S_ISDIR mode = true) ∧
      (Kernel.S_ISDIR mode = false → Kernel.axfs_check_super sbi = .ok (-Kernel.EINVAL)) ∧
      ∀ (m : Kernel.Media) (z : Kernel.Zlib) (vfs : Kernel.Vfs)
        (sbo : Kernel.axfs_super_onmedia) (phys virt : Nat) (t : List Kernel.Fetch),
        Kernel.axfs_do_fill_super m z (Kernel.fresh_sbi phys virt) sbo = .ok (0, sbi, t) →
          (Kernel.S_ISDIR mode = false →
            Kernel.axfs_fill_super m z vfs sbo phys virt = .ok (-Kernel.EINVAL, none)) ∧
          ∀ sbi2, Kernel.axfs_fill_super m z vfs sbo phys virt = .ok (0, some sbi2) →
            Kernel.S_ISDIR mode = true ∧ mode &&& 0o170000 = 0o040000 ∧
              sbi2.metadata = sbi.metadata := by
  have hc := check_super_of_mode sbi mode hmode
  refine ⟨?_, ?_, ?_⟩
  · rw [hc]
    cases Kernel.S_ISDIR mode <;> simp [Kernel.EINVAL]
  · intro h
    rw [hc, h]
    rfl
  · intro m z vfs sbo phys virt t hfill
    have hE : (-Kernel.EINVAL : Int) ≠ 0 := by decide
    constructor
    · intro h
      unfold Kernel.axfs_fill_super
      rw [hfill]
      simp only [ne_eq, not_true_eq_false, if_false]
      rw [hc, h]
      simp only [Bool.false_eq_true, if_false]
      rw [if_pos hE]
    · intro sbi2 h2
      unfold Kernel.axfs_fill_super at h2
      rw [hfill] at h2
      simp only [ne_eq, not_true_eq_false, if_false] at h2
      rw [hc] at h2
      cases hd : Kernel.S_ISDIR mode with
      | false =>
        rw [hd] at h2
        simp only [Bool.false_eq_true, if_false] at h2
        rw [if_pos hE] at h2
        cases h2
      | true =>
        refine ⟨rfl, ?_, ?_⟩
        · simpa [Kernel.S_ISDIR] using hd
        · rw [hd] at h2
          simp only [if_true, if_false, not_true_eq_false] at h2
          revert h2
          cases Kernel.axfs_create_vfs_inode vfs.iget5_locked sbi 0 with
          | error e => intro h2; cases h2
          | ok r =>
            cases r with
            | none => intro h2; cases h2
            | some root =>
              simp only
              cases vfs.d_alloc_root with
              | false => intro h2; cases h2
              | true =>
                simp only [Bool.not_true, Bool.false_eq_true, if_false]
                cases Kernel.vmalloc sbi.cblock_size vfs.garbage0 with
                | none => intro h2; cases h2
                | some b0 =>
                  cases Kernel.vmalloc sbi.cblock_size vfs.garbage1 with
                  | none => intro h2; cases h2
                  | some b1 =>
                    intro h2
                    simp only [Except.ok.injEq, Prod.mk.injEq, Option.some.injEq, true_and] at h2
                    rw [← h2]

/-- The superblock `axfs_do_fill_super` fills from the image on `rootOnlyDevice` with a
directory as root. -/
theorem do_fill_super_rootOnly :
    Kernel.axfs_do_fill_super (Kernel.rootOnlyDevice 0o040755) Kernel.nullZlib
        (Kernel.fresh_sbi 0 0) Kernel.rootOnlySuper
      = .ok (0, Kernel.rootOnlySbi,
          List.replicate 15 (0, 40) ++ [(40, 40), (80, 4), (0, 40), (0, 40)]) := by
  decide

/-- The image on `rootOnlyDevice` with a directory as root mounts. -/
theorem fill_super_rootOnly :
    Kernel.axfs_fill_super (Kernel.rootOnlyDevice 0o040755) Kernel.nullZlib Kernel.plainVfs
        Kernel.rootOnlySuper 0 0
      = .ok (0, some { Kernel.rootOnlySbi with
          cblock_buffer0 := some (List.replicate 16 0)
          cblock_buffer1 := some (List.replicate 16 0)
          current_cnode_index := 2 ^ 64 - 1 }) := by
  have hv : Kernel.vmalloc 16 [] = some (List.replicate 16 0) := by
    unfold Kernel.vmalloc stackBuffer
    decide
  have hc : Kernel.axfs_check_super Kernel.rootOnlySbi = .ok 0 := by decide
  have hi : Kernel.axfs_create_vfs_inode true Kernel.rootOnlySbi 0
      = .ok (some (Kernel.inode.mk 0 0o040755 0 0 0 0)) := by decide
  unfold Kernel.axfs_fill_super
  rw [do_fill_super_rootOnly]
  simp only [ne_eq, not_true_eq_false, if_false]
  rw [hc]
  simp only [ne_eq, not_true_eq_false, if_false]
  have h1 : Kernel.plainVfs.iget5_locked = true := rfl
  have h2 : Kernel.plainVfs.d_alloc_root = true := rfl
  have h3 : Kernel.plainVfs.garbage0 = [] := rfl
  have h4 : Kernel.plainVfs.garbage1 = [] := rfl
  have h5 : Kernel.rootOnlySbi.cblock_size = 16 := rfl
  rw [h1, h2, h3, h4, h5, hi, hv]
  rfl

/-- C13, at the image whose root has mode 040755: the check passes, and the mount that
succeeds on it implies the directory test. -/
theorem check_super_root_is_directory_witness :
    Kernel.axfs_check_super Kernel.rootOnlySbi = .ok 0 ∧
      Kernel.S_ISDIR 0o040755 = true ∧ 0o040755 &&& 0o170000 = 0o040000 :=
  ⟨(check_super_root_is_directory Kernel.rootOnlySbi 0o040755 (by decide)).1.mpr (by decide),
    ((check_super_root_is_directory Kernel.rootOnlySbi 0o040755 (by decide)).2.2
      (Kernel.rootOnlyDevice 0o040755) Kernel.nullZlib Kernel.plainVfs Kernel.rootOnlySuper
      0 0 _ do_fill_super_rootOnly).2 _ fill_super_rootOnly |>.1,
    ((check_super_root_is_directory Kernel.rootOnlySbi 0o040755 (by decide)).2.2
      (Kernel.rootOnlyDevice 0o040755) Kernel.nullZlib Kernel.plainVfs Kernel.rootOnlySuper
      0 0 _ do_fill_super_rootOnly).2 _ fill_super_rootOnly |>.2.1⟩

/-! ## Directories in the kernel -/

theorem U64_STITCH_lt (md : List (Option (List Byte))) (base index v : Nat)
    (h : Kernel.AXFS_U64_STITCH md base index = .ok v) : v < U64 := by
  unfold Kernel.AXFS_U64_STITCH at h
  cases hs : Kernel.stitch_sum md base index 8 with
  | error e => rw [hs] at h; cases h
  | ok s =>
    rw [hs] at h
    injection h with h
    rw [← h]
    exact Nat.mod_lt _ (by decide)

theorem strlen_spec : ∀ (name : List Byte) (len : Nat), Kernel.strlen name = .ok len →
    len < name.length ∧ name.getD len 0 = 0 ∧ (∀ b ∈ name.take len, b ≠ 0) ∧
      (name.take len).headD 0 = name.headD 0 := by
  intro name
  induction name with
  | nil => intro len h; cases h
  | cons b bs ih =>
    intro len h
    unfold Kernel.strlen at h
    by_cases hb : b = 0
    · rw [if_pos hb] at h
      injection h with h
      subst h
      refine ⟨by simp, by simpa using hb, by simp, by simpa using hb.symm⟩
    · rw [if_neg hb] at h
      cases hs : Kernel.strlen bs with
      | error e => rw [hs] at h; cases h
      | ok n =>
        rw [hs] at h
        injection h with h
        subst h
        obtain ⟨h1, h2, h3, _⟩ := ih n hs
        refine ⟨by simpa using h1, by simpa using h2, ?_, by simp⟩
        intro x hx
        rw [List.take_succ_cons, List.mem_cons] at hx
        rcases hx with hx | hx
        · rw [hx]; exact hb
        · exact h3 x hx

theorem inode_name_inv (sbi : Kernel.axfs_super_incore) (ino : Nat) (nm : List Byte)
    (h : Kernel.inode_name sbi ino = .ok nm) :
    ∃ name, Kernel.AXFS_GET_INODE_NAME_ADDRESS sbi ino = .ok name ∧
      Kernel.strlen name = .ok nm.length ∧ name.take nm.length = nm := by
  unfold Kernel.inode_name at h
  cases ha : Kernel.AXFS_GET_INODE_NAME_ADDRESS sbi ino with
  | error e => rw [ha] at h; cases h
  | ok name =>
    rw [ha] at h
    simp only at h
    cases hs : Kernel.strlen name with
    | error e => rw [hs] at h; cases h
    | ok len =>
      rw [hs] at h
      injection h with h
      have hlen : nm.length = len := by
        rw [← h, List.length_take]
        have := (strlen_spec name len hs).1
        omega
      exact ⟨name, rfl, by rw [hlen]; exact hs, by rw [hlen]; exact h⟩

theorem readdir_loop_zero (sbi : Kernel.axfs_super_incore)
    (filldir : List Kernel.dir_entry → Kernel.dir_entry → Int) (d i n : Nat)
    (calls : List Kernel.dir_entry)
    (hn : Kernel.AXFS_GET_INODE_NUM_ENTRIES sbi.metadata d = .ok n) (hi : ¬ i < n) :
    Kernel.axfs_readdir_loop sbi filldir d 0 i calls = .ok (i, calls) := by
  unfold Kernel.axfs_readdir_loop
  rw [hn]
  simp only
  rw [if_neg hi]

theorem readdir_loop_step (sbi : Kernel.axfs_super_incore)
    (filldir : List Kernel.dir_entry → Kernel.dir_entry → Int) (d i n fuel i2 : Nat)
    (calls calls2 : List Kernel.dir_entry)
    (hn : Kernel.AXFS_GET_INODE_NUM_ENTRIES sbi.metadata d = .ok n) (hi : i < n)
    (hb : Kernel.axfs_readdir_body sbi filldir d i calls = .ok (true, i2, calls2)) :
    Kernel.axfs_readdir_loop sbi filldir d (fuel + 1) i calls
      = Kernel.axfs_readdir_loop sbi filldir d fuel i2 calls2 := by
  rw [Kernel.axfs_readdir_loop, hn]
  simp only
  rw [if_pos hi, hb]

/-- One pass through the loop body of `axfs_readdir` when `filldir` accepts the entry. -/
theorem readdir_body_accept (sbi : Kernel.axfs_super_incore)
    (filldir : List Kernel.dir_entry → Kernel.dir_entry → Int) (d i first mode : Nat)
    (nm : List Byte) (calls : List Kernel.dir_entry)
    (hfirst : Kernel.AXFS_GET_INODE_ARRAY_INDEX sbi.metadata d = .ok first)
    (hname : Kernel.inode_name sbi ((first + i) % U64) = .ok nm)
    (hmode : Kernel.AXFS_GET_MODE sbi.metadata ((first + i) % U64) = .ok mode)
    (hfill : filldir calls (Kernel.dir_entry.mk nm (toInt32 nm.length) i ((first + i) % U64)
      (toInt32 mode)) = 0) :
    Kernel.axfs_readdir_body sbi filldir d i calls
      = .ok (true, (i + 1) % U64, calls ++ [Kernel.dir_entry.mk nm (toInt32 nm.length) i
          ((first + i) % U64) (toInt32 mode)]) := by
  obtain ⟨name, ha, hs, ht⟩ := inode_name_inv sbi _ nm hname
  unfold Kernel.axfs_readdir_body
  rw [hfirst]
  simp only
  rw [ha]
  simp only
  rw [hs]
  simp only
  rw [hmode]
  simp only
  rw [ht, if_neg (by rw [hfill]; exact fun h => h rfl)]

/-- The loop of `axfs_readdir` with a `filldir` that accepts everything: from `dir_index = i`
on it calls `filldir` for the entries `i ..`, in order, and ends with `f_pos` at their
number. -/
theorem readdir_loop_all (sbi : Kernel.axfs_super_incore)
    (filldir : List Kernel.dir_entry → Kernel.dir_entry → Int) (d n first : Nat)
    (names : Nat → List Byte) (modes : Nat → Nat)
    (hn : Kernel.AXFS_GET_INODE_NUM_ENTRIES sbi.metadata d = .ok n)
    (hfirst : Kernel.AXFS_GET_INODE_ARRAY_INDEX sbi.metadata d = .ok first)
    (hwrap : first + n ≤ U64)
    (hname : ∀ i, i < n → Kernel.inode_name sbi (first + i) = .ok (names i))
    (hmode : ∀ i, i < n → Kernel.AXFS_GET_MODE sbi.metadata (first + i) = .ok (modes i))
    (hfill : ∀ calls e, filldir calls e = 0) :
    ∀ (k i : Nat) (calls : List Kernel.dir_entry), i + k = n →
      Kernel.axfs_readdir_loop sbi filldir d k i calls
        = .ok (n, calls ++ (List.range' i k).map fun j =>
            Kernel.dir_entry.mk (names j) (toInt32 (names j).length) j (first + j)
              (toInt32 (modes j))) := by
  have hnlt : n < U64 := U64_STITCH_lt _ _ _ _ hn
  intro k
  induction k with
  | zero =>
    intro i calls hi
    rw [readdir_loop_zero sbi filldir d i n calls hn (by omega)]
    simp only [List.range'_zero, List.map_nil, List.append_nil]
    rw [show i = n by omega]
  | succ k ih =>
    intro i calls hi
    have hin : i < n := by omega
    have hm : (first + i) % U64 = first + i := Nat.mod_eq_of_lt (by omega)
    rw [readdir_loop_step sbi filldir d i n k _ calls _ hn hin
      (readdir_body_accept sbi filldir d i first (modes i) (names i) calls hfirst
        (by rw [hm]; exact hname i hin) (by rw [hm]; exact hmode i hin) (hfill _ _)),
      Nat.mod_eq_of_lt (show i + 1 < U64 by omega), ih (i + 1) _ (by omega), hm]
    simp [List.range'_succ]

/-- C14. For a directory inode `d` with `n = inode_num_entries[d]` entries from
`first = inode_array_index[d]` on, whose children have the names `names i` (the
NUL-terminated strings at `strings[inode_name_offset[first + i]]`) and the modes `modes i`,
`axfs_readdir` started at position 0 with a `filldir` that never fails returns 0 after
exactly `n` calls of `filldir`; call `i` carries the name of child `i` with its length, the
position `i`, the inode number `first + i` and the mode of the child; `f_pos` ends as `n`. -/
theorem readdir_emits_all_entries (sbi : Kernel.axfs_super_incore)
    (filldir : List Kernel.dir_entry → Kernel.dir_entry → Int) (d : Kernel.inode)
    (n first : Nat) (names : Nat → List Byte) (modes : Nat → Nat)
    (hdir : Kernel.S_ISDIR d.i_mode = true)
    (hn : Kernel.AXFS_GET_INODE_NUM_ENTRIES sbi.metadata d.i_ino = .ok n)
    (hfirst : Kernel.AXFS_GET_INODE_ARRAY_INDEX sbi.metadata d.i_ino = .ok first)
    (hwrap : first + n ≤ U64)
    (hname : ∀ i, i < n → Kernel.inode_name sbi (first + i) = .ok (names i))
    (hmode : ∀ i, i < n → Kernel.AXFS_GET_MODE sbi.metadata (first + i) = .ok (modes i))
    (hfill : ∀ calls e, filldir calls e = 0) :
    Kernel.axfs_readdir sbi filldir d 0
      = .ok (0, n, (List.range n).map fun i =>
          Kernel.dir_entry.mk (names i) (toInt32 (names i).length) i (first + i)
            (toInt32 (modes i))) := by
  unfold Kernel.axfs_readdir
  rw [hn]
  simp only
  by_cases h0 : n = 0
  · subst h0
    rw [if_pos (Nat.le_refl 0)]
    rfl
  · rw [if_neg (by omega), hdir]
    simp only [Bool.not_true, Bool.false_eq_true, if_false, Nat.sub_zero]
    rw [readdir_loop_all sbi filldir d.i_ino n first names modes hn hfirst hwrap hname hmode
      hfill n 0 [] (by omega)]
    simp only [List.nil_append, List.range_eq_range']

/-- C14, at the root directory of `dirSbi`: the entries `a` (inode 1, mode 0100644) and `b`
(inode 2). -/
theorem readdir_emits_all_entries_witness :
    Kernel.axfs_readdir Kernel.dirSbi (fun _ _ => 0) (Kernel.inode.mk 0 0o040755 0 0 0 2) 0
      = .ok (0, 2, [Kernel.dir_entry.mk [97] 1 0 1 0o100644,
          Kernel.dir_entry.mk [98] 1 1 2 0o100644]) :=
  readdir_emits_all_entries Kernel.dirSbi (fun _ _ => 0) (Kernel.inode.mk 0 0o040755 0 0 0 2)
    2 1 (fun i => if i = 0 then [97] else [98]) (fun _ => 0o100644)
    (by decide) (by decide) (by decide) (by decide) (by decide) (by decide)
    (fun _ _ => rfl)

theorem lex_asymm (a b : List Byte) (h1 : List.Lex (fun x y : Byte => x < y) a b)
    (h2 : List.Lex (fun x y : Byte => x < y) b a) : False :=
  (List.Lex.isAsymm (fun x y : Byte => x < y)).asymm _ _ h1 h2

theorem lex_head_le (a b : List Byte) (h : List.Lex (fun x y : Byte => x < y) a b) :
    (a.headD 0).val ≤ (b.headD 0).val := by
  cases h with
  | nil => simp
  | cons h => simp
  | rel h => exact Nat.le_of_lt h

theorem char_value_le (s : Bool) (b : Byte) : Kernel.char_value s b ≤ (b.val : Int) := by
  unfold Kernel.char_value
  split <;> omega

theorem memcmp_spec : ∀ (a b ta tb : List Byte), a.length = b.length →
    ∃ r, Kernel.memcmp (a ++ ta) (b ++ tb) a.length = .ok r ∧ (r = 0 ↔ a = b) ∧
      (0 < r → List.Lex (fun x y : Byte => x < y) b a) ∧
      (r < 0 → List.Lex (fun x y : Byte => x < y) a b) := by
  intro a
  induction a with
  | nil =>
    intro b ta tb h
    have hb : b = [] := List.length_eq_zero.mp h.symm
    subst hb
    exact ⟨0, by simp [Kernel.memcmp], by simp, by simp, by simp⟩
  | cons x as ih =>
    intro b ta tb h
    cases b with
    | nil => cases h
    | cons y bs =>
      have hl : as.length = bs.length := by simpa using h
      simp only [List.cons_append, List.length_cons, Kernel.memcmp]
      by_cases hxy : x = y
      · subst hxy
        obtain ⟨r, hr, h0, hp, hn⟩ := ih bs ta tb hl
        refine ⟨r, by simpa using hr, by simpa using h0, fun h => .cons (hp h),
          fun h => .cons (hn h)⟩
      · have hv : x.val ≠ y.val := fun h => hxy (Fin.ext h)
        refine ⟨(x.val : Int) - (y.val : Int), by simp [hxy], ?_, ?_, ?_⟩
        · constructor
          · intro h; omega
          · intro h; injection h with h1 _; exact absurd h1 hxy
        · intro h
          exact .rel (Fin.lt_def.mpr (by omega))
        · intro h
          exact .rel (Fin.lt_def.mpr (by omega))

theorem toInt32_small (x : Nat) (h : x < 2 ^ 31) : toInt32 x = (x : Int) := by
  unfold toInt32
  have h1 : x % 2 ^ 32 = x := Nat.mod_eq_of_lt (by omega)
  rw [h1, if_pos h]

/-- One pass through the loop body of `axfs_lookup` at an entry named `nm`: it breaks only
where the needle sorts in front of `nm`, continues only where `nm` is not the needle, and
binds the inode exactly where `nm` is the needle. -/
theorem lookup_body_spec (s iget : Bool) (sbi : Kernel.axfs_super_incore) (d i first : Nat)
    (needle nm : List Byte)
    (hfirst : Kernel.AXFS_GET_INODE_ARRAY_INDEX sbi.metadata d = .ok first)
    (hname : Kernel.inode_name sbi ((first + i) % U64) = .ok nm)
    (hnm : nm.length < 2 ^ 31) (hneedle : needle.length < 2 ^ 32) :
    (Kernel.axfs_lookup_body s iget sbi d needle i = .ok .break_ ∧
        ((needle.headD 0).val < (nm.headD 0).val ∨
          List.Lex (fun x y : Byte => x < y) needle nm)) ∨
      (Kernel.axfs_lookup_body s iget sbi d needle i = .ok .continue_ ∧ nm ≠ needle) ∨
      (Kernel.axfs_lookup_body s iget sbi d needle i
          = (match Kernel.axfs_create_vfs_inode iget sbi (toInt32 ((first + i) % U64)) with
            | .error e => .error e
            | .ok d_inode => .ok (.found d_inode)) ∧ nm = needle) := by
  obtain ⟨name, ha, hs, ht⟩ := inode_name_inv sbi _ nm hname
  have hhead : nm.headD 0 = name.headD 0 := by
    rw [← ht]; exact (strlen_spec name _ hs).2.2.2
  have hsplit : name = nm ++ name.drop nm.length := by
    conv_lhs => rw [← List.take_append_drop nm.length name, ht]
  have h32 : toInt32 nm.length = (nm.length : Int) := toInt32_small _ hnm
  unfold Kernel.axfs_lookup_body
  rw [hfirst]
  simp only
  rw [ha]
  simp only
  rw [hs]
  simp only
  rw [← hhead, h32]
  by_cases hb : ((needle.headD 0).val : Int) < Kernel.char_value s (nm.headD 0)
  · rw [if_pos hb]
    left
    refine ⟨rfl, Or.inl ?_⟩
    have := char_value_le s (nm.headD 0)
    omega
  · rw [if_neg hb]
    by_cases hl : needle.length = nm.length
    · have hc : ¬ ((needle.length : Int) % 2 ^ 32 ≠ (nm.length : Int) % 2 ^ 32) := by
        rw [hl]; exact fun h => h rfl
      rw [if_neg hc]
      have hn : ((nm.length : Int) % 2 ^ 64).toNat = needle.length := by omega
      obtain ⟨r, hr, h0, hp, hneg⟩ := memcmp_spec needle nm [0] (name.drop nm.length) hl
      rw [hn]
      rw [← hsplit] at hr
      rw [hr]
      simp only
      by_cases hpos : r > 0
      · rw [if_pos hpos]
        right; left
        refine ⟨rfl, fun h => ?_⟩
        have : r = 0 := h0.mpr h.symm
        omega
      · rw [if_neg hpos]
        by_cases hz : r = 0
        · rw [if_pos hz]
          right; right
          exact ⟨rfl, (h0.mp hz).symm⟩
        · rw [if_neg hz]
          left
          exact ⟨rfl, Or.inr (hneg (by omega))⟩
    · have hc : (needle.length : Int) % 2 ^ 32 ≠ (nm.length : Int) % 2 ^ 32 := by omega
      rw [if_pos hc]
      right; left
      exact ⟨rfl, fun h => hl (by rw [h])⟩

theorem lookup_loop_zero (s iget : Bool) (sbi : Kernel.axfs_super_incore) (d i n : Nat)
    (needle : List Byte)
    (hn : Kernel.AXFS_GET_INODE_NUM_ENTRIES sbi.metadata d = .ok n) (hi : ¬ i < n) :
    Kernel.axfs_lookup_loop s iget sbi d needle 0 i = .ok none := by
  rw [Kernel.axfs_lookup_loop, hn]
  simp only
  rw [if_neg hi]

theorem lookup_loop_succ (s iget : Bool) (sbi : Kernel.axfs_super_incore) (d i n fuel : Nat)
    (needle : List Byte)
    (hn : Kernel.AXFS_GET_INODE_NUM_ENTRIES sbi.metadata d = .ok n) (hi : i < n) :
    Kernel.axfs_lookup_loop s iget sbi d needle (fuel + 1) i
      = match Kernel.axfs_lookup_body s iget sbi d needle i with
        | .error e => .error e
        | .ok .continue_ => Kernel.axfs_lookup_loop s iget sbi d needle fuel ((i + 1) % U64)
        | .ok .break_ => .ok none
        | .ok (.found d_inode) => .ok d_inode := by
  rw [Kernel.axfs_lookup_loop, hn]
  simp only
  rw [if_pos hi]

/-- The loop of `axfs_lookup` from `dir_index = i` on, over names in strictly ascending
byte-wise order: it ends in the `d_add` of the entry named like the needle when there is one
at `i` or behind, and in `d_add(dentry, NULL)` when there is none. -/
theorem lookup_loop_spec (s iget : Bool) (sbi : Kernel.axfs_super_incore) (d n first : Nat)
    (names : Nat → List Byte) (needle : List Byte)
    (hn : Kernel.AXFS_GET_INODE_NUM_ENTRIES sbi.metadata d = .ok n)
    (hfirst : Kernel.AXFS_GET_INODE_ARRAY_INDEX sbi.metadata d = .ok first)
    (hwrap : first + n ≤ 2 ^ 31)
    (hname : ∀ i, i < n → Kernel.inode_name sbi (first + i) = .ok (names i))
    (hlen : ∀ i, i < n → (names i).length < 2 ^ 31)
    (hsorted : ∀ i j, i < j → j < n →
      List.Lex (fun x y : Byte => x < y) (names i) (names j))
    (hneedle : needle.length < 2 ^ 32) :
    ∀ (k i : Nat), i + k = n →
      (∀ j, i ≤ j → j < n → names j = needle →
        Kernel.axfs_lookup_loop s iget sbi d needle k i
          = Kernel.axfs_create_vfs_inode iget sbi ((first + j : Nat) : Int)) ∧
      ((∀ j, i ≤ j → j < n → names j ≠ needle) →
        Kernel.axfs_lookup_loop s iget sbi d needle k i = .ok none) := by
  have hU : (2 : Nat) ^ 31 < U64 := by decide
  intro k
  induction k with
  | zero =>
    intro i hi
    refine ⟨fun j hij hjn _ => by omega, fun _ => ?_⟩
    exact lookup_loop_zero s iget sbi d i n needle hn (by omega)
  | succ k ih =>
    intro i hi
    have hin : i < n := by omega
    have hm : (first + i) % U64 = first + i := Nat.mod_eq_of_lt (by omega)
    have hm1 : (i + 1) % U64 = i + 1 := Nat.mod_eq_of_lt (by omega)
    have h32 : toInt32 (first + i) = ((first + i : Nat) : Int) :=
      toInt32_small _ (by omega)
    rw [lookup_loop_succ s iget sbi d i n k needle hn hin]
    rcases lookup_body_spec s iget sbi d i first needle (names i) hfirst
        (by rw [hm]; exact hname i hin) (hlen i hin) hneedle with
      ⟨hb, hbr⟩ | ⟨hb, hne⟩ | ⟨hb, heq⟩
    · have hno : ∀ j, i ≤ j → j < n → names j ≠ needle := by
        intro j hij hjn hj
        rcases Nat.eq_or_lt_of_le hij with hji | hji
        · subst hji
          rcases hbr with hlt | hlex
          · rw [hj] at hlt; omega
          · rw [hj] at hlex; exact lex_asymm _ _ hlex hlex
        · have hs := hsorted i j hji hjn
          rw [hj] at hs
          rcases hbr with hlt | hlex
          · have := lex_head_le _ _ hs; omega
          · exact lex_asymm _ _ hs hlex
      rw [hb]
      exact ⟨fun j hij hjn hj => absurd hj (hno j hij hjn), fun _ => rfl⟩
    · rw [hb, hm1]
      simp only
      obtain ⟨ih1, ih2⟩ := ih (i + 1) (by omega)
      refine ⟨fun j hij hjn hj => ?_, fun hno => ?_⟩
      · rcases Nat.eq_or_lt_of_le hij with hji | hji
        · subst hji; exact absurd hj hne
        · exact ih1 j hji hjn hj
      · exact ih2 fun j hij hjn => hno j (by omega) hjn
    · rw [hb, hm, h32]
      refine ⟨fun j hij hjn hj => ?_, fun hno => absurd heq (hno i (Nat.le_refl i) hin)⟩
      rcases Nat.eq_or_lt_of_le hij with hji | hji
      · subst hji
        cases Kernel.axfs_create_vfs_inode iget sbi ((first + i : Nat) : Int) <;> rfl
      · have hs := hsorted i j hji hjn
        rw [hj, heq] at hs
        exact absurd hs (fun h => lex_asymm _ _ h h)

theorem create_vfs_inode_ino (iget : Bool) (sbi : Kernel.axfs_super_incore) (c : Nat)
    (d_inode : Kernel.inode)
    (h : Kernel.axfs_create_vfs_inode iget sbi (c : Int) = .ok (some d_inode)) :
    d_inode.i_ino = c := by
  unfold Kernel.axfs_create_vfs_inode at h
  cases iget with
  | false => cases h
  | true =>
    simp only [Bool.not_true, Bool.false_eq_true, if_false] at h
    rw [if_neg (by omega)] at h
    revert h
    cases Kernel.AXFS_GET_MODE sbi.metadata (c : Int).toNat with
    | error e => intro h; cases h
    | ok mode =>
      cases Kernel.AXFS_GET_UID sbi.metadata (c : Int).toNat with
      | error e => intro h; cases h
      | ok uid =>
        cases Kernel.AXFS_GET_INODE_FILE_SIZE sbi.metadata (c : Int).toNat with
        | error e => intro h; cases h
        | ok size =>
          cases Kernel.AXFS_GET_INODE_NUM_ENTRIES sbi.metadata (c : Int).toNat with
          | error e => intro h; cases h
          | ok blocks =>
            cases Kernel.AXFS_GET_GID sbi.metadata (c : Int).toNat with
            | error e => intro h; cases h
            | ok gid =>
              simp only
              split
              · intro h
                simp only [Except.ok.injEq, Option.some.injEq] at h
                rw [← h]
                simp
              · intro h
                simp only [Except.ok.injEq, Option.some.injEq] at h
                rw [← h]
                simp

/-- C15. For a directory with `n` entries from inode `first` on whose names `names i` are in
strictly ascending byte-wise lexicographic order (ascending and pairwise distinct), and for
every needle (the empty one included), `axfs_lookup` ends in the `d_add` of
`axfs_create_vfs_inode(sb, first + c)` when child `c` has the needle as its name, the inode
created carrying the number `first + c`, and in `d_add(dentry, NULL)` when no child has that
name: neither early exit skips a matching entry, whether `char` is signed or not. -/
theorem lookup_binds_named_child (s iget : Bool) (sbi : Kernel.axfs_super_incore)
    (dir : Kernel.inode) (n first : Nat) (names : Nat → List Byte) (needle : List Byte)
    (hn : Kernel.AXFS_GET_INODE_NUM_ENTRIES sbi.metadata dir.i_ino = .ok n)
    (hfirst : Kernel.AXFS_GET_INODE_ARRAY_INDEX sbi.metadata dir.i_ino = .ok first)
    (hwrap : first + n ≤ 2 ^ 31)
    (hname : ∀ i, i < n → Kernel.inode_name sbi (first + i) = .ok (names i))
    (hlen : ∀ i, i < n → (names i).length < 2 ^ 31)
    (hsorted : ∀ i j, i < j → j < n →
      List.Lex (fun x y : Byte => x < y) (names i) (names j))
    (hneedle : needle.length < 2 ^ 32) :
    (∀ c, c < n → names c = needle →
      Kernel.axfs_lookup s iget sbi dir needle
          = Kernel.axfs_create_vfs_inode iget sbi ((first + c : Nat) : Int) ∧
        ∀ d_inode, Kernel.axfs_lookup s iget sbi dir needle = .ok (some d_inode) →
          d_inode.i_ino = first + c) ∧
      ((∀ c, c < n → names c ≠ needle) →
        Kernel.axfs_lookup s iget sbi dir needle = .ok none) := by
  have hl := lookup_loop_spec s iget sbi dir.i_ino n first names needle hn hfirst hwrap hname
    hlen hsorted hneedle n 0 (by omega)
  have hu : Kernel.axfs_lookup s iget sbi dir needle
      = Kernel.axfs_lookup_loop s iget sbi dir.i_ino needle n 0 := by
    unfold Kernel.axfs_lookup
    rw [hn]
  rw [hu]
  refine ⟨fun c hc hnm => ?_, fun hno => hl.2 fun j _ hjn => hno j hjn⟩
  have h1 := hl.1 c (Nat.zero_le c) hc hnm
  refine ⟨h1, fun d_inode hd => ?_⟩
  rw [h1] at hd
  exact create_vfs_inode_ino iget sbi (first + c) d_inode hd

/-- C15, at the root directory of `dirSbi` (entries `a`, `b` from inode 1 on): looking up
`b` binds inode 2. -/
theorem lookup_binds_named_child_witness :
    Kernel.axfs_lookup true true Kernel.dirSbi (Kernel.inode.mk 0 0o040755 0 0 0 2) [98]
      = .ok (some (Kernel.inode.mk 2 0o100644 0 0 0 0)) :=
  ((lookup_binds_named_child true true Kernel.dirSbi (Kernel.inode.mk 0 0o040755 0 0 0 2) 2 1
    (fun i => if i = 0 then [97] else [98]) [98] (by decide) (by decide) (by decide)
    (by decide) (by decide)
    (fun i j hij hj => by
      have hi0 : i = 0 := by omega
      have hj1 : j = 1 := by omega
      subst hi0 hj1
      decide)
    (by decide)).1 1 (by decide) (by decide)).1.trans (by decide)

/-! ## Opening an image -/

theorem getD_set_ne (l : List Byte) (i j : Nat) (b d : Byte) (h : j ≠ i) :
    (l.set i b).getD j d = l.getD j d := by
  rw [List.getD_eq_getElem?_getD, List.getD_eq_getElem?_getD, List.getElem?_set_ne h.symm]

theorem be32_in_set (l : List Byte) (i off : Nat) (b : Byte) (h : i < off ∨ off + 4 ≤ i) :
    be32_in (l.set i b) off = be32_in l off := by
  unfold be32_in
  rw [getD_set_ne, getD_set_ne, getD_set_ne, getD_set_ne] <;> omega

theorem be64_in_set (l : List Byte) (i off : Nat) (b : Byte) (h : i < off ∨ off + 8 ≤ i) :
    be64_in (l.set i b) off = be64_in l off := by
  unfold be64_in
  rw [getD_set_ne, getD_set_ne, getD_set_ne, getD_set_ne, getD_set_ne, getD_set_ne,
    getD_set_ne, getD_set_ne] <;> omega

theorem bytes_in_set (l : List Byte) (i off n : Nat) (b : Byte) (h : i < off ∨ off + n ≤ i) :
    bytes_in (l.set i b) off n = bytes_in l off n := by
  unfold bytes_in
  apply List.map_congr_left
  intro k hk
  rw [List.mem_range] at hk
  exact getD_set_ne l i (off + k) b 0 (by omega)

set_option maxRecDepth 100000 in
/-- The image `rootOnlyImage 0` loads in `axfs.cpp`: its `modes` table arrives. -/
theorem load_rootOnlyImage :
    (axfs.load (some (Kernel.rootOnlyImage 0)) []).toOption.map (fun fs => fs.modes.data)
      = some [0xED, 0x41, 0, 0] := by
  decide

/-- The second assertion of `axfs::load`: a file that holds a whole superblock whose
`compression_type` is not 0 does not get past it. -/
theorem load_asserts_compression_type (file garbage : List Byte) (hlen : 264 ≤ file.length)
    (hct : file.getD 243 0 ≠ 0) : axfs.load (some file) garbage = .error .assertFailed := by
  have hr : fread file 0 264 = .ok (file.take 264) := by
    unfold fread
    rw [if_neg (by decide), if_pos (by omega)]
    rfl
  have hc : (super_of_bytes (file.take 264)).compression_type ≠ 0 := by
    have : (super_of_bytes (file.take 264)).compression_type = file.getD 243 0 := by
      show (file.take 264).getD 243 0 = file.getD 243 0
      rw [List.getD_eq_getElem?_getD, List.getD_eq_getElem?_getD,
        List.getElem?_take_of_lt (by decide)]
    rw [this]
    exact hct
  unfold axfs.load
  simp only
  rw [hr]
  simp only
  by_cases hm : be32_to_cpu (super_of_bytes (file.take 264)).magic ≠ 0x48A0E4CD
  · rw [if_pos hm]
  · rw [if_neg hm, if_pos hc]

set_option maxRecDepth 100000 in
theorem rootOnlyImage_facts :
    ∀ ct : Byte, ct = 1 ∨ ct = 7 →
      (Kernel.rootOnlyImage ct).length = 348 ∧ (Kernel.rootOnlyImage ct).getD 243 0 = ct := by
  intro ct h
  rcases h with h | h <;> subst h <;> decide

set_option maxRecDepth 100000 in
/-- The kernel mounts the image `rootOnlyImage 1`. -/
theorem fill_super_rootOnlyImage :
    (Kernel.axfs_do_fill_super (Kernel.Media.mk [] (Kernel.rootOnlyImage 1) 512)
        Kernel.nullZlib (Kernel.fresh_sbi 0 0)
        (Kernel.onmedia_super_block (Kernel.rootOnlyImage 1))).map (fun r => r.1) = .ok 0 ∧
      (Kernel.axfs_fill_super (Kernel.Media.mk [] (Kernel.rootOnlyImage 1) 512)
        Kernel.nullZlib Kernel.plainVfs (Kernel.onmedia_super_block (Kernel.rootOnlyImage 1))
        0 0).map (fun r => (r.1, r.2.isSome)) = .ok (0, true) := by
  constructor
  · decide
  · decide

/-- C12, as stated, fails for the kernel: the image `rootOnlyImage 1`, whose byte 243
(`compression_type` in `axfs.cpp`) is 1, is rejected by `axfs::load`, but
`axfs_do_fill_super` returns 0 on it and `axfs_fill_super` mounts it. -/
theorem fill_super_accepts_compression_type :
    (Kernel.rootOnlyImage 1).getD 243 0 = 1 ∧
      axfs.load (some (Kernel.rootOnlyImage 1)) [] = .error .assertFailed ∧
      (Kernel.axfs_do_fill_super (Kernel.Media.mk [] (Kernel.rootOnlyImage 1) 512)
        Kernel.nullZlib (Kernel.fresh_sbi 0 0)
        (Kernel.onmedia_super_block (Kernel.rootOnlyImage 1))).map (fun r => r.1) = .ok 0 ∧
      (Kernel.axfs_fill_super (Kernel.Media.mk [] (Kernel.rootOnlyImage 1) 512)
        Kernel.nullZlib Kernel.plainVfs (Kernel.onmedia_super_block (Kernel.rootOnlyImage 1))
        0 0).map (fun r => (r.1, r.2.isSome)) = .ok (0, true) :=
  ⟨(rootOnlyImage_facts 1 (Or.inl rfl)).2,
    load_asserts_compression_type _ _ (by rw [(rootOnlyImage_facts 1 (Or.inl rfl)).1]; decide)
      (by rw [(rootOnlyImage_facts 1 (Or.inl rfl)).2]; decide),
    fill_super_rootOnlyImage.1, fill_super_rootOnlyImage.2⟩

/-- C12, amended. `axfs::load` fails an assertion on every file whose superblock has a
`compression_type` byte other than 0; the kernel has no such check and no such field: the
superblock `axfs_do_fill_super` works on is the same whatever byte 243 of the image is. -/
theorem load_rejects_compression_type (file garbage : List Byte) (hlen : 264 ≤ file.length)
    (hct : file.getD 243 0 ≠ 0) :
    axfs.load (some file) garbage = .error .assertFailed ∧
      ∀ b : Byte, Kernel.onmedia_super_block (file.set 243 b)
        = Kernel.onmedia_super_block file := by
  constructor
  · exact load_asserts_compression_type file garbage hlen hct
  · intro b
    unfold Kernel.onmedia_super_block
    simp only [getD_set_ne file 243 240 b 0 (by decide), getD_set_ne file 243 241 b 0 (by decide),
      getD_set_ne file 243 242 b 0 (by decide),
      be32_in_set file 243 0 b (by decide), be32_in_set file 243 60 b (by decide),
      bytes_in_set file 243 4 16 b (by decide), bytes_in_set file 243 20 40 b (by decide),
      be64_in_set file 243 64 b (by decide), be64_in_set file 243 72 b (by decide),
      be64_in_set file 243 80 b (by decide), be64_in_set file 243 88 b (by decide),
      be64_in_set file 243 96 b (by decide), be64_in_set file 243 104 b (by decide),
      be64_in_set file 243 112 b (by decide), be64_in_set file 243 120 b (by decide),
      be64_in_set file 243 128 b (by decide), be64_in_set file 243 136 b (by decide),
      be64_in_set file 243 144 b (by decide), be64_in_set file 243 152 b (by decide),
      be64_in_set file 243 160 b (by decide), be64_in_set file 243 168 b (by decide),
      be64_in_set file 243 176 b (by decide), be64_in_set file 243 184 b (by decide),
      be64_in_set file 243 192 b (by decide), be64_in_set file 243 200 b (by decide),
      be64_in_set file 243 208 b (by decide), be64_in_set file 243 216 b (by decide),
      be64_in_set file 243 224 b (by decide), be64_in_set file 243 232 b (by decide)]

/-- C12 amended, at the image `rootOnlyImage 7`. -/
theorem load_rejects_compression_type_witness :
    axfs.load (some (Kernel.rootOnlyImage 7)) [] = .error .assertFailed ∧
      Kernel.onmedia_super_block ((Kernel.rootOnlyImage 7).set 243 0)
        = Kernel.onmedia_super_block (Kernel.rootOnlyImage 7) :=
  ⟨(load_rejects_compression_type (Kernel.rootOnlyImage 7) []
      (by rw [(rootOnlyImage_facts 7 (Or.inr rfl)).1]; decide)
      (by rw [(rootOnlyImage_facts 7 (Or.inr rfl)).2]; decide)).1,
    (load_rejects_compression_type (Kernel.rootOnlyImage 7) []
      (by rw [(rootOnlyImage_facts 7 (Or.inr rfl)).1]; decide)
      (by rw [(rootOnlyImage_facts 7 (Or.inr rfl)).2]; decide)).2 0⟩

/-! ## `axfs_readpage` -/

/-- `axfs_copy_data` on a request that lies inside the mapped part of the image: one
`memcpy` from `virt_addr + offset`. -/
theorem copy_data_mapped (m : Kernel.Media) (sbi : Kernel.axfs_super_incore)
    (dst va : List Byte) (region : Kernel.axfs_region_desc_incore) (offset len : Nat)
    (hva : region.virt_addr = some va) (hlen : 0 < len)
    (hend : (region.fsoffset + offset + len) % U64 < sbi.mmap_size)
    (hsrc : offset + len ≤ va.length) (hdst : len ≤ dst.length) :
    Kernel.axfs_copy_data m sbi dst region offset len
      = .ok ((va.drop offset).take len ++ dst.drop len) := by
  have hm : Kernel.axfs_copy_data_mmapped sbi region offset len = len := by
    unfold Kernel.axfs_copy_data_mmapped
    rw [hva]
    simp only
    rw [if_pos hend]
  have hz : (len + U64 - len) % U64 = 0 := by
    rw [Nat.add_sub_cancel_left, Nat.mod_self]
  unfold Kernel.axfs_copy_data
  rw [if_neg (by omega), hm, if_pos (by omega), hva]
  simp only [Option.getD_some]
  rw [memcpy_ok dst 0 va offset len hsrc (by omega)]
  simp only
  rw [hz]
  unfold Kernel.axfs_copy_block_data
  rw [if_pos rfl]
  simp only [List.take_zero, List.nil_append, Nat.zero_add]
  rw [List.take_append_drop]

/-- The end of `axfs_readpage` once the node is read: the page is the `len` bytes copied,
followed by zeros. -/
theorem readpage_of_node (m : Kernel.Media) (z : Kernel.Zlib) (sbi sbi2 : Kernel.axfs_super_incore)
    (host : Kernel.inode) (index len : Nat) (pgdata pg2 : List Byte)
    (hidx : index < (host.i_size + Kernel.PAGE_CACHE_SIZE - 1) % U64
      / 2 ^ Kernel.PAGE_CACHE_SHIFT)
    (hnode : Kernel.axfs_readpage_node m z sbi host.i_ino index pgdata = .ok (sbi2, pg2, len))
    (hlen : len ≤ Kernel.PAGE_CACHE_SIZE) (hpg : pg2.length = Kernel.PAGE_CACHE_SIZE) :
    Kernel.axfs_readpage m z sbi host index pgdata
      = .ok (0, sbi2, pg2.take len ++ List.replicate (Kernel.PAGE_CACHE_SIZE - len) 0) := by
  have hP : Kernel.PAGE_CACHE_SIZE < U64 := by decide
  have hn : (Kernel.PAGE_CACHE_SIZE + U64 - len) % U64 = Kernel.PAGE_CACHE_SIZE - len := by
    rw [show Kernel.PAGE_CACHE_SIZE + U64 - len = (Kernel.PAGE_CACHE_SIZE - len) + U64 by omega,
      Nat.add_mod_right, Nat.mod_eq_of_lt (by omega)]
  unfold Kernel.axfs_readpage
  rw [if_pos hidx, hnode]
  simp only
  rw [hn]
  unfold Kernel.memset
  rw [if_pos (by omega)]
  have hd : pg2.drop (len + (Kernel.PAGE_CACHE_SIZE - len)) = [] := by
    apply List.drop_eq_nil_of_le
    omega
  rw [hd, List.append_nil]

/-- The dispatch of `axfs_readpage` on the type byte of the node. -/
theorem readpage_node_dispatch (m : Kernel.Media) (z : Kernel.Zlib)
    (sbi : Kernel.axfs_super_incore) (ino index a node_index t : Nat) (pgdata : List Byte)
    (ha : Kernel.AXFS_GET_INODE_ARRAY_INDEX sbi.metadata ino = .ok a)
    (hni : Kernel.AXFS_GET_NODE_INDEX sbi.metadata ((a + index) % U64) = .ok node_index)
    (ht : Kernel.AXFS_GET_NODE_TYPE sbi.metadata ((a + index) % U64) = .ok t) :
    Kernel.axfs_readpage_node m z sbi ino index pgdata
      = if t = Kernel.Compressed then Kernel.axfs_readpage_compressed m z sbi node_index pgdata
        else if t = Kernel.Byte_Aligned then
          Kernel.axfs_readpage_byte_aligned m sbi node_index pgdata
        else Kernel.axfs_readpage_xip m sbi node_index pgdata := by
  unfold Kernel.axfs_readpage_node
  rw [ha]
  simp only
  rw [hni]
  simp only
  rw [ht]

theorem pageSbi_xip_page (t : Byte) :
    (Kernel.pageSbi t).xip.virt_addr = some (List.replicate 4096 0xAB) ∧
      (Kernel.pageSbi t).xip.fsoffset = 4096 ∧ (Kernel.pageSbi t).mmap_size = 65536 :=
  ⟨rfl, rfl, rfl⟩

/-- C20. In `pageSbi 3` the only node of inode 0 has the type byte 3, outside
`{XIP, Compressed, Byte_Aligned}`; `axfs_readpage` takes its final `else`, commented
`node is XIP`, and delivers page 0 of the XIP region with result 0. -/
theorem readpage_serves_unknown_type_as_xip :
    Kernel.AXFS_GET_NODE_TYPE (Kernel.pageSbi 3).metadata 0 = .ok 3 ∧
      Kernel.axfs_readpage (Kernel.Media.mk [] [] 512) Kernel.nullZlib (Kernel.pageSbi 3)
          (Kernel.inode.mk 0 0o100644 0 0 4096 1) 0 (List.replicate 4096 0)
        = .ok (0, Kernel.pageSbi 3, List.replicate 4096 0xAB) := by
  refine ⟨by decide, ?_⟩
  have hx : Kernel.axfs_readpage_xip (Kernel.Media.mk [] [] 512) (Kernel.pageSbi 3) 0
      (List.replicate 4096 0) = .ok (Kernel.pageSbi 3, List.replicate 4096 0xAB, 4096) := by
    unfold Kernel.axfs_readpage_xip
    rw [copy_data_mapped _ _ _ (List.replicate 4096 0xAB) _ _ _ (pageSbi_xip_page 3).1
      (by decide)
      (by rw [(pageSbi_xip_page 3).2.1, (pageSbi_xip_page 3).2.2]; decide)
      (by rw [List.length_replicate]; decide) (by rw [List.length_replicate]; decide)]
    simp only
    have h1 : (0 * 2 ^ PAGE_SHIFT % U64) = 0 := by decide
    have h2 : Kernel.PAGE_CACHE_SIZE = 4096 := by decide
    rw [h1, h2, List.drop_zero, List.take_of_length_le (by rw [List.length_replicate]),
      List.drop_eq_nil_of_le (by rw [List.length_replicate]), List.append_nil]
  have hnode : Kernel.axfs_readpage_node (Kernel.Media.mk [] [] 512) Kernel.nullZlib
      (Kernel.pageSbi 3) 0 0 (List.replicate 4096 0)
      = .ok (Kernel.pageSbi 3, List.replicate 4096 0xAB, 4096) := by
    rw [readpage_node_dispatch _ _ _ 0 0 0 0 3 _ (by decide) (by decide) (by decide),
      if_neg (by decide), if_neg (by decide)]
    exact hx
  rw [readpage_of_node _ _ _ _ (Kernel.inode.mk 0 0o100644 0 0 4096 1) 0 4096 _ _ (by decide)
    hnode (by decide) (by rw [List.length_replicate]; decide)]
  have h2 : Kernel.PAGE_CACHE_SIZE = 4096 := by decide
  rw [h2, List.take_of_length_le (by rw [List.length_replicate]), Nat.sub_self,
    List.replicate_zero, List.append_nil]

theorem uncompress_block_fits (z : Kernel.Zlib) (dst src : List Byte) (dstlen srclen : Int)
    (hfit : (z.zlib_inflate src srclen dstlen).1.length ≤ dst.length) :
    ∃ n, Kernel.axfs_uncompress_block z dst dstlen src srclen
      = .ok ((z.zlib_inflate src srclen dstlen).1
          ++ dst.drop (z.zlib_inflate src srclen dstlen).1.length, n) := by
  unfold Kernel.axfs_uncompress_block
  simp only
  rw [if_pos hfit]
  by_cases hf : (z.zlib_inflate src srclen dstlen).2 ≠ Kernel.Z_STREAM_END
  · rw [if_pos hf]; exact ⟨_, rfl⟩
  · rw [if_neg hf]; exact ⟨_, rfl⟩

/-- The cache fill of `axfs_readpage` on a miss: the compressed bytes are copied into the
second buffer, the inflater stores `w` at the start of the first, and the key is set; the
result of `axfs_uncompress_block` plays no part. -/
theorem readpage_fill_miss (m : Kernel.Media) (z : Kernel.Zlib) (sbi : Kernel.axfs_super_incore)
    (k off next : Nat) (b0 b1 b1n : List Byte)
    (hk : k ≠ sbi.current_cnode_index)
    (hoff : Kernel.AXFS_GET_CBLOCK_OFFSET sbi.metadata k = .ok off)
    (hnext : Kernel.AXFS_GET_CBLOCK_OFFSET sbi.metadata ((k + 1) % U64) = .ok next)
    (hb0 : sbi.cblock_buffer0 = some b0) (hb1 : sbi.cblock_buffer1 = some b1)
    (hcopy : Kernel.axfs_copy_data m sbi b1 sbi.compressed off
      ((next + U64 - off) % U64 % 2 ^ 32) = .ok b1n)
    (hfit : (z.zlib_inflate b1n (toInt32 ((next + U64 - off) % U64 % 2 ^ 32))
      (toInt32 sbi.cblock_size)).1.length ≤ b0.length) :
    Kernel.axfs_readpage_fill m z sbi k
      = .ok { sbi with
          cblock_buffer0 := some
            ((z.zlib_inflate b1n (toInt32 ((next + U64 - off) % U64 % 2 ^ 32))
                (toInt32 sbi.cblock_size)).1 ++
              b0.drop (z.zlib_inflate b1n (toInt32 ((next + U64 - off) % U64 % 2 ^ 32))
                (toInt32 sbi.cblock_size)).1.length)
          cblock_buffer1 := some b1n
          current_cnode_index := k } := by
  unfold Kernel.axfs_readpage_fill
  rw [if_pos hk, hoff]
  simp only
  rw [hnext]
  simp only
  rw [hb0, hb1]
  simp only
  rw [hcopy]
  simp only
  obtain ⟨n, hn⟩ := uncompress_block_fits z b0 b1n (toInt32 sbi.cblock_size)
    (toInt32 ((next + U64 - off) % U64 % 2 ^ 32)) hfit
  rw [hn]

/-- What `axfs_uncompress_block` returns when `zlib_inflate` does not end the stream: 0,
with the bytes the inflater stored left in the buffer. -/
theorem uncompress_block_failed (z : Kernel.Zlib) (dst src : List Byte) (dstlen srclen : Int)
    (hfit : (z.zlib_inflate src srclen dstlen).1.length ≤ dst.length)
    (hfail : (z.zlib_inflate src srclen dstlen).2 ≠ Kernel.Z_STREAM_END) :
    Kernel.axfs_uncompress_block z dst dstlen src srclen
      = .ok ((z.zlib_inflate src srclen dstlen).1
          ++ dst.drop (z.zlib_inflate src srclen dstlen).1.length, 0) := by
  unfold Kernel.axfs_uncompress_block
  simp only
  rw [if_pos hfit, if_pos hfail]

/-- The branch `node_type == Compressed` of `axfs_readpage` once the cache is filled. -/
theorem readpage_compressed_filled (m : Kernel.Media) (z : Kernel.Zlib)
    (sbi sbi2 : Kernel.axfs_super_incore) (node_index co k len : Nat)
    (pgdata b0 chunk : List Byte)
    (hco : Kernel.AXFS_GET_CNODE_OFFSET sbi.metadata node_index = .ok co)
    (hci : Kernel.AXFS_GET_CNODE_INDEX sbi.metadata node_index = .ok k)
    (hfill : Kernel.axfs_readpage_fill m z sbi k = .ok sbi2)
    (hb : sbi2.cblock_buffer0 = some b0)
    (hlen : (if (sbi2.cblock_size + 2 ^ 32 - co) % 2 ^ 32 > Kernel.PAGE_CACHE_SIZE then
      Kernel.PAGE_CACHE_SIZE else (sbi2.cblock_size + 2 ^ 32 - co) % 2 ^ 32) = len)
    (hsrc : co + len ≤ b0.length) (hdst : len ≤ pgdata.length)
    (hchunk : (b0.drop co).take len = chunk) :
    Kernel.axfs_readpage_compressed m z sbi node_index pgdata
      = .ok (sbi2, chunk ++ pgdata.drop len, len) := by
  unfold Kernel.axfs_readpage_compressed
  rw [hco]
  simp only
  rw [hci]
  simp only
  rw [hfill]
  simp only
  rw [hb]
  simp only
  rw [hlen, memcpy_ok pgdata 0 b0 co len hsrc (by omega)]
  simp only [List.take_zero, List.nil_append, Nat.zero_add]
  rw [hchunk]

/-- A whole `axfs_readpage` of a Compressed node that misses the cache: the key becomes the
requested cnode index, the page receives `len` bytes of the first buffer from `cnode_offset`
on, followed by zeros, and the result is 0, whatever the inflater reported. -/
theorem readpage_compressed_miss (m : Kernel.Media) (z : Kernel.Zlib)
    (sbi : Kernel.axfs_super_incore) (host : Kernel.inode)
    (index a node_index co k off next len : Nat) (pgdata b0 b1 b1n B chunk : List Byte)
    (hpg : pgdata.length = Kernel.PAGE_CACHE_SIZE)
    (hidx : index < (host.i_size + Kernel.PAGE_CACHE_SIZE - 1) % U64
      / 2 ^ Kernel.PAGE_CACHE_SHIFT)
    (ha : Kernel.AXFS_GET_INODE_ARRAY_INDEX sbi.metadata host.i_ino = .ok a)
    (hni : Kernel.AXFS_GET_NODE_INDEX sbi.metadata ((a + index) % U64) = .ok node_index)
    (ht : Kernel.AXFS_GET_NODE_TYPE sbi.metadata ((a + index) % U64) = .ok Kernel.Compressed)
    (hco : Kernel.AXFS_GET_CNODE_OFFSET sbi.metadata node_index = .ok co)
    (hci : Kernel.AXFS_GET_CNODE_INDEX sbi.metadata node_index = .ok k)
    (hk : k ≠ sbi.current_cnode_index)
    (hoff : Kernel.AXFS_GET_CBLOCK_OFFSET sbi.metadata k = .ok off)
    (hnext : Kernel.AXFS_GET_CBLOCK_OFFSET sbi.metadata ((k + 1) % U64) = .ok next)
    (hb0 : sbi.cblock_buffer0 = some b0) (hb1 : sbi.cblock_buffer1 = some b1)
    (hcopy : Kernel.axfs_copy_data m sbi b1 sbi.compressed off
      ((next + U64 - off) % U64 % 2 ^ 32) = .ok b1n)
    (hfit : (z.zlib_inflate b1n (toInt32 ((next + U64 - off) % U64 % 2 ^ 32))
      (toInt32 sbi.cblock_size)).1.length ≤ b0.length)
    (hlen : (if (sbi.cblock_size + 2 ^ 32 - co) % 2 ^ 32 > Kernel.PAGE_CACHE_SIZE then
      Kernel.PAGE_CACHE_SIZE else (sbi.cblock_size + 2 ^ 32 - co) % 2 ^ 32) = len)
    (hsrc : co + len ≤ b0.length)
    (hB : (z.zlib_inflate b1n (toInt32 ((next + U64 - off) % U64 % 2 ^ 32))
        (toInt32 sbi.cblock_size)).1 ++
      b0.drop (z.zlib_inflate b1n (toInt32 ((next + U64 - off) % U64 % 2 ^ 32))
        (toInt32 sbi.cblock_size)).1.length = B)
    (hchunk : (B.drop co).take len = chunk) :
    Kernel.axfs_readpage m z sbi host index pgdata
      = .ok (0, { sbi with
          cblock_buffer0 := some B
          cblock_buffer1 := some b1n
          current_cnode_index := k },
        chunk ++ List.replicate (Kernel.PAGE_CACHE_SIZE - len) 0) := by
  have hlenle : len ≤ Kernel.PAGE_CACHE_SIZE := by
    rw [← hlen]
    split <;> omega
  have hBlen : B.length = b0.length := by
    rw [← hB, List.length_append, List.length_drop]
    omega
  have hclen : chunk.length = len := by
    rw [← hchunk, List.length_take, List.length_drop, hBlen]
    omega
  have hnode := readpage_node_dispatch m z sbi host.i_ino index a node_index
    Kernel.Compressed pgdata ha hni ht
  have hfill := readpage_fill_miss m z sbi k off next b0 b1 b1n hk hoff hnext hb0 hb1 hcopy hfit
  rw [hB] at hfill
  rw [if_pos rfl] at hnode
  rw [readpage_compressed_filled m z sbi _ node_index co k len pgdata B chunk hco hci
    hfill rfl hlen (by rw [hBlen]; exact hsrc) (by omega) hchunk] at hnode
  rw [readpage_of_node m z sbi _ host index len pgdata _ hidx hnode hlenle
    (by rw [List.length_append, List.length_drop, hclen]; omega)]
  rw [List.take_append_of_le_length (by omega), List.take_of_length_le (by omega)]

/-- C17, as stated, fails: in `pageSbi 1` page 0 of inode 0 is a Compressed node of cblock 0
and the cache is empty; with an inflater that rejects its input `axfs_uncompress_block`
returns 0, yet `axfs_readpage` returns 0, leaves `current_cnode_index` at the requested
index 0 and hands out the stale sixteen bytes of the cache buffer as page data. -/
theorem readpage_ignores_failed_inflate :
    Kernel.axfs_uncompress_block Kernel.nullZlib (List.replicate 16 0x55) 16
        ([1, 2, 3, 4, 5, 6, 7, 8] ++ List.replicate 8 0) 8
      = .ok (List.replicate 16 0x55, 0) ∧
    Kernel.axfs_readpage (Kernel.Media.mk [] [] 512) Kernel.nullZlib (Kernel.pageSbi 1)
        (Kernel.inode.mk 0 0o100644 0 0 4096 1) 0 (List.replicate 4096 0)
      = .ok (0, { Kernel.pageSbi 1 with
          cblock_buffer0 := some (List.replicate 16 0x55)
          cblock_buffer1 := some ([1, 2, 3, 4, 5, 6, 7, 8] ++ List.replicate 8 0)
          current_cnode_index := 0 },
        List.replicate 16 0x55 ++ List.replicate (Kernel.PAGE_CACHE_SIZE - 16) 0) :=
  ⟨by decide,
    readpage_compressed_miss (Kernel.Media.mk [] [] 512) Kernel.nullZlib (Kernel.pageSbi 1)
      (Kernel.inode.mk 0 0o100644 0 0 4096 1) 0 0 0 0 0 0 8 16 (List.replicate 4096 0)
      (List.replicate 16 0x55) (List.replicate 16 0)
      ([1, 2, 3, 4, 5, 6, 7, 8] ++ List.replicate 8 0) (List.replicate 16 0x55)
      (List.replicate 16 0x55)
      (by rw [List.length_replicate]; decide) (by decide) (by decide) (by decide) (by decide)
      (by decide) (by decide) (by decide) (by decide) (by decide) rfl rfl (by decide)
      (by decide) (by decide) (by decide) (by decide) (by decide)⟩

/-- C17, amended. When `axfs_readpage` misses the cache on a Compressed node and
`zlib_inflate` does not end with `Z_STREAM_END`, `axfs_uncompress_block` returns 0, and
nothing is abandoned or surfaced: `axfs_readpage` does not look at that result, sets
`current_cnode_index` to the requested cnode index, copies
`min(cblock_size - cnode_offset, PAGE_CACHE_SIZE)` bytes of what the first buffer then holds
into the page and returns 0.  `axfs::readFile` is the same: its cache fill stores what the
decoder wrote and sets `cachedBlock` to the requested index whatever the decoder returned. -/
theorem readpage_keeps_key_when_inflate_fails (m : Kernel.Media) (z : Kernel.Zlib)
    (sbi : Kernel.axfs_super_incore) (host : Kernel.inode)
    (index a node_index co k off next len : Nat) (pgdata b0 b1 b1n B chunk : List Byte)
    (hpg : pgdata.length = Kernel.PAGE_CACHE_SIZE)
    (hidx : index < (host.i_size + Kernel.PAGE_CACHE_SIZE - 1) % U64
      / 2 ^ Kernel.PAGE_CACHE_SHIFT)
    (ha : Kernel.AXFS_GET_INODE_ARRAY_INDEX sbi.metadata host.i_ino = .ok a)
    (hni : Kernel.AXFS_GET_NODE_INDEX sbi.metadata ((a + index) % U64) = .ok node_index)
    (ht : Kernel.AXFS_GET_NODE_TYPE sbi.metadata ((a + index) % U64) = .ok Kernel.Compressed)
    (hco : Kernel.AXFS_GET_CNODE_OFFSET sbi.metadata node_index = .ok co)
    (hci : Kernel.AXFS_GET_CNODE_INDEX sbi.metadata node_index = .ok k)
    (hk : k ≠ sbi.current_cnode_index)
    (hoff : Kernel.AXFS_GET_CBLOCK_OFFSET sbi.metadata k = .ok off)
    (hnext : Kernel.AXFS_GET_CBLOCK_OFFSET sbi.metadata ((k + 1) % U64) = .ok next)
    (hb0 : sbi.cblock_buffer0 = some b0) (hb1 : sbi.cblock_buffer1 = some b1)
    (hcopy : Kernel.axfs_copy_data m sbi b1 sbi.compressed off
      ((next + U64 - off) % U64 % 2 ^ 32) = .ok b1n)
    (hfail : (z.zlib_inflate b1n (toInt32 ((next + U64 - off) % U64 % 2 ^ 32))
      (toInt32 sbi.cblock_size)).2 ≠ Kernel.Z_STREAM_END)
    (hfit : (z.zlib_inflate b1n (toInt32 ((next + U64 - off) % U64 % 2 ^ 32))
      (toInt32 sbi.cblock_size)).1.length ≤ b0.length)
    (hlen : (if (sbi.cblock_size + 2 ^ 32 - co) % 2 ^ 32 > Kernel.PAGE_CACHE_SIZE then
      Kernel.PAGE_CACHE_SIZE else (sbi.cblock_size + 2 ^ 32 - co) % 2 ^ 32) = len)
    (hsrc : co + len ≤ b0.length)
    (hB : (z.zlib_inflate b1n (toInt32 ((next + U64 - off) % U64 % 2 ^ 32))
        (toInt32 sbi.cblock_size)).1 ++
      b0.drop (z.zlib_inflate b1n (toInt32 ((next + U64 - off) % U64 % 2 ^ 32))
        (toInt32 sbi.cblock_size)).1.length = B)
    (hchunk : (B.drop co).take len = chunk) :
    Kernel.axfs_uncompress_block z b0 (toInt32 sbi.cblock_size) b1n
        (toInt32 ((next + U64 - off) % U64 % 2 ^ 32)) = .ok (B, 0) ∧
    Kernel.axfs_readpage m z sbi host index pgdata
      = .ok (0, { sbi with
          cblock_buffer0 := some B
          cblock_buffer1 := some b1n
          current_cnode_index := k },
        chunk ++ List.replicate (Kernel.PAGE_CACHE_SIZE - len) 0) ∧
    ∀ (fs : axfs) (zc : ZlibDecoder) (cnodeIndex srcOffset clen : Nat) (st : ReadState),
      st.cachedBlock ≠ cnodeIndex → srcOffset ≤ fs.compressed.data.length →
      (zc.stbi_zlib_decode_buffer (toInt32 (be32_to_cpu fs.superblock.cblock_size))
        (fs.compressed.data.drop srcOffset) (toInt32 clen)).1.length
          ≤ st.cblock_buffer.length →
      readFile_cache_fill fs zc cnodeIndex srcOffset clen st
        = .ok { st with
            cblock_buffer :=
              (zc.stbi_zlib_decode_buffer (toInt32 (be32_to_cpu fs.superblock.cblock_size))
                (fs.compressed.data.drop srcOffset) (toInt32 clen)).1 ++
              st.cblock_buffer.drop
                (zc.stbi_zlib_decode_buffer (toInt32 (be32_to_cpu fs.superblock.cblock_size))
                  (fs.compressed.data.drop srcOffset) (toInt32 clen)).1.length
            cachedBlock := cnodeIndex } := by
  refine ⟨by rw [← hB]; exact uncompress_block_failed z b0 b1n _ _ hfit hfail,
    readpage_compressed_miss m z sbi host index a node_index co k off next len pgdata b0 b1
      b1n B chunk hpg hidx ha hni ht hco hci hk hoff hnext hb0 hb1 hcopy hfit hlen hsrc hB
      hchunk, ?_⟩
  intro fs zc cnodeIndex srcOffset clen st hmiss hso hfitc
  unfold readFile_cache_fill
  rw [if_pos hmiss, if_pos hso, if_pos hfitc]

/-- C17 amended, at `pageSbi 1` with an inflater that stores four bytes and then gives up:
the key becomes 0 and the page starts with the sixteen bytes of the buffer, four of them
fresh. -/
theorem readpage_keeps_key_when_inflate_fails_witness :
    Kernel.axfs_readpage (Kernel.Media.mk [] [] 512) Kernel.partialZlib (Kernel.pageSbi 1)
        (Kernel.inode.mk 0 0o100644 0 0 4096 1) 0 (List.replicate 4096 0)
      = .ok (0, { Kernel.pageSbi 1 with
          cblock_buffer0 := some ([1, 2, 3, 4] ++ List.replicate 12 0x55)
          cblock_buffer1 := some ([1, 2, 3, 4, 5, 6, 7, 8] ++ List.replicate 8 0)
          current_cnode_index := 0 },
        ([1, 2, 3, 4] ++ List.replicate 12 0x55)
          ++ List.replicate (Kernel.PAGE_CACHE_SIZE - 16) 0) :=
  (readpage_keeps_key_when_inflate_fails (Kernel.Media.mk [] [] 512) Kernel.partialZlib
    (Kernel.pageSbi 1) (Kernel.inode.mk 0 0o100644 0 0 4096 1) 0 0 0 0 0 0 8 16
    (List.replicate 4096 0) (List.replicate 16 0x55) (List.replicate 16 0)
    ([1, 2, 3, 4, 5, 6, 7, 8] ++ List.replicate 8 0) ([1, 2, 3, 4] ++ List.replicate 12 0x55)
    ([1, 2, 3, 4] ++ List.replicate 12 0x55)
    (by rw [List.length_replicate]; decide) (by decide) (by decide) (by decide) (by decide)
    (by decide) (by decide) (by decide) (by decide) (by decide) rfl rfl (by decide)
    (by decide) (by decide) (by decide) (by decide) (by decide) (by decide)).2.1

/-! ## The one-slot cache across calls -/

/-- A cache fill of `axfs_readpage` that returns leaves a coherent cache. -/
theorem readpage_fill_coherent (m : Kernel.Media) (z : Kernel.Zlib)
    (sbi sbi2 : Kernel.axfs_super_incore) (k : Nat) (hc : Kernel.cache_coherent m z sbi)
    (h : Kernel.axfs_readpage_fill m z sbi k = .ok sbi2) : Kernel.cache_coherent m z sbi2 := by
  unfold Kernel.axfs_readpage_fill at h
  by_cases hk : k ≠ sbi.current_cnode_index
  · rw [if_pos hk] at h
    revert h
    cases hoff : Kernel.AXFS_GET_CBLOCK_OFFSET sbi.metadata k with
    | error e => intro h; cases h
    | ok off =>
      cases hnext : Kernel.AXFS_GET_CBLOCK_OFFSET sbi.metadata ((k + 1) % U64) with
      | error e => intro h; cases h
      | ok next =>
        cases hb0 : sbi.cblock_buffer0 with
        | none => intro h; cases h
        | some b0 =>
          cases hb1 : sbi.cblock_buffer1 with
          | none => intro h; cases h
          | some b1 =>
            simp only
            cases hcopy : Kernel.axfs_copy_data m sbi b1 sbi.compressed off
                ((next + U64 - off) % U64 % 2 ^ 32) with
            | error e => intro h; cases h
            | ok b1n =>
              simp only
              cases hu : Kernel.axfs_uncompress_block z b0 (toInt32 sbi.cblock_size) b1n
                  (toInt32 ((next + U64 - off) % U64 % 2 ^ 32)) with
              | error e => intro h; cases h
              | ok r =>
                intro h
                simp only [Except.ok.injEq] at h
                have hr : r.1 = (z.zlib_inflate b1n
                    (toInt32 ((next + U64 - off) % U64 % 2 ^ 32))
                    (toInt32 sbi.cblock_size)).1 ++ b0.drop (z.zlib_inflate b1n
                    (toInt32 ((next + U64 - off) % U64 % 2 ^ 32))
                    (toInt32 sbi.cblock_size)).1.length := by
                  unfold Kernel.axfs_uncompress_block at hu
                  simp only at hu
                  split at hu
                  · split at hu <;> (injection hu with hu; rw [← hu])
                  · cases hu
                right
                refine ⟨off, next, r.1, b1n, b1, ?_, ?_, ?_, ?_, ?_, ?_⟩
                · rw [← h]; exact hoff
                · rw [← h]; exact hnext
                · rw [← h]
                · rw [← h]
                · rw [← h]; exact hcopy
                · rw [← h, hr]
                  exact List.prefix_append _ _
  · rw [if_neg hk] at h
    injection h with h
    rw [← h]
    exact hc

/-- A page read that returns leaves a coherent cache. -/
theorem readpage_coherent (m : Kernel.Media) (z : Kernel.Zlib)
    (sbi : Kernel.axfs_super_incore) (host : Kernel.inode) (index : Nat) (pgdata : List Byte)
    (r : Int × Kernel.axfs_super_incore × List Byte) (hc : Kernel.cache_coherent m z sbi)
    (h : Kernel.axfs_readpage m z sbi host index pgdata = .ok r) :
    Kernel.cache_coherent m z r.2.1 := by
  have hnode : ∀ x, Kernel.axfs_readpage_node m z sbi host.i_ino index pgdata = .ok x →
      Kernel.cache_coherent m z x.1 := by
    intro x hx
    unfold Kernel.axfs_readpage_node at hx
    revert hx
    cases Kernel.AXFS_GET_INODE_ARRAY_INDEX sbi.metadata host.i_ino with
    | error e => intro hx; cases hx
    | ok a =>
      simp only
      cases Kernel.AXFS_GET_NODE_INDEX sbi.metadata ((a + index) % U64) with
      | error e => intro hx; cases hx
      | ok ni =>
        simp only
        cases Kernel.AXFS_GET_NODE_TYPE sbi.metadata ((a + index) % U64) with
        | error e => intro hx; cases hx
        | ok t =>
          simp only
          intro hx
          split at hx
          · unfold Kernel.axfs_readpage_compressed at hx
            revert hx
            cases Kernel.AXFS_GET_CNODE_OFFSET sbi.metadata ni with
            | error e => intro hx; cases hx
            | ok co =>
              simp only
              cases Kernel.AXFS_GET_CNODE_INDEX sbi.metadata ni with
              | error e => intro hx; cases hx
              | ok k =>
                simp only
                cases hf : Kernel.axfs_readpage_fill m z sbi k with
                | error e => intro hx; cases hx
                | ok s2 =>
                  simp only
                  cases s2.cblock_buffer0 with
                  | none => intro hx; cases hx
                  | some b0 =>
                    simp only
                    split
                    · intro hx; cases hx
                    · intro hx
                      injection hx with hx
                      rw [← hx]
                      exact readpage_fill_coherent m z sbi s2 k hc hf
          · split at hx
            · unfold Kernel.axfs_readpage_byte_aligned at hx
              revert hx
              cases Kernel.AXFS_GET_BANODE_OFFSET sbi.metadata ni with
              | error e => intro hx; cases hx
              | ok off =>
                simp only
                split
                · intro hx; cases hx
                · intro hx
                  injection hx with hx
                  rw [← hx]
                  exact hc
            · unfold Kernel.axfs_readpage_xip at hx
              revert hx
              split
              · intro hx; cases hx
              · intro hx
                injection hx with hx
                rw [← hx]
                exact hc
  unfold Kernel.axfs_readpage at h
  by_cases hidx : index < (host.i_size + Kernel.PAGE_CACHE_SIZE - 1) % U64
      / 2 ^ Kernel.PAGE_CACHE_SHIFT
  · rw [if_pos hidx] at h
    revert h
    cases hn : Kernel.axfs_readpage_node m z sbi host.i_ino index pgdata with
    | error e => intro h; cases h
    | ok x =>
      simp only
      split
      · intro h; cases h
      · intro h
        injection h with h
        rw [← h]
        exact hnode x hn
  · rw [if_neg hidx] at h
    simp only at h
    revert h
    split
    · intro h; cases h
    · intro h
      injection h with h
      rw [← h]
      exact hc

/-- Coherence survives every sequence of page reads that returns. -/
theorem readpage_calls_coherent (m : Kernel.Media) (z : Kernel.Zlib) :
    ∀ (calls : List (Kernel.inode × Nat × List Byte)) (sbi sbi2 : Kernel.axfs_super_incore),
      Kernel.cache_coherent m z sbi → Kernel.readpage_calls m z sbi calls = .ok sbi2 →
      Kernel.cache_coherent m z sbi2 := by
  intro calls
  induction calls with
  | nil =>
    intro sbi sbi2 hc h
    unfold Kernel.readpage_calls at h
    injection h with h
    rw [← h]
    exact hc
  | cons c rest ih =>
    intro sbi sbi2 hc h
    obtain ⟨host, index, pgdata⟩ := c
    unfold Kernel.readpage_calls at h
    revert h
    cases hr : Kernel.axfs_readpage m z sbi host index pgdata with
    | error e => intro h; cases h
    | ok r =>
      intro h
      exact ih r.2.1 sbi2 (readpage_coherent m z sbi host index pgdata r hc hr) h

theorem readFile_byte_aligned_cache (fs : axfs) (n : Nat) (st st2 : ReadState)
    (h : readFile_byte_aligned fs n st = .ok st2) :
    st2.cblock_buffer = st.cblock_buffer ∧ st2.cachedBlock = st.cachedBlock := by
  obtain ⟨_, _, h⟩ := bind_ok_inv _ _ _ h
  obtain ⟨_, _, h⟩ := bind_ok_inv _ _ _ h
  cases h
  exact ⟨rfl, rfl⟩

theorem readFile_xip_cache (fs : axfs) (n : Nat) (st st2 : ReadState)
    (h : readFile_xip fs n st = .ok st2) :
    st2.cblock_buffer = st.cblock_buffer ∧ st2.cachedBlock = st.cachedBlock := by
  unfold readFile_xip at h
  revert h
  cases memcpy st.out st.offset fs.xip.data (n * 2 ^ PAGE_SHIFT % U64) (2 ^ PAGE_SHIFT) with
  | error e =>
    intro h
    cases h
  | ok out =>
    intro h
    injection h with h
    exact ⟨(congrArg ReadState.cblock_buffer h).symm, (congrArg ReadState.cachedBlock h).symm⟩

/-- A cache fill of `readFile` that returns leaves a coherent cache. -/
theorem readFile_cache_fill_coherent (fs : axfs) (z : ZlibDecoder) (ci so nx : Nat)
    (st st2 : ReadState)
    (hso : fs.cblock_offset.axfs_bytetable_stitch ci = .ok so)
    (hnx : fs.cblock_offset.axfs_bytetable_stitch ((ci + 1) % U64) = .ok nx)
    (hc : fs.cache_coherent z st.cblock_buffer st.cachedBlock)
    (h : readFile_cache_fill fs z ci so ((nx + U64 - so) % U64) st = .ok st2) :
    fs.cache_coherent z st2.cblock_buffer st2.cachedBlock := by
  unfold readFile_cache_fill at h
  split at h
  · split at h
    · next hsl =>
      split at h
      · cases h
        right
        exact ⟨so, nx, hso, hnx, hsl, List.prefix_append _ _⟩
      · cases h
    · cases h
  · cases h
    exact hc

theorem readFile_compressed_coherent (fs : axfs) (z : ZlibDecoder) (n : Nat)
    (st st2 : ReadState) (hc : fs.cache_coherent z st.cblock_buffer st.cachedBlock)
    (h : readFile_compressed fs z n st = .ok st2) :
    fs.cache_coherent z st2.cblock_buffer st2.cachedBlock := by
  obtain ⟨_, _, h⟩ := bind_ok_inv _ _ _ h
  obtain ⟨ci, _, h⟩ := bind_ok_inv _ _ _ h
  obtain ⟨so, hso, h⟩ := bind_ok_inv _ _ _ h
  obtain ⟨nx, hnx, h⟩ := bind_ok_inv _ _ _ h
  obtain ⟨st1, h1, h⟩ := bind_ok_inv _ _ _ h
  obtain ⟨_, _, h⟩ := bind_ok_inv _ _ _ h
  cases h
  exact readFile_cache_fill_coherent fs z ci so nx st st1 hso hnx hc h1

theorem readFile_body_coherent (fs : axfs) (z : ZlibDecoder) (st st2 : ReadState)
    (hc : fs.cache_coherent z st.cblock_buffer st.cachedBlock)
    (h : readFile_body fs z st = .ok st2) :
    fs.cache_coherent z st2.cblock_buffer st2.cachedBlock := by
  obtain ⟨n, _, h⟩ := bind_ok_inv _ _ _ h
  obtain ⟨ty, _, h⟩ := bind_ok_inv _ _ _ h
  obtain ⟨st1, h1, h⟩ := bind_ok_inv _ _ _ h
  cases h
  show fs.cache_coherent z st1.cblock_buffer st1.cachedBlock
  unfold readFile_switch at h1
  split at h1
  · obtain ⟨hb, hk⟩ := readFile_byte_aligned_cache _ _ _ _ h1
    rw [hb, hk]; exact hc
  · split at h1
    · obtain ⟨hb, hk⟩ := readFile_xip_cache _ _ _ _ h1
      rw [hb, hk]; exact hc
    · split at h1
      · exact readFile_compressed_coherent _ _ _ _ _ hc h1
      · cases h1

theorem readFile_loop_coherent (fs : axfs) (z : ZlibDecoder) :
    ∀ (fuel : Nat) (st st2 : ReadState),
      fs.cache_coherent z st.cblock_buffer st.cachedBlock →
      readFile_loop fs z fuel st = .ok st2 →
      fs.cache_coherent z st2.cblock_buffer st2.cachedBlock := by
  intro fuel
  induction fuel with
  | zero =>
    intro st st2 hc h
    unfold readFile_loop at h
    split at h
    · cases h
    · cases h; exact hc
  | succ fuel ih =>
    intro st st2 hc h
    unfold readFile_loop at h
    split at h
    · revert h
      cases hb : readFile_body fs z st with
      | error e => intro h; cases h
      | ok st1 =>
        intro h
        exact ih st1 st2 (readFile_body_coherent fs z st st1 hc hb) h
    · cases h; exact hc

/-- A `readFile` that returns leaves a coherent cache. -/
theorem readFile_coherent (fs : axfs) (z : ZlibDecoder) (id : Nat) (data : List Byte)
    (start length : Nat) (st : ReadState)
    (hc : fs.cache_coherent z fs.cblock_buffer fs.cachedBlock)
    (h : fs.readFile z id data start length = .ok st) :
    fs.cache_coherent z st.cblock_buffer st.cachedBlock := by
  obtain ⟨_, _, h⟩ := bind_ok_inv _ _ _ h
  obtain ⟨_, _, h⟩ := bind_ok_inv _ _ _ h
  exact readFile_loop_coherent fs z _ _ st hc h

/-- Coherence survives every sequence of `readFile` calls that returns. -/
theorem readFile_calls_coherent (z : ZlibDecoder) :
    ∀ (calls : List (Nat × List Byte × Nat × Nat)) (fs fs2 : axfs),
      fs.cache_coherent z fs.cblock_buffer fs.cachedBlock →
      axfs.readFile_calls z fs calls = .ok fs2 →
      fs2.cache_coherent z fs2.cblock_buffer fs2.cachedBlock := by
  intro calls
  induction calls with
  | nil =>
    intro fs fs2 hc h
    unfold axfs.readFile_calls at h
    cases h
    exact hc
  | cons c rest ih =>
    intro fs fs2 hc h
    obtain ⟨id, data, start, length⟩ := c
    unfold axfs.readFile_calls at h
    revert h
    cases hr : fs.readFile z id data start length with
    | error e => intro h; cases h
    | ok st =>
      intro h
      exact ih (fs.with_cache st) fs2 (readFile_coherent fs z id data start length st hc hr) h

/-- The page read of `pageSbi 1` with an inflater that stores `w` (at most 16 bytes) at the
start of the first buffer, whatever it reports. -/
theorem readpage_pageSbi (z : Kernel.Zlib) (B : List Byte)
    (hfit : (z.zlib_inflate ([1, 2, 3, 4, 5, 6, 7, 8] ++ List.replicate 8 0) 8 16).1.length
      ≤ 16)
    (hB : (z.zlib_inflate ([1, 2, 3, 4, 5, 6, 7, 8] ++ List.replicate 8 0) 8 16).1 ++
      (List.replicate 16 (0x55 : Byte)).drop
        (z.zlib_inflate ([1, 2, 3, 4, 5, 6, 7, 8] ++ List.replicate 8 0) 8 16).1.length = B) :
    Kernel.axfs_readpage (Kernel.Media.mk [] [] 512) z (Kernel.pageSbi 1)
        (Kernel.inode.mk 0 0o100644 0 0 4096 1) 0 (List.replicate 4096 0)
      = .ok (0, Kernel.pageSbiRead B,
          (B.drop 0).take 16 ++ List.replicate (Kernel.PAGE_CACHE_SIZE - 16) 0) :=
  readpage_compressed_miss (Kernel.Media.mk [] [] 512) z (Kernel.pageSbi 1)
    (Kernel.inode.mk 0 0o100644 0 0 4096 1) 0 0 0 0 0 0 8 16 (List.replicate 4096 0)
    (List.replicate 16 0x55) (List.replicate 16 0)
    ([1, 2, 3, 4, 5, 6, 7, 8] ++ List.replicate 8 0) B ((B.drop 0).take 16)
    (by rw [List.length_replicate]; decide) (by decide) (by decide) (by decide) (by decide)
    (by decide) (by decide) (by decide) (by decide) (by decide) rfl rfl (by decide)
    hfit (by decide) (by decide) hB rfl

/-- The mount leaves the key of the cache at `(u64)-1`. -/
theorem fill_super_fresh_key (m : Kernel.Media) (z : Kernel.Zlib) (vfs : Kernel.Vfs)
    (sbo : Kernel.axfs_super_onmedia) (phys virt : Nat) (s : Kernel.axfs_super_incore)
    (h : Kernel.axfs_fill_super m z vfs sbo phys virt = .ok (0, some s)) :
    s.current_cnode_index = U64 - 1 := by
  unfold Kernel.axfs_fill_super at h
  revert h
  cases Kernel.axfs_do_fill_super m z (Kernel.fresh_sbi phys virt) sbo with
  | error e => intro h; cases h
  | ok r =>
    obtain ⟨err, sbi, t⟩ := r
    simp only
    split
    · intro h; cases h
    · cases Kernel.axfs_check_super sbi with
      | error e => intro h; cases h
      | ok err2 =>
        simp only
        split
        · intro h; cases h
        · cases Kernel.axfs_create_vfs_inode vfs.iget5_locked sbi 0 with
          | error e => intro h; cases h
          | ok r =>
            cases r with
            | none => intro h; cases h
            | some root =>
              simp only
              split
              · intro h; cases h
              · cases Kernel.vmalloc sbi.cblock_size vfs.garbage0 with
                | none => intro h; cases h
                | some b0 =>
                  cases Kernel.vmalloc sbi.cblock_size vfs.garbage1 with
                  | none => intro h; cases h
                  | some b1 =>
                    intro h
                    simp only [Except.ok.injEq, Prod.mk.injEq, Option.some.injEq,
                      true_and] at h
                    rw [← h]

/-- `axfs::load` leaves the key of the cache at `(uint64_t)-1`. -/
theorem load_fresh_key (file : Option (List Byte)) (garbage : List Byte) (f : axfs)
    (h : axfs.load file garbage = .ok f) : f.cachedBlock = U64 - 1 := by
  unfold axfs.load at h
  split at h
  · cases h
  · split at h
    · cases h
    · split at h
      · cases h
      · split at h
        · cases h
        · split at h
          · cases h
          · cases h
            rfl
          · cases h

/-- C18, as stated, fails: from the fresh cache of `pageSbi 1` (key `(u64)-1`) one page read
with an inflater that rejects its input leaves the key at the cnode index 0, although the
inflation of cblock 0 has no result at all and the buffer still holds its old bytes. -/
theorem cache_not_plaintext_after_failed_inflate :
    (Kernel.pageSbi 1).current_cnode_index = U64 - 1 ∧
      Kernel.readpage_calls (Kernel.Media.mk [] [] 512) Kernel.nullZlib (Kernel.pageSbi 1)
          [(Kernel.inode.mk 0 0o100644 0 0 4096 1, 0, List.replicate 4096 0)]
        = .ok (Kernel.pageSbiRead (List.replicate 16 0x55)) ∧
      ¬ Kernel.cache_holds_plaintext (Kernel.Media.mk [] [] 512) Kernel.nullZlib
        (Kernel.pageSbiRead (List.replicate 16 0x55)) := by
  refine ⟨rfl, ?_, ?_⟩
  · unfold Kernel.readpage_calls
    rw [readpage_pageSbi Kernel.nullZlib (List.replicate 16 0x55) (by decide) (by decide)]
    rfl
  · intro h
    rcases h with hs | ⟨off, next, b0, b1, b1o, _, _, _, _, _, hend, _⟩
    · exact absurd hs (by decide)
    · have hcode : (-3 : Int) = Kernel.Z_STREAM_END := hend
      exact absurd hcode (by decide)

/-- C18, amended. From a cache whose key is the initial `(u64)-1`, as `axfs_fill_super` and
`axfs::load` leave it, every sequence of `axfs_readpage` calls and every sequence of
`readFile` calls that returns ends in a coherent cache: when the key is a cnode index `k`,
the cache buffer begins with the bytes the inflater stored when it was run on the compressed
bytes `[cblock_offset[k], cblock_offset[k+1])` (in the kernel: on the second buffer, which
holds the copy of them), whether or not that run succeeded. -/
theorem cache_coherence_invariant (m : Kernel.Media) (z : Kernel.Zlib)
    (sbi0 sbi : Kernel.axfs_super_incore) (calls : List (Kernel.inode × Nat × List Byte))
    (zc : ZlibDecoder) (fs0 fs : axfs) (ccalls : List (Nat × List Byte × Nat × Nat))
    (h0 : sbi0.current_cnode_index = U64 - 1)
    (hrun : Kernel.readpage_calls m z sbi0 calls = .ok sbi)
    (hc0 : fs0.cachedBlock = U64 - 1)
    (hcrun : axfs.readFile_calls zc fs0 ccalls = .ok fs) :
    Kernel.cache_coherent m z sbi ∧ fs.cache_coherent zc fs.cblock_buffer fs.cachedBlock ∧
      (∀ (vfs : Kernel.Vfs) (sbo : Kernel.axfs_super_onmedia) (phys virt : Nat)
        (s : Kernel.axfs_super_incore),
        Kernel.axfs_fill_super m z vfs sbo phys virt = .ok (0, some s) →
          s.current_cnode_index = U64 - 1) ∧
      ∀ (file : Option (List Byte)) (garbage : List Byte) (f : axfs),
        axfs.load file garbage = .ok f → f.cachedBlock = U64 - 1 :=
  ⟨readpage_calls_coherent m z calls sbi0 sbi (Or.inl h0) hrun,
    readFile_calls_coherent zc ccalls fs0 fs (Or.inl hc0) hcrun,
    fun vfs sbo phys virt s h => fill_super_fresh_key m z vfs sbo phys virt s h,
    fun file garbage f h => load_fresh_key file garbage f h⟩

/-- C18 amended, at `pageSbi 1` read once with an inflater that stores four bytes and gives
up, and at `imageTwoCblocks` read once in full. -/
theorem cache_coherence_invariant_witness :
    Kernel.cache_coherent (Kernel.Media.mk [] [] 512) Kernel.partialZlib
        (Kernel.pageSbiRead ([1, 2, 3, 4] ++ List.replicate 12 0x55)) ∧
      (imageTwoCblocks.with_cache (ReadState.mk 0 8 2 [1, 2, 3, 4, 5, 6, 7, 8]
        [5, 6, 7, 8] 1)).cache_coherent storedDecoder [5, 6, 7, 8] 1 :=
  ⟨(cache_coherence_invariant (Kernel.Media.mk [] [] 512) Kernel.partialZlib
      (Kernel.pageSbi 1) (Kernel.pageSbiRead ([1, 2, 3, 4] ++ List.replicate 12 0x55))
      [(Kernel.inode.mk 0 0o100644 0 0 4096 1, 0, List.replicate 4096 0)]
      storedDecoder imageTwoCblocks
      (imageTwoCblocks.with_cache (ReadState.mk 0 8 2 [1, 2, 3, 4, 5, 6, 7, 8]
        [5, 6, 7, 8] 1))
      [(1, List.replicate 8 0, 0, 8)] rfl
      (by
        unfold Kernel.readpage_calls
        rw [readpage_pageSbi Kernel.partialZlib ([1, 2, 3, 4] ++ List.replicate 12 0x55)
          (by decide) (by decide)]
        rfl)
      rfl
      (by
        have hr : imageTwoCblocks.readFile storedDecoder 1 (List.replicate 8 0) 0 8
            = .ok (ReadState.mk 0 8 2 [1, 2, 3, 4, 5, 6, 7, 8] [5, 6, 7, 8] 1) := by decide
        unfold axfs.readFile_calls
        rw [hr]
        rfl)).1,
    (cache_coherence_invariant (Kernel.Media.mk [] [] 512) Kernel.partialZlib
      (Kernel.pageSbi 1) (Kernel.pageSbiRead ([1, 2, 3, 4] ++ List.replicate 12 0x55))
      [(Kernel.inode.mk 0 0o100644 0 0 4096 1, 0, List.replicate 4096 0)]
      storedDecoder imageTwoCblocks
      (imageTwoCblocks.with_cache (ReadState.mk 0 8 2 [1, 2, 3, 4, 5, 6, 7, 8]
        [5, 6, 7, 8] 1))
      [(1, List.replicate 8 0, 0, 8)] rfl
      (by
        unfold Kernel.readpage_calls
        rw [readpage_pageSbi Kernel.partialZlib ([1, 2, 3, 4] ++ List.replicate 12 0x55)
          (by decide) (by decide)]
        rfl)
      rfl
      (by
        have hr : imageTwoCblocks.readFile storedDecoder 1 (List.replicate 8 0) 0 8
            = .ok (ReadState.mk 0 8 2 [1, 2, 3, 4, 5, 6, 7, 8] [5, 6, 7, 8] 1) := by decide
        unfold axfs.readFile_calls
        rw [hr]
        rfl)).2.1⟩

/-! ## `readFile` against the reader without cache -/

theorem bind_ok_intro {α β : Type} (x : Except Fault α) (f : α → Except Fault β) (a : α)
    (b : β) (hx : x = .ok a) (hf : f a = .ok b) : x.bind f = .ok b := by
  rw [hx]
  exact hf

theorem stitch_ok_inj (r : axfs_region) (i v w : Nat) (hv : r.axfs_bytetable_stitch i = .ok v)
    (hw : r.axfs_bytetable_stitch i = .ok w) : v = w := by
  rw [hv] at hw
  injection hw

/-- The ByteAligned case neither reads nor writes the cache. -/
theorem readFile_byte_aligned_frame (fs : axfs) (n : Nat) (st st2 : ReadState)
    (buf : List Byte) (key : Nat) (h : readFile_byte_aligned fs n st = .ok st2) :
    readFile_byte_aligned fs n { st with cblock_buffer := buf, cachedBlock := key }
      = .ok { st2 with cblock_buffer := buf, cachedBlock := key } := by
  obtain ⟨so, hso, h⟩ := bind_ok_inv _ _ _ h
  obtain ⟨out, hout, h⟩ := bind_ok_inv _ _ _ h
  cases h
  refine bind_ok_intro _ _ so _ hso ?_
  refine bind_ok_intro _ _ out _ hout ?_
  rfl

/-- The XIP case neither reads nor writes the cache. -/
theorem readFile_xip_frame (fs : axfs) (n : Nat) (st st2 : ReadState)
    (buf : List Byte) (key : Nat) (h : readFile_xip fs n st = .ok st2) :
    readFile_xip fs n { st with cblock_buffer := buf, cachedBlock := key }
      = .ok { st2 with cblock_buffer := buf, cachedBlock := key } := by
  obtain ⟨len, off, ai, out, b, k⟩ := st
  unfold readFile_xip at h ⊢
  simp only at h ⊢
  revert h
  cases memcpy out off fs.xip.data (n * 2 ^ PAGE_SHIFT % U64) (2 ^ PAGE_SHIFT) with
  | error e =>
    intro h
    cases h
  | ok out2 =>
    intro h
    injection h with h
    rw [← h]
    rfl

theorem readFile_switch_frame (fs : axfs) (z : ZlibDecoder) (ty n : Nat) (st st2 : ReadState)
    (buf : List Byte) (key : Nat) (hty : ty ≠ 1) (h : readFile_switch fs z ty n st = .ok st2) :
    readFile_switch fs z ty n { st with cblock_buffer := buf, cachedBlock := key }
      = .ok { st2 with cblock_buffer := buf, cachedBlock := key } := by
  unfold readFile_switch at h ⊢
  by_cases h2 : ty = 2
  · rw [if_pos h2] at h ⊢
    exact readFile_byte_aligned_frame fs n st st2 buf key h
  · rw [if_neg h2] at h ⊢
    by_cases h0 : ty = 0
    · rw [if_pos h0] at h ⊢
      exact readFile_xip_frame fs n st st2 buf key h
    · rw [if_neg h0, if_neg hty] at h
      cases h

theorem memcpy_prefix_src (dst : List Byte) (off : Nat) (p buf : List Byte) (co n : Nat)
    (out : List Byte) (hp : p <+: buf) (h : co + n ≤ p.length)
    (hm : memcpy dst off p co n = .ok out) : memcpy dst off buf co n = .ok out := by
  have hpl : p.length ≤ buf.length := hp.length_le
  unfold memcpy at hm ⊢
  by_cases hc : co + n ≤ p.length ∧ off + n ≤ dst.length
  · rw [if_pos hc] at hm
    rw [if_pos ⟨by omega, hc.2⟩, take_drop_prefix_eq p buf co n hp h]
    exact hm
  · rw [if_neg hc] at hm
    cases hm

/-- The Compressed case of `readFile` on a cache that is coherent does what the reader
without cache does, and leaves the cache coherent. -/
theorem readFile_compressed_sim (fs : axfs) (z : ZlibDecoder) (n : Nat) (p p2 : ReadState)
    (buf : List Byte) (key : Nat)
    (hlen : buf.length = be32_to_cpu fs.superblock.cblock_size)
    (hpre : ∀ so nx, fs.cblock_offset.axfs_bytetable_stitch key = .ok so →
      fs.cblock_offset.axfs_bytetable_stitch ((key + 1) % U64) = .ok nx →
      fs.inflated z so ((nx + U64 - so) % U64) <+: buf)
    (h : readFile_plain_compressed fs z n p = .ok p2) :
    ∃ buf2 key2,
      readFile_compressed fs z n { p with cblock_buffer := buf, cachedBlock := key }
        = .ok { p2 with cblock_buffer := buf2, cachedBlock := key2 } ∧
      buf2.length = be32_to_cpu fs.superblock.cblock_size ∧
      ∀ so nx, fs.cblock_offset.axfs_bytetable_stitch key2 = .ok so →
        fs.cblock_offset.axfs_bytetable_stitch ((key2 + 1) % U64) = .ok nx →
        fs.inflated z so ((nx + U64 - so) % U64) <+: buf2 := by
  unfold readFile_plain_compressed at h
  revert h
  cases hco : fs.cnode_offset.axfs_bytetable_stitch n with
  | error e => intro h; cases h
  | ok co =>
    simp only
    cases hci : fs.cnode_index.axfs_bytetable_stitch n with
    | error e => intro h; cases h
    | ok ci =>
      simp only
      cases hso : fs.cblock_offset.axfs_bytetable_stitch ci with
      | error e => intro h; cases h
      | ok so =>
        simp only
        cases hnx : fs.cblock_offset.axfs_bytetable_stitch ((ci + 1) % U64) with
        | error e => intro h; cases h
        | ok nx =>
          simp only
          split
          · next hcond =>
            obtain ⟨hsl, hfit, hin⟩ := hcond
            cases hm : memcpy p.out p.offset (fs.inflated z so ((nx + U64 - so) % U64)) co
                (min ((be32_to_cpu fs.superblock.cblock_size + U64 - co) % U64) p.length) with
            | error e => intro h; cases h
            | ok out =>
              intro h
              simp only [Except.ok.injEq] at h
              by_cases hk : key = ci
              · refine ⟨buf, key, ?_, hlen, hpre⟩
                have hp := hpre so nx (by rw [hk]; exact hso) (by rw [hk]; exact hnx)
                refine bind_ok_intro _ _ co _ hco ?_
                refine bind_ok_intro _ _ ci _ hci ?_
                refine bind_ok_intro _ _ so _ hso ?_
                refine bind_ok_intro _ _ nx _ hnx ?_
                refine bind_ok_intro _ _
                  { p with cblock_buffer := buf, cachedBlock := key } _ ?_ ?_
                · unfold readFile_cache_fill
                  rw [if_neg (fun hne => hne hk)]
                · refine bind_ok_intro _ _ out _
                    (memcpy_prefix_src _ _ _ buf _ _ out hp hin hm) ?_
                  rw [← h]
                  rfl
              · refine ⟨fs.inflated z so ((nx + U64 - so) % U64)
                    ++ buf.drop (fs.inflated z so ((nx + U64 - so) % U64)).length, ci, ?_, ?_,
                  ?_⟩
                · refine bind_ok_intro _ _ co _ hco ?_
                  refine bind_ok_intro _ _ ci _ hci ?_
                  refine bind_ok_intro _ _ so _ hso ?_
                  refine bind_ok_intro _ _ nx _ hnx ?_
                  refine bind_ok_intro _ _
                    { p with
                      cblock_buffer := fs.inflated z so ((nx + U64 - so) % U64)
                        ++ buf.drop (fs.inflated z so ((nx + U64 - so) % U64)).length
                      cachedBlock := ci } _ ?_ ?_
                  · unfold readFile_cache_fill
                    rw [if_pos hk, if_pos hsl, if_pos (by rw [hlen]; exact hfit)]
                  · refine bind_ok_intro _ _ out _
                      (memcpy_prefix_src _ _ _ _ _ _ out (List.prefix_append _ _) hin hm) ?_
                    rw [← h]
                    rfl
                · rw [List.length_append, List.length_drop]
                  omega
                · intro so2 nx2 hso2 hnx2
                  rw [← stitch_ok_inj _ _ _ _ hso hso2, ← stitch_ok_inj _ _ _ _ hnx hnx2]
                  exact List.prefix_append _ _
          · intro h
            cases h

/-- One iteration of `readFile` on a coherent cache does what the reader without cache
does, and leaves the cache coherent. -/
theorem readFile_body_sim (fs : axfs) (z : ZlibDecoder) (p p2 : ReadState)
    (buf : List Byte) (key : Nat)
    (hlen : buf.length = be32_to_cpu fs.superblock.cblock_size)
    (hpre : ∀ so nx, fs.cblock_offset.axfs_bytetable_stitch key = .ok so →
      fs.cblock_offset.axfs_bytetable_stitch ((key + 1) % U64) = .ok nx →
      fs.inflated z so ((nx + U64 - so) % U64) <+: buf)
    (h : readFile_plain_body fs z p = .ok p2) :
    ∃ buf2 key2,
      readFile_body fs z { p with cblock_buffer := buf, cachedBlock := key }
        = .ok { p2 with cblock_buffer := buf2, cachedBlock := key2 } ∧
      buf2.length = be32_to_cpu fs.superblock.cblock_size ∧
      ∀ so nx, fs.cblock_offset.axfs_bytetable_stitch key2 = .ok so →
        fs.cblock_offset.axfs_bytetable_stitch ((key2 + 1) % U64) = .ok nx →
        fs.inflated z so ((nx + U64 - so) % U64) <+: buf2 := by
  unfold readFile_plain_body at h
  revert h
  cases hn : fs.getNodeIndex p.arrayIndex with
  | error e => intro h; cases h
  | ok n =>
    simp only
    cases ht : fs.getNodeType p.arrayIndex with
    | error e => intro h; cases h
    | ok ty =>
      simp only
      by_cases h1 : ty = 1
      · rw [if_pos h1]
        cases hq : readFile_plain_compressed fs z n p with
        | error e => intro h; cases h
        | ok q =>
          intro h
          simp only [Except.ok.injEq] at h
          obtain ⟨buf2, key2, hc, hl2, hp2⟩ :=
            readFile_compressed_sim fs z n p q buf key hlen hpre hq
          refine ⟨buf2, key2, ?_, hl2, hp2⟩
          refine bind_ok_intro _ _ n _ hn ?_
          refine bind_ok_intro _ _ ty _ ht ?_
          refine bind_ok_intro _ _ { q with cblock_buffer := buf2, cachedBlock := key2 } _ ?_ ?_
          · unfold readFile_switch
            rw [h1, if_neg (by decide), if_neg (by decide), if_pos rfl]
            exact hc
          · rw [← h]
            rfl
      · rw [if_neg h1]
        cases hq : readFile_switch fs z ty n p with
        | error e => intro h; cases h
        | ok q =>
          intro h
          simp only [Except.ok.injEq] at h
          refine ⟨buf, key, ?_, hlen, hpre⟩
          refine bind_ok_intro _ _ n _ hn ?_
          refine bind_ok_intro _ _ ty _ ht ?_
          refine bind_ok_intro _ _ { q with cblock_buffer := buf, cachedBlock := key } _
            (readFile_switch_frame fs z ty n p q buf key h1 hq) ?_
          rw [← h]
          rfl

/-- The loop of `readFile` on a coherent cache against the loop of the reader without
cache. -/
theorem readFile_loop_sim (fs : axfs) (z : ZlibDecoder) :
    ∀ (fuel : Nat) (p p2 : ReadState) (buf : List Byte) (key : Nat),
      buf.length = be32_to_cpu fs.superblock.cblock_size →
      (∀ so nx, fs.cblock_offset.axfs_bytetable_stitch key = .ok so →
        fs.cblock_offset.axfs_bytetable_stitch ((key + 1) % U64) = .ok nx →
        fs.inflated z so ((nx + U64 - so) % U64) <+: buf) →
      readFile_plain_loop fs z fuel p = .ok p2 →
      ∃ buf2 key2,
        readFile_loop fs z fuel { p with cblock_buffer := buf, cachedBlock := key }
          = .ok { p2 with cblock_buffer := buf2, cachedBlock := key2 } ∧
        buf2.length = be32_to_cpu fs.superblock.cblock_size ∧
        ∀ so nx, fs.cblock_offset.axfs_bytetable_stitch key2 = .ok so →
          fs.cblock_offset.axfs_bytetable_stitch ((key2 + 1) % U64) = .ok nx →
          fs.inflated z so ((nx + U64 - so) % U64) <+: buf2 := by
  intro fuel
  induction fuel with
  | zero =>
    intro p p2 buf key hlen hpre h
    unfold readFile_plain_loop at h
    by_cases hpos : 0 < p.length
    · rw [if_pos hpos] at h
      cases h
    · rw [if_neg hpos] at h
      cases h
      refine ⟨buf, key, ?_, hlen, hpre⟩
      unfold readFile_loop
      rw [if_neg hpos]
  | succ fuel ih =>
    intro p p2 buf key hlen hpre h
    unfold readFile_plain_loop at h
    by_cases hpos : 0 < p.length
    · rw [if_pos hpos] at h
      revert h
      cases hb : readFile_plain_body fs z p with
      | error e => intro h; cases h
      | ok q =>
        intro h
        simp only at h
        obtain ⟨buf1, key1, hc1, hl1, hp1⟩ := readFile_body_sim fs z p q buf key hlen hpre hb
        obtain ⟨buf2, key2, hc2, hl2, hp2⟩ := ih q p2 buf1 key1 hl1 hp1 h
        refine ⟨buf2, key2, ?_, hl2, hp2⟩
        unfold readFile_loop
        rw [if_pos hpos, hc1]
        exact hc2
    · rw [if_neg hpos] at h
      cases h
      refine ⟨buf, key, ?_, hlen, hpre⟩
      unfold readFile_loop
      rw [if_neg hpos]

theorem readFile_plain_body_with_cache (fs : axfs) (z : ZlibDecoder) (st p : ReadState) :
    readFile_plain_body (fs.with_cache st) z p = readFile_plain_body fs z p :=
  rfl

theorem readFile_plain_loop_with_cache (fs : axfs) (z : ZlibDecoder) (st : ReadState) :
    ∀ (fuel : Nat) (p : ReadState),
      readFile_plain_loop (fs.with_cache st) z fuel p = readFile_plain_loop fs z fuel p := by
  intro fuel
  induction fuel with
  | zero => intro p; rfl
  | succ fuel ih =>
    intro p
    unfold readFile_plain_loop
    rw [readFile_plain_body_with_cache]
    by_cases hpos : 0 < p.length
    · rw [if_pos hpos, if_pos hpos]
      cases readFile_plain_body fs z p with
      | error e => rfl
      | ok q => exact ih q
    · rw [if_neg hpos, if_neg hpos]

/-- The reader without cache does not depend on the cache members of the object. -/
theorem readFile_plain_with_cache (fs : axfs) (z : ZlibDecoder) (st : ReadState) (id : Nat)
    (data : List Byte) (start length : Nat) :
    (fs.with_cache st).readFile_plain z id data start length
      = fs.readFile_plain z id data start length := by
  unfold axfs.readFile_plain
  have h1 : (fs.with_cache st).getFileSize id = fs.getFileSize id := rfl
  have h2 : (fs.with_cache st).getArrayIndex id = fs.getArrayIndex id := rfl
  have h3 : (fs.with_cache st).node_index.max_index = fs.node_index.max_index := rfl
  rw [h1, h2, h3]
  cases fs.getFileSize id with
  | error e => rfl
  | ok fileSize =>
    cases fs.getArrayIndex id with
    | error e => rfl
    | ok arrayIndex => exact readFile_plain_loop_with_cache fs z st _ _

/-- A `readFile` on a coherent cache returns what the reader without cache returns, and
leaves the cache coherent. -/
theorem readFile_sim (fs : axfs) (z : ZlibDecoder) (id : Nat) (data : List Byte)
    (start length : Nat) (p : ReadState)
    (hlen : fs.cblock_buffer.length = be32_to_cpu fs.superblock.cblock_size)
    (hpre : ∀ so nx, fs.cblock_offset.axfs_bytetable_stitch fs.cachedBlock = .ok so →
      fs.cblock_offset.axfs_bytetable_stitch ((fs.cachedBlock + 1) % U64) = .ok nx →
      fs.inflated z so ((nx + U64 - so) % U64) <+: fs.cblock_buffer)
    (h : fs.readFile_plain z id data start length = .ok p) :
    ∃ buf2 key2,
      fs.readFile z id data start length
        = .ok { p with cblock_buffer := buf2, cachedBlock := key2 } ∧
      buf2.length = be32_to_cpu fs.superblock.cblock_size ∧
      ∀ so nx, fs.cblock_offset.axfs_bytetable_stitch key2 = .ok so →
        fs.cblock_offset.axfs_bytetable_stitch ((key2 + 1) % U64) = .ok nx →
        fs.inflated z so ((nx + U64 - so) % U64) <+: buf2 := by
  unfold axfs.readFile_plain at h
  revert h
  cases hsz : fs.getFileSize id with
  | error e => intro h; cases h
  | ok fileSize =>
    simp only
    cases ha : fs.getArrayIndex id with
    | error e => intro h; cases h
    | ok arrayIndex =>
      simp only
      intro h
      obtain ⟨buf2, key2, hc, hl2, hp2⟩ := readFile_loop_sim fs z _ _ p fs.cblock_buffer
        fs.cachedBlock hlen hpre h
      refine ⟨buf2, key2, ?_, hl2, hp2⟩
      refine bind_ok_intro _ _ fileSize _ hsz ?_
      refine bind_ok_intro _ _ arrayIndex _ ha ?_
      exact hc

/-- C19, as stated, fails.  On `imageShortCblock`, from the cache `axfs::load` leaves, the
first call of `readFile(1, dst, 0, 8)` delivers 5, 6, 0, 0, 1, 2, 3, 4 and the second
5, 6, 3, 4, 1, 2, 3, 4: the first page takes four bytes of a cblock of which the decoder
stored two, and the other two are whatever the buffer held.  On `imageTwoCblocks` with a
cache whose key is 0 while the buffer holds 9, 9, 9, 9, the first call delivers these four
bytes as page 0 and the second the bytes 1, 2, 3, 4 of cblock 0. -/
theorem readFile_twice_differs :
    imageShortCblock.cachedBlock = U64 - 1 ∧
      imageShortCblock.readFile storedDecoder 1 (List.replicate 8 0) 0 8
        = .ok (ReadState.mk 0 8 2 [5, 6, 0, 0, 1, 2, 3, 4] [1, 2, 3, 4] 0) ∧
      (imageShortCblock.with_cache
          (ReadState.mk 0 8 2 [5, 6, 0, 0, 1, 2, 3, 4] [1, 2, 3, 4] 0)).readFile
          storedDecoder 1 (List.replicate 8 0) 0 8
        = .ok (ReadState.mk 0 8 2 [5, 6, 3, 4, 1, 2, 3, 4] [1, 2, 3, 4] 0) ∧
      (imageTwoCblocks.with_cache (ReadState.mk 0 0 0 [] [9, 9, 9, 9] 0)).readFile
          storedDecoder 1 (List.replicate 8 0) 0 8
        = .ok (ReadState.mk 0 8 2 [9, 9, 9, 9, 5, 6, 7, 8] [5, 6, 7, 8] 1) ∧
      (imageTwoCblocks.with_cache
          (ReadState.mk 0 8 2 [9, 9, 9, 9, 5, 6, 7, 8] [5, 6, 7, 8] 1)).readFile
          storedDecoder 1 (List.replicate 8 0) 0 8
        = .ok (ReadState.mk 0 8 2 [1, 2, 3, 4, 5, 6, 7, 8] [5, 6, 7, 8] 1) := by
  refine ⟨by decide, by decide, by decide, by decide, by decide⟩

/-- C19, amended. For an image whose cache buffer has `cblock_size` bytes and whose cache
is coherent (the key is the initial `(uint64_t)-1`, or the buffer begins with the bytes the
decoder stores for the cblock of the key), and for a read in which every Compressed page
lies inside the bytes the decoder stores for its cblock (the reader without cache returns),
two successive calls `readFile(i, dst1, s, L)` and `readFile(i, dst2, s, L)` on destinations
of equal content both return and leave the same bytes, those the reader without cache
delivers, although the second call runs on the cache the first one left. -/
theorem readFile_twice_same_bytes (fs : axfs) (z : ZlibDecoder) (id : Nat) (data : List Byte)
    (start length : Nat) (p : ReadState)
    (hbuf : fs.cblock_buffer.length = be32_to_cpu fs.superblock.cblock_size)
    (hmax : fs.cblock_offset.max_index < U64)
    (hcoh : fs.cache_coherent z fs.cblock_buffer fs.cachedBlock)
    (hplain : fs.readFile_plain z id data start length = .ok p) :
    ∃ st1 st2, fs.readFile z id data start length = .ok st1 ∧
      (fs.with_cache st1).readFile z id data start length = .ok st2 ∧
      st1.out = p.out ∧ st2.out = st1.out := by
  have hpre : ∀ so nx, fs.cblock_offset.axfs_bytetable_stitch fs.cachedBlock = .ok so →
      fs.cblock_offset.axfs_bytetable_stitch ((fs.cachedBlock + 1) % U64) = .ok nx →
      fs.inflated z so ((nx + U64 - so) % U64) <+: fs.cblock_buffer := by
    intro so nx hso hnx
    rcases hcoh with hs | ⟨so2, nx2, hso2, hnx2, _, hp⟩
    · have := stitch_ok_lt _ _ _ hso
      omega
    · rw [← stitch_ok_inj _ _ _ _ hso2 hso, ← stitch_ok_inj _ _ _ _ hnx2 hnx]
      exact hp
  obtain ⟨buf1, key1, h1, hl1, hp1⟩ := readFile_sim fs z id data start length p hbuf hpre hplain
  obtain ⟨buf2, key2, h2, _, _⟩ := readFile_sim
    (fs.with_cache { p with cblock_buffer := buf1, cachedBlock := key1 }) z id data start
    length p hl1 hp1 (by rw [readFile_plain_with_cache]; exact hplain)
  exact ⟨_, _, h1, h2, rfl, rfl⟩

/-- C19 amended, at `imageTwoCblocks` as loaded: both calls deliver the bytes 1..8. -/
theorem readFile_twice_same_bytes_witness :
    ∃ st1 st2, imageTwoCblocks.readFile storedDecoder 1 (List.replicate 8 0) 0 8 = .ok st1 ∧
      (imageTwoCblocks.with_cache st1).readFile storedDecoder 1 (List.replicate 8 0) 0 8
        = .ok st2 ∧
      st1.out = [1, 2, 3, 4, 5, 6, 7, 8] ∧ st2.out = st1.out :=
  readFile_twice_same_bytes imageTwoCblocks storedDecoder 1 (List.replicate 8 0) 0 8
    (ReadState.mk 0 8 2 [1, 2, 3, 4, 5, 6, 7, 8] [] 0) (by decide) (by decide)
    (Or.inl (by decide)) (by decide)

/-! ## Where a region is read from -/

/-- C24, as stated, fails: with a mapped window of 8192 bytes, an uncompressed region that is
not `incore`, starts at 4096 and has 8192 bytes ends at 12288, outside the window, and
`AXFS_IS_REGION_XIP` is TRUE for it. -/
theorem region_xip_past_window :
    Kernel.AXFS_IS_REGION_XIP Kernel.windowSbi
        { Kernel.zero_region with fsoffset := 4096, size := 8192 } = true ∧
      ¬ (4096 + 8192 ≤ Kernel.windowSbi.mmap_size) := by
  decide

/-- C24, amended. For a superblock with a valid physical or virtual start address,
`AXFS_IS_REGION_XIP(sbi, region)` is TRUE if and only if `compressed_size == 0`,
`incore == 0` and the start `fsoffset` of the region is not behind `mmap_size`; the size of
the region plays no part. -/
theorem region_xip_iff (sbi : Kernel.axfs_super_incore)
    (region : Kernel.axfs_region_desc_incore)
    (haddr : 0 < sbi.phys_start_addr ∨ 0 < sbi.virt_start_addr) :
    (Kernel.AXFS_IS_REGION_XIP sbi region = true ↔
        region.compressed_size = 0 ∧ region.incore = 0 ∧ region.fsoffset ≤ sbi.mmap_size) ∧
      ∀ size, Kernel.AXFS_IS_REGION_XIP sbi { region with size := size }
        = Kernel.AXFS_IS_REGION_XIP sbi region := by
  constructor
  · unfold Kernel.AXFS_IS_REGION_XIP Kernel.AXFS_IS_REGION_COMPRESSED
      Kernel.AXFS_IS_REGION_INCORE Kernel.AXFS_IS_REGION_MMAPABLE Kernel.AXFS_IS_MMAPABLE
      Kernel.AXFS_PHYSADDR_IS_VALID Kernel.AXFS_VIRTADDR_IS_VALID
    simp only [Bool.and_eq_true, Bool.not_eq_true', decide_eq_false_iff_not, decide_eq_true_eq,
      Bool.or_eq_true, gt_iff_lt, ge_iff_le]
    constructor
    · rintro ⟨⟨h1, h2⟩, h3, _⟩
      exact ⟨by omega, by omega, h3⟩
    · rintro ⟨h1, h2, h3⟩
      exact ⟨⟨by omega, by omega⟩, h3, haddr⟩
  · intro size
    rfl

/-- C24 amended, at the region of the counterexample: it starts inside the window. -/
theorem region_xip_iff_witness :
    Kernel.AXFS_IS_REGION_XIP Kernel.windowSbi
        { Kernel.zero_region with fsoffset := 4096, size := 8192 } = true :=
  (region_xip_iff Kernel.windowSbi { Kernel.zero_region with fsoffset := 4096, size := 8192 }
    (Or.inl (by decide))).1.mpr ⟨rfl, rfl, by decide⟩

/-! ## Loading a compressed region -/

set_option maxRecDepth 100000 in
/-- Mounting `compressedModesDevice` with the inflater `modesZlib` is refused. -/
theorem fill_super_compressedModes :
    Kernel.axfs_fill_super Kernel.compressedModesDevice Kernel.modesZlib Kernel.plainVfs
      Kernel.rootOnlySuper 0 0 = .ok (-Kernel.EINVAL, none) := by
  decide
set_option maxRecDepth 100000 in
/-- The two fetches the load of the `modes` region of `compressedModesDevice` makes. -/
theorem fetch_compressedModes :
    Kernel.axfs_fetch_data Kernel.compressedModesDevice (Kernel.fresh_sbi 0 0) 40 40 =
      .ok (Kernel.descriptor_bytes 80 4 2 1 4 0) ∧
    Kernel.axfs_fetch_data Kernel.compressedModesDevice (Kernel.fresh_sbi 0 0) 80 2 =
      .ok [9, 9] := by
  constructor <;> decide

set_option maxRecDepth 100000 in
/-- The fields of the `modes` descriptor of `compressedModesDevice`. -/
theorem descriptor_compressedModes :
    Kernel.be64_at (Kernel.descriptor_bytes 80 4 2 1 4 0) 0 = 80 ∧
    Kernel.be64_at (Kernel.descriptor_bytes 80 4 2 1 4 0) 8 = 4 ∧
    Kernel.be64_at (Kernel.descriptor_bytes 80 4 2 1 4 0) 16 = 2 ∧
    Kernel.be64_at (Kernel.descriptor_bytes 80 4 2 1 4 0) 24 = 1 ∧
    ((Kernel.descriptor_bytes 80 4 2 1 4 0).getD 32 0).val = 4 ∧
    ((Kernel.descriptor_bytes 80 4 2 1 4 0).getD 33 0).val = 0 := by
  decide

/-- The load of the compressed `modes` region returns what `axfs_uncompress_block` returns:
the inflated length after `Z_STREAM_END`, 0 after any other code. -/
theorem do_fill_data_ptrs_compressed_code (z : Kernel.Zlib) (out : List Byte) (code : Int)
    (hz : z.zlib_inflate [9, 9] 2 4 = (out, code)) (hlen : out.length ≤ 4) :
    Kernel.axfs_do_fill_data_ptrs Kernel.compressedModesDevice z (Kernel.fresh_sbi 0 0) 40
        Kernel.zero_region false =
      .ok (if code = Kernel.Z_STREAM_END then (out.length : Int) else 0,
        Kernel.axfs_region_desc_incore.mk 80 4 2 1
          (some (out ++ (List.replicate 4 (0 : Byte)).drop out.length)) 4 0,
        [(40, 40), (80, 2)]) := by
  obtain ⟨h0, h8, h16, h24, h32, h33⟩ := descriptor_compressedModes
  have hx : Kernel.AXFS_IS_REGION_XIP (Kernel.fresh_sbi 0 0)
      (Kernel.axfs_region_desc_incore.mk 80 4 2 1 none 4 0) = false := by decide
  have hc : Kernel.AXFS_IS_REGION_COMPRESSED
      (Kernel.axfs_region_desc_incore.mk 80 4 2 1 none 4 0) = true := by decide
  have h4 : toInt32 4 = 4 := by decide
  have h2 : toInt32 2 = 2 := by decide
  have hu : Kernel.axfs_uncompress_block z (List.replicate 4 0) 4 [9, 9] 2 =
      .ok (out ++ (List.replicate 4 (0 : Byte)).drop out.length,
        if code = Kernel.Z_STREAM_END then (out.length : Int) else 0) := by
    unfold Kernel.axfs_uncompress_block
    simp only [hz, List.length_replicate, if_pos hlen]
    by_cases hcode : code = Kernel.Z_STREAM_END
    · simp [hcode, toInt32_small out.length (by omega)]
    · simp [hcode]
  unfold Kernel.axfs_do_fill_data_ptrs
  rw [fetch_compressedModes.1]
  simp only [bind, Except.bind, h0, h8, h16, h24, h32, h33, Kernel.zero_region]
  rw [if_neg (by decide), hx, hc, fetch_compressedModes.2, h4, h2]
  simp only [Bool.false_and, Bool.false_eq_true, if_false, Bool.or_true, if_true, hu]
  by_cases hcode : code = Kernel.Z_STREAM_END
  · by_cases h0 : (out.length : Int) = 0
    · simp [hcode, h0, pure, Except.pure]
    · simp [hcode, h0, pure, Except.pure]
  · simp [hcode, pure, Except.pure]
/-- C23 (the code departs from it): `axfs_do_fill_data_ptrs` hands the return value of
`axfs_uncompress_block`, the number of bytes inflated, on as its error code.  On
`compressedModesDevice`, whose `modes` region is 2 compressed bytes for a table of 4, an
inflater that ends with `Z_STREAM_END` after `out` makes the load return the length of
`out`, which is 4 and not 0 where the buffer is filled, and every other inflater makes it
return 0 with whatever the buffer then holds as the bytes of the region; with the inflater
`modesZlib`, which fills the buffer with the mode table of a root directory,
`axfs_fill_super` refuses the mount with `-EINVAL`. -/
theorem do_fill_data_ptrs_returns_inflated_length (z : Kernel.Zlib) (out : List Byte)
    (code : Int) (hz : z.zlib_inflate [9, 9] 2 4 = (out, code)) (hlen : out.length ≤ 4) :
    Kernel.axfs_do_fill_data_ptrs Kernel.compressedModesDevice z (Kernel.fresh_sbi 0 0) 40
        Kernel.zero_region false =
      .ok (if code = Kernel.Z_STREAM_END then (out.length : Int) else 0,
        Kernel.axfs_region_desc_incore.mk 80 4 2 1
          (some (out ++ (List.replicate 4 (0 : Byte)).drop out.length)) 4 0,
        [(40, 40), (80, 2)]) ∧
    Kernel.axfs_fill_super Kernel.compressedModesDevice Kernel.modesZlib Kernel.plainVfs
      Kernel.rootOnlySuper 0 0 = .ok (-Kernel.EINVAL, none) :=
  ⟨do_fill_data_ptrs_compressed_code z out code hz hlen, fill_super_compressedModes⟩

theorem do_fill_data_ptrs_returns_inflated_length_witness :
    (Kernel.modesZlib.zlib_inflate [9, 9] 2 4 = ([237, 65, 0, 0], 1) ∧
      ([237, 65, 0, 0] : List Byte).length ≤ 4) ∧
    (Kernel.axfs_do_fill_data_ptrs Kernel.compressedModesDevice Kernel.modesZlib
        (Kernel.fresh_sbi 0 0) 40 Kernel.zero_region false =
      .ok (if (1 : Int) = Kernel.Z_STREAM_END then
          ((([237, 65, 0, 0] : List Byte).length : Nat) : Int) else 0,
        Kernel.axfs_region_desc_incore.mk 80 4 2 1
          (some ([237, 65, 0, 0] ++
            (List.replicate 4 (0 : Byte)).drop ([237, 65, 0, 0] : List Byte).length)) 4 0,
        [(40, 40), (80, 2)]) ∧
    Kernel.axfs_fill_super Kernel.compressedModesDevice Kernel.modesZlib Kernel.plainVfs
      Kernel.rootOnlySuper 0 0 = .ok (-Kernel.EINVAL, none)) :=
  ⟨⟨rfl, by decide⟩,
    do_fill_data_ptrs_returns_inflated_length Kernel.modesZlib [237, 65, 0, 0] 1 rfl
      (by decide)⟩

/-! ## Copying from the block device -/

/-- A slice of one block of the device is a slice of the device. -/
theorem block_slice (D : List Byte) (q B r n : Nat) (h : r + n ≤ B) :
    ((((D.drop (q * B)).take B).drop r).take n) = (D.drop (q * B + r)).take n := by
  rw [List.drop_take, List.take_take, List.drop_drop, Nat.min_eq_left (by omega)]

/-- Dropping past a front of known length. -/
theorem drop_append_length (P X : List Byte) (c b : Nat) (hP : P.length = c) :
    (P ++ X).drop (c + b) = X.drop b := by
  subst hP
  exact List.drop_append _

/-- Inside the device `sb_bread` returns the block. -/
theorem sb_bread_inside (m : Kernel.Media) (pos : Nat)
    (hpos : pos < m.blockdev.length) :
    Kernel.sb_bread m (pos / m.s_blocksize) =
      some ((m.blockdev.drop (pos / m.s_blocksize * m.s_blocksize)).take m.s_blocksize) := by
  unfold Kernel.sb_bread
  have h : pos / m.s_blocksize * m.s_blocksize ≤ pos := Nat.div_mul_le_self _ _
  rw [if_pos (by omega)]

/-- The loop of `axfs_copy_block_data`, entered with the first `copied` bytes in place at a
block boundary (or at the start): it leaves the `len` bytes of the device from `boffset` on
in front of the untouched rest of the destination. -/
theorem copy_block_data_loop_spec (m : Kernel.Media) (dst : List Byte) (boffset len : Nat)
    (hB : 0 < m.s_blocksize) (hdev : boffset + len ≤ m.blockdev.length)
    (hU : boffset + len < U64) (hdst : len ≤ dst.length) :
    ∀ fuel copied, copied ≤ len → len ≤ copied + fuel →
      (copied = 0 ∨ copied = len ∨ (boffset + copied) % m.s_blocksize = 0) →
      Kernel.axfs_copy_block_data_loop m boffset len fuel copied
          ((m.blockdev.drop boffset).take copied ++ dst.drop copied) =
        .ok ((m.blockdev.drop boffset).take len ++ dst.drop len) := by
  intro fuel
  induction fuel with
  | zero =>
    intro copied h1 h2 _
    have : copied = len := by omega
    subst this
    unfold Kernel.axfs_copy_block_data_loop
    rw [if_neg (by omega)]
  | succ f ih =>
    intro copied h1 h2 h3
    unfold Kernel.axfs_copy_block_data_loop
    by_cases hc : copied < len
    · rw [if_pos hc, if_neg (by omega)]
      have hmod : (boffset + copied) % U64 = boffset + copied := Nat.mod_eq_of_lt (by omega)
      rw [hmod, sb_bread_inside m (boffset + copied) (by omega)]
      simp only
      have hdm := Nat.div_add_mod (boffset + copied) m.s_blocksize
      have hml := Nat.mod_lt (boffset + copied) hB
      by_cases h0 : copied = 0
      · subst h0
        rw [if_pos rfl]
        simp only [Nat.add_zero, List.take_zero, List.nil_append, List.drop_zero] at hdm hml ⊢
        generalize hbytes : (if m.s_blocksize - boffset % m.s_blocksize > len then len
          else m.s_blocksize - boffset % m.s_blocksize) = bytes
        have hb : bytes ≤ len ∧ bytes ≤ m.s_blocksize - boffset % m.s_blocksize ∧ 0 < bytes ∧
            (bytes = len ∨ bytes = m.s_blocksize - boffset % m.s_blocksize) := by
          rw [← hbytes]
          split <;> omega
        obtain ⟨hb1, hb2, hb3, hb4⟩ := hb
        have hq : boffset / m.s_blocksize * m.s_blocksize + boffset % m.s_blocksize
            = boffset := by
          rw [Nat.mul_comm]; exact hdm
        have hmc : memcpy dst 0
            ((m.blockdev.drop (boffset / m.s_blocksize * m.s_blocksize)).take m.s_blocksize)
            (boffset % m.s_blocksize) bytes
              = .ok ((m.blockdev.drop boffset).take bytes ++ dst.drop bytes) := by
          rw [memcpy_ok _ _ _ _ _ (by
            rw [List.length_take, List.length_drop]
            have := Nat.div_mul_le_self boffset m.s_blocksize
            omega) (by omega)]
          rw [block_slice _ _ _ _ _ (by omega), hq]
          simp
        rw [hmc]
        simp only
        rw [Nat.zero_add, Nat.mod_eq_of_lt (by omega)]
        refine ih bytes hb1 (by omega) ?_
        rcases hb4 with h | h
        · exact Or.inr (Or.inl h)
        · refine Or.inr (Or.inr ?_)
          have he : boffset + bytes = m.s_blocksize * (boffset / m.s_blocksize + 1) := by
            rw [Nat.mul_add, Nat.mul_one]
            omega
          rw [he, Nat.mul_mod_right]
      · rw [if_neg h0]
        have hb : (boffset + copied) % m.s_blocksize = 0 := by omega
        generalize hbytes : (if len - copied < m.s_blocksize then len - copied
          else m.s_blocksize) = bytes
        have hb' : copied + bytes ≤ len ∧ bytes ≤ m.s_blocksize ∧ 0 < bytes ∧
            (copied + bytes = len ∨ bytes = m.s_blocksize) := by
          rw [← hbytes]
          split <;> omega
        obtain ⟨hb1, hb2, hb3, hb4⟩ := hb'
        have hq : (boffset + copied) / m.s_blocksize * m.s_blocksize = boffset + copied := by
          rw [Nat.mul_comm]; omega
        have hP : ((m.blockdev.drop boffset).take copied).length = copied := by
          rw [List.length_take, List.length_drop]; omega
        have hmc : memcpy ((m.blockdev.drop boffset).take copied ++ dst.drop copied) copied
            ((m.blockdev.drop ((boffset + copied) / m.s_blocksize * m.s_blocksize)).take
              m.s_blocksize) 0 bytes
              = .ok ((m.blockdev.drop boffset).take (copied + bytes) ++
                  dst.drop (copied + bytes)) := by
          rw [memcpy_ok _ _ _ _ _ (by
            rw [List.length_take, List.length_drop, hq]
            omega) (by
            rw [List.length_append, hP, List.length_drop]
            omega)]
          have h1 := block_slice m.blockdev ((boffset + copied) / m.s_blocksize)
            m.s_blocksize 0 bytes (by omega)
          rw [Nat.add_zero, hq] at h1
          rw [hq, h1, List.take_left' hP]
          have h2 : ((m.blockdev.drop boffset).take copied ++ dst.drop copied).drop
              (copied + bytes) = dst.drop (copied + bytes) := by
            rw [drop_append_length _ _ copied bytes hP, List.drop_drop]
          rw [h2, List.take_add, List.drop_drop, List.append_assoc]
        rw [hmc]
        simp only
        rw [Nat.mod_eq_of_lt (by omega)]
        refine ih (copied + bytes) hb1 (by omega) ?_
        rcases hb4 with h | h
        · exact Or.inr (Or.inl h)
        · refine Or.inr (Or.inr ?_)
          rw [h, ← Nat.add_assoc, Nat.add_mod_right]
          exact hb
    · have : copied = len := by omega
      subst this
      rw [if_neg hc]

/-- The passes of the loop of `axfs_copy_block_data` after the first: each reads a block
from its start, the block being the one at the device offset of the bytes it writes, stays
inside `dst[copied .. len)`, and together they copy the `len - copied` bytes left. -/
theorem copy_block_data_chunks_later (m : Kernel.Media) (boffset len : Nat)
    (hB : 0 < m.s_blocksize) (hU : boffset + len < U64) :
    ∀ fuel copied, 0 < copied → copied ≤ len → len ≤ copied + fuel →
      (copied = len ∨ (boffset + copied) % m.s_blocksize = 0) →
      (∀ c ∈ Kernel.axfs_copy_block_data_chunks m boffset len fuel copied,
        c.src = 0 ∧ c.block * m.s_blocksize = boffset + c.dst ∧ copied ≤ c.dst ∧
          0 < c.bytes ∧ c.bytes ≤ m.s_blocksize ∧ c.dst + c.bytes ≤ len) ∧
      ((Kernel.axfs_copy_block_data_chunks m boffset len fuel copied).map
        Kernel.block_chunk.bytes).sum = len - copied := by
  intro fuel
  induction fuel with
  | zero =>
    intro copied _ h1 h2 _
    unfold Kernel.axfs_copy_block_data_chunks
    refine ⟨fun c hc => absurd hc (List.not_mem_nil c), ?_⟩
    simp only [List.map_nil, List.sum_nil]
    omega
  | succ f ih =>
    intro copied h0 h1 h2 h3
    unfold Kernel.axfs_copy_block_data_chunks
    by_cases hc : copied < len
    · rw [if_pos hc, if_neg (by omega)]
      simp only
      have hmod : (boffset + copied) % U64 = boffset + copied := Nat.mod_eq_of_lt (by omega)
      have hb : (boffset + copied) % m.s_blocksize = 0 := by omega
      have hdm := Nat.div_add_mod (boffset + copied) m.s_blocksize
      generalize hbytes : (if len - copied < m.s_blocksize then len - copied
        else m.s_blocksize) = bytes
      have hb' : copied + bytes ≤ len ∧ bytes ≤ m.s_blocksize ∧ 0 < bytes ∧
          (copied + bytes = len ∨ bytes = m.s_blocksize) := by
        rw [← hbytes]
        split <;> omega
      obtain ⟨hb1, hb2, hb3, hb4⟩ := hb'
      have hq : (boffset + copied) / m.s_blocksize * m.s_blocksize = boffset + copied := by
        rw [Nat.mul_comm]; omega
      rw [hmod, Nat.mod_eq_of_lt (by omega : copied + bytes < U64)]
      have hn : copied + bytes = len ∨ (boffset + (copied + bytes)) % m.s_blocksize = 0 := by
        rcases hb4 with h | h
        · exact Or.inl h
        · refine Or.inr ?_
          rw [h, ← Nat.add_assoc, Nat.add_mod_right]
          exact hb
      obtain ⟨ih1, ih2⟩ := ih (copied + bytes) (by omega) hb1 (by omega) hn
      constructor
      · intro c hc
        rcases List.mem_cons.mp hc with h | h
        · subst h
          exact ⟨rfl, hq, Nat.le_refl _, hb3, hb2, hb1⟩
        · obtain ⟨a, b, c1, d, e, g⟩ := ih1 c h
          exact ⟨a, b, by omega, d, e, g⟩
      · rw [List.map_cons, List.sum_cons, ih2]
        simp only
        omega
    · rw [if_neg hc]
      refine ⟨fun c hc => absurd hc (List.not_mem_nil c), ?_⟩
      simp only [List.map_nil, List.sum_nil]
      omega

/-- The passes of `axfs_copy_block_data` for a request of at least one byte: the first reads
`min len (B - boffset % B)` bytes inside block `boffset / B`, the later ones are as
`copy_block_data_chunks_later` says. -/
theorem copy_block_data_chunks_spec (m : Kernel.Media) (boffset len : Nat)
    (hB : 0 < m.s_blocksize) (hU : boffset + len < U64) (hlen : 0 < len) :
    ∃ rest, Kernel.axfs_copy_block_data_chunks m boffset len len 0 =
        ⟨boffset / m.s_blocksize, boffset % m.s_blocksize, 0,
          min len (m.s_blocksize - boffset % m.s_blocksize)⟩ :: rest ∧
      (∀ c ∈ rest, c.src = 0 ∧ c.block * m.s_blocksize = boffset + c.dst ∧ 0 < c.bytes ∧
        c.bytes ≤ m.s_blocksize ∧ c.dst + c.bytes ≤ len) ∧
      min len (m.s_blocksize - boffset % m.s_blocksize) +
        (rest.map Kernel.block_chunk.bytes).sum = len := by
  obtain ⟨n, rfl⟩ : ∃ n, len = n + 1 := ⟨len - 1, by omega⟩
  have hml := Nat.mod_lt boffset hB
  have hdm := Nat.div_add_mod boffset m.s_blocksize
  have hbytes : (if m.s_blocksize - boffset % m.s_blocksize > n + 1 then n + 1
      else m.s_blocksize - boffset % m.s_blocksize) =
        min (n + 1) (m.s_blocksize - boffset % m.s_blocksize) := by
    split <;> omega
  generalize hby : min (n + 1) (m.s_blocksize - boffset % m.s_blocksize) = bytes at hbytes ⊢
  have hb : bytes ≤ n + 1 ∧ 0 < bytes ∧
      (bytes = n + 1 ∨ bytes = m.s_blocksize - boffset % m.s_blocksize) := by
    omega
  obtain ⟨hb1, hb3, hb4⟩ := hb
  have hn : bytes = n + 1 ∨ (boffset + bytes) % m.s_blocksize = 0 := by
    rcases hb4 with h | h
    · exact Or.inl h
    · refine Or.inr ?_
      have he : boffset + bytes = m.s_blocksize * (boffset / m.s_blocksize + 1) := by
        rw [Nat.mul_add, Nat.mul_one]
        omega
      rw [he, Nat.mul_mod_right]
  obtain ⟨l1, l2⟩ := copy_block_data_chunks_later m boffset (n + 1) hB hU n bytes hb3 hb1
    (by omega) hn
  refine ⟨Kernel.axfs_copy_block_data_chunks m boffset (n + 1) n bytes, ?_, ?_, ?_⟩
  · rw [Kernel.axfs_copy_block_data_chunks]
    rw [if_pos (by omega), if_pos rfl]
    simp only [hbytes, Nat.add_zero, Nat.zero_add]
    rw [Nat.mod_eq_of_lt (by omega : boffset < U64), Nat.mod_eq_of_lt (by omega : bytes < U64)]
  · intro c hc
    obtain ⟨a, b, _, d, e, g⟩ := l1 c hc
    exact ⟨a, b, d, e, g⟩
  · rw [l2]
    omega

/-- C28: with a block size `B > 0`, a device that holds the bytes `[boffset, boffset + len)`
and a destination of at least `len` bytes, `axfs_copy_block_data` returns with `dst[0 .. len)`
equal to the device bytes `[boffset, boffset + len)` and the rest of `dst` as it was (all of
`dst` for `len = 0`, where the loop makes no pass); for `len > 0` the first pass copies
`min len (B - boffset % B)` bytes from offset `boffset % B` of block `boffset / B`, every
later pass reads from the start of the block at the device offset of its destination, stays
inside `dst[0 .. len)`, and the passes add up to `len` bytes. -/
theorem copy_block_data_copies_device_bytes (m : Kernel.Media) (dst : List Byte)
    (boffset len : Nat) (hB : 0 < m.s_blocksize) (hdev : boffset + len ≤ m.blockdev.length)
    (hU : boffset + len < U64) (hdst : len ≤ dst.length) :
    Kernel.axfs_copy_block_data m dst boffset len =
      .ok ((m.blockdev.drop boffset).take len ++ dst.drop len) ∧
    (len = 0 → Kernel.axfs_copy_block_data m dst boffset len = .ok dst ∧
      Kernel.axfs_copy_block_data_chunks m boffset len len 0 = []) ∧
    (0 < len → ∃ rest, Kernel.axfs_copy_block_data_chunks m boffset len len 0 =
        ⟨boffset / m.s_blocksize, boffset % m.s_blocksize, 0,
          min len (m.s_blocksize - boffset % m.s_blocksize)⟩ :: rest ∧
      (∀ c ∈ rest, c.src = 0 ∧ c.block * m.s_blocksize = boffset + c.dst ∧ 0 < c.bytes ∧
        c.bytes ≤ m.s_blocksize ∧ c.dst + c.bytes ≤ len) ∧
      min len (m.s_blocksize - boffset % m.s_blocksize) +
        (rest.map Kernel.block_chunk.bytes).sum = len) := by
  refine ⟨?_, ?_, copy_block_data_chunks_spec m boffset len hB hU⟩
  · unfold Kernel.axfs_copy_block_data
    by_cases h0 : len = 0
    · subst h0
      rw [if_pos rfl, List.take_zero, List.nil_append, List.drop_zero]
    · rw [if_neg h0]
      have h := copy_block_data_loop_spec m dst boffset len hB hdev hU hdst len 0
        (Nat.zero_le _) (by omega) (Or.inl rfl)
      rw [List.take_zero, List.nil_append, List.drop_zero] at h
      exact h
  · intro h0
    subst h0
    exact ⟨rfl, rfl⟩

theorem copy_block_data_copies_device_bytes_witness :
    (0 < Kernel.tenByteDevice.s_blocksize ∧ 3 + 6 ≤ Kernel.tenByteDevice.blockdev.length ∧
      3 + 6 < U64 ∧ 6 ≤ (List.replicate 8 (0 : Byte)).length) ∧
    Kernel.axfs_copy_block_data Kernel.tenByteDevice (List.replicate 8 0) 3 6 =
      .ok [13, 14, 15, 16, 17, 18, 0, 0] :=
  ⟨by decide,
    (copy_block_data_copies_device_bytes Kernel.tenByteDevice (List.replicate 8 0) 3 6
      (by decide) (by decide) (by decide) (by decide)).1⟩

/-! ## `axfs_copy_data`: the part below `mmap_size` and the part on the block device -/

/-- With the bytes on the device and room in the destination, `axfs_copy_block_data` puts
the device bytes `[boffset, boffset + len)` in front of the rest of the destination. -/
theorem copy_block_data_spec (m : Kernel.Media) (dst : List Byte) (boffset len : Nat)
    (hB : 0 < m.s_blocksize) (hdev : boffset + len ≤ m.blockdev.length)
    (hU : boffset + len < U64) (hdst : len ≤ dst.length) :
    Kernel.axfs_copy_block_data m dst boffset len =
      .ok ((m.blockdev.drop boffset).take len ++ dst.drop len) := by
  unfold Kernel.axfs_copy_block_data
  by_cases h0 : len = 0
  · subst h0
    rw [if_pos rfl, List.take_zero, List.nil_append, List.drop_zero]
  · rw [if_neg h0]
    have h := copy_block_data_loop_spec m dst boffset len hB hdev hU hdst len 0
      (Nat.zero_le _) (by omega) (Or.inl rfl)
    rw [List.take_zero, List.nil_append, List.drop_zero] at h
    exact h

/-- The number of bytes `axfs_copy_data` takes from `virt_addr`: those of the request that
lie below `mmap_size`. -/
theorem copy_data_mmapped_value (sbi : Kernel.axfs_super_incore) (va : List Byte)
    (region : Kernel.axfs_region_desc_incore) (offset len : Nat)
    (hva : region.virt_addr = some va) (hlen : 0 < len)
    (hU : region.fsoffset + offset + len < U64) (hM : sbi.mmap_size < U64) :
    Kernel.axfs_copy_data_mmapped sbi region offset len =
      if region.fsoffset + offset + len ≤ sbi.mmap_size then len
      else if region.fsoffset + offset < sbi.mmap_size then
        sbi.mmap_size - (region.fsoffset + offset)
      else 0 := by
  unfold Kernel.axfs_copy_data_mmapped
  rw [hva]
  simp only
  rw [Nat.mod_eq_of_lt hU, Nat.mod_eq_of_lt (by omega : region.fsoffset + offset < U64)]
  by_cases h1 : sbi.mmap_size > region.fsoffset + offset + len
  · rw [if_pos h1, if_pos (by omega)]
  · rw [if_neg h1]
    by_cases h2 : sbi.mmap_size > region.fsoffset + offset
    · rw [if_pos h2]
      have h3 : sbi.mmap_size + U64 - (region.fsoffset + offset) =
          U64 + (sbi.mmap_size - (region.fsoffset + offset)) := by omega
      rw [h3, Nat.add_mod_left, Nat.mod_eq_of_lt (by omega)]
      by_cases h4 : region.fsoffset + offset + len ≤ sbi.mmap_size
      · rw [if_pos h4]; omega
      · rw [if_neg h4, if_pos (by omega)]
    · rw [if_neg h2, if_neg (by omega), if_neg (by omega)]

/-- The block offset `axfs_copy_data` computes is the exact one where bytes are left for the
block device: the wrap of `AXFS_FSOFFSET_2_BLOCKOFFSET` cancels in the sum. -/
theorem copy_data_boffset_value (sbi : Kernel.axfs_super_incore) (fsoffset k : Nat)
    (hU : fsoffset + k < U64) (hM : sbi.mmap_size < U64)
    (hk : ¬ (sbi.phys_start_addr = 0 ∧ sbi.virt_start_addr = 0) → sbi.mmap_size ≤ fsoffset + k) :
    (Kernel.AXFS_FSOFFSET_2_BLOCKOFFSET sbi fsoffset + k) % U64 =
      if sbi.phys_start_addr = 0 ∧ sbi.virt_start_addr = 0 then fsoffset + k
      else fsoffset + k - sbi.mmap_size := by
  unfold Kernel.AXFS_FSOFFSET_2_BLOCKOFFSET
  by_cases ha : sbi.phys_start_addr = 0 ∧ sbi.virt_start_addr = 0
  · rw [if_pos ha, if_pos ha, Nat.mod_eq_of_lt hU]
  · rw [if_neg ha, if_neg ha, Nat.mod_eq_of_lt hM]
    have := hk ha
    by_cases hlt : fsoffset < sbi.mmap_size
    · have e1 : (fsoffset + U64 - sbi.mmap_size) % U64 = fsoffset + U64 - sbi.mmap_size :=
        Nat.mod_eq_of_lt (by omega)
      have h3 : fsoffset + U64 - sbi.mmap_size + k = U64 + (fsoffset + k - sbi.mmap_size) := by
        omega
      rw [e1, h3, Nat.add_mod_left, Nat.mod_eq_of_lt (by omega)]
    · have h3 : fsoffset + U64 - sbi.mmap_size = U64 + (fsoffset - sbi.mmap_size) := by omega
      have e1 : (fsoffset + U64 - sbi.mmap_size) % U64 = fsoffset - sbi.mmap_size := by
        rw [h3, Nat.add_mod_left, Nat.mod_eq_of_lt (by omega)]
      rw [e1, Nat.mod_eq_of_lt (by omega)]
      omega

/-- The result of `axfs_copy_data` for a region with a `virt_addr`: `mm` bytes from
`virt_addr + offset`, the other `len - mm` from the block device at `boff`. -/
theorem copy_data_spec (m : Kernel.Media) (sbi : Kernel.axfs_super_incore)
    (dst va : List Byte) (region : Kernel.axfs_region_desc_incore) (offset len mm boff : Nat)
    (hva : region.virt_addr = some va) (hlen : 0 < len)
    (hmm : Kernel.axfs_copy_data_mmapped sbi region offset len = mm) (hle : mm ≤ len)
    (hboff : mm < len →
      (Kernel.AXFS_FSOFFSET_2_BLOCKOFFSET sbi region.fsoffset + offset + mm) % U64 = boff)
    (hsrc : offset + mm ≤ va.length) (hdst : len ≤ dst.length) (hB : 0 < m.s_blocksize)
    (hdev : mm < len → boff + (len - mm) ≤ m.blockdev.length ∧ boff + (len - mm) < U64)
    (hl : len < U64) :
    Kernel.axfs_copy_data m sbi dst region offset len =
      .ok ((va.drop offset).take mm ++ ((m.blockdev.drop boff).take (len - mm) ++
        dst.drop len)) := by
  have hrem : (len + U64 - mm) % U64 = len - mm := by
    have h3 : len + U64 - mm = U64 + (len - mm) := by omega
    rw [h3, Nat.add_mod_left, Nat.mod_eq_of_lt (by omega)]
  have hP : ((va.drop offset).take mm).length = mm := by
    rw [List.length_take, List.length_drop]; omega
  have h1 : (if mm ≠ 0 then memcpy dst 0 (region.virt_addr.getD []) offset mm else .ok dst) =
      .ok ((va.drop offset).take mm ++ dst.drop mm) := by
    by_cases h0 : mm = 0
    · subst h0
      simp
    · rw [if_pos h0, hva, Option.getD_some, memcpy_ok _ _ _ _ _ hsrc (by omega)]
      simp
  unfold Kernel.axfs_copy_data
  rw [if_neg (by omega), hmm, h1]
  simp only
  rw [hrem, List.take_left' hP]
  have h2 := drop_append_length ((va.drop offset).take mm) (dst.drop mm) mm 0 hP
  rw [Nat.add_zero, List.drop_zero] at h2
  rw [h2]
  by_cases hlt : mm < len
  · rw [hboff hlt, copy_block_data_spec m (dst.drop mm) boff (len - mm) hB (hdev hlt).1
      (hdev hlt).2 (by rw [List.length_drop]; omega)]
    simp only
    rw [List.drop_drop]
    congr 4
    omega
  · have he : mm = len := by omega
    subst he
    rw [Nat.sub_self]
    unfold Kernel.axfs_copy_block_data
    rw [if_pos rfl]
    simp

/-- C29: for a region with a `virt_addr`, a request of `len > 0` bytes at `offset` that does
not wrap a `u64`, `mm` the number of requested bytes below `mmap_size` and `boff` the block
offset `fsoffset + offset + mm - mmap_size` (`fsoffset + offset + mm` without a start
address): `axfs_copy_data` computes `mmapped = mm`; where bytes are left for the device it
computes the block offset `boff` exactly, which with a start address is not negative and is
0 for a request that straddles `mmap_size`; and with `virt_addr` holding the `mm` bytes and
the device the others, the destination gets the `mm` bytes at `virt_addr + offset` followed
by the `len - mm` device bytes at `boff`, the rest of it unchanged. -/
theorem copy_data_splits_at_mmap_size (m : Kernel.Media) (sbi : Kernel.axfs_super_incore)
    (dst va : List Byte) (region : Kernel.axfs_region_desc_incore) (offset len mm boff : Nat)
    (hva : region.virt_addr = some va) (hlen : 0 < len)
    (hU : region.fsoffset + offset + len < U64) (hM : sbi.mmap_size < U64)
    (hmm : mm = if region.fsoffset + offset + len ≤ sbi.mmap_size then len
      else if region.fsoffset + offset < sbi.mmap_size then
        sbi.mmap_size - (region.fsoffset + offset)
      else 0)
    (hboff : boff = if sbi.phys_start_addr = 0 ∧ sbi.virt_start_addr = 0 then
        region.fsoffset + offset + mm
      else region.fsoffset + offset + mm - sbi.mmap_size)
    (hsrc : offset + mm ≤ va.length) (hdst : len ≤ dst.length) (hB : 0 < m.s_blocksize)
    (hdev : mm < len → boff + (len - mm) ≤ m.blockdev.length) :
    Kernel.axfs_copy_data_mmapped sbi region offset len = mm ∧
    (mm < len →
      (Kernel.AXFS_FSOFFSET_2_BLOCKOFFSET sbi region.fsoffset + offset + mm) % U64 = boff ∧
      (¬ (sbi.phys_start_addr = 0 ∧ sbi.virt_start_addr = 0) →
        sbi.mmap_size ≤ region.fsoffset + offset + mm ∧ (0 < mm → boff = 0))) ∧
    Kernel.axfs_copy_data m sbi dst region offset len =
      .ok ((va.drop offset).take mm ++ ((m.blockdev.drop boff).take (len - mm) ++
        dst.drop len)) := by
  have h1 := copy_data_mmapped_value sbi va region offset len hva hlen hU hM
  rw [← hmm] at h1
  have hle : mm ≤ len := by
    rw [hmm]; split
    · exact Nat.le_refl _
    · split <;> omega
  have hge : mm < len → sbi.mmap_size ≤ region.fsoffset + offset + mm ∧
      (0 < mm → region.fsoffset + offset + mm = sbi.mmap_size) := by
    intro hlt
    rw [hmm] at hlt ⊢
    split at hlt
    · omega
    · rename_i h2
      rw [if_neg h2]
      split <;> omega
  have h2 : mm < len →
      (Kernel.AXFS_FSOFFSET_2_BLOCKOFFSET sbi region.fsoffset + offset + mm) % U64 = boff := by
    intro hlt
    rw [Nat.add_assoc, copy_data_boffset_value sbi region.fsoffset (offset + mm) (by omega) hM
      (fun _ => by have := (hge hlt).1; omega), hboff, Nat.add_assoc]
  refine ⟨h1, fun hlt => ⟨h2 hlt, fun ha => ⟨(hge hlt).1, fun h0 => ?_⟩⟩, ?_⟩
  · rw [hboff, if_neg ha, (hge hlt).2 h0, Nat.sub_self]
  · refine copy_data_spec m sbi dst va region offset len mm boff hva hlen h1 hle h2 hsrc hdst hB
      (fun hlt => ⟨hdev hlt, ?_⟩) (by omega)
    have := hdev hlt
    rw [hboff]
    split <;> omega

theorem copy_data_splits_at_mmap_size_witness :
    (Kernel.straddlingRegion.virt_addr = some [1, 2, 3, 4] ∧ 0 < 6 ∧
      Kernel.straddlingRegion.fsoffset + 2 + 6 < U64 ∧ Kernel.windowSbi.mmap_size < U64 ∧
      (2 = if Kernel.straddlingRegion.fsoffset + 2 + 6 ≤ Kernel.windowSbi.mmap_size then 6
        else if Kernel.straddlingRegion.fsoffset + 2 < Kernel.windowSbi.mmap_size then
          Kernel.windowSbi.mmap_size - (Kernel.straddlingRegion.fsoffset + 2)
        else 0) ∧
      (0 = if Kernel.windowSbi.phys_start_addr = 0 ∧ Kernel.windowSbi.virt_start_addr = 0 then
          Kernel.straddlingRegion.fsoffset + 2 + 2
        else Kernel.straddlingRegion.fsoffset + 2 + 2 - Kernel.windowSbi.mmap_size)) ∧
    Kernel.axfs_copy_data Kernel.tenByteDevice Kernel.windowSbi (List.replicate 8 0)
      Kernel.straddlingRegion 2 6 = .ok [3, 4, 10, 11, 12, 13, 0, 0] :=
  ⟨by decide,
    (copy_data_splits_at_mmap_size Kernel.tenByteDevice Kernel.windowSbi (List.replicate 8 0)
      [1, 2, 3, 4] Kernel.straddlingRegion 2 6 2 0 rfl (by decide) (by decide) (by decide)
      (by decide) (by decide) (by decide) (by decide) (by decide) (by decide)).2.2⟩

/-! ## `axfs_fetch_data`: one address space over the window and the block device -/

/-- Inside the window `axfs_fetch_mmapable_data` returns the window bytes. -/
theorem fetch_mmapable_spec (m : Kernel.Media) (sbi : Kernel.axfs_super_incore)
    (fsoffset len : Nat) (hw : fsoffset + len ≤ m.window.length) :
    Kernel.axfs_fetch_mmapable_data m sbi fsoffset len =
      .ok ((m.window.drop fsoffset).take len) := by
  unfold Kernel.axfs_fetch_mmapable_data
  split
  · rw [memcpy_ok _ _ _ _ _ (by
      rw [List.length_take, List.length_drop]; omega) (by rw [List.length_replicate]; omega)]
    simp
  · rw [memcpy_ok _ _ _ _ _ hw (by rw [List.length_replicate]; omega)]
    simp

/-- On the device `axfs_fetch_block_data` returns the device bytes. -/
theorem fetch_block_spec (m : Kernel.Media) (boffset len : Nat) (hB : 0 < m.s_blocksize)
    (hdev : boffset + len ≤ m.blockdev.length) (hU : boffset + len < U64) :
    Kernel.axfs_fetch_block_data m boffset len = .ok ((m.blockdev.drop boffset).take len) := by
  unfold Kernel.axfs_fetch_block_data
  rw [copy_block_data_spec m _ boffset len hB hdev hU (by rw [List.length_replicate])]
  simp

/-- The value of `AXFS_IS_OFFSET_MMAPABLE`. -/
theorem is_offset_mmapable_iff (sbi : Kernel.axfs_super_incore) (offset : Nat) :
    Kernel.AXFS_IS_OFFSET_MMAPABLE sbi offset = true ↔
      offset ≤ sbi.mmap_size ∧ (0 < sbi.phys_start_addr ∨ 0 < sbi.virt_start_addr) := by
  unfold Kernel.AXFS_IS_OFFSET_MMAPABLE Kernel.AXFS_IS_MMAPABLE Kernel.AXFS_PHYSADDR_IS_VALID
    Kernel.AXFS_VIRTADDR_IS_VALID
  simp only [Bool.and_eq_true, Bool.or_eq_true, decide_eq_true_eq, gt_iff_lt, ge_iff_le]

/-- A request that ends inside the window is served from the window. -/
theorem fetch_data_inside (m : Kernel.Media) (sbi : Kernel.axfs_super_incore)
    (fsoffset len : Nat) (hU : fsoffset + len < U64)
    (ha : 0 < sbi.phys_start_addr ∨ 0 < sbi.virt_start_addr)
    (hw : sbi.mmap_size ≤ m.window.length) (hin : fsoffset + len ≤ sbi.mmap_size) :
    Kernel.axfs_fetch_data m sbi fsoffset len = .ok ((m.window.drop fsoffset).take len) := by
  unfold Kernel.axfs_fetch_data
  simp only
  rw [Nat.mod_eq_of_lt hU, if_pos ((is_offset_mmapable_iff sbi fsoffset).2 ⟨by omega, ha⟩),
    if_pos ((is_offset_mmapable_iff sbi _).2 ⟨hin, ha⟩)]
  exact fetch_mmapable_spec m sbi fsoffset len (by omega)

/-- A request that starts in the window and ends behind it is the window bytes up to
`mmap_size` followed by the first bytes of the device. -/
theorem fetch_data_straddle (m : Kernel.Media) (sbi : Kernel.axfs_super_incore)
    (fsoffset len : Nat) (hB : 0 < m.s_blocksize) (hU : fsoffset + len < U64)
    (ha : 0 < sbi.phys_start_addr ∨ 0 < sbi.virt_start_addr)
    (hw : sbi.mmap_size ≤ m.window.length) (h1 : fsoffset ≤ sbi.mmap_size)
    (h2 : sbi.mmap_size < fsoffset + len)
    (hdev : fsoffset + len - sbi.mmap_size ≤ m.blockdev.length) :
    Kernel.axfs_fetch_data m sbi fsoffset len =
      .ok ((m.window.drop fsoffset).take (sbi.mmap_size - fsoffset) ++
        m.blockdev.take (fsoffset + len - sbi.mmap_size)) := by
  have hl1 : (sbi.mmap_size + U64 - fsoffset) % U64 = sbi.mmap_size - fsoffset := by
    have h3 : sbi.mmap_size + U64 - fsoffset = U64 + (sbi.mmap_size - fsoffset) := by omega
    rw [h3, Nat.add_mod_left, Nat.mod_eq_of_lt (by omega)]
  have hl2 : (fsoffset + len + U64 - sbi.mmap_size) % U64 = fsoffset + len - sbi.mmap_size := by
    have h3 : fsoffset + len + U64 - sbi.mmap_size = U64 + (fsoffset + len - sbi.mmap_size) := by
      omega
    rw [h3, Nat.add_mod_left, Nat.mod_eq_of_lt (by omega)]
  have hA : ((m.window.drop fsoffset).take (sbi.mmap_size - fsoffset)).length =
      sbi.mmap_size - fsoffset := by
    rw [List.length_take, List.length_drop]; omega
  have hD : (m.blockdev.take (fsoffset + len - sbi.mmap_size)).length =
      fsoffset + len - sbi.mmap_size := by
    rw [List.length_take]; omega
  unfold Kernel.axfs_fetch_data
  simp only
  rw [Nat.mod_eq_of_lt hU, if_pos ((is_offset_mmapable_iff sbi fsoffset).2 ⟨h1, ha⟩),
    if_neg (fun h => by have := ((is_offset_mmapable_iff sbi _).1 h).1; omega), hl1, hl2,
    fetch_mmapable_spec m sbi fsoffset _ (by omega),
    fetch_block_spec m 0 _ hB (by omega) (by omega)]
  simp only [bind, Except.bind, List.drop_zero]
  rw [memcpy_ok _ _ _ _ _ (by omega) (by rw [List.length_replicate]; omega)]
  simp only
  rw [memcpy_ok _ _ _ _ _ (by omega) (by
    simp only [List.length_append, List.length_take, List.length_drop, List.length_replicate]
    omega)]
  simp only [List.take_zero, List.nil_append, List.drop_zero, Nat.zero_add]
  rw [List.take_of_length_le (by omega : ((m.window.drop fsoffset).take
      (sbi.mmap_size - fsoffset)).length ≤ sbi.mmap_size - fsoffset),
    List.take_of_length_le (by omega : (m.blockdev.take
      (fsoffset + len - sbi.mmap_size)).length ≤ fsoffset + len - sbi.mmap_size)]
  have hz : ∀ n, len ≤ n → List.drop n (List.replicate len (0 : Byte)) = [] :=
    fun n hn => List.drop_of_length_le (by rw [List.length_replicate]; exact hn)
  rw [List.take_left' hA, drop_append_length _ _ _ _ hA, List.drop_drop,
    hz _ (by omega), List.append_nil]

/-- A request behind the window is served from the device at `fsoffset - mmap_size`. -/
theorem fetch_data_beyond (m : Kernel.Media) (sbi : Kernel.axfs_super_incore)
    (fsoffset len : Nat) (hB : 0 < m.s_blocksize) (hU : fsoffset + len < U64)
    (ha : 0 < sbi.phys_start_addr ∨ 0 < sbi.virt_start_addr)
    (h1 : sbi.mmap_size < fsoffset)
    (hdev : fsoffset - sbi.mmap_size + len ≤ m.blockdev.length) :
    Kernel.axfs_fetch_data m sbi fsoffset len =
      .ok ((m.blockdev.drop (fsoffset - sbi.mmap_size)).take len) := by
  have hb : Kernel.AXFS_FSOFFSET_2_BLOCKOFFSET sbi fsoffset = fsoffset - sbi.mmap_size := by
    have h := copy_data_boffset_value sbi fsoffset 0 (by omega) (by omega) (fun _ => by omega)
    rw [Nat.add_zero, if_neg (by omega), Nat.add_zero] at h
    rw [← h]
    refine (Nat.mod_eq_of_lt ?_).symm
    unfold Kernel.AXFS_FSOFFSET_2_BLOCKOFFSET
    split
    · omega
    · exact Nat.mod_lt _ (by unfold U64; decide)
  unfold Kernel.axfs_fetch_data
  simp only
  rw [if_neg (fun h => by have := ((is_offset_mmapable_iff sbi _).1 h).1; omega), hb]
  exact fetch_block_spec m _ len hB hdev (by omega)

/-- Without a start address every request is served from the device at `fsoffset`. -/
theorem fetch_data_no_address (m : Kernel.Media) (sbi : Kernel.axfs_super_incore)
    (fsoffset len : Nat) (hB : 0 < m.s_blocksize) (hU : fsoffset + len < U64)
    (ha : sbi.phys_start_addr = 0 ∧ sbi.virt_start_addr = 0)
    (hdev : fsoffset + len ≤ m.blockdev.length) :
    Kernel.axfs_fetch_data m sbi fsoffset len = .ok ((m.blockdev.drop fsoffset).take len) := by
  unfold Kernel.axfs_fetch_data
  simp only
  rw [if_neg (fun h => by have := ((is_offset_mmapable_iff sbi _).1 h).2; omega)]
  unfold Kernel.AXFS_FSOFFSET_2_BLOCKOFFSET
  rw [if_pos ha]
  exact fetch_block_spec m _ len hB hdev hU

/-- A slice of `A ++ D` that ends inside `A`. -/
theorem slice_append_inside (A D : List Byte) (f len : Nat) (h : f + len ≤ A.length) :
    ((A ++ D).drop f).take len = (A.drop f).take len := by
  have h1 : (A ++ D).drop f = A.drop f ++ D := List.drop_append_of_le_length (by omega)
  have h2 : (A.drop f ++ D).take len = (A.drop f).take len :=
    List.take_append_of_le_length (by rw [List.length_drop]; omega)
  rw [h1, h2]

/-- A slice of `A ++ D` that starts in `A` and ends in `D`. -/
theorem slice_append_straddle (A D : List Byte) (f len : Nat) (h1 : f ≤ A.length)
    (h2 : A.length ≤ f + len) :
    ((A ++ D).drop f).take len = A.drop f ++ D.take (f + len - A.length) := by
  have e1 : (A ++ D).drop f = A.drop f ++ D := List.drop_append_of_le_length h1
  have e2 : (A.drop f ++ D).take len =
      (A.drop f).take len ++ D.take (len - (A.drop f).length) :=
    List.take_append_eq_append_take
  have e3 : (A.drop f).take len = A.drop f :=
    List.take_of_length_le (by rw [List.length_drop]; omega)
  have e4 : len - (A.drop f).length = f + len - A.length := by
    rw [List.length_drop]; omega
  rw [e1, e2, e3, e4]

/-- A slice of `A ++ D` that starts behind `A`. -/
theorem slice_append_beyond (A D : List Byte) (f : Nat) (h1 : A.length ≤ f) :
    (A ++ D).drop f = D.drop (f - A.length) := by
  have e1 : (A ++ D).drop f = A.drop f ++ D.drop (f - A.length) :=
    List.drop_append_eq_append_drop
  have e2 : A.drop f = [] := List.drop_of_length_le h1
  rw [e1, e2, List.nil_append]

/-- C25: with `space` the window up to `mmap_size` followed by the block device (the device
alone where no start address is set), a request inside `space` that does not wrap a `u64`
returns the bytes `[fsoffset, fsoffset + len)` of `space`: the window bytes where it ends
inside the window, the window bytes `[fsoffset, mmap_size)` followed by the device bytes
`[0, fsoffset + len - mmap_size)` where it straddles `mmap_size`, the device bytes at
`fsoffset - mmap_size` where it starts behind the window, and the device bytes at `fsoffset`
where no start address is set. -/
theorem fetch_data_unified_address_space (m : Kernel.Media) (sbi : Kernel.axfs_super_incore)
    (fsoffset len : Nat) (space : List Byte)
    (hspace : space = if 0 < sbi.phys_start_addr ∨ 0 < sbi.virt_start_addr then
      m.window.take sbi.mmap_size ++ m.blockdev else m.blockdev)
    (hB : 0 < m.s_blocksize) (hU : fsoffset + len < U64)
    (hw : 0 < sbi.phys_start_addr ∨ 0 < sbi.virt_start_addr → sbi.mmap_size ≤ m.window.length)
    (hreq : fsoffset + len ≤ space.length) :
    Kernel.axfs_fetch_data m sbi fsoffset len = .ok ((space.drop fsoffset).take len) ∧
    (0 < sbi.phys_start_addr ∨ 0 < sbi.virt_start_addr → fsoffset + len ≤ sbi.mmap_size →
      Kernel.axfs_fetch_data m sbi fsoffset len = .ok ((m.window.drop fsoffset).take len)) ∧
    (0 < sbi.phys_start_addr ∨ 0 < sbi.virt_start_addr → fsoffset ≤ sbi.mmap_size →
      sbi.mmap_size < fsoffset + len →
      Kernel.axfs_fetch_data m sbi fsoffset len =
        .ok ((m.window.drop fsoffset).take (sbi.mmap_size - fsoffset) ++
          m.blockdev.take (fsoffset + len - sbi.mmap_size))) ∧
    (0 < sbi.phys_start_addr ∨ 0 < sbi.virt_start_addr → sbi.mmap_size < fsoffset →
      Kernel.axfs_fetch_data m sbi fsoffset len =
        .ok ((m.blockdev.drop (fsoffset - sbi.mmap_size)).take len)) ∧
    (sbi.phys_start_addr = 0 ∧ sbi.virt_start_addr = 0 →
      Kernel.axfs_fetch_data m sbi fsoffset len = .ok ((m.blockdev.drop fsoffset).take len)) := by
  by_cases ha : 0 < sbi.phys_start_addr ∨ 0 < sbi.virt_start_addr
  · rw [if_pos ha] at hspace
    have hw := hw ha
    have hA : (m.window.take sbi.mmap_size).length = sbi.mmap_size := by
      rw [List.length_take]; omega
    have hlen : space.length = sbi.mmap_size + m.blockdev.length := by
      rw [hspace, List.length_append, hA]
    have c1 : fsoffset + len ≤ sbi.mmap_size →
        Kernel.axfs_fetch_data m sbi fsoffset len = .ok ((m.window.drop fsoffset).take len) :=
      fetch_data_inside m sbi fsoffset len hU ha hw
    have c2 : fsoffset ≤ sbi.mmap_size → sbi.mmap_size < fsoffset + len →
        Kernel.axfs_fetch_data m sbi fsoffset len =
          .ok ((m.window.drop fsoffset).take (sbi.mmap_size - fsoffset) ++
            m.blockdev.take (fsoffset + len - sbi.mmap_size)) :=
      fun h1 h2 => fetch_data_straddle m sbi fsoffset len hB hU ha hw h1 h2 (by omega)
    have c3 : sbi.mmap_size < fsoffset →
        Kernel.axfs_fetch_data m sbi fsoffset len =
          .ok ((m.blockdev.drop (fsoffset - sbi.mmap_size)).take len) :=
      fun h1 => fetch_data_beyond m sbi fsoffset len hB hU ha h1 (by omega)
    refine ⟨?_, fun _ => c1, fun _ => c2, fun _ => c3, fun h => by omega⟩
    by_cases h1 : fsoffset ≤ sbi.mmap_size
    · have hdt : (m.window.take sbi.mmap_size).drop fsoffset =
          (m.window.drop fsoffset).take (sbi.mmap_size - fsoffset) := List.drop_take _ _ _
      by_cases h2 : fsoffset + len ≤ sbi.mmap_size
      · rw [c1 h2, hspace, slice_append_inside _ _ _ _ (by omega), hdt, List.take_take,
          Nat.min_eq_left (by omega)]
      · rw [c2 h1 (by omega), hspace, slice_append_straddle _ _ _ _ (by omega) (by omega), hdt,
          hA]
    · rw [c3 (by omega), hspace, slice_append_beyond _ _ _ (by omega), hA]
  · have ha0 : sbi.phys_start_addr = 0 ∧ sbi.virt_start_addr = 0 := by omega
    rw [if_neg ha] at hspace
    subst hspace
    have c4 := fetch_data_no_address m sbi fsoffset len hB hU ha0 hreq
    exact ⟨c4, fun h => absurd h ha, fun h => absurd h ha, fun h => absurd h ha, fun _ => c4⟩

theorem fetch_data_unified_address_space_witness :
    ((List.replicate 8192 (0x57 : Byte) ++ Kernel.tenByteDevice.blockdev =
        if 0 < Kernel.windowSbi.phys_start_addr ∨ 0 < Kernel.windowSbi.virt_start_addr then
          Kernel.windowMedia.window.take Kernel.windowSbi.mmap_size ++
            Kernel.windowMedia.blockdev
        else Kernel.windowMedia.blockdev) ∧
      0 < Kernel.windowMedia.s_blocksize ∧ 8190 + 5 < U64 ∧
      (0 < Kernel.windowSbi.phys_start_addr ∨ 0 < Kernel.windowSbi.virt_start_addr →
        Kernel.windowSbi.mmap_size ≤ Kernel.windowMedia.window.length) ∧
      8190 + 5 ≤ (List.replicate 8192 (0x57 : Byte) ++ Kernel.tenByteDevice.blockdev).length) ∧
    Kernel.axfs_fetch_data Kernel.windowMedia Kernel.windowSbi 8190 5 =
      .ok [0x57, 0x57, 10, 11, 12] := by
  have hs : (List.replicate 8192 (0x57 : Byte) ++ Kernel.tenByteDevice.blockdev =
      if 0 < Kernel.windowSbi.phys_start_addr ∨ 0 < Kernel.windowSbi.virt_start_addr then
        Kernel.windowMedia.window.take Kernel.windowSbi.mmap_size ++
          Kernel.windowMedia.blockdev
      else Kernel.windowMedia.blockdev) := by
    rw [if_pos (Or.inl (by decide))]
    exact congrArg (fun l => l ++ Kernel.tenByteDevice.blockdev)
      (List.take_of_length_le (by
        rw [List.length_replicate]; exact Nat.le_refl 8192)).symm
  have hl : (List.replicate 8192 (0x57 : Byte) ++ Kernel.tenByteDevice.blockdev).length
      = 8202 := by
    rw [List.length_append, List.length_replicate]; rfl
  have hwl : Kernel.windowMedia.window.length = 8192 := List.length_replicate _ _
  have h := (fetch_data_unified_address_space Kernel.windowMedia Kernel.windowSbi 8190 5 _ hs
    (by decide) (by decide) (fun _ => by rw [hwl]; exact Nat.le_refl 8192)
    (by rw [hl]; decide)).2.2.1 (Or.inl (by decide)) (by decide) (by decide)
  refine ⟨⟨hs, by decide, by decide, fun _ => by rw [hwl]; exact Nat.le_refl 8192,
    by rw [hl]; decide⟩, ?_⟩
  rw [h]
  have e1 : Kernel.windowSbi.mmap_size - 8190 = 2 := rfl
  have e2 : 8190 + 5 - Kernel.windowSbi.mmap_size = 3 := rfl
  have e3 : Kernel.windowMedia.window = List.replicate 8192 0x57 := rfl
  rw [e1, e2, e3, List.drop_replicate, List.take_replicate]
  rfl

/-! ## The stitch macros and the function form of the byte-table stitch -/

/-- The lanes `fill_lanes` sets and the ones it leaves. -/
theorem fill_lanes_spec (va : List Byte) (split base : Nat) :
    ∀ (n i0 : Nat) (md : List (Option (List Byte))), base + i0 + n ≤ md.length →
      ∃ md2, Kernel.fill_lanes va split base n i0 md = .ok md2 ∧ md2.length = md.length ∧
        ∀ j, md2[j]? = if base + i0 ≤ j ∧ j < base + i0 + n then
          some (some (va.drop ((j - base) * split))) else md[j]? := by
  intro n
  induction n with
  | zero =>
    intro i0 md _
    refine ⟨md, rfl, rfl, fun j => ?_⟩
    rw [if_neg (by omega)]
  | succ n ih =>
    intro i0 md h
    unfold Kernel.fill_lanes
    rw [if_pos (by omega)]
    obtain ⟨md2, h1, h2, h3⟩ := ih (i0 + 1)
      (md.set (base + i0) (some (va.drop (i0 * split)))) (by rw [List.length_set]; omega)
    refine ⟨md2, h1, by rw [h2, List.length_set], fun j => ?_⟩
    rw [h3 j]
    by_cases hj : base + (i0 + 1) ≤ j ∧ j < base + (i0 + 1) + n
    · rw [if_pos hj, if_pos (by omega)]
    · rw [if_neg hj]
      by_cases hj2 : j = base + i0
      · subst hj2
        rw [if_pos (by omega), List.getElem?_set_self (by omega), Nat.add_sub_cancel_left]
      · rw [if_neg (by omega), List.getElem?_set_ne (by omega)]

/-- A sum that stops counting at `d` is the sum up to `d`. -/
theorem sum_range_cut (f : Nat → Nat) (d : Nat) :
    ∀ n, d ≤ n → (∑ k in Finset.range n, if k < d then f k else 0) =
      ∑ k in Finset.range d, f k := by
  intro n hn
  induction n with
  | zero =>
    have : d = 0 := by omega
    subst this
    rfl
  | succ n ih =>
    by_cases hd : d = n + 1
    · subst hd
      exact Finset.sum_congr rfl (fun k hk => by rw [if_pos (Finset.mem_range.mp hk)])
    · rw [Finset.sum_range_succ, ih (by omega), if_neg (by omega), Nat.add_zero]

/-- The summands of a stitch macro over lanes of which the first `d` point into `va`, `M`
bytes apart, and the others are null. -/
theorem stitch_sum_of_lanes (md : List (Option (List Byte))) (va : List Byte)
    (base M d i : Nat) (hi : i < M) (hva : d * M ≤ va.length) :
    ∀ n, (∀ k, k < n → md[base + k]? =
        if k < d then some (some (va.drop (k * M))) else some none) →
      Kernel.stitch_sum md base i n =
        .ok (∑ k in Finset.range n, if k < d then (va.getD (k * M + i) 0).val * 2 ^ (8 * k)
          else 0) := by
  intro n
  induction n with
  | zero => intro _; rfl
  | succ n ih =>
    intro h
    unfold Kernel.stitch_sum
    rw [ih (fun k hk => h k (by omega))]
    simp only
    unfold Kernel.stitch_lane
    rw [h n (by omega), Finset.sum_range_succ]
    by_cases hn : n < d
    · rw [if_pos hn, if_pos hn]
      simp only
      have hlt : n * M + i < va.length := by
        calc n * M + i < n * M + M := by omega
          _ = (n + 1) * M := by ring
          _ ≤ d * M := Nat.mul_le_mul_right _ (by omega)
          _ ≤ va.length := hva
      rw [List.getElem?_drop, List.getElem?_eq_getElem hlt]
      simp only
      rw [List.getD_eq_getElem _ _ hlt]
    · rw [if_neg hn, if_neg hn]

/-- C26: for a table region with `size = depth * max_index`, `1 ≤ depth ≤ 8`, whose lane
pointers `axfs_do_fill_metadata_ptrs` sets in an array of eight null lanes, and an index
`i < max_index`: the lanes are set, `axfs_region::axfs_bytetable_stitch(i)` on the `size`
bytes of the table returns a value, `AXFS_U64_STITCH` over the lanes returns the same value,
and so does `AXFS_U32_STITCH` where `depth ≤ 4`. -/
theorem stitch_macros_agree_with_function (md0 : List (Option (List Byte))) (base : Nat)
    (desc : Kernel.axfs_region_desc_incore) (va : List Byte) (r : axfs_region) (i : Nat)
    (hzero : ∀ k, k < 8 → md0[base + k]? = some none)
    (hva : desc.virt_addr = some va) (hlen : desc.size ≤ va.length)
    (hdata : r.data = va.take desc.size) (hrs : r.size = desc.size)
    (hrm : r.max_index = desc.max_index) (hrd : r.table_byte_depth = desc.table_byte_depth)
    (hd1 : 1 ≤ desc.table_byte_depth) (hd8 : desc.table_byte_depth ≤ 8)
    (hsize : desc.size = desc.table_byte_depth * desc.max_index) (hU : desc.size < U64)
    (hi : i < desc.max_index) :
    ∃ md v, Kernel.axfs_do_fill_metadata_ptrs md0 base desc = .ok md ∧
      r.axfs_bytetable_stitch i = .ok v ∧
      Kernel.AXFS_U64_STITCH md base i = .ok v ∧
      (desc.table_byte_depth ≤ 4 → Kernel.AXFS_U32_STITCH md base i = .ok v) := by
  have hM : 0 < desc.max_index := by omega
  have hs0 : desc.size ≠ 0 := by
    rw [hsize]; exact Nat.mul_ne_zero (by omega) (by omega)
  have hsplit : desc.size / desc.table_byte_depth = desc.max_index := by
    rw [hsize]; exact Nat.mul_div_cancel_left _ (by omega)
  have hml : base + 8 ≤ md0.length := by
    have h7 := hzero 7 (by omega)
    by_contra hc
    rw [List.getElem?_eq_none (by omega)] at h7
    cases h7
  obtain ⟨md, hfill, _, hlanes⟩ := fill_lanes_spec va desc.max_index base
    desc.table_byte_depth 0 md0 (by omega)
  have hmd : ∀ n, n ≤ 8 → ∀ k, k < n → md[base + k]? =
      if k < desc.table_byte_depth then some (some (va.drop (k * desc.max_index)))
      else some none := by
    intro n hn k hk
    rw [hlanes (base + k), Nat.add_sub_cancel_left]
    by_cases hkd : k < desc.table_byte_depth
    · rw [if_pos (by omega), if_pos hkd]
    · rw [if_neg (by omega), if_neg hkd]
      exact hzero k (by omega)
  obtain ⟨hst, hlt, _⟩ := stitch_lane_sum_of_table r i (by omega) (by omega)
    (by rw [hrs, hrd, hrm]; exact hsize)
    (by rw [hdata, List.length_take, hrs]; omega) (by omega) (by omega)
  have hsum : (∑ k in Finset.range desc.table_byte_depth,
      (va.getD (k * desc.max_index + i) 0).val * 2 ^ (8 * k)) =
      ∑ k in Finset.range r.table_byte_depth,
        (r.data.getD (k * r.max_index + i) 0).val * 2 ^ (8 * k) := by
    rw [hrd, hrm, hdata]
    refine Finset.sum_congr rfl (fun k hk => ?_)
    have hk := Finset.mem_range.mp hk
    have hj : k * desc.max_index + i < desc.size := by
      calc k * desc.max_index + i < k * desc.max_index + desc.max_index := by omega
        _ = (k + 1) * desc.max_index := by ring
        _ ≤ desc.table_byte_depth * desc.max_index := Nat.mul_le_mul_right _ (by omega)
        _ = desc.size := hsize.symm
    rw [List.getD_eq_getElem?_getD, List.getD_eq_getElem?_getD, List.getElem?_take_of_lt hj]
  have hss : ∀ n, desc.table_byte_depth ≤ n → n ≤ 8 → Kernel.stitch_sum md base i n =
      .ok (∑ k in Finset.range r.table_byte_depth,
        (r.data.getD (k * r.max_index + i) 0).val * 2 ^ (8 * k)) := by
    intro n hn1 hn2
    rw [stitch_sum_of_lanes md va base desc.max_index desc.table_byte_depth i hi
      (by rw [← hsize]; exact hlen) n (hmd n hn2), sum_range_cut _ _ n hn1, hsum]
  refine ⟨md, _, ?_, hst, ?_, ?_⟩
  · unfold Kernel.axfs_do_fill_metadata_ptrs
    rw [if_pos hs0, if_neg (by omega), hva, hsplit]
    exact hfill
  · unfold Kernel.AXFS_U64_STITCH
    rw [hss 8 hd8 (Nat.le_refl _)]
    simp only
    rw [Nat.mod_eq_of_lt (Nat.lt_of_lt_of_le hlt (by
      unfold U64
      exact Nat.pow_le_pow_right (by omega) (by omega)))]
  · intro h4
    unfold Kernel.AXFS_U32_STITCH
    rw [hss 4 h4 (by omega)]
    simp only
    rw [Nat.mod_eq_of_lt (Nat.lt_of_lt_of_le hlt
      (Nat.pow_le_pow_right (by omega) (by omega)))]

theorem stitch_macros_agree_with_function_witness :
    ((∀ k, k < 8 → (List.replicate 89 (none : Option (List Byte)))[1 + k]? = some none) ∧
      Kernel.twoLaneTable.virt_addr = some [1, 2, 3, 4] ∧
      Kernel.twoLaneTable.size ≤ ([1, 2, 3, 4] : List Byte).length ∧
      1 ≤ Kernel.twoLaneTable.table_byte_depth ∧ Kernel.twoLaneTable.table_byte_depth ≤ 8 ∧
      Kernel.twoLaneTable.size =
        Kernel.twoLaneTable.table_byte_depth * Kernel.twoLaneTable.max_index ∧
      Kernel.twoLaneTable.size < U64 ∧ 1 < Kernel.twoLaneTable.max_index) ∧
    ∃ md v, Kernel.axfs_do_fill_metadata_ptrs (List.replicate 89 none) 1 Kernel.twoLaneTable =
        .ok md ∧
      (axfs_region.mk 0 4 0 2 2 0 [1, 2, 3, 4]).axfs_bytetable_stitch 1 = .ok v ∧
      Kernel.AXFS_U64_STITCH md 1 1 = .ok v ∧
      (Kernel.twoLaneTable.table_byte_depth ≤ 4 → Kernel.AXFS_U32_STITCH md 1 1 = .ok v) :=
  ⟨⟨by decide, rfl, by decide, by decide, by decide, by decide, by decide, by decide⟩,
    stitch_macros_agree_with_function (List.replicate 89 none) 1 Kernel.twoLaneTable
      [1, 2, 3, 4] (axfs_region.mk 0 4 0 2 2 0 [1, 2, 3, 4]) 1 (by decide) rfl (by decide) rfl
      rfl rfl rfl (by decide) (by decide) (by decide) (by decide) (by decide)⟩

/-! ## The one-slot cache of `axfs_readpage`: hit and miss -/

/-- The result of `axfs_copy_data` for any region: `mm` bytes from `virt_addr + offset`, the
other `len - mm` from the block device at `boff`; a region without `virt_addr` has
`mm = 0`. -/
theorem copy_data_region_bytes (m : Kernel.Media) (sbi : Kernel.axfs_super_incore)
    (dst : List Byte) (region : Kernel.axfs_region_desc_incore) (offset len mm boff : Nat)
    (hlen : 0 < len) (hl : len < U64)
    (hmm : Kernel.axfs_copy_data_mmapped sbi region offset len = mm) (hle : mm ≤ len)
    (hboff : (Kernel.AXFS_FSOFFSET_2_BLOCKOFFSET sbi region.fsoffset + offset + mm) % U64 = boff)
    (hsrc : mm ≠ 0 → offset + mm ≤ (region.virt_addr.getD []).length)
    (hdst : len ≤ dst.length) (hB : 0 < m.s_blocksize)
    (hdev : mm < len → boff + (len - mm) ≤ m.blockdev.length ∧ boff + (len - mm) < U64) :
    Kernel.axfs_copy_data m sbi dst region offset len =
      .ok (((region.virt_addr.getD []).drop offset).take mm ++
        ((m.blockdev.drop boff).take (len - mm) ++ dst.drop len)) := by
  have hrem : (len + U64 - mm) % U64 = len - mm := by
    have h3 : len + U64 - mm = U64 + (len - mm) := by omega
    rw [h3, Nat.add_mod_left, Nat.mod_eq_of_lt (by omega)]
  have h1 : (if mm ≠ 0 then memcpy dst 0 (region.virt_addr.getD []) offset mm else .ok dst) =
      .ok (((region.virt_addr.getD []).drop offset).take mm ++ dst.drop mm) := by
    by_cases h0 : mm = 0
    · subst h0
      simp
    · rw [if_pos h0, memcpy_ok _ _ _ _ _ (hsrc h0) (by omega)]
      simp
  have hP : (((region.virt_addr.getD []).drop offset).take mm).length = mm := by
    by_cases h0 : mm = 0
    · subst h0
      simp
    · have := hsrc h0
      rw [List.length_take, List.length_drop]; omega
  unfold Kernel.axfs_copy_data
  rw [if_neg (by omega), hmm, h1]
  simp only
  rw [hrem, List.take_left' hP, hboff]
  have h2 := drop_append_length (((region.virt_addr.getD []).drop offset).take mm)
    (dst.drop mm) mm 0 hP
  rw [Nat.add_zero, List.drop_zero] at h2
  rw [h2]
  by_cases hlt : mm < len
  · rw [copy_block_data_spec m (dst.drop mm) boff (len - mm) hB (hdev hlt).1
      (hdev hlt).2 (by rw [List.length_drop]; omega)]
    simp only
    rw [List.drop_drop]
    congr 4
    omega
  · have he : mm = len := by omega
    subst he
    rw [Nat.sub_self]
    unfold Kernel.axfs_copy_block_data
    rw [if_pos rfl]
    simp

/-- The cache fill of `axfs_readpage` on a hit does nothing, whatever the inflater. -/
theorem readpage_fill_hit (m : Kernel.Media) (z : Kernel.Zlib) (sbi : Kernel.axfs_super_incore)
    (k : Nat) (hk : k = sbi.current_cnode_index) :
    Kernel.axfs_readpage_fill m z sbi k = .ok sbi := by
  unfold Kernel.axfs_readpage_fill
  rw [if_neg (fun h => h hk)]

/-- A whole `axfs_readpage` of a Compressed node that hits the cache: the superblock is
returned as it was and the page receives `len` bytes of the first buffer. -/
theorem readpage_compressed_hit (m : Kernel.Media) (z : Kernel.Zlib)
    (sbi : Kernel.axfs_super_incore) (host : Kernel.inode)
    (index a node_index co k len : Nat) (pgdata b0 : List Byte)
    (hpg : pgdata.length = Kernel.PAGE_CACHE_SIZE)
    (hidx : index < (host.i_size + Kernel.PAGE_CACHE_SIZE - 1) % U64
      / 2 ^ Kernel.PAGE_CACHE_SHIFT)
    (ha : Kernel.AXFS_GET_INODE_ARRAY_INDEX sbi.metadata host.i_ino = .ok a)
    (hni : Kernel.AXFS_GET_NODE_INDEX sbi.metadata ((a + index) % U64) = .ok node_index)
    (ht : Kernel.AXFS_GET_NODE_TYPE sbi.metadata ((a + index) % U64) = .ok Kernel.Compressed)
    (hco : Kernel.AXFS_GET_CNODE_OFFSET sbi.metadata node_index = .ok co)
    (hci : Kernel.AXFS_GET_CNODE_INDEX sbi.metadata node_index = .ok k)
    (hk : k = sbi.current_cnode_index)
    (hb0 : sbi.cblock_buffer0 = some b0)
    (hlen : (if (sbi.cblock_size + 2 ^ 32 - co) % 2 ^ 32 > Kernel.PAGE_CACHE_SIZE then
      Kernel.PAGE_CACHE_SIZE else (sbi.cblock_size + 2 ^ 32 - co) % 2 ^ 32) = len)
    (hsrc : co + len ≤ b0.length) :
    Kernel.axfs_readpage m z sbi host index pgdata
      = .ok (0, sbi, (b0.drop co).take len ++
          List.replicate (Kernel.PAGE_CACHE_SIZE - len) 0) := by
  have hlenle : len ≤ Kernel.PAGE_CACHE_SIZE := by
    rw [← hlen]
    split <;> omega
  have hclen : ((b0.drop co).take len).length = len := by
    rw [List.length_take, List.length_drop]
    omega
  have hnode := readpage_node_dispatch m z sbi host.i_ino index a node_index
    Kernel.Compressed pgdata ha hni ht
  rw [if_pos rfl] at hnode
  rw [readpage_compressed_filled m z sbi sbi node_index co k len pgdata b0 _ hco hci
    (readpage_fill_hit m z sbi k hk) hb0 hlen hsrc (by omega) rfl] at hnode
  rw [readpage_of_node m z sbi _ host index len pgdata _ hidx hnode hlenle
    (by rw [List.length_append, List.length_drop, hclen]; omega)]
  rw [List.take_append_of_le_length (by omega), List.take_of_length_le (by omega)]

/-- C22: `axfs_readpage` on a Compressed node with cnode index `k`, cache buffers `b0` and
`b1`, and a page copy that stays inside `b0`.  Where `k` equals `current_cnode_index` the
superblock, and with it both buffers and the key, is returned as it was, with every
inflater: none is run.  Where it differs, and the cblock is the `clen = next - off` bytes
(`0 < clen < 2^31`) between the offsets `off = cblock_offset[k]` and
`next = cblock_offset[k + 1]`, `axfs_copy_data` puts exactly these `clen` bytes of the
compressed region (`mm` from `virt_addr + off`, the others from the block device) at the
start of `b1`, the inflater is run on them with `avail_in = clen` and what it stores
replaces the start of `b0`, and `current_cnode_index` becomes `k`. -/
theorem readpage_cache_hit_and_miss (m : Kernel.Media) (z : Kernel.Zlib)
    (sbi : Kernel.axfs_super_incore) (host : Kernel.inode)
    (index a node_index co k len off next clen mm boff : Nat)
    (pgdata b0 b1 cbytes B : List Byte)
    (hpg : pgdata.length = Kernel.PAGE_CACHE_SIZE)
    (hidx : index < (host.i_size + Kernel.PAGE_CACHE_SIZE - 1) % U64
      / 2 ^ Kernel.PAGE_CACHE_SHIFT)
    (ha : Kernel.AXFS_GET_INODE_ARRAY_INDEX sbi.metadata host.i_ino = .ok a)
    (hni : Kernel.AXFS_GET_NODE_INDEX sbi.metadata ((a + index) % U64) = .ok node_index)
    (ht : Kernel.AXFS_GET_NODE_TYPE sbi.metadata ((a + index) % U64) = .ok Kernel.Compressed)
    (hco : Kernel.AXFS_GET_CNODE_OFFSET sbi.metadata node_index = .ok co)
    (hci : Kernel.AXFS_GET_CNODE_INDEX sbi.metadata node_index = .ok k)
    (hb0 : sbi.cblock_buffer0 = some b0)
    (hlen : (if (sbi.cblock_size + 2 ^ 32 - co) % 2 ^ 32 > Kernel.PAGE_CACHE_SIZE then
      Kernel.PAGE_CACHE_SIZE else (sbi.cblock_size + 2 ^ 32 - co) % 2 ^ 32) = len)
    (hsrc : co + len ≤ b0.length) :
    (k = sbi.current_cnode_index →
      ∀ z2, Kernel.axfs_readpage m z2 sbi host index pgdata
        = .ok (0, sbi, (b0.drop co).take len ++
            List.replicate (Kernel.PAGE_CACHE_SIZE - len) 0)) ∧
    (k ≠ sbi.current_cnode_index →
      Kernel.AXFS_GET_CBLOCK_OFFSET sbi.metadata k = .ok off →
      Kernel.AXFS_GET_CBLOCK_OFFSET sbi.metadata ((k + 1) % U64) = .ok next →
      off < next → next - off < 2 ^ 31 → clen = next - off →
      sbi.cblock_buffer1 = some b1 → clen ≤ b1.length → 0 < m.s_blocksize →
      Kernel.axfs_copy_data_mmapped sbi sbi.compressed off clen = mm → mm ≤ clen →
      (Kernel.AXFS_FSOFFSET_2_BLOCKOFFSET sbi sbi.compressed.fsoffset + off + mm) % U64
        = boff →
      (mm ≠ 0 → off + mm ≤ (sbi.compressed.virt_addr.getD []).length) →
      (mm < clen → boff + (clen - mm) ≤ m.blockdev.length ∧ boff + (clen - mm) < U64) →
      cbytes = ((sbi.compressed.virt_addr.getD []).drop off).take mm ++
        (m.blockdev.drop boff).take (clen - mm) →
      (z.zlib_inflate (cbytes ++ b1.drop clen) (clen : Int)
        (toInt32 sbi.cblock_size)).1.length ≤ b0.length →
      (z.zlib_inflate (cbytes ++ b1.drop clen) (clen : Int) (toInt32 sbi.cblock_size)).1 ++
        b0.drop (z.zlib_inflate (cbytes ++ b1.drop clen) (clen : Int)
          (toInt32 sbi.cblock_size)).1.length = B →
      cbytes.length = clen ∧
      Kernel.axfs_readpage m z sbi host index pgdata
        = .ok (0, { sbi with
            cblock_buffer0 := some B
            cblock_buffer1 := some (cbytes ++ b1.drop clen)
            current_cnode_index := k },
          (B.drop co).take len ++ List.replicate (Kernel.PAGE_CACHE_SIZE - len) 0)) := by
  refine ⟨fun hk z2 => readpage_compressed_hit m z2 sbi host index a node_index co k len
    pgdata b0 hpg hidx ha hni ht hco hci hk hb0 hlen hsrc, ?_⟩
  intro hk hoff hnext hlt h31 hcl hb1 hb1len hBs hmm hle hboff hcsrc hdev hcb hfit hB
  have hU : next < U64 := U64_STITCH_lt _ _ _ _ hnext
  have he : (next + U64 - off) % U64 % 2 ^ 32 = clen := by
    have h3 : next + U64 - off = U64 + (next - off) := by omega
    have hU64 : 2 ^ 31 < U64 := by unfold U64; decide
    have e1 : (next - off) % U64 = next - off := Nat.mod_eq_of_lt (by omega)
    have e2 : (next - off) % 2 ^ 32 = next - off := Nat.mod_eq_of_lt (by omega)
    rw [h3, Nat.add_mod_left, e1, e2, hcl]
  have hti : toInt32 clen = (clen : Int) := toInt32_small clen (by omega)
  have hcopy : Kernel.axfs_copy_data m sbi b1 sbi.compressed off
      ((next + U64 - off) % U64 % 2 ^ 32) = .ok (cbytes ++ b1.drop clen) := by
    rw [he, copy_data_region_bytes m sbi b1 sbi.compressed off clen mm boff (by omega)
      (by omega) hmm hle hboff hcsrc hb1len hBs hdev, hcb, List.append_assoc]
  have hcl2 : cbytes.length = clen := by
    rw [hcb, List.length_append, List.length_take, List.length_take, List.length_drop,
      List.length_drop]
    by_cases h0 : mm = 0
    · by_cases h1 : mm < clen
      · have := hdev h1; omega
      · omega
    · have := hcsrc h0
      by_cases h1 : mm < clen
      · have := hdev h1; omega
      · omega
  refine ⟨hcl2, ?_⟩
  exact readpage_compressed_miss m z sbi host index a node_index co k off next len pgdata b0 b1
    (cbytes ++ b1.drop clen) B _ hpg hidx ha hni ht hco hci hk hoff hnext hb0 hb1 hcopy
    (by rw [he, hti]; exact hfit) hlen hsrc (by rw [he, hti]; exact hB) rfl

theorem readpage_cache_hit_and_miss_witness :
    Kernel.axfs_readpage (Kernel.Media.mk [] [] 512) Kernel.partialZlib (Kernel.pageSbi 1)
        (Kernel.inode.mk 0 0o100644 0 0 4096 1) 0 (List.replicate 4096 0)
      = .ok (0, Kernel.pageSbiRead ([1, 2, 3, 4] ++ List.replicate 12 0x55),
          (([1, 2, 3, 4] ++ List.replicate 12 0x55 : List Byte).drop 0).take 16 ++
            List.replicate (Kernel.PAGE_CACHE_SIZE - 16) 0) ∧
    ∀ z2, Kernel.axfs_readpage (Kernel.Media.mk [] [] 512) z2
        (Kernel.pageSbiRead ([1, 2, 3, 4] ++ List.replicate 12 0x55))
        (Kernel.inode.mk 0 0o100644 0 0 4096 1) 0 (List.replicate 4096 0)
      = .ok (0, Kernel.pageSbiRead ([1, 2, 3, 4] ++ List.replicate 12 0x55),
          (([1, 2, 3, 4] ++ List.replicate 12 0x55 : List Byte).drop 0).take 16 ++
            List.replicate (Kernel.PAGE_CACHE_SIZE - 16) 0) :=
  ⟨((readpage_cache_hit_and_miss (Kernel.Media.mk [] [] 512) Kernel.partialZlib
      (Kernel.pageSbi 1) (Kernel.inode.mk 0 0o100644 0 0 4096 1) 0 0 0 0 0 16 0 8 8 8
      ((Kernel.AXFS_FSOFFSET_2_BLOCKOFFSET (Kernel.pageSbi 1) 8192 + 0 + 8) % U64)
      (List.replicate 4096 0) (List.replicate 16 0x55) (List.replicate 16 0)
      [1, 2, 3, 4, 5, 6, 7, 8] ([1, 2, 3, 4] ++ List.replicate 12 0x55)
      (by rw [List.length_replicate]; decide) (by decide) (by decide) (by decide) (by decide)
      (by decide) (by decide) rfl (by decide) (by decide)).2
      (by decide) (by decide) (by decide) (by decide) (by decide) (by decide) rfl (by decide)
      (by decide) (by decide) (by decide) rfl (fun _ => by decide)
      (fun h => absurd h (by decide)) (by decide) (by decide) (by decide)).2,
    (readpage_cache_hit_and_miss (Kernel.Media.mk [] [] 512) Kernel.partialZlib
      (Kernel.pageSbiRead ([1, 2, 3, 4] ++ List.replicate 12 0x55))
      (Kernel.inode.mk 0 0o100644 0 0 4096 1) 0 0 0 0 0 16 0 0 0 0 0
      (List.replicate 4096 0) ([1, 2, 3, 4] ++ List.replicate 12 0x55) [] [] []
      (by rw [List.length_replicate]; decide) (by decide) (by decide) (by decide) (by decide)
      (by decide) (by decide) rfl (by decide) (by decide)).1 (by decide)⟩

/-! ## The remaining length in the loop of `axfs::readFile` -/

/-- The ByteAligned case takes `min(page, length)` off the remaining length. -/
theorem readFile_byte_aligned_length (fs : axfs) (n : Nat) (st st2 : ReadState)
    (h : readFile_byte_aligned fs n st = .ok st2) :
    st2.length = (st.length + U64 - min (2 ^ PAGE_SHIFT % U64) st.length) % U64 := by
  obtain ⟨so, _, h⟩ := bind_ok_inv _ _ _ h
  obtain ⟨out, _, h⟩ := bind_ok_inv _ _ _ h
  cases h
  rfl

/-- The XIP case takes a whole page off the remaining length, modulo `2 ^ 64`. -/
theorem readFile_xip_length (fs : axfs) (n : Nat) (st st2 : ReadState)
    (h : readFile_xip fs n st = .ok st2) :
    st2.length = (st.length + U64 - 2 ^ PAGE_SHIFT) % U64 := by
  unfold readFile_xip at h
  revert h
  cases memcpy st.out st.offset fs.xip.data (n * 2 ^ PAGE_SHIFT % U64) (2 ^ PAGE_SHIFT) with
  | error e =>
    intro h
    cases h
  | ok out2 =>
    intro h
    injection h with h
    rw [← h]

/-- The cache fill leaves the remaining length alone. -/
theorem readFile_cache_fill_length (fs : axfs) (z : ZlibDecoder) (ci so len : Nat)
    (st st2 : ReadState) (h : readFile_cache_fill fs z ci so len st = .ok st2) :
    st2.length = st.length := by
  unfold readFile_cache_fill at h
  split at h
  · split at h
    · split at h
      · injection h with h
        rw [← h]
      · cases h
    · cases h
  · injection h with h
    rw [← h]

/-- The Compressed case takes `min(cblock_size - cnodeOffset, length)` off the remaining
length, the difference taken modulo `2 ^ 64`. -/
theorem readFile_compressed_length (fs : axfs) (z : ZlibDecoder) (n : Nat) (st st2 : ReadState)
    (h : readFile_compressed fs z n st = .ok st2) :
    ∃ co, fs.cnode_offset.axfs_bytetable_stitch n = .ok co ∧
      st2.length = (st.length + U64 -
        min ((be32_to_cpu fs.superblock.cblock_size + U64 - co) % U64) st.length) % U64 := by
  obtain ⟨co, hco, h⟩ := bind_ok_inv _ _ _ h
  obtain ⟨ci, _, h⟩ := bind_ok_inv _ _ _ h
  obtain ⟨so, _, h⟩ := bind_ok_inv _ _ _ h
  obtain ⟨nx, _, h⟩ := bind_ok_inv _ _ _ h
  obtain ⟨st1, hf, h⟩ := bind_ok_inv _ _ _ h
  obtain ⟨out, _, h⟩ := bind_ok_inv _ _ _ h
  cases h
  refine ⟨co, hco, ?_⟩
  rw [← readFile_cache_fill_length fs z ci so _ st st1 hf]

/-- One iteration of the loop of `readFile` that returns: the type of its node is 0, 1 or
2, and the remaining length it leaves. -/
theorem readFile_body_length (fs : axfs) (z : ZlibDecoder) (st st2 : ReadState)
    (h : readFile_body fs z st = .ok st2) :
    ∃ n t, fs.getNodeIndex st.arrayIndex = .ok n ∧ fs.getNodeType st.arrayIndex = .ok t ∧
      ((t = 2 ∧ st2.length = (st.length + U64 - min (2 ^ PAGE_SHIFT % U64) st.length) % U64) ∨
       (t = 0 ∧ st2.length = (st.length + U64 - 2 ^ PAGE_SHIFT) % U64) ∨
       (t = 1 ∧ ∃ co, fs.cnode_offset.axfs_bytetable_stitch n = .ok co ∧
          st2.length = (st.length + U64 -
            min ((be32_to_cpu fs.superblock.cblock_size + U64 - co) % U64) st.length)
              % U64)) := by
  obtain ⟨n, hn, h⟩ := bind_ok_inv _ _ _ h
  obtain ⟨t, ht, h⟩ := bind_ok_inv _ _ _ h
  obtain ⟨s1, hs, h⟩ := bind_ok_inv _ _ _ h
  cases h
  refine ⟨n, t, hn, ht, ?_⟩
  unfold readFile_switch at hs
  by_cases h2 : t = 2
  · rw [if_pos h2] at hs
    exact Or.inl ⟨h2, readFile_byte_aligned_length fs n st s1 hs⟩
  · rw [if_neg h2] at hs
    by_cases h0 : t = 0
    · rw [if_pos h0] at hs
      exact Or.inr (Or.inl ⟨h0, readFile_xip_length fs n st s1 hs⟩)
    · rw [if_neg h0] at hs
      by_cases h1 : t = 1
      · rw [if_pos h1] at hs
        exact Or.inr (Or.inr ⟨h1, readFile_compressed_length fs z n st s1 hs⟩)
      · rw [if_neg h1] at hs
        cases hs

/-- One iteration of the loop of `readFile` that returns, at a node that is not an XIP node
with less than a page left nor a Compressed node whose `cnodeOffset` is not below
`cblock_size`: the remaining length goes down by `d > 0` without wrapping, `d` being a page
at an XIP node, `min(page, length)` at a ByteAligned node and
`min(cblock_size - cnodeOffset, length)` at a Compressed node. -/
theorem readFile_body_decreases (fs : axfs) (z : ZlibDecoder) (s s2 : ReadState)
    (hpos : 0 < s.length) (hU : s.length < U64)
    (hxip : fs.getNodeType s.arrayIndex = .ok 0 → 4096 ≤ s.length)
    (hco : ∀ n co, fs.getNodeType s.arrayIndex = .ok 1 → fs.getNodeIndex s.arrayIndex = .ok n →
      fs.cnode_offset.axfs_bytetable_stitch n = .ok co →
      co < be32_to_cpu fs.superblock.cblock_size)
    (h : readFile_body fs z s = .ok s2) :
    ∃ n t d, fs.getNodeIndex s.arrayIndex = .ok n ∧ fs.getNodeType s.arrayIndex = .ok t ∧
      0 < d ∧ d ≤ s.length ∧ s2.length = s.length - d ∧
      ((t = 2 ∧ d = min 4096 s.length) ∨ (t = 0 ∧ d = 4096) ∨
       (t = 1 ∧ ∃ co, fs.cnode_offset.axfs_bytetable_stitch n = .ok co ∧
          d = min (be32_to_cpu fs.superblock.cblock_size - co) s.length)) := by
  have hP : 2 ^ PAGE_SHIFT = 4096 := by decide
  have hPm : 2 ^ PAGE_SHIFT % U64 = 4096 := by decide
  have hsub : ∀ d, d ≤ s.length → (s.length + U64 - d) % U64 = s.length - d := by
    intro d hd
    have h3 : s.length + U64 - d = U64 + (s.length - d) := by omega
    rw [h3, Nat.add_mod_left, Nat.mod_eq_of_lt (by omega)]
  obtain ⟨n, t, hn, ht, hc⟩ := readFile_body_length fs z s s2 h
  rcases hc with ⟨h2, hl⟩ | ⟨h0, hl⟩ | ⟨h1, co, hcs, hl⟩
  · refine ⟨n, t, min 4096 s.length, hn, ht, by omega, by omega, ?_, Or.inl ⟨h2, rfl⟩⟩
    rw [hl, hPm, hsub _ (by omega)]
  · have := hxip (by rw [ht, h0])
    refine ⟨n, t, 4096, hn, ht, by omega, by omega, ?_, Or.inr (Or.inl ⟨h0, rfl⟩)⟩
    rw [hl, hP, hsub _ (by omega)]
  · have hlt := hco n co (by rw [ht, h1]) hn hcs
    have hcb := be32_to_cpu_lt fs.superblock.cblock_size
    have hU32 : 2 ^ 32 < U64 := by unfold U64; decide
    have e1 : (be32_to_cpu fs.superblock.cblock_size + U64 - co) % U64 =
        be32_to_cpu fs.superblock.cblock_size - co := by
      have h3 : be32_to_cpu fs.superblock.cblock_size + U64 - co =
          U64 + (be32_to_cpu fs.superblock.cblock_size - co) := by omega
      rw [h3, Nat.add_mod_left, Nat.mod_eq_of_lt (by omega)]
    refine ⟨n, t, min (be32_to_cpu fs.superblock.cblock_size - co) s.length, hn, ht, by omega,
      by omega, ?_, Or.inr (Or.inr ⟨h1, co, hcs, rfl⟩)⟩
    rw [hl, e1, hsub _ (by omega)]

/-- A loop whose iterations return, keep an invariant and each take at least `min P length`
off the remaining length ends with nothing left within `fuel` iterations where
`length ≤ fuel * P`. -/
theorem readFile_loop_within (fs : axfs) (z : ZlibDecoder) (Inv : ReadState → Prop) (P : Nat)
    (hstep : ∀ s, Inv s → 0 < s.length → ∃ s2, readFile_body fs z s = .ok s2 ∧ Inv s2 ∧
      (s2.length + P ≤ s.length ∨ s2.length = 0)) :
    ∀ fuel st, Inv st → st.length ≤ fuel * P →
      ∃ st2, readFile_loop fs z fuel st = .ok st2 ∧ st2.length = 0 := by
  intro fuel
  induction fuel with
  | zero =>
    intro st _ hl
    refine ⟨st, ?_, by omega⟩
    unfold readFile_loop
    rw [if_neg (by omega)]
  | succ f ih =>
    intro st hinv hl
    unfold readFile_loop
    by_cases hpos : 0 < st.length
    · rw [if_pos hpos]
      obtain ⟨s2, hb, hi2, hd⟩ := hstep st hinv hpos
      rw [hb]
      simp only
      refine ih s2 hi2 ?_
      rw [Nat.add_mul, Nat.one_mul] at hl
      omega
    · rw [if_neg hpos]
      exact ⟨st, rfl, by omega⟩

/-- C27, as stated, fails.  In `imageTwoCblocks` the two nodes of inode 1 are Compressed
nodes with `cnodeOffset` 0 below the `cblock_size` of 4, and `readFile(1, dst, 0, 8)`
returns; but each node contributes the 4 bytes of its cblock, so for the 8 bytes the loop
runs twice: cut off after `ceil(8 / 4096) = 1` iteration it has 4 bytes left. -/
theorem readFile_runs_more_than_page_count :
    imageTwoCblocks.getNodeType 0 = .ok 1 ∧ imageTwoCblocks.getNodeType 1 = .ok 1 ∧
    imageTwoCblocks.cnode_offset.axfs_bytetable_stitch 0 = .ok 0 ∧
    imageTwoCblocks.cnode_offset.axfs_bytetable_stitch 1 = .ok 0 ∧
    be32_to_cpu imageTwoCblocks.superblock.cblock_size = 4 ∧
    imageTwoCblocks.readFile storedDecoder 1 (List.replicate 8 0) 0 8
      = .ok (ReadState.mk 0 8 2 [1, 2, 3, 4, 5, 6, 7, 8] [5, 6, 7, 8] 1) ∧
    (8 + 4095) / 4096 = 1 ∧
    readFile_loop imageTwoCblocks storedDecoder 1
        (ReadState.mk 8 0 0 (List.replicate 8 0) (List.replicate 4 0) (U64 - 1))
      = .error .outOfFuel ∧
    readFile_body imageTwoCblocks storedDecoder
        (ReadState.mk 8 0 0 (List.replicate 8 0) (List.replicate 4 0) (U64 - 1))
      = .ok (ReadState.mk 4 4 1 [1, 2, 3, 4, 0, 0, 0, 0] [1, 2, 3, 4] 0) := by
  refine ⟨by decide, by decide, by decide, by decide, by decide, by decide, by decide,
    by decide, by decide⟩

/-- C27, amended.  Let `Inv` hold of the state `readFile` enters its loop with and of every
state an iteration leads to from a state with `Inv`, every such iteration returning (so the
node has type 0, 1 or 2), and let every XIP node be reached with at least a page left and
every Compressed node reached have `cnodeOffset < cblock_size`.  Then every iteration takes
`d > 0` off the remaining length without wrapping (a page at an XIP node, `min(page, length)`
at a ByteAligned node, `min(cblock_size - cnodeOffset, length)` at a Compressed node), and
the loop returns with nothing left after at most `length` iterations; after at most
`ceil(length / 4096)` where every Compressed node reached has at least a page between
`cnodeOffset` and `cblock_size`. -/
theorem readFile_loop_terminates (fs : axfs) (z : ZlibDecoder) (Inv : ReadState → Prop)
    (st : ReadState) (hinv : Inv st)
    (hstep : ∀ s, Inv s → 0 < s.length →
      s.length < U64 ∧ ∃ s2, readFile_body fs z s = .ok s2 ∧ Inv s2)
    (hxip : ∀ s, Inv s → 0 < s.length → fs.getNodeType s.arrayIndex = .ok 0 → 4096 ≤ s.length)
    (hco : ∀ s n co, Inv s → 0 < s.length → fs.getNodeType s.arrayIndex = .ok 1 →
      fs.getNodeIndex s.arrayIndex = .ok n → fs.cnode_offset.axfs_bytetable_stitch n = .ok co →
      co < be32_to_cpu fs.superblock.cblock_size) :
    (∀ s s2, Inv s → 0 < s.length → readFile_body fs z s = .ok s2 →
      ∃ n t d, fs.getNodeIndex s.arrayIndex = .ok n ∧ fs.getNodeType s.arrayIndex = .ok t ∧
        0 < d ∧ d ≤ s.length ∧ s2.length = s.length - d ∧
        ((t = 2 ∧ d = min 4096 s.length) ∨ (t = 0 ∧ d = 4096) ∨
         (t = 1 ∧ ∃ co, fs.cnode_offset.axfs_bytetable_stitch n = .ok co ∧
            d = min (be32_to_cpu fs.superblock.cblock_size - co) s.length))) ∧
    (∃ st2, readFile_loop fs z st.length st = .ok st2 ∧ st2.length = 0) ∧
    ((∀ s n co, Inv s → 0 < s.length → fs.getNodeType s.arrayIndex = .ok 1 →
        fs.getNodeIndex s.arrayIndex = .ok n →
        fs.cnode_offset.axfs_bytetable_stitch n = .ok co →
        co + 4096 ≤ be32_to_cpu fs.superblock.cblock_size) →
      ∃ st2, readFile_loop fs z ((st.length + 4095) / 4096) st = .ok st2 ∧
        st2.length = 0) := by
  have hdec : ∀ s s2, Inv s → 0 < s.length → readFile_body fs z s = .ok s2 →
      ∃ n t d, fs.getNodeIndex s.arrayIndex = .ok n ∧ fs.getNodeType s.arrayIndex = .ok t ∧
        0 < d ∧ d ≤ s.length ∧ s2.length = s.length - d ∧
        ((t = 2 ∧ d = min 4096 s.length) ∨ (t = 0 ∧ d = 4096) ∨
         (t = 1 ∧ ∃ co, fs.cnode_offset.axfs_bytetable_stitch n = .ok co ∧
            d = min (be32_to_cpu fs.superblock.cblock_size - co) s.length)) :=
    fun s s2 hi hpos hb => readFile_body_decreases fs z s s2 hpos (hstep s hi hpos).1
      (hxip s hi hpos) (fun n co => hco s n co hi hpos) hb
  refine ⟨hdec, ?_, ?_⟩
  · refine readFile_loop_within fs z Inv 1 (fun s hi hpos => ?_) st.length st hinv (by omega)
    obtain ⟨_, s2, hb, hi2⟩ := hstep s hi hpos
    obtain ⟨n, t, d, _, _, hd0, hdl, hl, _⟩ := hdec s s2 hi hpos hb
    exact ⟨s2, hb, hi2, Or.inl (by omega)⟩
  · intro hpage
    refine readFile_loop_within fs z Inv 4096 (fun s hi hpos => ?_) _ st hinv (by omega)
    obtain ⟨_, s2, hb, hi2⟩ := hstep s hi hpos
    obtain ⟨n, t, d, hn, ht, hd0, hdl, hl, hc⟩ := hdec s s2 hi hpos hb
    refine ⟨s2, hb, hi2, ?_⟩
    rcases hc with ⟨_, hd⟩ | ⟨_, hd⟩ | ⟨h1, co, hcs, hd⟩
    · omega
    · omega
    · have := hpage s n co hi hpos (by rw [ht, h1]) hn hcs
      omega

theorem readFile_loop_terminates_witness :
    ∃ st2, readFile_loop imageTwoCblocks storedDecoder 8
        (ReadState.mk 8 0 0 (List.replicate 8 0) (List.replicate 4 0) (U64 - 1)) = .ok st2 ∧
      st2.length = 0 :=
  (readFile_loop_terminates imageTwoCblocks storedDecoder
    (fun s => s = ReadState.mk 8 0 0 (List.replicate 8 0) (List.replicate 4 0) (U64 - 1) ∨
      s = ReadState.mk 4 4 1 [1, 2, 3, 4, 0, 0, 0, 0] [1, 2, 3, 4] 0 ∨
      s = ReadState.mk 0 8 2 [1, 2, 3, 4, 5, 6, 7, 8] [5, 6, 7, 8] 1)
    (ReadState.mk 8 0 0 (List.replicate 8 0) (List.replicate 4 0) (U64 - 1))
    (Or.inl rfl)
    (fun s hi hpos => by
      rcases hi with h | h | h
      · subst h
        exact ⟨by decide, _, by decide, Or.inr (Or.inl rfl)⟩
      · subst h
        exact ⟨by decide, _, by decide, Or.inr (Or.inr rfl)⟩
      · subst h
        exact absurd hpos (by decide))
    (fun s hi hpos ht => by
      rcases hi with h | h | h
      · subst h
        exact absurd ht (by decide)
      · subst h
        exact absurd ht (by decide)
      · subst h
        exact absurd hpos (by decide))
    (fun s n co hi hpos _ hn hcs => by
      rcases hi with h | h | h
      · subst h
        have e1 : n = 0 := by
          have h1 : imageTwoCblocks.getNodeIndex 0 = .ok 0 := by decide
          have h2 : (Except.ok n : Except Fault Nat) = .ok 0 := hn.symm.trans h1
          injection h2
        subst e1
        have e2 : co = 0 := by
          have h1 : imageTwoCblocks.cnode_offset.axfs_bytetable_stitch 0 = .ok 0 := by decide
          have h2 : (Except.ok co : Except Fault Nat) = .ok 0 := hcs.symm.trans h1
          injection h2
        subst e2
        decide
      · subst h
        have e1 : n = 1 := by
          have h1 : imageTwoCblocks.getNodeIndex 1 = .ok 1 := by decide
          have h2 : (Except.ok n : Except Fault Nat) = .ok 1 := hn.symm.trans h1
          injection h2
        subst e1
        have e2 : co = 0 := by
          have h1 : imageTwoCblocks.cnode_offset.axfs_bytetable_stitch 1 = .ok 0 := by decide
          have h2 : (Except.ok co : Except Fault Nat) = .ok 0 := hcs.symm.trans h1
          injection h2
        subst e2
        decide
      · subst h
        exact absurd hpos (by decide))).2.1

/-! ## `axfs_readpage`: every byte of the page is defined -/

/-- Behind the end of the file `axfs_readpage` looks at no table and clears the page. -/
theorem readpage_beyond_eof (m : Kernel.Media) (z : Kernel.Zlib)
    (sbi : Kernel.axfs_super_incore) (host : Kernel.inode) (index : Nat) (pgdata : List Byte)
    (hpg : pgdata.length = Kernel.PAGE_CACHE_SIZE)
    (hidx : ¬ index < (host.i_size + Kernel.PAGE_CACHE_SIZE - 1) % U64
      / 2 ^ Kernel.PAGE_CACHE_SHIFT) :
    Kernel.axfs_readpage m z sbi host index pgdata
      = .ok (0, sbi, List.replicate Kernel.PAGE_CACHE_SIZE 0) := by
  unfold Kernel.axfs_readpage
  rw [if_neg hidx]
  simp only
  have h1 : (Kernel.PAGE_CACHE_SIZE + U64 - 0) % U64 = Kernel.PAGE_CACHE_SIZE := by decide
  unfold Kernel.memset
  rw [h1, if_pos (by omega)]
  simp only [List.take_zero, List.nil_append, Nat.zero_add]
  rw [List.drop_eq_nil_of_le (by omega), List.append_nil]

/-- The end of `axfs_readpage` once the node has put `data` at the start of the page. -/
theorem readpage_of_node_data (m : Kernel.Media) (z : Kernel.Zlib)
    (sbi sbi2 : Kernel.axfs_super_incore) (host : Kernel.inode) (index len : Nat)
    (pgdata data : List Byte)
    (hidx : index < (host.i_size + Kernel.PAGE_CACHE_SIZE - 1) % U64
      / 2 ^ Kernel.PAGE_CACHE_SHIFT)
    (hnode : Kernel.axfs_readpage_node m z sbi host.i_ino index pgdata
      = .ok (sbi2, data ++ pgdata.drop len, len))
    (hd : data.length = len) (hlen : len ≤ Kernel.PAGE_CACHE_SIZE)
    (hpg : pgdata.length = Kernel.PAGE_CACHE_SIZE) :
    Kernel.axfs_readpage m z sbi host index pgdata
      = .ok (0, sbi2, data ++ List.replicate (Kernel.PAGE_CACHE_SIZE - len) 0) := by
  rw [readpage_of_node m z sbi sbi2 host index len pgdata _ hidx hnode hlen
    (by rw [List.length_append, List.length_drop, hd]; omega)]
  rw [List.take_append_of_le_length (by omega), List.take_of_length_le (by omega)]

/-- The bytes `axfs_copy_data` delivers are as many as asked for. -/
theorem region_bytes_length (va dev : List Byte) (off len mm boff : Nat) (hle : mm ≤ len)
    (hsrc : mm ≠ 0 → off + mm ≤ va.length)
    (hdev : mm < len → boff + (len - mm) ≤ dev.length ∧ boff + (len - mm) < U64) :
    ((va.drop off).take mm ++ (dev.drop boff).take (len - mm)).length = len := by
  rw [List.length_append, List.length_take, List.length_take, List.length_drop,
    List.length_drop]
  by_cases h0 : mm = 0
  · by_cases h1 : mm < len
    · have := hdev h1; omega
    · omega
  · have := hsrc h0
    by_cases h1 : mm < len
    · have := hdev h1; omega
    · omega

/-- A whole `axfs_readpage` of a Compressed node with `cnode_offset ≤ cblock_size`, once the
cache holds its cblock: `min(cblock_size - cnode_offset, PAGE_CACHE_SIZE)` bytes of the
first `cblock_size` bytes of the buffer, then zeros. -/
theorem readpage_compressed_page (m : Kernel.Media) (z : Kernel.Zlib)
    (sbi sbi2 : Kernel.axfs_super_incore) (host : Kernel.inode)
    (index a node_index co k : Nat) (pgdata b0 : List Byte)
    (hpg : pgdata.length = Kernel.PAGE_CACHE_SIZE)
    (hidx : index < (host.i_size + Kernel.PAGE_CACHE_SIZE - 1) % U64
      / 2 ^ Kernel.PAGE_CACHE_SHIFT)
    (ha : Kernel.AXFS_GET_INODE_ARRAY_INDEX sbi.metadata host.i_ino = .ok a)
    (hni : Kernel.AXFS_GET_NODE_INDEX sbi.metadata ((a + index) % U64) = .ok node_index)
    (ht : Kernel.AXFS_GET_NODE_TYPE sbi.metadata ((a + index) % U64) = .ok Kernel.Compressed)
    (hco : Kernel.AXFS_GET_CNODE_OFFSET sbi.metadata node_index = .ok co)
    (hci : Kernel.AXFS_GET_CNODE_INDEX sbi.metadata node_index = .ok k)
    (hfill : Kernel.axfs_readpage_fill m z sbi k = .ok sbi2)
    (hb0 : sbi2.cblock_buffer0 = some b0) (hbl : sbi2.cblock_size ≤ b0.length)
    (hcs : sbi2.cblock_size < 2 ^ 32) (hle : co ≤ sbi2.cblock_size) :
    co + min (sbi2.cblock_size - co) Kernel.PAGE_CACHE_SIZE ≤ sbi2.cblock_size ∧
    Kernel.axfs_readpage m z sbi host index pgdata
      = .ok (0, sbi2, (b0.drop co).take (min (sbi2.cblock_size - co) Kernel.PAGE_CACHE_SIZE) ++
          List.replicate
            (Kernel.PAGE_CACHE_SIZE - min (sbi2.cblock_size - co) Kernel.PAGE_CACHE_SIZE) 0) := by
  have hmax : (sbi2.cblock_size + 2 ^ 32 - co) % 2 ^ 32 = sbi2.cblock_size - co := by
    have h3 : sbi2.cblock_size + 2 ^ 32 - co = 2 ^ 32 + (sbi2.cblock_size - co) := by omega
    rw [h3, Nat.add_mod_left, Nat.mod_eq_of_lt (by omega)]
  have hlen : (if (sbi2.cblock_size + 2 ^ 32 - co) % 2 ^ 32 > Kernel.PAGE_CACHE_SIZE then
      Kernel.PAGE_CACHE_SIZE else (sbi2.cblock_size + 2 ^ 32 - co) % 2 ^ 32) =
      min (sbi2.cblock_size - co) Kernel.PAGE_CACHE_SIZE := by
    rw [hmax]
    split <;> omega
  have hin : co + min (sbi2.cblock_size - co) Kernel.PAGE_CACHE_SIZE ≤ sbi2.cblock_size := by
    omega
  refine ⟨hin, ?_⟩
  have hnode := readpage_node_dispatch m z sbi host.i_ino index a node_index
    Kernel.Compressed pgdata ha hni ht
  rw [if_pos rfl] at hnode
  rw [readpage_compressed_filled m z sbi sbi2 node_index co k _ pgdata b0 _ hco hci
    hfill hb0 hlen (by omega) (by omega) rfl] at hnode
  exact readpage_of_node_data m z sbi sbi2 host index _ pgdata _ hidx hnode
    (by rw [List.length_take, List.length_drop]; omega) (by omega) hpg

/-- A whole `axfs_readpage` of a node whose `len` bytes `axfs_copy_data` takes from a
region: the bytes of the region, then zeros. -/
theorem readpage_of_region_copy (m : Kernel.Media) (z : Kernel.Zlib)
    (sbi : Kernel.axfs_super_incore) (host : Kernel.inode)
    (region : Kernel.axfs_region_desc_incore) (index off len mm boff : Nat)
    (pgdata : List Byte)
    (hpg : pgdata.length = Kernel.PAGE_CACHE_SIZE)
    (hidx : index < (host.i_size + Kernel.PAGE_CACHE_SIZE - 1) % U64
      / 2 ^ Kernel.PAGE_CACHE_SHIFT)
    (hnode : Kernel.axfs_readpage_node m z sbi host.i_ino index pgdata =
      match Kernel.axfs_copy_data m sbi pgdata region off len with
      | .error e => .error e
      | .ok pg => .ok (sbi, pg, len))
    (hlen : len ≤ Kernel.PAGE_CACHE_SIZE)
    (hmm : Kernel.axfs_copy_data_mmapped sbi region off len = mm) (hle : mm ≤ len)
    (hboff : (Kernel.AXFS_FSOFFSET_2_BLOCKOFFSET sbi region.fsoffset + off + mm) % U64 = boff)
    (hsrc : mm ≠ 0 → off + mm ≤ (region.virt_addr.getD []).length)
    (hB : 0 < m.s_blocksize)
    (hdev : mm < len → boff + (len - mm) ≤ m.blockdev.length ∧ boff + (len - mm) < U64) :
    Kernel.axfs_readpage m z sbi host index pgdata
      = .ok (0, sbi, (((region.virt_addr.getD []).drop off).take mm ++
            (m.blockdev.drop boff).take (len - mm)) ++
          List.replicate (Kernel.PAGE_CACHE_SIZE - len) 0) := by
  have hP : Kernel.PAGE_CACHE_SIZE < U64 := by decide
  have hdl := region_bytes_length (region.virt_addr.getD []) m.blockdev off len mm boff hle
    hsrc hdev
  have hcopy : Kernel.axfs_copy_data m sbi pgdata region off len =
      .ok ((((region.virt_addr.getD []).drop off).take mm ++
        (m.blockdev.drop boff).take (len - mm)) ++ pgdata.drop len) := by
    by_cases h0 : len = 0
    · subst h0
      have hm0 : mm = 0 := by omega
      subst hm0
      unfold Kernel.axfs_copy_data
      rw [if_pos rfl]
      simp
    · rw [copy_data_region_bytes m sbi pgdata region off len mm boff (by omega) (by omega) hmm
        hle hboff hsrc (by omega) hB hdev, List.append_assoc]
  rw [hcopy] at hnode
  exact readpage_of_node_data m z sbi sbi host index len pgdata _ hidx hnode hdl hlen hpg

/-- The XIP branch of `axfs_readpage`: a page of the XIP region at `node_index << 12`. -/
theorem readpage_node_xip (m : Kernel.Media) (z : Kernel.Zlib)
    (sbi : Kernel.axfs_super_incore) (ino index a node_index : Nat) (pgdata : List Byte)
    (ha : Kernel.AXFS_GET_INODE_ARRAY_INDEX sbi.metadata ino = .ok a)
    (hni : Kernel.AXFS_GET_NODE_INDEX sbi.metadata ((a + index) % U64) = .ok node_index)
    (ht : Kernel.AXFS_GET_NODE_TYPE sbi.metadata ((a + index) % U64) = .ok 0) :
    Kernel.axfs_readpage_node m z sbi ino index pgdata =
      match Kernel.axfs_copy_data m sbi pgdata sbi.xip (node_index * 2 ^ PAGE_SHIFT % U64)
          Kernel.PAGE_CACHE_SIZE with
      | .error e => .error e
      | .ok pg => .ok (sbi, pg, Kernel.PAGE_CACHE_SIZE) := by
  rw [readpage_node_dispatch m z sbi ino index a node_index 0 pgdata ha hni ht,
    if_neg (by decide), if_neg (by decide)]
  rfl

/-- The ByteAligned branch of `axfs_readpage`: `len` bytes of the byte-aligned region at
`banode_offset[node_index]`, `len` being `PAGE_CACHE_SIZE` cut down to the `u32` that
`byte_aligned.size - offset` is stored in. -/
theorem readpage_node_byte_aligned (m : Kernel.Media) (z : Kernel.Zlib)
    (sbi : Kernel.axfs_super_incore) (ino index a node_index off : Nat) (pgdata : List Byte)
    (ha : Kernel.AXFS_GET_INODE_ARRAY_INDEX sbi.metadata ino = .ok a)
    (hni : Kernel.AXFS_GET_NODE_INDEX sbi.metadata ((a + index) % U64) = .ok node_index)
    (ht : Kernel.AXFS_GET_NODE_TYPE sbi.metadata ((a + index) % U64)
      = .ok Kernel.Byte_Aligned)
    (hoff : Kernel.AXFS_GET_BANODE_OFFSET sbi.metadata node_index = .ok off) :
    Kernel.axfs_readpage_node m z sbi ino index pgdata =
      match Kernel.axfs_copy_data m sbi pgdata sbi.byte_aligned off
          (if (sbi.byte_aligned.size + U64 - off) % U64 % 2 ^ 32 > Kernel.PAGE_CACHE_SIZE then
            Kernel.PAGE_CACHE_SIZE else (sbi.byte_aligned.size + U64 - off) % U64 % 2 ^ 32) with
      | .error e => .error e
      | .ok pg => .ok (sbi, pg,
          if (sbi.byte_aligned.size + U64 - off) % U64 % 2 ^ 32 > Kernel.PAGE_CACHE_SIZE then
            Kernel.PAGE_CACHE_SIZE else (sbi.byte_aligned.size + U64 - off) % U64 % 2 ^ 32) := by
  rw [readpage_node_dispatch m z sbi ino index a node_index Kernel.Byte_Aligned pgdata ha hni
    ht, if_neg (by decide), if_pos rfl]
  unfold Kernel.axfs_readpage_byte_aligned
  simp only [hoff]

/-- The `len` of a ByteAligned node whose region ends less than `2 ^ 32` bytes behind its
offset. -/
theorem byte_aligned_len (size off : Nat) (hle : off ≤ size) (hU : size < U64)
    (h32 : size - off < 2 ^ 32) :
    (if (size + U64 - off) % U64 % 2 ^ 32 > Kernel.PAGE_CACHE_SIZE then
      Kernel.PAGE_CACHE_SIZE else (size + U64 - off) % U64 % 2 ^ 32) =
      min (size - off) Kernel.PAGE_CACHE_SIZE := by
  have h3 : size + U64 - off = U64 + (size - off) := by omega
  have e1 : (size - off) % U64 = size - off := Nat.mod_eq_of_lt (by omega)
  have e2 : (size - off) % 2 ^ 32 = size - off := Nat.mod_eq_of_lt h32
  rw [h3, Nat.add_mod_left, e1, e2]
  split <;> omega

/-- Page 0 of inode 0 of `alignedSbi size` where `size mod 2 ^ 32` is `r ≤ 4096`: the page
holds `r` bytes of the region, then zeros. -/
theorem readpage_alignedSbi (size r : Nat) (hr : size % 2 ^ 32 = r) (hr4 : r ≤ 4096)
    (hU : size < U64) :
    Kernel.axfs_readpage (Kernel.Media.mk [] [] 512) Kernel.nullZlib (Kernel.alignedSbi size)
        (Kernel.inode.mk 0 0o100644 0 0 4096 1) 0 (List.replicate 4096 0)
      = .ok (0, Kernel.alignedSbi size,
          List.replicate r 0xCD ++ List.replicate (4096 - r) 0) := by
  have hP : Kernel.PAGE_CACHE_SIZE = 4096 := by decide
  have hml : (size + U64 - 0) % U64 % 2 ^ 32 = r := by
    have h3 : size + U64 - 0 = U64 + size := by omega
    rw [h3, Nat.add_mod_left, Nat.mod_eq_of_lt hU, hr]
  have hlen : (if (size + U64 - 0) % U64 % 2 ^ 32 > Kernel.PAGE_CACHE_SIZE then
      Kernel.PAGE_CACHE_SIZE else (size + U64 - 0) % U64 % 2 ^ 32) = r := by
    rw [hml, hP]
    split <;> omega
  have hmd : (Kernel.alignedSbi size).metadata = (Kernel.pageSbi 2).metadata := rfl
  have hnode := readpage_node_byte_aligned (Kernel.Media.mk [] [] 512) Kernel.nullZlib
    (Kernel.alignedSbi size) 0 0 0 0 0 (List.replicate 4096 0) (by rw [hmd]; decide)
    (by rw [hmd]; decide) (by rw [hmd]; decide) (by rw [hmd]; decide)
  have hsz : (Kernel.alignedSbi size).byte_aligned.size = size := rfl
  rw [hsz, hlen] at hnode
  have hmm : Kernel.axfs_copy_data_mmapped (Kernel.alignedSbi size)
      (Kernel.alignedSbi size).byte_aligned 0 r = r := by
    have h1 : (Kernel.alignedSbi size).mmap_size > (12288 + 0 + r) % U64 := by
      have e1 : (12288 + 0 + r) % U64 = 12288 + r := Nat.mod_eq_of_lt (by
        unfold U64; omega)
      have e2 : (Kernel.alignedSbi size).mmap_size = 2 ^ 33 := rfl
      rw [e1, e2]
      omega
    unfold Kernel.axfs_copy_data_mmapped
    exact if_pos h1
  have h := readpage_of_region_copy (Kernel.Media.mk [] [] 512) Kernel.nullZlib
    (Kernel.alignedSbi size) (Kernel.inode.mk 0 0o100644 0 0 4096 1)
    (Kernel.alignedSbi size).byte_aligned 0 0 r r _ (List.replicate 4096 0)
    (by rw [List.length_replicate]; decide) (by decide) hnode (by rw [hP]; exact hr4) hmm
    (Nat.le_refl _) rfl
    (fun _ => by
      have e : ((Kernel.alignedSbi size).byte_aligned.virt_addr.getD []).length = 4096 :=
        List.length_replicate _ _
      rw [e]; omega)
    (by decide) (fun h => absurd h (Nat.lt_irrefl _))
  rw [h, hP, Nat.sub_self, List.take_zero, List.append_nil]
  have e : (Kernel.alignedSbi size).byte_aligned.virt_addr.getD [] =
      List.replicate 4096 0xCD := rfl
  rw [e, List.drop_zero, List.take_replicate, Nat.min_eq_left hr4]

/-- C30 (the code departs from it at a ByteAligned node whose region ends `2 ^ 32` bytes or
more behind the node): with a page of `PAGE_CACHE_SIZE` bytes, `axfs_readpage` returns 0 and
the page is `len` data bytes followed by zeros.  For an index from `maxblock` on no table is
read, `len` is 0 and the page is zero.  Below `maxblock`: a Compressed node with
`cnode_offset ≤ cblock_size` gives `len = min(cblock_size - cnode_offset, PAGE_CACHE_SIZE)`
bytes from inside `cblock_buffer[0 .. cblock_size)`; a ByteAligned node with
`byte_aligned.size - offset < 2 ^ 32` gives `len = min(byte_aligned.size - offset,
PAGE_CACHE_SIZE)` bytes of the region; an XIP node gives `PAGE_CACHE_SIZE` bytes of the XIP
region.  In `alignedSbi (2 ^ 32 + 100)`, where `byte_aligned.size - offset` is
`2 ^ 32 + 100`, the page is 100 bytes of the region and 3996 zeros, not 4096 bytes of it:
`max_len` is a `u32`. -/
theorem readpage_defines_whole_page (m : Kernel.Media) (z : Kernel.Zlib)
    (sbi : Kernel.axfs_super_incore) (host : Kernel.inode) (index : Nat) (pgdata : List Byte)
    (hpg : pgdata.length = Kernel.PAGE_CACHE_SIZE) :
    (¬ index < (host.i_size + Kernel.PAGE_CACHE_SIZE - 1) % U64 / 2 ^ Kernel.PAGE_CACHE_SHIFT →
      Kernel.axfs_readpage m z sbi host index pgdata
        = .ok (0, sbi, List.replicate Kernel.PAGE_CACHE_SIZE 0)) ∧
    (index < (host.i_size + Kernel.PAGE_CACHE_SIZE - 1) % U64 / 2 ^ Kernel.PAGE_CACHE_SHIFT →
      ∀ a n, Kernel.AXFS_GET_INODE_ARRAY_INDEX sbi.metadata host.i_ino = .ok a →
      Kernel.AXFS_GET_NODE_INDEX sbi.metadata ((a + index) % U64) = .ok n →
      (Kernel.AXFS_GET_NODE_TYPE sbi.metadata ((a + index) % U64) = .ok Kernel.Compressed →
        ∀ co k sbi2 b0, Kernel.AXFS_GET_CNODE_OFFSET sbi.metadata n = .ok co →
        Kernel.AXFS_GET_CNODE_INDEX sbi.metadata n = .ok k →
        Kernel.axfs_readpage_fill m z sbi k = .ok sbi2 →
        sbi2.cblock_buffer0 = some b0 → sbi2.cblock_size ≤ b0.length →
        sbi2.cblock_size < 2 ^ 32 → co ≤ sbi2.cblock_size →
        co + min (sbi2.cblock_size - co) Kernel.PAGE_CACHE_SIZE ≤ sbi2.cblock_size ∧
        Kernel.axfs_readpage m z sbi host index pgdata
          = .ok (0, sbi2,
              (b0.drop co).take (min (sbi2.cblock_size - co) Kernel.PAGE_CACHE_SIZE) ++
              List.replicate
                (Kernel.PAGE_CACHE_SIZE - min (sbi2.cblock_size - co) Kernel.PAGE_CACHE_SIZE)
                0)) ∧
      (Kernel.AXFS_GET_NODE_TYPE sbi.metadata ((a + index) % U64) = .ok Kernel.Byte_Aligned →
        ∀ off len mm boff, Kernel.AXFS_GET_BANODE_OFFSET sbi.metadata n = .ok off →
        off ≤ sbi.byte_aligned.size → sbi.byte_aligned.size < U64 →
        sbi.byte_aligned.size - off < 2 ^ 32 →
        len = min (sbi.byte_aligned.size - off) Kernel.PAGE_CACHE_SIZE →
        Kernel.axfs_copy_data_mmapped sbi sbi.byte_aligned off len = mm → mm ≤ len →
        (Kernel.AXFS_FSOFFSET_2_BLOCKOFFSET sbi sbi.byte_aligned.fsoffset + off + mm) % U64
          = boff →
        (mm ≠ 0 → off + mm ≤ (sbi.byte_aligned.virt_addr.getD []).length) →
        0 < m.s_blocksize →
        (mm < len → boff + (len - mm) ≤ m.blockdev.length ∧ boff + (len - mm) < U64) →
        Kernel.axfs_readpage m z sbi host index pgdata
          = .ok (0, sbi, (((sbi.byte_aligned.virt_addr.getD []).drop off).take mm ++
                (m.blockdev.drop boff).take (len - mm)) ++
              List.replicate (Kernel.PAGE_CACHE_SIZE - len) 0)) ∧
      (Kernel.AXFS_GET_NODE_TYPE sbi.metadata ((a + index) % U64) = .ok 0 →
        ∀ mm boff,
        Kernel.axfs_copy_data_mmapped sbi sbi.xip (n * 2 ^ PAGE_SHIFT % U64)
          Kernel.PAGE_CACHE_SIZE = mm → mm ≤ Kernel.PAGE_CACHE_SIZE →
        (Kernel.AXFS_FSOFFSET_2_BLOCKOFFSET sbi sbi.xip.fsoffset + n * 2 ^ PAGE_SHIFT % U64
          + mm) % U64 = boff →
        (mm ≠ 0 → n * 2 ^ PAGE_SHIFT % U64 + mm ≤ (sbi.xip.virt_addr.getD []).length) →
        0 < m.s_blocksize →
        (mm < Kernel.PAGE_CACHE_SIZE →
          boff + (Kernel.PAGE_CACHE_SIZE - mm) ≤ m.blockdev.length ∧
          boff + (Kernel.PAGE_CACHE_SIZE - mm) < U64) →
        Kernel.axfs_readpage m z sbi host index pgdata
          = .ok (0, sbi,
              ((sbi.xip.virt_addr.getD []).drop (n * 2 ^ PAGE_SHIFT % U64)).take mm ++
                (m.blockdev.drop boff).take (Kernel.PAGE_CACHE_SIZE - mm)))) ∧
    (min ((Kernel.alignedSbi (2 ^ 32 + 100)).byte_aligned.size - 0) Kernel.PAGE_CACHE_SIZE
        = 4096 ∧
      Kernel.axfs_readpage (Kernel.Media.mk [] [] 512) Kernel.nullZlib
          (Kernel.alignedSbi (2 ^ 32 + 100)) (Kernel.inode.mk 0 0o100644 0 0 4096 1) 0
          (List.replicate 4096 0)
        = .ok (0, Kernel.alignedSbi (2 ^ 32 + 100),
            List.replicate 100 0xCD ++ List.replicate (4096 - 100) 0)) := by
  refine ⟨readpage_beyond_eof m z sbi host index pgdata hpg, ?_, by decide,
    readpage_alignedSbi (2 ^ 32 + 100) 100 (by decide) (by decide) (by unfold U64; decide)⟩
  intro hidx a n ha hni
  refine ⟨?_, ?_, ?_⟩
  · intro ht co k sbi2 b0 hco hci hfill hb0 hbl hcs hle
    exact readpage_compressed_page m z sbi sbi2 host index a n co k pgdata b0 hpg hidx ha hni
      ht hco hci hfill hb0 hbl hcs hle
  · intro ht off len mm boff hoff hle hU h32 hlen hmm hmle hboff hsrc hB hdev
    have hnode := readpage_node_byte_aligned m z sbi host.i_ino index a n off pgdata ha hni ht
      hoff
    rw [byte_aligned_len _ _ hle hU h32, ← hlen] at hnode
    exact readpage_of_region_copy m z sbi host sbi.byte_aligned index off len mm boff pgdata
      hpg hidx hnode (by rw [hlen]; omega) hmm hmle hboff hsrc hB hdev
  · intro ht mm boff hmm hmle hboff hsrc hB hdev
    have hnode := readpage_node_xip m z sbi host.i_ino index a n pgdata ha hni ht
    have h := readpage_of_region_copy m z sbi host sbi.xip index _ _ mm boff pgdata
      hpg hidx hnode (Nat.le_refl _) hmm hmle hboff hsrc hB hdev
    rw [Nat.sub_self, List.replicate_zero, List.append_nil] at h
    exact h

theorem readpage_defines_whole_page_witness :
    (List.replicate 4096 (0 : Byte)).length = Kernel.PAGE_CACHE_SIZE ∧
    ∃ data : List Byte,
      Kernel.axfs_readpage (Kernel.Media.mk [] [] 512) Kernel.nullZlib (Kernel.alignedSbi 100)
          (Kernel.inode.mk 0 0o100644 0 0 4096 1) 0 (List.replicate 4096 0)
        = .ok (0, Kernel.alignedSbi 100,
            data ++ List.replicate (Kernel.PAGE_CACHE_SIZE - 100) 0) :=
  ⟨by rw [List.length_replicate]; decide, _,
    (((readpage_defines_whole_page (Kernel.Media.mk [] [] 512) Kernel.nullZlib
      (Kernel.alignedSbi 100) (Kernel.inode.mk 0 0o100644 0 0 4096 1) 0
      (List.replicate 4096 0) (by rw [List.length_replicate]; decide)).2.1
      (by decide) 0 0 (by decide) (by decide)).2.1 (by decide) 0 100 100
      ((Kernel.AXFS_FSOFFSET_2_BLOCKOFFSET (Kernel.alignedSbi 100) 12288 + 0 + 100) % U64)
      (by decide) (by decide) (by decide) (by decide) (by decide) (by decide) (by decide) rfl
      (fun _ => by
        show 0 + 100 ≤ (List.replicate 4096 (0xCD : Byte)).length
        rw [List.length_replicate]
        decide)
      (by decide) (fun h => absurd h (by decide)))⟩

/-! ## The secondary tables are indexed by the node index -/

/-- A `memcpy` that returns leaves the length of the destination alone. -/
theorem memcpy_ok_length (dst : List Byte) (o : Nat) (src : List Byte) (so n : Nat)
    (d : List Byte) (h : memcpy dst o src so n = .ok d) : d.length = dst.length := by
  unfold memcpy at h
  split at h
  · next hc =>
    injection h with h
    rw [← h]
    exact memcpy_length dst o src so n hc.1 hc.2
  · cases h

/-- The loop of `axfs_copy_block_data` leaves the length of the destination alone. -/
theorem copy_block_data_loop_length (m : Kernel.Media) (boffset len : Nat) :
    ∀ fuel copied dst d, Kernel.axfs_copy_block_data_loop m boffset len fuel copied dst = .ok d →
      d.length = dst.length := by
  intro fuel
  induction fuel with
  | zero =>
    intro copied dst d h
    unfold Kernel.axfs_copy_block_data_loop at h
    split at h
    · cases h
    · injection h with h
      rw [h]
  | succ f ih =>
    intro copied dst d
    unfold Kernel.axfs_copy_block_data_loop
    split
    · split
      · intro h; cases h
      · split
        · intro h; cases h
        · split
          · dsimp only
            split
            · next dst2 hm =>
              intro h
              rw [ih _ _ _ h, memcpy_ok_length _ _ _ _ _ _ hm]
            · intro h; cases h
          · dsimp only
            split
            · next dst2 hm =>
              intro h
              rw [ih _ _ _ h, memcpy_ok_length _ _ _ _ _ _ hm]
            · intro h; cases h
    · intro h
      injection h with h
      rw [h]

/-- `axfs_copy_data` leaves the length of the destination alone. -/
theorem copy_data_length (m : Kernel.Media) (sbi : Kernel.axfs_super_incore)
    (dst : List Byte) (region : Kernel.axfs_region_desc_incore) (offset len : Nat)
    (d : List Byte) (h : Kernel.axfs_copy_data m sbi dst region offset len = .ok d) :
    d.length = dst.length := by
  unfold Kernel.axfs_copy_data at h
  split at h
  · injection h with h
    rw [h]
  · split at h
    · cases h
    · next dst1 h1 =>
      have hl1 : dst1.length = dst.length := by
        split at h1
        · exact memcpy_ok_length _ _ _ _ _ _ h1
        · injection h1 with h1
          rw [h1]
      split at h
      · cases h
      · next d2 h2 =>
        injection h with h
        have hl2 : d2.length = (dst1.drop
            (Kernel.axfs_copy_data_mmapped sbi region offset len)).length := by
          unfold Kernel.axfs_copy_block_data at h2
          split at h2
          · injection h2 with h2
            rw [h2]
          · exact copy_block_data_loop_length m _ _ _ _ _ _ h2
        rw [← h, List.length_append, hl2, List.length_take, List.length_drop, ← hl1]
        omega

/-- A whole `axfs_readpage` of an XIP node: the page `axfs_copy_data` takes from the XIP
region at `node_index << PAGE_SHIFT`. -/
theorem readpage_xip_of_copy (m : Kernel.Media) (z : Kernel.Zlib)
    (sbi : Kernel.axfs_super_incore) (host : Kernel.inode) (index a n : Nat)
    (pgdata pg2 : List Byte)
    (hpg : pgdata.length = Kernel.PAGE_CACHE_SIZE)
    (hidx : index < (host.i_size + Kernel.PAGE_CACHE_SIZE - 1) % U64
      / 2 ^ Kernel.PAGE_CACHE_SHIFT)
    (ha : Kernel.AXFS_GET_INODE_ARRAY_INDEX sbi.metadata host.i_ino = .ok a)
    (hni : Kernel.AXFS_GET_NODE_INDEX sbi.metadata ((a + index) % U64) = .ok n)
    (ht : Kernel.AXFS_GET_NODE_TYPE sbi.metadata ((a + index) % U64) = .ok 0)
    (hcopy : Kernel.axfs_copy_data m sbi pgdata sbi.xip (n * 2 ^ PAGE_SHIFT % U64)
      Kernel.PAGE_CACHE_SIZE = .ok pg2) :
    Kernel.axfs_readpage m z sbi host index pgdata = .ok (0, sbi, pg2) := by
  have hl := copy_data_length m sbi pgdata sbi.xip _ _ pg2 hcopy
  have hnode := readpage_node_xip m z sbi host.i_ino index a n pgdata ha hni ht
  rw [hcopy] at hnode
  rw [readpage_of_node m z sbi sbi host index _ pgdata pg2 hidx hnode (Nat.le_refl _)
    (by omega), Nat.sub_self, List.replicate_zero, List.append_nil,
    List.take_of_length_le (by omega)]

/-- A whole `axfs_readpage` of a ByteAligned node: the `len` bytes `axfs_copy_data` takes
from the byte-aligned region at `banode_offset[node_index]`, then zeros. -/
theorem readpage_byte_aligned_of_copy (m : Kernel.Media) (z : Kernel.Zlib)
    (sbi : Kernel.axfs_super_incore) (host : Kernel.inode) (index a n off len : Nat)
    (pgdata pg2 : List Byte)
    (hpg : pgdata.length = Kernel.PAGE_CACHE_SIZE)
    (hidx : index < (host.i_size + Kernel.PAGE_CACHE_SIZE - 1) % U64
      / 2 ^ Kernel.PAGE_CACHE_SHIFT)
    (ha : Kernel.AXFS_GET_INODE_ARRAY_INDEX sbi.metadata host.i_ino = .ok a)
    (hni : Kernel.AXFS_GET_NODE_INDEX sbi.metadata ((a + index) % U64) = .ok n)
    (ht : Kernel.AXFS_GET_NODE_TYPE sbi.metadata ((a + index) % U64)
      = .ok Kernel.Byte_Aligned)
    (hoff : Kernel.AXFS_GET_BANODE_OFFSET sbi.metadata n = .ok off)
    (hlen : (if (sbi.byte_aligned.size + U64 - off) % U64 % 2 ^ 32 > Kernel.PAGE_CACHE_SIZE
      then Kernel.PAGE_CACHE_SIZE else (sbi.byte_aligned.size + U64 - off) % U64 % 2 ^ 32)
      = len)
    (hcopy : Kernel.axfs_copy_data m sbi pgdata sbi.byte_aligned off len = .ok pg2) :
    Kernel.axfs_readpage m z sbi host index pgdata
      = .ok (0, sbi, pg2.take len ++ List.replicate (Kernel.PAGE_CACHE_SIZE - len) 0) := by
  have hl := copy_data_length m sbi pgdata sbi.byte_aligned _ _ pg2 hcopy
  have hle : len ≤ Kernel.PAGE_CACHE_SIZE := by
    rw [← hlen]
    split <;> omega
  have hnode := readpage_node_byte_aligned m z sbi host.i_ino index a n off pgdata ha hni ht
    hoff
  rw [hlen, hcopy] at hnode
  exact readpage_of_node m z sbi sbi host index len pgdata pg2 hidx hnode hle (by omega)

/-- A whole `axfs_readpage` of a Compressed node: the cache is filled for the cblock
`cnode_index[node_index]` and the page gets `len` bytes of the buffer from
`cnode_offset[node_index]` on, then zeros. -/
theorem readpage_compressed_of_memcpy (m : Kernel.Media) (z : Kernel.Zlib)
    (sbi sbi2 : Kernel.axfs_super_incore) (host : Kernel.inode) (index a n co k len : Nat)
    (pgdata b0 pg2 : List Byte)
    (hpg : pgdata.length = Kernel.PAGE_CACHE_SIZE)
    (hidx : index < (host.i_size + Kernel.PAGE_CACHE_SIZE - 1) % U64
      / 2 ^ Kernel.PAGE_CACHE_SHIFT)
    (ha : Kernel.AXFS_GET_INODE_ARRAY_INDEX sbi.metadata host.i_ino = .ok a)
    (hni : Kernel.AXFS_GET_NODE_INDEX sbi.metadata ((a + index) % U64) = .ok n)
    (ht : Kernel.AXFS_GET_NODE_TYPE sbi.metadata ((a + index) % U64) = .ok Kernel.Compressed)
    (hco : Kernel.AXFS_GET_CNODE_OFFSET sbi.metadata n = .ok co)
    (hci : Kernel.AXFS_GET_CNODE_INDEX sbi.metadata n = .ok k)
    (hfill : Kernel.axfs_readpage_fill m z sbi k = .ok sbi2)
    (hb0 : sbi2.cblock_buffer0 = some b0)
    (hlen : (if (sbi2.cblock_size + 2 ^ 32 - co) % 2 ^ 32 > Kernel.PAGE_CACHE_SIZE then
      Kernel.PAGE_CACHE_SIZE else (sbi2.cblock_size + 2 ^ 32 - co) % 2 ^ 32) = len)
    (hmem : memcpy pgdata 0 b0 co len = .ok pg2) :
    Kernel.axfs_readpage m z sbi host index pgdata
      = .ok (0, sbi2, pg2.take len ++ List.replicate (Kernel.PAGE_CACHE_SIZE - len) 0) := by
  have hl := memcpy_ok_length _ _ _ _ _ _ hmem
  have hle : len ≤ Kernel.PAGE_CACHE_SIZE := by
    rw [← hlen]
    split <;> omega
  have hb : co + len ≤ b0.length ∧ 0 + len ≤ pgdata.length := by
    unfold memcpy at hmem
    by_cases hc : co + len ≤ b0.length ∧ 0 + len ≤ pgdata.length
    · exact hc
    · rw [if_neg hc] at hmem
      cases hmem
  have hpg2 : pg2 = (b0.drop co).take len ++ pgdata.drop len := by
    rw [memcpy_ok _ _ _ _ _ hb.1 hb.2] at hmem
    injection hmem with hmem
    rw [← hmem]
    simp
  have hnode := readpage_node_dispatch m z sbi host.i_ino index a n Kernel.Compressed pgdata
    ha hni ht
  rw [if_pos rfl, readpage_compressed_filled m z sbi sbi2 n co k len pgdata b0 _ hco hci hfill
    hb0 hlen hb.1 (by omega) rfl, ← hpg2] at hnode
  exact readpage_of_node m z sbi sbi2 host index len pgdata pg2 hidx hnode hle (by omega)

/-- The address `axfs_mmap` maps for an XIP node. -/
theorem mmap_xip_node_address (sbi : Kernel.axfs_super_incore) (array_index n : Nat)
    (hni : Kernel.AXFS_GET_NODE_INDEX sbi.metadata array_index = .ok n)
    (ht : Kernel.AXFS_GET_NODE_TYPE sbi.metadata array_index = .ok 0) :
    Kernel.axfs_mmap_xip_node_address sbi array_index =
      .ok (some (((sbi.phys_start_addr + sbi.xip.fsoffset) % U64
        + n * 2 ^ PAGE_SHIFT % U64) % U64)) := by
  unfold Kernel.axfs_mmap_xip_node_address Kernel.AXFS_GET_XIP_REGION_PHYSADDR
  simp only [ht, hni]
  exact if_pos rfl

/-- One iteration of the loop of `readFile` at an XIP node: the page of the XIP region at
`nodeIndex << PAGE_SHIFT`. -/
theorem readFile_body_of_xip (fs : axfs) (z : ZlibDecoder) (st : ReadState) (n : Nat)
    (out2 : List Byte)
    (hn : fs.getNodeIndex st.arrayIndex = .ok n) (ht : fs.getNodeType st.arrayIndex = .ok 0)
    (hm : memcpy st.out st.offset fs.xip.data (n * 2 ^ PAGE_SHIFT % U64) (2 ^ PAGE_SHIFT)
      = .ok out2) :
    readFile_body fs z st = .ok { st with
      out := out2
      offset := (st.offset + 2 ^ PAGE_SHIFT) % U64
      length := (st.length + U64 - 2 ^ PAGE_SHIFT) % U64
      arrayIndex := (st.arrayIndex + 1) % U64 } := by
  have hs : readFile_switch fs z 0 n st = .ok { st with
      out := out2
      offset := (st.offset + 2 ^ PAGE_SHIFT) % U64
      length := (st.length + U64 - 2 ^ PAGE_SHIFT) % U64 } := by
    unfold readFile_switch
    rw [if_neg (by decide), if_pos rfl]
    unfold readFile_xip
    rw [hm]
    rfl
  refine bind_ok_intro _ _ n _ hn ?_
  refine bind_ok_intro _ _ 0 _ ht ?_
  exact bind_ok_intro _ _ _ _ hs rfl

/-- One iteration of the loop of `readFile` at a ByteAligned node: `min(page, length)` bytes
of the byte-aligned region at `banode_offset[nodeIndex]`. -/
theorem readFile_body_of_byte_aligned (fs : axfs) (z : ZlibDecoder) (st : ReadState)
    (n so : Nat) (out2 : List Byte)
    (hn : fs.getNodeIndex st.arrayIndex = .ok n) (ht : fs.getNodeType st.arrayIndex = .ok 2)
    (hso : fs.getByteAlignedOffset n = .ok so)
    (hm : memcpy st.out st.offset fs.byte_aligned.data so (min (2 ^ PAGE_SHIFT % U64) st.length)
      = .ok out2) :
    readFile_body fs z st = .ok { st with
      out := out2
      length := (st.length + U64 - min (2 ^ PAGE_SHIFT % U64) st.length) % U64
      offset := (st.offset + min (2 ^ PAGE_SHIFT % U64) st.length) % U64
      arrayIndex := (st.arrayIndex + 1) % U64 } := by
  have hs : readFile_switch fs z 2 n st = .ok { st with
      out := out2
      length := (st.length + U64 - min (2 ^ PAGE_SHIFT % U64) st.length) % U64
      offset := (st.offset + min (2 ^ PAGE_SHIFT % U64) st.length) % U64 } := by
    unfold readFile_switch
    rw [if_pos rfl]
    refine bind_ok_intro _ _ so _ hso ?_
    exact bind_ok_intro _ _ out2 _ hm rfl
  refine bind_ok_intro _ _ n _ hn ?_
  refine bind_ok_intro _ _ 2 _ ht ?_
  exact bind_ok_intro _ _ _ _ hs rfl

/-- One iteration of the loop of `readFile` at a Compressed node: the cache is filled for
the cblock `cnode_index[nodeIndex]` and `min(cblock_size - cnodeOffset, length)` bytes of
the buffer are copied from `cnode_offset[nodeIndex]` on. -/
theorem readFile_body_of_compressed (fs : axfs) (z : ZlibDecoder) (st st1 : ReadState)
    (n co ci so nx : Nat) (out2 : List Byte)
    (hn : fs.getNodeIndex st.arrayIndex = .ok n) (ht : fs.getNodeType st.arrayIndex = .ok 1)
    (hco : fs.cnode_offset.axfs_bytetable_stitch n = .ok co)
    (hci : fs.cnode_index.axfs_bytetable_stitch n = .ok ci)
    (hso : fs.cblock_offset.axfs_bytetable_stitch ci = .ok so)
    (hnx : fs.cblock_offset.axfs_bytetable_stitch ((ci + 1) % U64) = .ok nx)
    (hf : readFile_cache_fill fs z ci so ((nx + U64 - so) % U64) st = .ok st1)
    (hm : memcpy st1.out st1.offset st1.cblock_buffer co
      (min ((be32_to_cpu fs.superblock.cblock_size + U64 - co) % U64) st1.length) = .ok out2) :
    readFile_body fs z st = .ok { st1 with
      out := out2
      length := (st1.length + U64
        - min ((be32_to_cpu fs.superblock.cblock_size + U64 - co) % U64) st1.length) % U64
      offset := (st1.offset
        + min ((be32_to_cpu fs.superblock.cblock_size + U64 - co) % U64) st1.length) % U64
      arrayIndex := (st1.arrayIndex + 1) % U64 } := by
  have hs : readFile_switch fs z 1 n st = .ok { st1 with
      out := out2
      length := (st1.length + U64
        - min ((be32_to_cpu fs.superblock.cblock_size + U64 - co) % U64) st1.length) % U64
      offset := (st1.offset
        + min ((be32_to_cpu fs.superblock.cblock_size + U64 - co) % U64) st1.length)
          % U64 } := by
    unfold readFile_switch
    rw [if_neg (by decide), if_neg (by decide), if_pos rfl]
    refine bind_ok_intro _ _ co _ hco ?_
    refine bind_ok_intro _ _ ci _ hci ?_
    refine bind_ok_intro _ _ so _ hso ?_
    refine bind_ok_intro _ _ nx _ hnx ?_
    refine bind_ok_intro _ _ st1 _ hf ?_
    exact bind_ok_intro _ _ out2 _ hm rfl
  refine bind_ok_intro _ _ n _ hn ?_
  refine bind_ok_intro _ _ 1 _ ht ?_
  exact bind_ok_intro _ _ _ _ hs rfl

/-- The page `axfs_copy_data` takes from the XIP region of `dispatchSbi` at offset 0. -/
theorem copy_data_dispatchSbi :
    Kernel.axfs_copy_data (Kernel.Media.mk [] [] 512) Kernel.dispatchSbi
        (List.replicate 4096 0) Kernel.dispatchSbi.xip (0 * 2 ^ PAGE_SHIFT % U64)
        Kernel.PAGE_CACHE_SIZE
      = .ok (List.replicate 4096 0xA0) := by
  have h1 : (0 * 2 ^ PAGE_SHIFT % U64) = 0 := by decide
  have h2 : Kernel.PAGE_CACHE_SIZE = 4096 := by decide
  have hva : Kernel.dispatchSbi.xip.virt_addr
      = some (List.replicate 4096 0xA0 ++ List.replicate 4096 0xA1) := rfl
  rw [h1, h2, copy_data_mapped _ _ _ _ _ _ _ hva (by decide) (by decide)
    (by rw [List.length_append, List.length_replicate, List.length_replicate]; decide)
    (Nat.le_of_eq (List.length_replicate 4096 (0 : Byte)).symm)]
  rw [List.drop_zero, List.take_left' (List.length_replicate _ _),
    List.drop_eq_nil_of_le (by rw [List.length_replicate]), List.append_nil]

/-- C21: for the node at array index `a + index` of an inode, with
`n = node_index[a + index]`, in `axfs_readpage`: a node of type 0 is the page
`axfs_copy_data` takes from the XIP region at byte offset `n << PAGE_SHIFT`, and the pass of
`axfs_mmap` over it maps the address `phys_start_addr + xip.fsoffset + (n << PAGE_SHIFT)`; a
Compressed node fills the cache for the cblock `cnode_index[n]` and copies from offset
`cnode_offset[n]` of the buffer; a ByteAligned node is read from the byte-aligned region at
`banode_offset[n]`.  In the loop of `axfs::readFile`, with `n = node_index[arrayIndex]`, the
three cases read at `n << PAGE_SHIFT` of the XIP region, at `cnode_offset[n]` of the buffer
filled for `cnode_index[n]`, and at `banode_offset[n]` of the byte-aligned region. -/
theorem page_dispatch_by_node_index (m : Kernel.Media) (z : Kernel.Zlib)
    (sbi : Kernel.axfs_super_incore) (host : Kernel.inode) (index a n : Nat)
    (pgdata : List Byte)
    (hpg : pgdata.length = Kernel.PAGE_CACHE_SIZE)
    (hidx : index < (host.i_size + Kernel.PAGE_CACHE_SIZE - 1) % U64
      / 2 ^ Kernel.PAGE_CACHE_SHIFT)
    (ha : Kernel.AXFS_GET_INODE_ARRAY_INDEX sbi.metadata host.i_ino = .ok a)
    (hni : Kernel.AXFS_GET_NODE_INDEX sbi.metadata ((a + index) % U64) = .ok n) :
    (Kernel.AXFS_GET_NODE_TYPE sbi.metadata ((a + index) % U64) = .ok 0 →
      Kernel.axfs_mmap_xip_node_address sbi ((a + index) % U64) =
        .ok (some (((sbi.phys_start_addr + sbi.xip.fsoffset) % U64
          + n * 2 ^ PAGE_SHIFT % U64) % U64)) ∧
      ∀ pg2, Kernel.axfs_copy_data m sbi pgdata sbi.xip (n * 2 ^ PAGE_SHIFT % U64)
          Kernel.PAGE_CACHE_SIZE = .ok pg2 →
        Kernel.axfs_readpage m z sbi host index pgdata = .ok (0, sbi, pg2)) ∧
    (Kernel.AXFS_GET_NODE_TYPE sbi.metadata ((a + index) % U64) = .ok Kernel.Compressed →
      ∀ co k sbi2 b0 len pg2, Kernel.AXFS_GET_CNODE_OFFSET sbi.metadata n = .ok co →
        Kernel.AXFS_GET_CNODE_INDEX sbi.metadata n = .ok k →
        Kernel.axfs_readpage_fill m z sbi k = .ok sbi2 →
        sbi2.cblock_buffer0 = some b0 →
        (if (sbi2.cblock_size + 2 ^ 32 - co) % 2 ^ 32 > Kernel.PAGE_CACHE_SIZE then
          Kernel.PAGE_CACHE_SIZE else (sbi2.cblock_size + 2 ^ 32 - co) % 2 ^ 32) = len →
        memcpy pgdata 0 b0 co len = .ok pg2 →
        Kernel.axfs_readpage m z sbi host index pgdata
          = .ok (0, sbi2, pg2.take len ++ List.replicate (Kernel.PAGE_CACHE_SIZE - len) 0)) ∧
    (Kernel.AXFS_GET_NODE_TYPE sbi.metadata ((a + index) % U64) = .ok Kernel.Byte_Aligned →
      ∀ off len pg2, Kernel.AXFS_GET_BANODE_OFFSET sbi.metadata n = .ok off →
        (if (sbi.byte_aligned.size + U64 - off) % U64 % 2 ^ 32 > Kernel.PAGE_CACHE_SIZE
          then Kernel.PAGE_CACHE_SIZE
          else (sbi.byte_aligned.size + U64 - off) % U64 % 2 ^ 32) = len →
        Kernel.axfs_copy_data m sbi pgdata sbi.byte_aligned off len = .ok pg2 →
        Kernel.axfs_readpage m z sbi host index pgdata
          = .ok (0, sbi, pg2.take len ++ List.replicate (Kernel.PAGE_CACHE_SIZE - len) 0)) ∧
    (∀ (fs : axfs) (zc : ZlibDecoder) (st : ReadState) (nn : Nat),
      fs.getNodeIndex st.arrayIndex = .ok nn →
      (fs.getNodeType st.arrayIndex = .ok 0 →
        ∀ out2, memcpy st.out st.offset fs.xip.data (nn * 2 ^ PAGE_SHIFT % U64)
            (2 ^ PAGE_SHIFT) = .ok out2 →
          readFile_body fs zc st = .ok { st with
            out := out2
            offset := (st.offset + 2 ^ PAGE_SHIFT) % U64
            length := (st.length + U64 - 2 ^ PAGE_SHIFT) % U64
            arrayIndex := (st.arrayIndex + 1) % U64 }) ∧
      (fs.getNodeType st.arrayIndex = .ok 1 →
        ∀ st1 co ci so nx out2, fs.cnode_offset.axfs_bytetable_stitch nn = .ok co →
          fs.cnode_index.axfs_bytetable_stitch nn = .ok ci →
          fs.cblock_offset.axfs_bytetable_stitch ci = .ok so →
          fs.cblock_offset.axfs_bytetable_stitch ((ci + 1) % U64) = .ok nx →
          readFile_cache_fill fs zc ci so ((nx + U64 - so) % U64) st = .ok st1 →
          memcpy st1.out st1.offset st1.cblock_buffer co
            (min ((be32_to_cpu fs.superblock.cblock_size + U64 - co) % U64) st1.length)
            = .ok out2 →
          readFile_body fs zc st = .ok { st1 with
            out := out2
            length := (st1.length + U64
              - min ((be32_to_cpu fs.superblock.cblock_size + U64 - co) % U64) st1.length)
                % U64
            offset := (st1.offset
              + min ((be32_to_cpu fs.superblock.cblock_size + U64 - co) % U64) st1.length)
                % U64
            arrayIndex := (st1.arrayIndex + 1) % U64 }) ∧
      (fs.getNodeType st.arrayIndex = .ok 2 →
        ∀ so out2, fs.getByteAlignedOffset nn = .ok so →
          memcpy st.out st.offset fs.byte_aligned.data so
            (min (2 ^ PAGE_SHIFT % U64) st.length) = .ok out2 →
          readFile_body fs zc st = .ok { st with
            out := out2
            length := (st.length + U64 - min (2 ^ PAGE_SHIFT % U64) st.length) % U64
            offset := (st.offset + min (2 ^ PAGE_SHIFT % U64) st.length) % U64
            arrayIndex := (st.arrayIndex + 1) % U64 })) := by
  refine ⟨fun ht => ⟨mmap_xip_node_address sbi _ n hni ht, fun pg2 hcopy =>
      readpage_xip_of_copy m z sbi host index a n pgdata pg2 hpg hidx ha hni ht hcopy⟩,
    fun ht co k sbi2 b0 len pg2 hco hci hfill hb0 hlen hmem =>
      readpage_compressed_of_memcpy m z sbi sbi2 host index a n co k len pgdata b0 pg2 hpg hidx
        ha hni ht hco hci hfill hb0 hlen hmem,
    fun ht off len pg2 hoff hlen hcopy =>
      readpage_byte_aligned_of_copy m z sbi host index a n off len pgdata pg2 hpg hidx ha hni
        ht hoff hlen hcopy,
    fun fs zc st nn hn => ⟨fun ht out2 hm => readFile_body_of_xip fs zc st nn out2 hn ht hm,
      fun ht st1 co ci so nx out2 hco hci hso hnx hf hm =>
        readFile_body_of_compressed fs zc st st1 nn co ci so nx out2 hn ht hco hci hso hnx hf
          hm,
      fun ht so out2 hso hm => readFile_body_of_byte_aligned fs zc st nn so out2 hn ht hso hm⟩⟩

theorem page_dispatch_by_node_index_witness :
    Kernel.AXFS_GET_INODE_ARRAY_INDEX Kernel.dispatchSbi.metadata 0 = .ok 1 ∧
    Kernel.AXFS_GET_NODE_INDEX Kernel.dispatchSbi.metadata 1 = .ok 0 ∧
    Kernel.axfs_mmap_xip_node_address Kernel.dispatchSbi ((1 + 0) % U64) =
      .ok (some (((Kernel.dispatchSbi.phys_start_addr + Kernel.dispatchSbi.xip.fsoffset) % U64
        + 0 * 2 ^ PAGE_SHIFT % U64) % U64)) ∧
    Kernel.axfs_readpage (Kernel.Media.mk [] [] 512) Kernel.nullZlib Kernel.dispatchSbi
        (Kernel.inode.mk 0 0o100644 0 0 4096 1) 0 (List.replicate 4096 0)
      = .ok (0, Kernel.dispatchSbi, List.replicate 4096 0xA0) :=
  ⟨by decide, by decide,
    ((page_dispatch_by_node_index (Kernel.Media.mk [] [] 512) Kernel.nullZlib
      Kernel.dispatchSbi (Kernel.inode.mk 0 0o100644 0 0 4096 1) 0 1 0 (List.replicate 4096 0)
      (by rw [List.length_replicate]; decide) (by decide) (by decide) (by decide)).1
      (by decide)).1,
    ((page_dispatch_by_node_index (Kernel.Media.mk [] [] 512) Kernel.nullZlib
      Kernel.dispatchSbi (Kernel.inode.mk 0 0o100644 0 0 4096 1) 0 1 0 (List.replicate 4096 0)
      (by rw [List.length_replicate]; decide) (by decide) (by decide) (by decide)).1
      (by decide)).2 _ copy_data_dispatchSbi⟩

end Axfs
